import Mathlib

/-!
# hpp-fcl: bounding-volume conversion and world AABB

Shallow embedding of `include/hpp/fcl/BV/BV.h` (the `details::Converter`
specialisations), `include/hpp/fcl/collision_object.h`
(`CollisionObject::computeAABB`) and `src/shape/geometric_shapes.cpp`
(`computeLocalAABB`).

`FCL_REAL` (a `double`) is embedded as an arbitrary linearly ordered field `K`
with exact arithmetic; the square root used by `norm()` is a parameter
`sqrt : K → K`, constrained in the theorems by `IsSqrt`.
-/

namespace hpp
namespace fcl

/-! ## Math layer -/

/-- The square-root function assumed of `norm()`: on non-negative arguments it
returns the non-negative root. -/
def IsSqrt {K : Type} [LinearOrderedField K] (sqrt : K → K) : Prop :=
  ∀ x : K, 0 ≤ x → 0 ≤ sqrt x ∧ sqrt x * sqrt x = x

/-- Modelled from the spec: `Vec3f`, the 3-vector of the math layer (an Eigen
type whose declaration is not part of the sources). -/
@[ext]
structure Vec3f (K : Type) where
  x : K
  y : K
  z : K

namespace Vec3f

variable {K : Type} [LinearOrderedField K]

/-- Modelled from the spec: `a + b`. -/
def add (a b : Vec3f K) : Vec3f K := ⟨a.x + b.x, a.y + b.y, a.z + b.z⟩

/-- Modelled from the spec: `a - b`. -/
def sub (a b : Vec3f K) : Vec3f K := ⟨a.x - b.x, a.y - b.y, a.z - b.z⟩

/-- Modelled from the spec: `-a`. -/
def neg (a : Vec3f K) : Vec3f K := ⟨-a.x, -a.y, -a.z⟩

/-- Modelled from the spec: `a * s` for a scalar `s`. -/
def scale (a : Vec3f K) (s : K) : Vec3f K := ⟨a.x * s, a.y * s, a.z * s⟩

/-- Modelled from the spec: `a.dot(b)`. -/
def dot (a b : Vec3f K) : K := a.x * b.x + a.y * b.y + a.z * b.z

/-- Modelled from the spec: `a.squaredNorm()`. -/
def squaredNorm (a : Vec3f K) : K := a.x * a.x + a.y * a.y + a.z * a.z

/-- Modelled from the spec: `a.norm()`, the Euclidean norm. -/
def norm (sqrt : K → K) (a : Vec3f K) : K := sqrt (squaredNorm a)

/-- Modelled from the spec: `a[i]`; an index past the end reads the last
component. -/
def get (a : Vec3f K) (i : Nat) : K :=
  if i = 0 then a.x else if i = 1 then a.y else a.z

/-- Modelled from the spec: `Vec3f::Constant(c)`, also `Vec3f delta(r, r, r)`. -/
def Constant (c : K) : Vec3f K := ⟨c, c, c⟩

/-- Componentwise order `a <= b`. -/
def le (a b : Vec3f K) : Prop := a.x ≤ b.x ∧ a.y ≤ b.y ∧ a.z ≤ b.z

instance (a b : Vec3f K) : Decidable (le a b) := by
  unfold le; infer_instance

end Vec3f

/-- Modelled from the spec: `Matrix3f`, the 3×3 matrix of the math layer;
`mij` is the entry of row `i` and column `j`. -/
@[ext]
structure Matrix3f (K : Type) where
  m00 : K
  m01 : K
  m02 : K
  m10 : K
  m11 : K
  m12 : K
  m20 : K
  m21 : K
  m22 : K

namespace Matrix3f

variable {K : Type} [LinearOrderedField K]

/-- Modelled from the spec: the identity matrix. -/
def Identity : Matrix3f K := ⟨1, 0, 0, 0, 1, 0, 0, 0, 1⟩

/-- Modelled from the spec: `M.col(i)`; an index past the end reads the last
column. -/
def col (M : Matrix3f K) (i : Nat) : Vec3f K :=
  if i = 0 then ⟨M.m00, M.m10, M.m20⟩
  else if i = 1 then ⟨M.m01, M.m11, M.m21⟩
  else ⟨M.m02, M.m12, M.m22⟩

/-- The matrix whose columns are `c0`, `c1`, `c2` (three `col(i) = ...`
assignments). -/
def ofCols (c0 c1 c2 : Vec3f K) : Matrix3f K :=
  ⟨c0.x, c1.x, c2.x, c0.y, c1.y, c2.y, c0.z, c1.z, c2.z⟩

/-- Modelled from the spec: `M.transpose()`. -/
def transpose (M : Matrix3f K) : Matrix3f K :=
  ⟨M.m00, M.m10, M.m20, M.m01, M.m11, M.m21, M.m02, M.m12, M.m22⟩

/-- Modelled from the spec: the matrix-vector product `M * v`. -/
def mulVec (M : Matrix3f K) (v : Vec3f K) : Vec3f K :=
  ⟨M.m00 * v.x + M.m01 * v.y + M.m02 * v.z,
   M.m10 * v.x + M.m11 * v.y + M.m12 * v.z,
   M.m20 * v.x + M.m21 * v.y + M.m22 * v.z⟩

/-- Modelled from the spec: the matrix product `A * B`. -/
def mul (A B : Matrix3f K) : Matrix3f K :=
  ofCols (mulVec A (col B 0)) (mulVec A (col B 1)) (mulVec A (col B 2))

/-- Modelled from the spec: the determinant. -/
def determinant (M : Matrix3f K) : K :=
  M.m00 * (M.m11 * M.m22 - M.m12 * M.m21)
  - M.m01 * (M.m10 * M.m22 - M.m12 * M.m20)
  + M.m02 * (M.m10 * M.m21 - M.m11 * M.m20)

/-- Modelled from the spec: `M.isIdentity()`, the rotation-is-identity
predicate, as the exact comparison with the identity matrix (the tolerance of
the Eigen routine is not represented). -/
def isIdentity (M : Matrix3f K) : Bool :=
  decide (M.m00 = 1 ∧ M.m01 = 0 ∧ M.m02 = 0 ∧ M.m10 = 0 ∧ M.m11 = 1 ∧ M.m12 = 0
    ∧ M.m20 = 0 ∧ M.m21 = 0 ∧ M.m22 = 1)

/-- Orthonormal matrix: the columns are pairwise orthogonal unit vectors,
`Mᵀ * M = I`. -/
def IsOrthonormal (M : Matrix3f K) : Prop := mul (transpose M) M = Identity

end Matrix3f

/-- Modelled from the spec: `Transform3f`, a rigid transform with rotation `R`
and translation `T`. -/
structure Transform3f (K : Type) where
  R : Matrix3f K
  T : Vec3f K

namespace Transform3f

variable {K : Type} [LinearOrderedField K]

/-- Modelled from the spec: the default constructor `Transform3f()`, the
identity transform. -/
def Identity : Transform3f K := ⟨Matrix3f.Identity, ⟨0, 0, 0⟩⟩

/-- Modelled from the spec: `tf.getRotation()`. -/
def getRotation (tf : Transform3f K) : Matrix3f K := tf.R

/-- Modelled from the spec: `tf.getTranslation()`. -/
def getTranslation (tf : Transform3f K) : Vec3f K := tf.T

/-- Modelled from the spec: `tf.transform(v) = R * v + T`, the point
application of a rigid transform. -/
def transform (tf : Transform3f K) (v : Vec3f K) : Vec3f K :=
  Vec3f.add (Matrix3f.mulVec tf.R v) tf.T

end Transform3f

/-! ## Bounding volumes -/

/-- Modelled from the spec: `AABB`, the pair `(min_, max_)`. -/
structure AABB (K : Type) where
  min_ : Vec3f K
  max_ : Vec3f K

namespace AABB

variable {K : Type} [LinearOrderedField K]

/-- Modelled from the spec: `center()`, the midpoint `(min_ + max_) * 0.5`. -/
def center (b : AABB K) : Vec3f K := Vec3f.scale (Vec3f.add b.min_ b.max_) (1 / 2)

/-- Modelled from the spec: `width()`, the side along x. -/
def width (b : AABB K) : K := b.max_.x - b.min_.x

/-- Modelled from the spec: `height()`, the side along y. -/
def height (b : AABB K) : K := b.max_.y - b.min_.y

/-- Modelled from the spec: `depth()`, the side along z. -/
def depth (b : AABB K) : K := b.max_.z - b.min_.z

/-- Modelled from the spec: `contain(p)`, `min_ <= p <= max_` componentwise. -/
def contain (b : AABB K) (p : Vec3f K) : Prop := Vec3f.le b.min_ p ∧ Vec3f.le p b.max_

instance (b : AABB K) (p : Vec3f K) : Decidable (contain b p) := by
  unfold contain; infer_instance

/-- The invariant of an AABB: `min_ <= max_` componentwise. -/
def Valid (b : AABB K) : Prop := Vec3f.le b.min_ b.max_

end AABB

/-- Modelled from the spec: `translate(aabb, t)`, the box moved by `t`. -/
def translate {K : Type} [LinearOrderedField K] (aabb : AABB K) (t : Vec3f K) : AABB K :=
  ⟨Vec3f.add aabb.min_ t, Vec3f.add aabb.max_ t⟩

/-- Modelled from the spec: `OBB`, a box with centre `To`, orientation `axes`
(the columns are the box directions) and half side lengths `extent`. -/
structure OBB (K : Type) where
  axes : Matrix3f K
  To : Vec3f K
  extent : Vec3f K

namespace OBB

variable {K : Type} [LinearOrderedField K]

/-- Modelled from the spec: `center()`, the centre `To`. -/
def center (b : OBB K) : Vec3f K := b.To

/-- Modelled from the spec: `width()`, twice the first half side. -/
def width (b : OBB K) : K := 2 * b.extent.get 0

/-- Modelled from the spec: `height()`, twice the second half side. -/
def height (b : OBB K) : K := 2 * b.extent.get 1

/-- Modelled from the spec: `depth()`, twice the third half side. -/
def depth (b : OBB K) : K := 2 * b.extent.get 2

/-- Modelled from the spec: the point set of an OBB,
`{To + axes * x : |x_i| <= extent_i for i = 0, 1, 2}`. -/
def contain (b : OBB K) (q : Vec3f K) : Prop :=
  ∃ x : Vec3f K, |x.x| ≤ b.extent.x ∧ |x.y| ≤ b.extent.y ∧ |x.z| ≤ b.extent.z ∧
    q = Vec3f.add b.To (Matrix3f.mulVec b.axes x)

end OBB

/-- Modelled from the spec: `RSS`, a rectangle with origin `Tr`, directions the
first two columns of `axes` and side lengths `length[0]` (here `length.1`) and
`length[1]` (here `length.2`), swept by a sphere of radius `radius`. -/
structure RSS (K : Type) where
  axes : Matrix3f K
  Tr : Vec3f K
  length : K × K
  radius : K

namespace RSS

variable {K : Type} [LinearOrderedField K]

/-- Modelled from the spec: the point of the rectangle with parameters `u` and
`v`, `Tr + u * axis0 + v * axis1`. -/
def rectPoint (b : RSS K) (u v : K) : Vec3f K :=
  Vec3f.add (Vec3f.add b.Tr (Vec3f.scale (b.axes.col 0) u)) (Vec3f.scale (b.axes.col 1) v)

/-- Modelled from the spec: the point set of an RSS, the points within distance
`radius` of the rectangle
`{Tr + u * axis0 + v * axis1 : 0 <= u <= length[0], 0 <= v <= length[1]}`. -/
def contain (b : RSS K) (q : Vec3f K) : Prop :=
  0 ≤ b.radius ∧ ∃ u v : K, 0 ≤ u ∧ u ≤ b.length.1 ∧ 0 ≤ v ∧ v ≤ b.length.2 ∧
    (Vec3f.sub q (rectPoint b u v)).squaredNorm ≤ b.radius * b.radius

/-- The invariant of an RSS: both rectangle lengths and the radius are
non-negative. -/
def Valid (b : RSS K) : Prop := 0 ≤ b.length.1 ∧ 0 ≤ b.length.2 ∧ 0 ≤ b.radius

end RSS

/-- A C array of three elements (`FCL_REAL d[3]`, `std::size_t id[3]`). -/
structure Arr3 (α : Type) where
  a0 : α
  a1 : α
  a2 : α
  deriving DecidableEq

namespace Arr3

variable {α : Type}

/-- The read `a[i]`; an index past the end reads the last element. -/
def get (a : Arr3 α) (i : Nat) : α :=
  if i = 0 then a.a0 else if i = 1 then a.a1 else a.a2

/-- The write `a[i] = v`; an index past the end writes the last element. -/
def set (a : Arr3 α) (i : Nat) (v : α) : Arr3 α :=
  if i = 0 then ⟨v, a.a1, a.a2⟩ else if i = 1 then ⟨a.a0, v, a.a2⟩ else ⟨a.a0, a.a1, v⟩

/-- The exchange `tmp = a[j]; a[j] = a[j-1]; a[j-1] = tmp`. -/
def swapDown (a : Arr3 α) (j : Nat) : Arr3 α :=
  let tmp := a.get j
  let a1 := a.set j (a.get (j - 1))
  a1.set (j - 1) tmp

end Arr3

namespace details

variable {K : Type} [LinearOrderedField K]

/-- Source function `Converter<AABB, AABB>::convert` (BV.h:77-85). -/
def Converter_AABB_AABB_convert (sqrt : K → K) (bv1 : AABB K) (tf1 : Transform3f K) : AABB K :=
  let center := bv1.center
  let r := Vec3f.norm sqrt (Vec3f.sub bv1.max_ bv1.min_) * (1 / 2)
  let center2 := tf1.transform center
  let delta : Vec3f K := ⟨r, r, r⟩
  ⟨Vec3f.sub center2 delta, Vec3f.add center2 delta⟩

/-- Source function `Converter<AABB, OBB>::convert` (BV.h:92-97). -/
def Converter_AABB_OBB_convert (bv1 : AABB K) (tf1 : Transform3f K) : OBB K :=
  let To := tf1.transform bv1.center
  let extent := Vec3f.scale (Vec3f.sub bv1.max_ bv1.min_) (1 / 2)
  let axes := tf1.getRotation
  ⟨axes, To, extent⟩

/-- Source function `Converter<RSS, OBB>::convert` (BV.h:126-131). -/
def Converter_RSS_OBB_convert (bv1 : RSS K) (tf1 : Transform3f K) : OBB K :=
  let extent : Vec3f K :=
    ⟨bv1.length.1 * (1 / 2) + bv1.radius, bv1.length.2 * (1 / 2) + bv1.radius, bv1.radius⟩
  let To := tf1.transform bv1.Tr
  let axes := Matrix3f.mul tf1.getRotation bv1.axes
  ⟨axes, To, extent⟩

/-- Source function `Converter<BV1, AABB>::convert` (BV.h:139-147) for `BV1 = OBB`. -/
def Converter_OBB_AABB_convert (sqrt : K → K) (bv1 : OBB K) (tf1 : Transform3f K) : AABB K :=
  let center := bv1.center
  let r := Vec3f.norm sqrt ⟨bv1.width, bv1.height, bv1.depth⟩ * (1 / 2)
  let delta : Vec3f K := ⟨r, r, r⟩
  let center2 := tf1.transform center
  ⟨Vec3f.sub center2 delta, Vec3f.add center2 delta⟩

/-- Source function `Converter<OBB, RSS>::convert` (BV.h:166-174). -/
def Converter_OBB_RSS_convert (bv1 : OBB K) (tf1 : Transform3f K) : RSS K :=
  let Tr := tf1.transform bv1.To
  let axes := Matrix3f.mul tf1.getRotation bv1.axes
  let radius := bv1.extent.get 2
  let length0 := 2 * (bv1.extent.get 0 - radius)
  let length1 := 2 * (bv1.extent.get 1 - radius)
  ⟨axes, Tr, (length0, length1), radius⟩

/-- The body of the inner loop of `Converter<AABB, RSS>::convert`
(BV.h:218-230): exchange positions `j` and `j-1` of both arrays when
`d[j] > d[j-1]`. -/
def sortStep (s : Arr3 K × Arr3 Nat) (j : Nat) : Arr3 K × Arr3 Nat :=
  if s.1.get j > s.1.get (j - 1) then (s.1.swapDown j, s.2.swapDown j) else s

/-- The inner loop `for (j = i; j > 0; --j)` (BV.h:216-231), by recursion on
`j`. -/
def sortInner (s : Arr3 K × Arr3 Nat) : Nat → Arr3 K × Arr3 Nat
  | 0 => s
  | j + 1 => sortInner (sortStep s (j + 1)) j

/-- The outer loop `for (i = 1; i < 3; ++i)` (BV.h:214-232): its two
iterations `i = 1` and `i = 2`. -/
def sortExtents (s : Arr3 K × Arr3 Nat) : Arr3 K × Arr3 Nat :=
  sortInner (sortInner s 1) 2

/-- The index array `id` of `Converter<AABB, RSS>::convert` after the sort
(BV.h:211-232). -/
def sortedIds (bv1 : AABB K) : Arr3 Nat :=
  let d : Arr3 K := ⟨bv1.width, bv1.height, bv1.depth⟩
  let id : Arr3 Nat := ⟨0, 1, 2⟩
  (sortExtents (d, id)).2

/-- Source function `Converter<AABB, RSS>::convert` (BV.h:206-245). -/
def Converter_AABB_RSS_convert (bv1 : AABB K) (tf1 : Transform3f K) : RSS K :=
  let Tr := tf1.transform bv1.center
  let id := sortedIds bv1
  let extent := Vec3f.scale (Vec3f.sub bv1.max_ bv1.min_) (1 / 2)
  let radius := extent.get (id.get 2)
  let length0 := (extent.get (id.get 0) - radius) * 2
  let length1 := (extent.get (id.get 1) - radius) * 2
  let R := tf1.getRotation
  let left_hand : Bool := id.get 0 == (id.get 1 + 1) % 3
  let c0 := if left_hand then Vec3f.neg (R.col (id.get 0)) else R.col (id.get 0)
  ⟨Matrix3f.ofCols c0 (R.col (id.get 1)) (R.col (id.get 2)), Tr, (length0, length1), radius⟩

end details

/-! ## Collision geometry and collision object -/

/-- Source class `CollisionGeometry` (collision_object.h:63-154): the cached local bound and
the occupancy data; the user pointer is left out. -/
structure CollisionGeometry (K : Type) where
  aabb_center : Vec3f K
  aabb_radius : K
  aabb_local : AABB K
  cost_density : K
  threshold_occupied : K
  threshold_free : K

/-- Source functions `computeLocalAABB` of `Box`, `Capsule`, `Cone`, `Cylinder`, `ConvexBase`,
`Halfspace`, `Plane` and `TriangleP` (geometric_shapes.cpp:124-185, the same
body for each); `bv` is the box that `computeBV<AABB>(*this, Transform3f(), ...)`
stores in `aabb_local`. -/
def computeLocalAABB {K : Type} [LinearOrderedField K] (sqrt : K → K) (bv : AABB K)
    (g : CollisionGeometry K) : CollisionGeometry K :=
  let aabb_local := bv
  let aabb_center := aabb_local.center
  let aabb_radius := Vec3f.norm sqrt (Vec3f.sub aabb_local.min_ aabb_center)
  ⟨aabb_center, aabb_radius, aabb_local, g.cost_density, g.threshold_occupied, g.threshold_free⟩

/-- Source class `CollisionObject` (collision_object.h:157-323): the geometry, the pose `t`
and the cached world box `aabb`; the user pointer is left out. -/
structure CollisionObject (K : Type) where
  cgeom : CollisionGeometry K
  t : Transform3f K
  aabb : AABB K

namespace CollisionObject

variable {K : Type} [LinearOrderedField K]

/-- Source function `CollisionObject::getAABB` (collision_object.h:201-204). -/
def getAABB (o : CollisionObject K) : AABB K := o.aabb

/-- Source function `CollisionObject::computeAABB` (collision_object.h:207-220). -/
def computeAABB (o : CollisionObject K) : CollisionObject K :=
  if o.t.getRotation.isIdentity then
    ⟨o.cgeom, o.t, translate o.cgeom.aabb_local o.t.getTranslation⟩
  else
    let center := o.t.transform o.cgeom.aabb_center
    let delta := Vec3f.Constant o.cgeom.aabb_radius
    ⟨o.cgeom, o.t, ⟨Vec3f.sub center delta, Vec3f.add center delta⟩⟩

end CollisionObject

/-! ## Mass properties of the geometric shapes -/

namespace Vec3f

variable {K : Type} [LinearOrderedField K]

/-- Modelled from the spec: `a.cross(b)`. -/
def cross (a b : Vec3f K) : Vec3f K :=
  ⟨a.y * b.z - a.z * b.y, a.z * b.x - a.x * b.z, a.x * b.y - a.y * b.x⟩

/-- Modelled from the spec: `a.prod()`, the product of the components. -/
def prod (a : Vec3f K) : K := a.x * a.y * a.z

/-- Modelled from the spec: `a.cwiseAbs2()`, the squared components. -/
def cwiseAbs2 (a : Vec3f K) : Vec3f K := ⟨a.x * a.x, a.y * a.y, a.z * a.z⟩

/-- Modelled from the spec: `a / s` for a scalar `s`. -/
def divScalar (a : Vec3f K) (s : K) : Vec3f K := ⟨a.x / s, a.y / s, a.z / s⟩

/-- Modelled from the spec: `a * b.transpose()`, the outer product. -/
def outer (a b : Vec3f K) : Matrix3f K :=
  ⟨a.x * b.x, a.x * b.y, a.x * b.z, a.y * b.x, a.y * b.y, a.y * b.z,
   a.z * b.x, a.z * b.y, a.z * b.z⟩

end Vec3f

namespace Matrix3f

variable {K : Type} [LinearOrderedField K]

/-- Modelled from the spec: `Matrix3f::Zero()`. -/
def Zero : Matrix3f K := ⟨0, 0, 0, 0, 0, 0, 0, 0, 0⟩

/-- Modelled from the spec: `v.asDiagonal()`. -/
def asDiagonal (v : Vec3f K) : Matrix3f K := ⟨v.x, 0, 0, 0, v.y, 0, 0, 0, v.z⟩

/-- The matrix filled row by row with `A << r0.transpose(), r1.transpose(),
r2.transpose()`. -/
def ofRows (r0 r1 r2 : Vec3f K) : Matrix3f K :=
  ⟨r0.x, r0.y, r0.z, r1.x, r1.y, r1.z, r2.x, r2.y, r2.z⟩

/-- Modelled from the spec: `A + B`. -/
def add (A B : Matrix3f K) : Matrix3f K :=
  ⟨A.m00 + B.m00, A.m01 + B.m01, A.m02 + B.m02, A.m10 + B.m10, A.m11 + B.m11, A.m12 + B.m12,
   A.m20 + B.m20, A.m21 + B.m21, A.m22 + B.m22⟩

/-- Modelled from the spec: `A - B`. -/
def sub (A B : Matrix3f K) : Matrix3f K :=
  ⟨A.m00 - B.m00, A.m01 - B.m01, A.m02 - B.m02, A.m10 - B.m10, A.m11 - B.m11, A.m12 - B.m12,
   A.m20 - B.m20, A.m21 - B.m21, A.m22 - B.m22⟩

/-- Modelled from the spec: `A * s` for a scalar `s`. -/
def scale (A : Matrix3f K) (s : K) : Matrix3f K :=
  ⟨A.m00 * s, A.m01 * s, A.m02 * s, A.m10 * s, A.m11 * s, A.m12 * s,
   A.m20 * s, A.m21 * s, A.m22 * s⟩

/-- Modelled from the spec: `A.trace()`. -/
def trace (A : Matrix3f K) : K := A.m00 + A.m11 + A.m22

end Matrix3f

/-- Source function `CollisionGeometry::computeMomentofInertiaRelatedToCOM`
(collision_object.h:137-152); `C`, `com` and `V` are the results of the virtual
calls `computeMomentofInertia()`, `computeCOM()` and `computeVolume()`. -/
def computeMomentofInertiaRelatedToCOM {K : Type} [LinearOrderedField K]
    (C : Matrix3f K) (com : Vec3f K) (V : K) : Matrix3f K :=
  ⟨C.m00 - V * (com.get 1 * com.get 1 + com.get 2 * com.get 2),
   C.m01 + V * com.get 0 * com.get 1,
   C.m02 + V * com.get 0 * com.get 2,
   C.m10 + V * com.get 1 * com.get 0,
   C.m11 - V * (com.get 0 * com.get 0 + com.get 2 * com.get 2),
   C.m12 + V * com.get 1 * com.get 2,
   C.m20 + V * com.get 2 * com.get 0,
   C.m21 + V * com.get 2 * com.get 1,
   C.m22 - V * (com.get 0 * com.get 0 + com.get 1 * com.get 1)⟩

/-- Source class `Box` (geometric_shapes.h:86-119). -/
structure Box (K : Type) where
  halfSide : Vec3f K

namespace Box

variable {K : Type} [LinearOrderedField K]

/-- Source constructor `Box(x, y, z)` (geometric_shapes.h:89-91). -/
def create (x y z : K) : Box K := ⟨⟨x / 2, y / 2, z / 2⟩⟩

/-- Source function `Box::computeVolume` (geometric_shapes.h:108-111). -/
def computeVolume (b : Box K) : K := 8 * b.halfSide.prod

/-- Source function `Box::computeMomentofInertia` (geometric_shapes.h:113-118). -/
def computeMomentofInertia (b : Box K) : Matrix3f K :=
  let V := b.computeVolume
  let s := Vec3f.scale b.halfSide.cwiseAbs2 V
  Matrix3f.asDiagonal
    (Vec3f.divScalar ⟨s.get 1 + s.get 2, s.get 0 + s.get 2, s.get 0 + s.get 1⟩ 3)

end Box

/-- Source class `Sphere` (geometric_shapes.h:122-148). -/
structure Sphere (K : Type) where
  radius : K

namespace Sphere

variable {K : Type} [LinearOrderedField K]

/-- Source function `Sphere::computeVolume` (geometric_shapes.h:144-147); `pi`
is the constant `boost::math::constants::pi<FCL_REAL>()`. -/
def computeVolume (pi : K) (s : Sphere K) : K := 4 * pi * s.radius * s.radius / 3

/-- Source function `Sphere::computeMomentofInertia` (geometric_shapes.h:138-142);
`0.4` is written `2 / 5`. -/
def computeMomentofInertia (pi : K) (s : Sphere K) : Matrix3f K :=
  let I := 2 / 5 * s.radius * s.radius * s.computeVolume pi
  Matrix3f.scale Matrix3f.Identity I

end Sphere

/-- Source class `Cone` (geometric_shapes.h:196-240). -/
structure Cone (K : Type) where
  radius : K
  lz : K
  HalfLength : K

namespace Cone

variable {K : Type} [LinearOrderedField K]

/-- Source constructor `Cone(radius_, lz_)` (geometric_shapes.h:199-203). -/
def create (radius_ lz_ : K) : Cone K := ⟨radius_, lz_, lz_ / 2⟩

/-- Source function `Cone::computeVolume` (geometric_shapes.h:220-223). -/
def computeVolume (pi : K) (c : Cone K) : K := pi * c.radius * c.radius * c.lz / 3

/-- Source function `Cone::computeMomentofInertia` (geometric_shapes.h:225-234);
`0.1` is written `1 / 10` and `0.3` is written `3 / 10`. -/
def computeMomentofInertia (pi : K) (c : Cone K) : Matrix3f K :=
  let V := c.computeVolume pi
  let ix := V * (1 / 10 * c.lz * c.lz + 3 * c.radius * c.radius / 20)
  let iz := 3 / 10 * V * c.radius * c.radius
  ⟨ix, 0, 0, 0, ix, 0, 0, 0, iz⟩

/-- Source function `Cone::computeCOM` (geometric_shapes.h:236-239); `-0.25` is
written `-(1 / 4)`. -/
def computeCOM (c : Cone K) : Vec3f K := ⟨0, 0, -(1 / 4) * c.lz⟩

end Cone

/-- The read `a[i]` of a C array through an `int` index: `none` outside the
array. -/
def readAt {α : Type} (a : List α) (i : Int) : Option α :=
  if 0 ≤ i then a[i.toNat]? else none

/-- The loop `for (j = start; j < start + count; ++j) body(j)` on a state,
stopping with `none` when the body reads outside an array. -/
def forLoop {σ : Type} (body : Nat → σ → Option σ) : Nat → Nat → σ → Option σ
  | 0, _, s => some s
  | k + 1, j, s => (body j s).bind (forLoop body k (j + 1))

/-- Source class `Convex` (geometric_shapes.h:284-471): the polygon buffer, the
point array, the two counts and the centre; the edge list built by `fillEdges`
is left out. -/
structure Convex (K : Type) where
  polygons : List Int
  points : List (Vec3f K)
  num_points : Int
  num_polygons : Int
  center : Vec3f K

namespace Convex

variable {K : Type} [LinearOrderedField K]

/-- Source constructor `Convex(points_, num_points_, polygons_, num_polygons_)`
(geometric_shapes.h:293-313), without the call of `fillEdges`. -/
def create (points_ : List (Vec3f K)) (num_points_ : Int) (polygons_ : List Int)
    (num_polygons_ : Int) : Option (Convex K) :=
  (forLoop (fun i sum => (readAt points_ i).map (fun p => Vec3f.add sum p))
      num_points_.toNat 0 ⟨0, 0, 0⟩).map
    (fun sum => ⟨polygons_, points_, num_points_, num_polygons_,
      Vec3f.scale sum (1 / (num_points_ : K))⟩)

/-- The centre of the polygon that starts at offset `pos` of the buffer and has
`n = *points_in_poly` vertices (geometric_shapes.h:372-377, 406-411, 440-445);
`index[j]` is `polygons[pos + 1 + j]`. -/
def planeCenter (c : Convex K) (pos n : Int) : Option (Vec3f K) :=
  (forLoop (fun j plane_center =>
      (readAt c.polygons (pos + 1 + j)).bind (fun i =>
        (readAt c.points i).map (fun p => Vec3f.add plane_center p)))
      n.toNat 0 ⟨0, 0, 0⟩).map
    (fun plane_center => Vec3f.scale plane_center (1 / (n : K)))

/-- The two end points `v1 = points[index[j]]` and
`v2 = points[index[(j+1) % n]]` of edge `j` of the polygon at offset `pos`. -/
def edgePoints (c : Convex K) (pos n : Int) (j : Nat) : Option (Vec3f K × Vec3f K) :=
  (readAt c.polygons (pos + 1 + j)).bind (fun e_first =>
    (readAt c.polygons (pos + 1 + ((j : Int) + 1) % n)).bind (fun e_second =>
      (readAt c.points e_first).bind (fun v1 =>
        (readAt c.points e_second).map (fun v2 => (v1, v2)))))

/-- The body of the outer loop of `Convex::computeVolume`
(geometric_shapes.h:439-460) for the polygon at offset `st.1` of the buffer;
the state is the offset of `points_in_poly` and `vol`. -/
def volumeFace (c : Convex K) (st : Int × K) : Option (Int × K) :=
  (readAt c.polygons st.1).bind (fun n =>
    (c.planeCenter st.1 n).bind (fun v3 =>
      (forLoop (fun j vol =>
          (c.edgePoints st.1 n j).map (fun e =>
            let d_six_vol := Vec3f.dot (Vec3f.cross e.1 e.2) v3
            vol + d_six_vol))
        n.toNat 0 st.2).map (fun vol => (st.1 + (n + 1), vol))))

/-- Source function `Convex::computeVolume` (geometric_shapes.h:433-464). -/
def computeVolume (c : Convex K) : Option K :=
  (forLoop (fun _ st => c.volumeFace st) c.num_polygons.toNat 0 (0, 0)).map
    (fun st => st.2 / 6)

/-- The body of the outer loop of `Convex::computeCOM`
(geometric_shapes.h:405-428) for the polygon at offset `st.1` of the buffer;
the state is the offset of `points_in_poly`, `com` and `vol`. -/
def comFace (c : Convex K) (st : Int × Vec3f K × K) : Option (Int × Vec3f K × K) :=
  (readAt c.polygons st.1).bind (fun n =>
    (c.planeCenter st.1 n).bind (fun plane_center =>
      (forLoop (fun j (acc : Vec3f K × K) =>
          (c.edgePoints st.1 n j).map (fun e =>
            let d_six_vol := Vec3f.dot (Vec3f.cross e.1 e.2) plane_center
            (Vec3f.add acc.1
              (Vec3f.scale (Vec3f.add (Vec3f.add e.1 e.2) plane_center) d_six_vol),
             acc.2 + d_six_vol)))
        n.toNat 0 st.2).map (fun acc => (st.1 + (n + 1), acc))))

/-- Source function `Convex::computeCOM` (geometric_shapes.h:398-431). -/
def computeCOM (c : Convex K) : Option (Vec3f K) :=
  (forLoop (fun _ st => c.comFace st) c.num_polygons.toNat 0 (0, ⟨0, 0, 0⟩, 0)).map
    (fun st => Vec3f.divScalar st.2.1 (st.2.2 * 4))

/-- The matrix `C_canonical` of `Convex::computeMomentofInertia`
(geometric_shapes.h:363-366). -/
def C_canonical : Matrix3f K :=
  ⟨1 / 60, 1 / 120, 1 / 120, 1 / 120, 1 / 60, 1 / 120, 1 / 120, 1 / 120, 1 / 60⟩

/-- The term `A.transpose() * C_canonical * A * (v1.cross(v2)).dot(v3)` that an
edge `(v1, v2)` of a polygon with centre `v3` adds to `C`
(geometric_shapes.h:387-388). -/
def edgeCovariance (v1 v2 v3 : Vec3f K) : Matrix3f K :=
  let A := Matrix3f.ofRows v1 v2 v3
  Matrix3f.scale (Matrix3f.mul (Matrix3f.mul (Matrix3f.transpose A) C_canonical) A)
    (Vec3f.dot (Vec3f.cross v1 v2) v3)

/-- The body of the outer loop of `Convex::computeMomentofInertia`
(geometric_shapes.h:371-392) for the polygon at offset `st.1` of the buffer;
the state is the offset of `points_in_poly` and `C`. -/
def inertiaFace (c : Convex K) (st : Int × Matrix3f K) : Option (Int × Matrix3f K) :=
  (readAt c.polygons st.1).bind (fun n =>
    (c.planeCenter st.1 n).bind (fun v3 =>
      (forLoop (fun j C =>
          (c.edgePoints st.1 n j).map (fun e => Matrix3f.add C (edgeCovariance e.1 e.2 v3)))
        n.toNat 0 st.2).map (fun C => (st.1 + (n + 1), C))))

/-- Source function `Convex::computeMomentofInertia` (geometric_shapes.h:358-396). -/
def computeMomentofInertia (c : Convex K) : Option (Matrix3f K) :=
  (forLoop (fun _ st => c.inertiaFace st) c.num_polygons.toNat 0 (0, Matrix3f.Zero)).map
    (fun st => Matrix3f.sub (Matrix3f.scale Matrix3f.Identity (Matrix3f.trace st.2)) st.2)

end Convex

/-- Source function `ConvexBase::computeCenter` (geometric_shapes.cpp:84-90) on
the point array `points` and the count `num_points`. -/
def ConvexBase_computeCenter {K : Type} [LinearOrderedField K] (points : List (Vec3f K))
    (num_points : Int) : Option (Vec3f K) :=
  (forLoop (fun i center => (readAt points i).map (fun p => Vec3f.add center p))
      num_points.toNat 0 ⟨0, 0, 0⟩).map
    (fun center => Vec3f.divScalar center (num_points : K))

/-- The arithmetic mean of a list of points, component by component. -/
def meanPoint {K : Type} [LinearOrderedField K] (pts : List (Vec3f K)) : Vec3f K :=
  ⟨(pts.map Vec3f.x).sum / (pts.length : K), (pts.map Vec3f.y).sum / (pts.length : K),
   (pts.map Vec3f.z).sum / (pts.length : K)⟩

/-- Membership of the convex hull of a list of points: `q` is a combination of
the points with non-negative weights of sum one. -/
def InConvexHull {K : Type} [LinearOrderedField K] (pts : List (Vec3f K)) (q : Vec3f K) : Prop :=
  ∃ w : List K, w.length = pts.length ∧ (∀ a ∈ w, 0 ≤ a) ∧ w.sum = 1 ∧
    q = ⟨(List.zipWith (fun a p => a * p.x) w pts).sum,
         (List.zipWith (fun a p => a * p.y) w pts).sum,
         (List.zipWith (fun a p => a * p.z) w pts).sum⟩

/-- Source class `Halfspace` (geometric_shapes.h:477-522): the normal `n` and
the offset `d`. -/
structure Halfspace (K : Type) where
  n : Vec3f K
  d : K

namespace Halfspace

variable {K : Type} [LinearOrderedField K]

/-- Source function `Halfspace::unitNormalTest` (geometric_shapes.cpp:92-106);
`sqrt` is the square root that `n.norm()` applies to the squared norm, the exact
one or the one of the machine, which is `0` on a squared norm that underflows
(`underflowSqrt`). -/
def unitNormalTest (sqrt : K → K) (h : Halfspace K) : Halfspace K :=
  let l := Vec3f.norm sqrt h.n
  if l > 0 then
    let inv_l := 1 / l
    ⟨Vec3f.scale h.n inv_l, h.d * inv_l⟩
  else
    ⟨⟨1, 0, 0⟩, 0⟩

/-- Source constructor `Halfspace(n_, d_)` (geometric_shapes.h:481-484). -/
def create (sqrt : K → K) (n_ : Vec3f K) (d_ : K) : Halfspace K :=
  unitNormalTest sqrt ⟨n_, d_⟩

/-- Source constructor `Halfspace(a, b, c, d_)` (geometric_shapes.h:487-490). -/
def create4 (sqrt : K → K) (a b c d_ : K) : Halfspace K :=
  unitNormalTest sqrt ⟨⟨a, b, c⟩, d_⟩

/-- Source constructor `Halfspace()` (geometric_shapes.h:492-494). -/
def default : Halfspace K := ⟨⟨1, 0, 0⟩, 0⟩

/-- Source function `Halfspace::signedDistance` (geometric_shapes.h:496-499). -/
def signedDistance (h : Halfspace K) (p : Vec3f K) : K := Vec3f.dot h.n p - h.d

/-- Source function `Halfspace::distance` (geometric_shapes.h:501-504). -/
def distance (h : Halfspace K) (p : Vec3f K) : K := |Vec3f.dot h.n p - h.d|

end Halfspace

/-- Source class `Plane` (geometric_shapes.h:525-569): the normal `n` and the
offset `d`. -/
structure Plane (K : Type) where
  n : Vec3f K
  d : K

namespace Plane

variable {K : Type} [LinearOrderedField K]

/-- Source function `Plane::unitNormalTest` (geometric_shapes.cpp:108-122);
`sqrt` is the square root that `n.norm()` applies to the squared norm, the exact
one or the one of the machine, which is `0` on a squared norm that underflows
(`underflowSqrt`). -/
def unitNormalTest (sqrt : K → K) (h : Plane K) : Plane K :=
  let l := Vec3f.norm sqrt h.n
  if l > 0 then
    let inv_l := 1 / l
    ⟨Vec3f.scale h.n inv_l, h.d * inv_l⟩
  else
    ⟨⟨1, 0, 0⟩, 0⟩

/-- Source constructor `Plane(n_, d_)` (geometric_shapes.h:529-532). -/
def create (sqrt : K → K) (n_ : Vec3f K) (d_ : K) : Plane K :=
  unitNormalTest sqrt ⟨n_, d_⟩

/-- Source constructor `Plane(a, b, c, d_)` (geometric_shapes.h:535-538). -/
def create4 (sqrt : K → K) (a b c d_ : K) : Plane K :=
  unitNormalTest sqrt ⟨⟨a, b, c⟩, d_⟩

/-- Source constructor `Plane()` (geometric_shapes.h:540-541). -/
def default : Plane K := ⟨⟨1, 0, 0⟩, 0⟩

/-- Source function `Plane::signedDistance` (geometric_shapes.h:543-546). -/
def signedDistance (h : Plane K) (p : Vec3f K) : K := Vec3f.dot h.n p - h.d

/-- Source function `Plane::distance` (geometric_shapes.h:548-551). -/
def distance (h : Plane K) (p : Vec3f K) : K := |Vec3f.dot h.n p - h.d|

end Plane

/-- The value `(v1.cross(v2)).dot(v3)`, six times the signed volume of the
tetrahedron with vertices the origin, `v1`, `v2` and `v3`. -/
def sixVol {K : Type} [LinearOrderedField K] (v1 v2 v3 : Vec3f K) : K :=
  Vec3f.dot (Vec3f.cross v1 v2) v3

/-- The centre of a triangle as the polygon-centre loop computes it. -/
def center3 {K : Type} [LinearOrderedField K] (q0 q1 q2 : Vec3f K) : Vec3f K :=
  Vec3f.scale (Vec3f.add (Vec3f.add (Vec3f.add ⟨0, 0, 0⟩ q0) q1) q2) (1 / 3)

/-- The centre of a quadrilateral as the polygon-centre loop computes it. -/
def center4 {K : Type} [LinearOrderedField K] (q0 q1 q2 q3 : Vec3f K) : Vec3f K :=
  Vec3f.scale (Vec3f.add (Vec3f.add (Vec3f.add (Vec3f.add ⟨0, 0, 0⟩ q0) q1) q2) q3) (1 / 4)

/-- The sum of the terms that the four edges of a quadrilateral with vertices
`q0`, `q1`, `q2`, `q3` add to `C` in `Convex::computeMomentofInertia`. -/
def quadCovariance {K : Type} [LinearOrderedField K] (q0 q1 q2 q3 : Vec3f K) : Matrix3f K :=
  Matrix3f.add (Matrix3f.add (Matrix3f.add
    (Convex.edgeCovariance q0 q1 (center4 q0 q1 q2 q3))
    (Convex.edgeCovariance q1 q2 (center4 q0 q1 q2 q3)))
    (Convex.edgeCovariance q2 q3 (center4 q0 q1 q2 q3)))
    (Convex.edgeCovariance q3 q0 (center4 q0 q1 q2 q3))

/-- The box with half sides `hx`, `hy`, `hz` as a `Convex`: its eight corners
`(+-hx, +-hy, +-hz)` (corner `i` has the sign of x in bit 0 of `i`, of y in bit 1,
of z in bit 2) and its six quadrilateral faces, each listed counter-clockwise
seen from outside and preceded by its vertex count. -/
def boxConvex {K : Type} [LinearOrderedField K] (hx hy hz : K) : Convex K :=
  ⟨[4, 1, 3, 7, 5, 4, 0, 4, 6, 2, 4, 2, 6, 7, 3, 4, 0, 1, 5, 4, 4, 4, 5, 7, 6, 4, 0, 2, 3, 1],
   [⟨-hx, -hy, -hz⟩, ⟨hx, -hy, -hz⟩, ⟨-hx, hy, -hz⟩, ⟨hx, hy, -hz⟩,
    ⟨-hx, -hy, hz⟩, ⟨hx, -hy, hz⟩, ⟨-hx, hy, hz⟩, ⟨hx, hy, hz⟩],
   8, 6, ⟨0, 0, 0⟩⟩

/-- The tetrahedron with vertices `p0`, `p1`, `p2`, `p3` as a `Convex` with the
polygon buffer `[3,0,2,1, 3,0,1,3, 3,0,3,2, 3,1,2,3]`. -/
def tetraConvex {K : Type} [LinearOrderedField K] (p0 p1 p2 p3 : Vec3f K) : Convex K :=
  ⟨[3, 0, 2, 1, 3, 0, 1, 3, 3, 0, 3, 2, 3, 1, 2, 3], [p0, p1, p2, p3], 4, 4,
   Vec3f.scale (Vec3f.add (Vec3f.add (Vec3f.add (Vec3f.add ⟨0, 0, 0⟩ p0) p1) p2) p3) (1 / 4)⟩

/-! ## Type tags and occupancy of a collision geometry -/

/-- Source enumeration `OBJECT_TYPE` (collision_object.h:53). -/
inductive OBJECT_TYPE where
  | OT_UNKNOWN
  | OT_BVH
  | OT_GEOM
  | OT_OCTREE
  | OT_COUNT
  deriving DecidableEq

namespace OBJECT_TYPE

/-- The enumerators of `OBJECT_TYPE` in the order of their declaration. -/
def enumerators : List OBJECT_TYPE := [OT_UNKNOWN, OT_BVH, OT_GEOM, OT_OCTREE, OT_COUNT]

/-- The integer value of an enumerator: none of them has an initialiser, so
the first is `0` and each next one is the previous plus one. -/
def value (t : OBJECT_TYPE) : Int := (enumerators.indexOf t : Nat)

end OBJECT_TYPE

/-- Source enumeration `NODE_TYPE` (collision_object.h:56-57). -/
inductive NODE_TYPE where
  | BV_UNKNOWN
  | BV_AABB
  | BV_OBB
  | BV_RSS
  | BV_kIOS
  | BV_OBBRSS
  | BV_KDOP16
  | BV_KDOP18
  | BV_KDOP24
  | GEOM_BOX
  | GEOM_SPHERE
  | GEOM_CAPSULE
  | GEOM_CONE
  | GEOM_CYLINDER
  | GEOM_CONVEX
  | GEOM_PLANE
  | GEOM_HALFSPACE
  | GEOM_TRIANGLE
  | GEOM_OCTREE
  | NODE_COUNT
  deriving DecidableEq

namespace NODE_TYPE

/-- The enumerators of `NODE_TYPE` in the order of their declaration. -/
def enumerators : List NODE_TYPE :=
  [BV_UNKNOWN, BV_AABB, BV_OBB, BV_RSS, BV_kIOS, BV_OBBRSS, BV_KDOP16, BV_KDOP18, BV_KDOP24,
   GEOM_BOX, GEOM_SPHERE, GEOM_CAPSULE, GEOM_CONE, GEOM_CYLINDER, GEOM_CONVEX, GEOM_PLANE,
   GEOM_HALFSPACE, GEOM_TRIANGLE, GEOM_OCTREE, NODE_COUNT]

/-- The integer value of an enumerator: none of them has an initialiser, so
the first is `0` and each next one is the previous plus one. -/
def value (t : NODE_TYPE) : Int := (enumerators.indexOf t : Nat)

end NODE_TYPE

/-- The concrete shape classes of geometric_shapes.h. -/
inductive ShapeClass where
  | TriangleP
  | Box
  | Sphere
  | Capsule
  | Cone
  | Cylinder
  | Convex
  | Halfspace
  | Plane
  deriving DecidableEq

namespace ShapeClass

/-- Source function `ShapeBase::getObjectType` (geometric_shapes.h:62), which
every shape class inherits. -/
def getObjectType (_c : ShapeClass) : OBJECT_TYPE := OBJECT_TYPE.OT_GEOM

/-- Source functions `getNodeType` of the shape classes (geometric_shapes.h:80,
106, 136, 173, 218, 265, 336, 510, 557). -/
def getNodeType : ShapeClass → NODE_TYPE
  | TriangleP => NODE_TYPE.GEOM_TRIANGLE
  | Box => NODE_TYPE.GEOM_BOX
  | Sphere => NODE_TYPE.GEOM_SPHERE
  | Capsule => NODE_TYPE.GEOM_CAPSULE
  | Cone => NODE_TYPE.GEOM_CONE
  | Cylinder => NODE_TYPE.GEOM_CYLINDER
  | Convex => NODE_TYPE.GEOM_CONVEX
  | Halfspace => NODE_TYPE.GEOM_HALFSPACE
  | Plane => NODE_TYPE.GEOM_PLANE

end ShapeClass

namespace CollisionGeometry

variable {K : Type} [LinearOrderedField K]

/-- Source constructor `CollisionGeometry()` (collision_object.h:66-70): the
three occupancy values; the cached bound is given. -/
def create (aabb_center : Vec3f K) (aabb_radius : K) (aabb_local : AABB K) :
    CollisionGeometry K :=
  ⟨aabb_center, aabb_radius, aabb_local, 1, 1, 0⟩

/-- Source function `CollisionGeometry::isOccupied` (collision_object.h:96-97). -/
def isOccupied (g : CollisionGeometry K) : Bool := decide (g.cost_density ≥ g.threshold_occupied)

/-- Source function `CollisionGeometry::isFree` (collision_object.h:100-101). -/
def isFree (g : CollisionGeometry K) : Bool := decide (g.cost_density ≤ g.threshold_free)

/-- Modelled from the spec: `CollisionGeometry::isUncertain`, declared at
collision_object.h:104 and defined outside the sources: neither occupied nor
free. -/
def isUncertain (g : CollisionGeometry K) : Bool := !g.isOccupied && !g.isFree

end CollisionGeometry

/-! ## Octree traversals of the octree solver -/

/-- What one activation of a recursive traversal function does with the state
`s` it is entered with: it returns a value and a new state without a recursive
call (`ret`), or it makes the listed recursive calls in order, each only when
its guard holds for the state reached so far, returning `true` as soon as one
of them returns `true` and `false` after the last (`recurse`), or it stops the
program on a failed assertion or a null dereference (`fail`). -/
inductive Visit (A S : Type) where
  | ret (value : Bool) (state : S) : Visit A S
  | recurse (calls : List (A × (S → Bool))) : Visit A S
  | fail : Visit A S

/-- The outcome of a traversal: the returned value with the final state, a
stop of the program, or the exhaustion of the recursion budget. -/
inductive Outcome (S : Type) where
  | ret (value : Bool) (state : S) : Outcome S
  | fail : Outcome S
  | outOfFuel : Outcome S

/-- The loop `for (...) if (guard) if (recurse(child)) return true;` followed by
`return false;`, over the list of recursive calls. -/
def traverseLoop {A S : Type} (recurse : A → S → Outcome S) :
    List (A × (S → Bool)) → S → Outcome S
  | [], s => Outcome.ret false s
  | c :: cs, s =>
    if c.2 s then
      match recurse c.1 s with
      | Outcome.ret true s1 => Outcome.ret true s1
      | Outcome.ret false s1 => traverseLoop recurse cs s1
      | Outcome.fail => Outcome.fail
      | Outcome.outOfFuel => Outcome.outOfFuel
    else traverseLoop recurse cs s

/-- A recursive traversal function with the activations `visit`, run with a
bound `fuel` on the depth of the recursion. -/
def traverse {A S : Type} (visit : A → S → Visit A S) : Nat → A → S → Outcome S
  | 0, _, _ => Outcome.outOfFuel
  | fuel + 1, a, s =>
    match visit a s with
    | Visit.ret v s1 => Outcome.ret v s1
    | Visit.recurse calls => traverseLoop (traverse visit fuel) calls s
    | Visit.fail => Outcome.fail

/-- The guard of a recursive call that is made unconditionally. -/
def always {S : Type} : S → Bool := fun _ => true

/-- Modelled from the spec: a node pointer of an octree (`OcTree::OcTreeNode*`):
the null pointer, or a node with its address (in units of the node size), its
log-odds occupancy and its eight child pointers in the canonical octant order;
a child that does not exist is the null pointer. -/
inductive OcTreeNode (K : Type) where
  | null : OcTreeNode K
  | node (addr : Int) (occupancy : K) (c0 c1 c2 c3 c4 c5 c6 c7 : OcTreeNode K) : OcTreeNode K

namespace OcTreeNode

variable {K : Type}

/-- The test `!root` of a node pointer. -/
def isNull : OcTreeNode K → Bool
  | null => true
  | node _ _ _ _ _ _ _ _ _ _ => false

/-- The eight child pointers of a node. -/
def children : OcTreeNode K → List (OcTreeNode K)
  | null => []
  | node _ _ c0 c1 c2 c3 c4 c5 c6 c7 => [c0, c1, c2, c3, c4, c5, c6, c7]

/-- Modelled from the spec: `tree->getNodeChild(node, i)`. -/
def getNodeChild (n : OcTreeNode K) (i : Nat) : OcTreeNode K := n.children.getD i null

/-- Modelled from the spec: `tree->nodeChildExists(node, i)`. -/
def nodeChildExists (n : OcTreeNode K) (i : Nat) : Bool := !(n.getNodeChild i).isNull

/-- Modelled from the spec: `tree->nodeHasChildren(node)`, whether some child
exists. -/
def nodeHasChildren (n : OcTreeNode K) : Bool := n.children.any (fun c => !c.isNull)

/-- The address of a node (`0` for the null pointer). -/
def address : OcTreeNode K → Int
  | null => 0
  | node a _ _ _ _ _ _ _ _ _ => a

/-- The log-odds occupancy stored in a node. -/
def getOccupancy [Zero K] : OcTreeNode K → K
  | null => 0
  | node _ o _ _ _ _ _ _ _ _ => o

/-- The height `h` of a subtree: `h(null) = 0` and `h(n)` is one more than
the largest height of the children of `n`. -/
def height : OcTreeNode K → Nat
  | null => 0
  | node _ _ c0 c1 c2 c3 c4 c5 c6 c7 =>
    1 + max c0.height (max c1.height (max c2.height (max c3.height
      (max c4.height (max c5.height (max c6.height c7.height))))))

/-- The nodes of a subtree, the root first. -/
def nodes : OcTreeNode K → List (OcTreeNode K)
  | null => []
  | node a o c0 c1 c2 c3 c4 c5 c6 c7 =>
    node a o c0 c1 c2 c3 c4 c5 c6 c7 ::
      (c0.nodes ++ c1.nodes ++ c2.nodes ++ c3.nodes ++ c4.nodes ++ c5.nodes ++ c6.nodes
        ++ c7.nodes)

end OcTreeNode

/-- Modelled from the spec: `OcTree`: the address of the object, the root
pointer (`getRoot()`), the root cell (`getRootBV()`) and the classification of
a cell as occupied, free or uncertain (`isNodeOccupied`, `isNodeFree`,
`isNodeUncertain`), which octree.h derives from two thresholds. -/
structure OcTree (K : Type) where
  addr : Nat
  root : OcTreeNode K
  rootBV : AABB K
  isNodeOccupied : OcTreeNode K → Bool
  isNodeFree : OcTreeNode K → Bool
  isNodeUncertain : OcTreeNode K → Bool

/-- The value `root1 - tree->getRoot()` that identifies a cell in a contact. -/
def OcTree.index {K : Type} (tree : OcTree K) (n : OcTreeNode K) : Int :=
  n.address - tree.root.address

/-- Modelled from the spec: a node of a `BVHModel<BV>` with the subtree below
it: a leaf with its bounding volume, its primitive id and the three vertices
of its triangle, or an inner node with its bounding volume and its two
children. -/
inductive BVNode (K BV : Type) where
  | leaf (bv : BV) (primitive_id : Int) (p1 p2 p3 : Vec3f K) : BVNode K BV
  | inner (bv : BV) (leftChild rightChild : BVNode K BV) : BVNode K BV

namespace BVNode

variable {K BV : Type}

/-- Modelled from the spec: `getBV(i).isLeaf()`. -/
def isLeaf : BVNode K BV → Bool
  | leaf _ _ _ _ _ => true
  | inner _ _ _ => false

/-- Modelled from the spec: `getBV(i).bv`. -/
def bv : BVNode K BV → BV
  | leaf b _ _ _ _ => b
  | inner b _ _ => b

/-- The height of a subtree of the hierarchy. -/
def height : BVNode K BV → Nat
  | leaf _ _ _ _ _ => 0
  | inner _ l r => 1 + max l.height r.height

end BVNode

/-- Modelled from the spec: `BVHModel<BV>`: the address of the object, the node
`0` with the hierarchy below it, and the occupancy data it has as a
`CollisionGeometry`. -/
structure BVHModel (K BV : Type) where
  addr : Nat
  root : BVNode K BV
  geom : CollisionGeometry K

/-- Modelled from the spec: `Contact`: the two objects (their addresses), the
two primitive ids and, for the constructor with seven arguments, the position,
the normal and the penetration depth. -/
structure Contact (K : Type) where
  o1 : Nat
  o2 : Nat
  b1 : Int
  b2 : Int
  detail : Option (Vec3f K × Vec3f K × K)

/-- Modelled from the spec: `Contact::NONE`, the id of a missing primitive. -/
def Contact.NONE : Int := -1

/-- Modelled from the spec: `CollisionRequest`. -/
structure CollisionRequest (K : Type) where
  num_max_contacts : Nat
  enable_contact : Bool
  security_margin : K
  break_distance : K

/-- Modelled from the spec: `CollisionResult`, the ordered sequence of the
contacts and the distance lower bound. -/
structure CollisionResult (K : Type) where
  contacts : List (Contact K)
  distance_lower_bound : K

namespace CollisionResult

variable {K : Type}

/-- Modelled from the spec: `numContacts()`. -/
def numContacts (r : CollisionResult K) : Nat := r.contacts.length

/-- Modelled from the spec: `addContact(c)`, which appends `c`. -/
def addContact (r : CollisionResult K) (c : Contact K) : CollisionResult K :=
  ⟨r.contacts ++ [c], r.distance_lower_bound⟩

/-- The statement
`if (cresult->numContacts() < crequest->num_max_contacts) cresult->addContact(c);`
of the intersection traversals. -/
def addContactCapped (r : CollisionResult K) (request : CollisionRequest K) (c : Contact K) :
    CollisionResult K :=
  if r.numContacts < request.num_max_contacts then r.addContact c else r

end CollisionResult

/-- Modelled from the spec: `DistanceRequest`. -/
structure DistanceRequest (K : Type) where
  abs_err : K
  rel_err : K
  enable_signed : Bool

/-- Modelled from the spec: `DistanceResult`. -/
structure DistanceResult (K : Type) where
  min_distance : K
  nearest_points : Vec3f K × Vec3f K
  normal : Vec3f K
  o1 : Nat
  o2 : Nat
  b1 : Int
  b2 : Int

/-- Modelled from the spec: `DistanceResult::NONE`. -/
def DistanceResult.NONE : Int := -1

/-- Modelled from the spec: `DistanceResult::update`, which keeps the smaller
distance: the result is replaced when the new distance is smaller than
`min_distance`. -/
def DistanceResult.update {K : Type} [LinearOrderedField K] (r : DistanceResult K) (distance : K)
    (o1 o2 : Nat) (b1 b2 : Int) (p1 p2 normal : Vec3f K) : DistanceResult K :=
  if distance < r.min_distance then ⟨distance, (p1, p2), normal, o1, o2, b1, b2⟩ else r

/-- Source class `OcTreeSolver` (traversal_node_octree.h:56-888) with the
functions it calls that are outside the sources: the narrow phase `solver`
(`shapeIntersect` without and with output pointers, for two boxes and for a
box and a shape, `shapeTriangleInteraction`, `shapeDistance` for a box and a
shape and for two boxes), `OBB::overlap`,
`AABB::size`, `AABB::distance`, `constructBox`, `computeChildBV`, `computeBV`,
the conversion of a `BV` to an OBB, the address and the occupancy data of a
shape, and `isSatisfied` of the two requests. A narrow-phase function that
returns `false` gives `none`. -/
structure OcTreeSolver (K Sh BV : Type) where
  sqrt : K → K
  overlap : OBB K → OBB K → Bool
  size : AABB K → K
  aabbDistance : AABB K → AABB K → K
  constructBox : AABB K → Transform3f K → Box K × Transform3f K
  computeChildBV : AABB K → Nat → AABB K
  computeBV : Sh → Transform3f K → AABB K
  convertBVtoOBB : BV → Transform3f K → OBB K
  bvSize : BV → K
  shapeAddr : Sh → Nat
  shapeGeom : Sh → CollisionGeometry K
  boxIntersect : Box K → Transform3f K → Box K → Transform3f K → Option (Vec3f K × K × Vec3f K)
  shapeIntersectTest : Box K → Transform3f K → Sh → Transform3f K → Bool
  shapeIntersect : Box K → Transform3f K → Sh → Transform3f K → Option (Vec3f K × K × Vec3f K)
  shapeTriangleInteraction : Box K → Transform3f K → Vec3f K → Vec3f K → Vec3f K →
    Transform3f K → Option (K × Vec3f K × Vec3f K × Vec3f K)
  shapeDistance : Box K → Transform3f K → Sh → Transform3f K → K × Vec3f K × Vec3f K × Vec3f K
  boxDistance : Box K → Transform3f K → Box K → Transform3f K → K × Vec3f K × Vec3f K × Vec3f K
  collisionSatisfied : CollisionRequest K → CollisionResult K → Bool
  distanceSatisfied : DistanceRequest K → DistanceResult K → Bool

/-- The arguments `(root1, bv1, root2, bv2)` of an activation of
`OcTreeIntersectRecurse` or `OcTreeDistanceRecurse`. -/
structure OcTreePair (K : Type) where
  root1 : OcTreeNode K
  bv1 : AABB K
  root2 : OcTreeNode K
  bv2 : AABB K

/-- The arguments `(root1, bv1)` of an activation of
`OcTreeShapeIntersectRecurse` or `OcTreeShapeDistanceRecurse`. -/
structure OcTreeCell (K : Type) where
  root1 : OcTreeNode K
  bv1 : AABB K

/-- The arguments `(root1, bv1, root2)` of an activation of
`OcTreeMeshIntersectRecurse`. -/
structure OcTreeMeshPair (K BV : Type) where
  root1 : OcTreeNode K
  bv1 : AABB K
  root2 : BVNode K BV

namespace OcTreeSolver

variable {K Sh BV : Type} [LinearOrderedField K]

/-- The recursive calls of the loop
`for (i = 0; i < 8; ++i) if (tree1->nodeChildExists(root1, i)) ...` that
descends the first octree (traversal_node_octree.h:853-866). -/
def descendFirst (sv : OcTreeSolver K Sh BV) (a : OcTreePair K) :
    List (OcTreePair K × (CollisionResult K → Bool)) :=
  (List.range 8).filterMap (fun i =>
    if a.root1.nodeChildExists i then
      some (⟨a.root1.getNodeChild i, sv.computeChildBV a.bv1 i, a.root2, a.bv2⟩, always)
    else none)

/-- The recursive calls of the loop
`for (i = 0; i < 8; ++i) if (tree2->nodeChildExists(root2, i)) ...` that
descends the second octree (traversal_node_octree.h:870-883). -/
def descendSecond (sv : OcTreeSolver K Sh BV) (a : OcTreePair K) :
    List (OcTreePair K × (CollisionResult K → Bool)) :=
  (List.range 8).filterMap (fun i =>
    if a.root2.nodeChildExists i then
      some (⟨a.root1, a.bv1, a.root2.getNodeChild i, sv.computeChildBV a.bv2 i⟩, always)
    else none)

/-- The leaf pair of `OcTreeIntersectRecurse` (traversal_node_octree.h:802-829):
the contact it adds to the result, if any. -/
def intersectLeafPair (sv : OcTreeSolver K Sh BV) (tree1 tree2 : OcTree K)
    (tf1 tf2 : Transform3f K) (request : CollisionRequest K) (a : OcTreePair K)
    (res : CollisionResult K) : CollisionResult K :=
  if !request.enable_contact then
    let obb1 := details.Converter_AABB_OBB_convert a.bv1 tf1
    let obb2 := details.Converter_AABB_OBB_convert a.bv2 tf2
    if sv.overlap obb1 obb2 then
      res.addContactCapped request
        ⟨tree1.addr, tree2.addr, tree1.index a.root1, tree2.index a.root2, none⟩
    else res
  else
    let box1 := sv.constructBox a.bv1 tf1
    let box2 := sv.constructBox a.bv2 tf2
    match sv.boxIntersect box1.1 box1.2 box2.1 box2.2 with
    | some (contact, depth, normal) =>
      res.addContactCapped request
        ⟨tree1.addr, tree2.addr, tree1.index a.root1, tree2.index a.root2,
          some (contact, normal, depth)⟩
    | none => res

/-- One activation of `OcTreeIntersectRecurse`
(traversal_node_octree.h:710-887): what the body does up to its recursive
calls. -/
def visitOcTreeIntersect (sv : OcTreeSolver K Sh BV) (tree1 tree2 : OcTree K)
    (tf1 tf2 : Transform3f K) (request : CollisionRequest K) (a : OcTreePair K)
    (res : CollisionResult K) : Visit (OcTreePair K) (CollisionResult K) :=
  if a.root1.isNull && a.root2.isNull then
    Visit.ret false res
  else if a.root1.isNull && !a.root2.isNull then
    if a.root2.nodeHasChildren then
      Visit.recurse ((List.range 8).map (fun i =>
        if a.root2.nodeChildExists i then
          (⟨OcTreeNode.null, a.bv1, a.root2.getNodeChild i, sv.computeChildBV a.bv2 i⟩, always)
        else
          (⟨OcTreeNode.null, a.bv1, OcTreeNode.null, sv.computeChildBV a.bv2 i⟩, always)))
    else
      Visit.recurse [(⟨OcTreeNode.null, a.bv1, OcTreeNode.null, a.bv2⟩, always)]
  else if !a.root1.isNull && a.root2.isNull then
    if a.root1.nodeHasChildren then
      Visit.recurse ((List.range 8).map (fun i =>
        if a.root1.nodeChildExists i then
          (⟨a.root1.getNodeChild i, sv.computeChildBV a.bv1 i, OcTreeNode.null, a.bv2⟩, always)
        else
          (⟨OcTreeNode.null, sv.computeChildBV a.bv1 i, OcTreeNode.null, a.bv2⟩, always)))
    else
      Visit.recurse [(⟨OcTreeNode.null, a.bv1, OcTreeNode.null, a.bv2⟩, always)]
  else if !a.root1.nodeHasChildren && !a.root2.nodeHasChildren then
    if tree1.isNodeOccupied a.root1 && tree2.isNodeOccupied a.root2 then
      let res1 := sv.intersectLeafPair tree1 tree2 tf1 tf2 request a res
      Visit.ret (sv.collisionSatisfied request res1) res1
    else
      Visit.ret false res
  else if tree1.isNodeFree a.root1 || tree2.isNodeFree a.root2 then
    Visit.ret false res
  else if tree1.isNodeUncertain a.root1 || tree2.isNodeUncertain a.root2 then
    Visit.ret false res
  else if !sv.overlap (details.Converter_AABB_OBB_convert a.bv1 tf1)
      (details.Converter_AABB_OBB_convert a.bv2 tf2) then
    Visit.ret false res
  else if !a.root2.nodeHasChildren
      || (a.root1.nodeHasChildren && decide (sv.size a.bv1 > sv.size a.bv2)) then
    Visit.recurse (sv.descendFirst a)
  else
    Visit.recurse (sv.descendSecond a)

/-- Source function `OcTreeSolver::OcTreeIntersectRecurse`
(traversal_node_octree.h:710-887) with the arguments `a`, entered with the
result `res` and run with the recursion budget `fuel`. -/
def OcTreeIntersectRecurse (sv : OcTreeSolver K Sh BV) (tree1 tree2 : OcTree K)
    (tf1 tf2 : Transform3f K) (request : CollisionRequest K) (fuel : Nat) (a : OcTreePair K)
    (res : CollisionResult K) : Outcome (CollisionResult K) :=
  traverse (sv.visitOcTreeIntersect tree1 tree2 tf1 tf2 request) fuel a res

/-- Source function `OcTreeSolver::OcTreeIntersect`
(traversal_node_octree.h:77-88); the recursion budget is the sum of the heights
of the two trees plus one. -/
def OcTreeIntersect (sv : OcTreeSolver K Sh BV) (tree1 tree2 : OcTree K)
    (tf1 tf2 : Transform3f K) (request : CollisionRequest K) (result : CollisionResult K) :
    Outcome (CollisionResult K) :=
  sv.OcTreeIntersectRecurse tree1 tree2 tf1 tf2 request
    (tree1.root.height + tree2.root.height + 1)
    ⟨tree1.root, tree1.rootBV, tree2.root, tree2.rootBV⟩ result

/-- The recursive calls of the loop over the existing children of `root1` in
`OcTreeShapeIntersectRecurse` (traversal_node_octree.h:372-383). -/
def descendCell (sv : OcTreeSolver K Sh BV) (a : OcTreeCell K) :
    List (OcTreeCell K × (CollisionResult K → Bool)) :=
  (List.range 8).filterMap (fun i =>
    if a.root1.nodeChildExists i then
      some (⟨a.root1.getNodeChild i, sv.computeChildBV a.bv1 i⟩, always)
    else none)

/-- The occupied leaf of `OcTreeShapeIntersectRecurse` whose OBB overlaps that
of the shape (traversal_node_octree.h:327-350): the contact it adds to the
result, if any. -/
def shapeIntersectLeaf (sv : OcTreeSolver K Sh BV) (tree1 : OcTree K) (s : Sh)
    (tf1 tf2 : Transform3f K) (request : CollisionRequest K) (a : OcTreeCell K)
    (res : CollisionResult K) : CollisionResult K :=
  let box := sv.constructBox a.bv1 tf1
  if !request.enable_contact then
    if sv.shapeIntersectTest box.1 box.2 s tf2 then
      res.addContactCapped request
        ⟨tree1.addr, sv.shapeAddr s, tree1.index a.root1, Contact.NONE, none⟩
    else res
  else
    match sv.shapeIntersect box.1 box.2 s tf2 with
    | some (contact, depth, normal) =>
      res.addContactCapped request
        ⟨tree1.addr, sv.shapeAddr s, tree1.index a.root1, Contact.NONE,
          some (contact, normal, depth)⟩
    | none => res

/-- One activation of `OcTreeShapeIntersectRecurse`
(traversal_node_octree.h:293-386). -/
def visitOcTreeShapeIntersect (sv : OcTreeSolver K Sh BV) (tree1 : OcTree K) (s : Sh)
    (obb2 : OBB K) (tf1 tf2 : Transform3f K) (request : CollisionRequest K) (a : OcTreeCell K)
    (res : CollisionResult K) : Visit (OcTreeCell K) (CollisionResult K) :=
  if a.root1.isNull then
    Visit.ret false res
  else if !a.root1.nodeHasChildren then
    if tree1.isNodeOccupied a.root1 then
      if sv.overlap (details.Converter_AABB_OBB_convert a.bv1 tf1) obb2 then
        let res1 := sv.shapeIntersectLeaf tree1 s tf1 tf2 request a res
        Visit.ret (sv.collisionSatisfied request res1) res1
      else Visit.ret false res
    else
      Visit.ret false res
  else if tree1.isNodeFree a.root1 then
    Visit.ret false res
  else if tree1.isNodeUncertain a.root1 || (sv.shapeGeom s).isUncertain then
    Visit.ret false res
  else if !sv.overlap (details.Converter_AABB_OBB_convert a.bv1 tf1) obb2 then
    Visit.ret false res
  else
    Visit.recurse (sv.descendCell a)

/-- Source function `OcTreeSolver::OcTreeShapeIntersectRecurse`
(traversal_node_octree.h:293-386) with the arguments `a`, entered with the
result `res` and run with the recursion budget `fuel`. -/
def OcTreeShapeIntersectRecurse (sv : OcTreeSolver K Sh BV) (tree1 : OcTree K) (s : Sh)
    (obb2 : OBB K) (tf1 tf2 : Transform3f K) (request : CollisionRequest K) (fuel : Nat)
    (a : OcTreeCell K) (res : CollisionResult K) : Outcome (CollisionResult K) :=
  traverse (sv.visitOcTreeShapeIntersect tree1 s obb2 tf1 tf2 request) fuel a res

/-- Source function `OcTreeSolver::OcTreeShapeIntersect`
(traversal_node_octree.h:167-183); the recursion budget is the height of the
tree plus one. -/
def OcTreeShapeIntersect (sv : OcTreeSolver K Sh BV) (tree : OcTree K) (s : Sh)
    (tf1 tf2 : Transform3f K) (request : CollisionRequest K) (result : CollisionResult K) :
    Outcome (CollisionResult K) :=
  let bv2 := sv.computeBV s Transform3f.Identity
  let obb2 := details.Converter_AABB_OBB_convert bv2 tf2
  sv.OcTreeShapeIntersectRecurse tree s obb2 tf1 tf2 request (tree.root.height + 1)
    ⟨tree.root, tree.rootBV⟩ result

/-- Source function `OcTreeSolver::ShapeOcTreeIntersect`
(traversal_node_octree.h:187-202). -/
def ShapeOcTreeIntersect (sv : OcTreeSolver K Sh BV) (s : Sh) (tree : OcTree K)
    (tf1 tf2 : Transform3f K) (request : CollisionRequest K) (result : CollisionResult K) :
    Outcome (CollisionResult K) :=
  let bv1 := sv.computeBV s Transform3f.Identity
  let obb1 := details.Converter_AABB_OBB_convert bv1 tf1
  sv.OcTreeShapeIntersectRecurse tree s obb1 tf2 tf1 request (tree.root.height + 1)
    ⟨tree.root, tree.rootBV⟩ result

/-- The recursive calls of the loop over the existing children of `root1` in
`OcTreeMeshIntersectRecurse` (traversal_node_octree.h:600-611). -/
def descendMeshFirst (sv : OcTreeSolver K Sh BV) (a : OcTreeMeshPair K BV) :
    List (OcTreeMeshPair K BV × (CollisionResult K → Bool)) :=
  (List.range 8).filterMap (fun i =>
    if a.root1.nodeChildExists i then
      some (⟨a.root1.getNodeChild i, sv.computeChildBV a.bv1 i, a.root2⟩, always)
    else none)

/-- The two recursive calls on the children of the node `root2` of the
hierarchy (traversal_node_octree.h:517-521 and 615-619); a leaf has none. -/
def descendMeshSecond (a : OcTreeMeshPair K BV) :
    List (OcTreeMeshPair K BV × (CollisionResult K → Bool)) :=
  match a.root2 with
  | BVNode.leaf _ _ _ _ _ => []
  | BVNode.inner _ l r => [(⟨a.root1, a.bv1, l⟩, always), (⟨a.root1, a.bv1, r⟩, always)]

/-- The occupied octree leaf and the leaf of the hierarchy of
`OcTreeMeshIntersectRecurse` whose OBBs overlap (traversal_node_octree.h:535-575):
the activation fails when the assertion `security_margin == 0` does. -/
def meshIntersectLeaf (sv : OcTreeSolver K Sh BV) (tree1 : OcTree K) (tree2 : BVHModel K BV)
    (tf1 tf2 : Transform3f K) (request : CollisionRequest K) (bv1 : AABB K)
    (root1 : OcTreeNode K) (primitive_id : Int) (p1 p2 p3 : Vec3f K) (res : CollisionResult K) :
    Visit (OcTreeMeshPair K BV) (CollisionResult K) :=
  let box := sv.constructBox bv1 tf1
  if !request.enable_contact then
    match sv.shapeTriangleInteraction box.1 box.2 p1 p2 p3 tf2 with
    | some _ =>
      let res1 := res.addContactCapped request
        ⟨tree1.addr, tree2.addr, tree1.index root1, primitive_id, none⟩
      Visit.ret (sv.collisionSatisfied request res1) res1
    | none => Visit.ret (sv.collisionSatisfied request res) res
  else
    match sv.shapeTriangleInteraction box.1 box.2 p1 p2 p3 tf2 with
    | some (distance, c1, _, normal) =>
      if request.security_margin = 0 then
        let res1 := res.addContactCapped request
          ⟨tree1.addr, tree2.addr, tree1.index root1, primitive_id,
            some (c1, normal, -distance)⟩
        Visit.ret (sv.collisionSatisfied request res1) res1
      else Visit.fail
    | none => Visit.ret (sv.collisionSatisfied request res) res

/-- One activation of `OcTreeMeshIntersectRecurse`
(traversal_node_octree.h:478-624). -/
def visitOcTreeMeshIntersect (sv : OcTreeSolver K Sh BV) (tree1 : OcTree K)
    (tree2 : BVHModel K BV) (tf1 tf2 : Transform3f K) (request : CollisionRequest K)
    (a : OcTreeMeshPair K BV) (res : CollisionResult K) :
    Visit (OcTreeMeshPair K BV) (CollisionResult K) :=
  if a.root1.isNull then
    if a.root2.isLeaf then Visit.ret false res
    else Visit.recurse (descendMeshSecond a)
  else if !a.root1.nodeHasChildren && a.root2.isLeaf then
    if tree1.isNodeOccupied a.root1 then
      if sv.overlap (details.Converter_AABB_OBB_convert a.bv1 tf1)
          (sv.convertBVtoOBB a.root2.bv tf2) then
        match a.root2 with
        | BVNode.leaf _ primitive_id p1 p2 p3 =>
          sv.meshIntersectLeaf tree1 tree2 tf1 tf2 request a.bv1 a.root1 primitive_id p1 p2 p3
            res
        | BVNode.inner _ _ _ => Visit.ret false res
      else Visit.ret false res
    else Visit.ret false res
  else if tree1.isNodeFree a.root1 then
    Visit.ret false res
  else if tree1.isNodeUncertain a.root1 || tree2.geom.isUncertain then
    Visit.ret false res
  else if !sv.overlap (details.Converter_AABB_OBB_convert a.bv1 tf1)
      (sv.convertBVtoOBB a.root2.bv tf2) then
    Visit.ret false res
  else if a.root2.isLeaf
      || (a.root1.nodeHasChildren && decide (sv.size a.bv1 > sv.bvSize a.root2.bv)) then
    Visit.recurse (sv.descendMeshFirst a)
  else
    Visit.recurse (descendMeshSecond a)

/-- Source function `OcTreeSolver::OcTreeMeshIntersectRecurse`
(traversal_node_octree.h:478-624) with the arguments `a`, entered with the
result `res` and run with the recursion budget `fuel`. -/
def OcTreeMeshIntersectRecurse (sv : OcTreeSolver K Sh BV) (tree1 : OcTree K)
    (tree2 : BVHModel K BV) (tf1 tf2 : Transform3f K) (request : CollisionRequest K)
    (fuel : Nat) (a : OcTreeMeshPair K BV) (res : CollisionResult K) :
    Outcome (CollisionResult K) :=
  traverse (sv.visitOcTreeMeshIntersect tree1 tree2 tf1 tf2 request) fuel a res

/-- Source function `OcTreeSolver::OcTreeMeshIntersect`
(traversal_node_octree.h:105-117); the recursion budget is the sum of the
heights of the octree and of the hierarchy plus one. -/
def OcTreeMeshIntersect (sv : OcTreeSolver K Sh BV) (tree1 : OcTree K) (tree2 : BVHModel K BV)
    (tf1 tf2 : Transform3f K) (request : CollisionRequest K) (result : CollisionResult K) :
    Outcome (CollisionResult K) :=
  sv.OcTreeMeshIntersectRecurse tree1 tree2 tf1 tf2 request
    (tree1.root.height + tree2.root.height + 1) ⟨tree1.root, tree1.rootBV, tree2.root⟩ result

/-- Source function `OcTreeSolver::MeshOcTreeIntersect`
(traversal_node_octree.h:135-148). -/
def MeshOcTreeIntersect (sv : OcTreeSolver K Sh BV) (tree1 : BVHModel K BV) (tree2 : OcTree K)
    (tf1 tf2 : Transform3f K) (request : CollisionRequest K) (result : CollisionResult K) :
    Outcome (CollisionResult K) :=
  sv.OcTreeMeshIntersectRecurse tree2 tree1 tf2 tf1 request
    (tree2.root.height + tree1.root.height + 1) ⟨tree2.root, tree2.rootBV, tree1.root⟩ result

/-- The recursive calls of the loop over the existing children of `root1` in
`OcTreeShapeDistanceRecurse` (traversal_node_octree.h:270-287): the call for a
child is guarded by `d < dresult->min_distance`, with `d` the distance between
the converted child cell and `aabb2`. -/
def descendCellDistance (sv : OcTreeSolver K Sh BV) (aabb2 : AABB K) (tf1 : Transform3f K)
    (a : OcTreeCell K) : List (OcTreeCell K × (DistanceResult K → Bool)) :=
  (List.range 8).filterMap (fun i =>
    if a.root1.nodeChildExists i then
      let child_bv := sv.computeChildBV a.bv1 i
      let aabb1 := details.Converter_AABB_AABB_convert sv.sqrt child_bv tf1
      let d := sv.aabbDistance aabb1 aabb2
      some (⟨a.root1.getNodeChild i, child_bv⟩, fun r => decide (d < r.min_distance))
    else none)

/-- One activation of `OcTreeShapeDistanceRecurse`
(traversal_node_octree.h:241-290); the function reads the node without a null
test, so a null `root1` stops the program. -/
def visitOcTreeShapeDistance (sv : OcTreeSolver K Sh BV) (tree1 : OcTree K) (s : Sh)
    (aabb2 : AABB K) (tf1 tf2 : Transform3f K) (request : DistanceRequest K) (a : OcTreeCell K)
    (res : DistanceResult K) : Visit (OcTreeCell K) (DistanceResult K) :=
  if a.root1.isNull then
    Visit.fail
  else if !a.root1.nodeHasChildren then
    if tree1.isNodeOccupied a.root1 then
      let box := sv.constructBox a.bv1 tf1
      let d := sv.shapeDistance box.1 box.2 s tf2
      let res1 := res.update d.1 tree1.addr (sv.shapeAddr s) (tree1.index a.root1)
        DistanceResult.NONE d.2.1 d.2.2.1 d.2.2.2
      Visit.ret (sv.distanceSatisfied request res1) res1
    else
      Visit.ret false res
  else if !tree1.isNodeOccupied a.root1 then
    Visit.ret false res
  else
    Visit.recurse (sv.descendCellDistance aabb2 tf1 a)

/-- Source function `OcTreeSolver::OcTreeShapeDistanceRecurse`
(traversal_node_octree.h:241-290) with the arguments `a`, entered with the
result `res` and run with the recursion budget `fuel`. -/
def OcTreeShapeDistanceRecurse (sv : OcTreeSolver K Sh BV) (tree1 : OcTree K) (s : Sh)
    (aabb2 : AABB K) (tf1 tf2 : Transform3f K) (request : DistanceRequest K) (fuel : Nat)
    (a : OcTreeCell K) (res : DistanceResult K) : Outcome (DistanceResult K) :=
  traverse (sv.visitOcTreeShapeDistance tree1 s aabb2 tf1 tf2 request) fuel a res

/-- Source function `OcTreeSolver::OcTreeShapeDistance`
(traversal_node_octree.h:206-219); the recursion budget is the height of the
tree plus one. -/
def OcTreeShapeDistance (sv : OcTreeSolver K Sh BV) (tree : OcTree K) (s : Sh)
    (tf1 tf2 : Transform3f K) (request : DistanceRequest K) (result : DistanceResult K) :
    Outcome (DistanceResult K) :=
  let aabb2 := sv.computeBV s tf2
  sv.OcTreeShapeDistanceRecurse tree s aabb2 tf1 tf2 request (tree.root.height + 1)
    ⟨tree.root, tree.rootBV⟩ result

end OcTreeSolver

namespace OcTreeSolver

variable {K Sh BV : Type} [LinearOrderedField K]

/-- The cells of the subtree of a cell, each with its box: the cell itself, then
the cells below its eight children, the box of child `i` being
`computeChildBV(bv, i)`. -/
def cells (sv : OcTreeSolver K Sh BV) : OcTreeNode K → AABB K → List (OcTreeCell K)
  | OcTreeNode.null, _ => []
  | OcTreeNode.node a o c0 c1 c2 c3 c4 c5 c6 c7, bv =>
    ⟨OcTreeNode.node a o c0 c1 c2 c3 c4 c5 c6 c7, bv⟩ ::
      (cells sv c0 (sv.computeChildBV bv 0) ++ cells sv c1 (sv.computeChildBV bv 1) ++
        cells sv c2 (sv.computeChildBV bv 2) ++ cells sv c3 (sv.computeChildBV bv 3) ++
        cells sv c4 (sv.computeChildBV bv 4) ++ cells sv c5 (sv.computeChildBV bv 5) ++
        cells sv c6 (sv.computeChildBV bv 6) ++ cells sv c7 (sv.computeChildBV bv 7))

/-- The distances `solver.shapeDistance(box(L), s)` of the occupied childless
cells `L` in the subtree of a cell, in the order of the octants: the values
whose minimum the distance query between an octree and a shape is to
return. -/
def leafDistances (sv : OcTreeSolver K Sh BV) (tree1 : OcTree K) (s : Sh)
    (tf1 tf2 : Transform3f K) : OcTreeNode K → AABB K → List K
  | OcTreeNode.null, _ => []
  | OcTreeNode.node a o c0 c1 c2 c3 c4 c5 c6 c7, bv =>
    if (OcTreeNode.node a o c0 c1 c2 c3 c4 c5 c6 c7).nodeHasChildren then
      leafDistances sv tree1 s tf1 tf2 c0 (sv.computeChildBV bv 0) ++
        leafDistances sv tree1 s tf1 tf2 c1 (sv.computeChildBV bv 1) ++
        leafDistances sv tree1 s tf1 tf2 c2 (sv.computeChildBV bv 2) ++
        leafDistances sv tree1 s tf1 tf2 c3 (sv.computeChildBV bv 3) ++
        leafDistances sv tree1 s tf1 tf2 c4 (sv.computeChildBV bv 4) ++
        leafDistances sv tree1 s tf1 tf2 c5 (sv.computeChildBV bv 5) ++
        leafDistances sv tree1 s tf1 tf2 c6 (sv.computeChildBV bv 6) ++
        leafDistances sv tree1 s tf1 tf2 c7 (sv.computeChildBV bv 7)
    else if tree1.isNodeOccupied (OcTreeNode.node a o c0 c1 c2 c3 c4 c5 c6 c7) then
      [(sv.shapeDistance (sv.constructBox bv tf1).1 (sv.constructBox bv tf1).2 s tf2).1]
    else []

end OcTreeSolver

/-- The exchange of the roles in a contact, object 1 with object 2 and primitive
id 1 with primitive id 2, that the symmetry of the collision query speaks of. -/
def Contact.swapRoles {K : Type} (c : Contact K) : Contact K :=
  ⟨c.o2, c.o1, c.b2, c.b1, c.detail⟩

/-! ## Argument lists of the mesh and octree entry points -/

/-- The types of the parameters of `OcTreeMeshDistanceRecurse` and
`OcTreeMeshIntersectRecurse` (traversal_node_octree.h:389-391 and 478-480) and
of the arguments their callers pass; `zeroLiteral` is the literal `0`. -/
inductive ArgType where
  | ocTreePtr : ArgType
  | ocTreeNodePtr : ArgType
  | aabbRef : ArgType
  | bvhModelPtr : ArgType
  | int : ArgType
  | transformRef : ArgType
  | zeroLiteral : ArgType
  deriving DecidableEq

namespace ArgType

/-- Whether the type is a pointer type. -/
def isPointer : ArgType → Bool
  | ocTreePtr => true
  | ocTreeNodePtr => true
  | bvhModelPtr => true
  | _ => false

/-- Whether an argument of type `arg` can be passed for a parameter of type
`param`: the types agree, or the argument is the literal `0`, which is an `int`
and a null pointer constant. `OcTree` and `BVHModel<BV>` are unrelated classes,
so a pointer to one does not convert to a pointer to the other. -/
def convertsTo (arg param : ArgType) : Bool :=
  decide (arg = param) ||
    (decide (arg = zeroLiteral) && (decide (param = int) || param.isPointer))

/-- Whether a call with the arguments `args` matches the parameter list
`params`. -/
def callMatches (args params : List ArgType) : Bool :=
  decide (args.length = params.length) && (List.zipWith convertsTo args params).all id

end ArgType

/-- The parameter list of `OcTreeMeshDistanceRecurse`
(traversal_node_octree.h:389-391):
`(const OcTree*, const OcTree::OcTreeNode*, const AABB&, const BVHModel<BV>*, int,
const Transform3f&, const Transform3f&)`; `OcTreeMeshIntersectRecurse`
(traversal_node_octree.h:478-480) has the same. -/
def OcTreeMeshDistanceRecurse_parameters : List ArgType :=
  [ArgType.ocTreePtr, ArgType.ocTreeNodePtr, ArgType.aabbRef, ArgType.bvhModelPtr, ArgType.int,
    ArgType.transformRef, ArgType.transformRef]

/-- The call in `OcTreeMeshDistance` (traversal_node_octree.h:129-131):
`(tree1, tree1->getRoot(), tree1->getRootBV(), tree2, 0, tf1, tf2)` with
`tree1` the octree and `tree2` the mesh. -/
def OcTreeMeshDistance_arguments : List ArgType :=
  [ArgType.ocTreePtr, ArgType.ocTreeNodePtr, ArgType.aabbRef, ArgType.bvhModelPtr,
    ArgType.zeroLiteral, ArgType.transformRef, ArgType.transformRef]

/-- The call in `MeshOcTreeDistance` (traversal_node_octree.h:160-162):
`(tree1, 0, tree2, tree2->getRoot(), tree2->getRootBV(), tf1, tf2)` with
`tree1` the mesh and `tree2` the octree. -/
def MeshOcTreeDistance_arguments : List ArgType :=
  [ArgType.bvhModelPtr, ArgType.zeroLiteral, ArgType.ocTreePtr, ArgType.ocTreeNodePtr,
    ArgType.aabbRef, ArgType.transformRef, ArgType.transformRef]

/-- The call in `MeshOcTreeIntersect` (traversal_node_octree.h:145-147):
`(tree2, tree2->getRoot(), tree2->getRootBV(), tree1, 0, tf2, tf1)` with
`tree1` the mesh and `tree2` the octree. -/
def MeshOcTreeIntersect_arguments : List ArgType :=
  [ArgType.ocTreePtr, ArgType.ocTreeNodePtr, ArgType.aabbRef, ArgType.bvhModelPtr,
    ArgType.zeroLiteral, ArgType.transformRef, ArgType.transformRef]

/-! ## Pose of a collision object -/

namespace Transform3f

variable {K : Type} [LinearOrderedField K]

/-- Modelled from the spec: `tf.setRotation(R)`, which replaces the rotation. -/
def setRotation (tf : Transform3f K) (R_ : Matrix3f K) : Transform3f K := ⟨R_, tf.T⟩

/-- Modelled from the spec: `tf.setTranslation(T)`, which replaces the
translation. -/
def setTranslation (tf : Transform3f K) (T_ : Vec3f K) : Transform3f K := ⟨tf.R, T_⟩

/-- Modelled from the spec: `tf.setTransform(R, T)`, which replaces both. -/
def setTransform (_tf : Transform3f K) (R_ : Matrix3f K) (T_ : Vec3f K) : Transform3f K :=
  ⟨R_, T_⟩

/-- Modelled from the spec: `tf.setIdentity()`. -/
def setIdentity (_tf : Transform3f K) : Transform3f K := Identity

end Transform3f

namespace CollisionObject

variable {K : Type} [LinearOrderedField K]

/-- Source function `CollisionObject::setRotation` (collision_object.h:253-256). -/
def setRotation (o : CollisionObject K) (R : Matrix3f K) : CollisionObject K :=
  ⟨o.cgeom, o.t.setRotation R, o.aabb⟩

/-- Source function `CollisionObject::setTranslation` (collision_object.h:259-262). -/
def setTranslation (o : CollisionObject K) (T : Vec3f K) : CollisionObject K :=
  ⟨o.cgeom, o.t.setTranslation T, o.aabb⟩

/-- Source function `CollisionObject::setTransform(R, T)`
(collision_object.h:267-270). -/
def setTransform (o : CollisionObject K) (R : Matrix3f K) (T : Vec3f K) : CollisionObject K :=
  ⟨o.cgeom, o.t.setTransform R T, o.aabb⟩

/-- Source function `CollisionObject::setTransform(tf)`
(collision_object.h:275-278). -/
def setTransformTf (o : CollisionObject K) (tf : Transform3f K) : CollisionObject K :=
  ⟨o.cgeom, tf, o.aabb⟩

/-- Source function `CollisionObject::setIdentityTransform`
(collision_object.h:287-290). -/
def setIdentityTransform (o : CollisionObject K) : CollisionObject K :=
  ⟨o.cgeom, o.t.setIdentity, o.aabb⟩

end CollisionObject

/-! ## Capsule and cylinder -/

/-- Source class `Capsule` (geometric_shapes.h:151-193). -/
structure Capsule (K : Type) where
  radius : K
  lz : K
  HalfLength : K

namespace Capsule

variable {K : Type} [LinearOrderedField K]

/-- Source constructor `Capsule(radius_, lz_)` (geometric_shapes.h:154-158). -/
def create (radius_ lz_ : K) : Capsule K := ⟨radius_, lz_, lz_ / 2⟩

/-- Source function `Capsule::computeVolume` (geometric_shapes.h:175-178). -/
def computeVolume (pi : K) (c : Capsule K) : K :=
  pi * c.radius * c.radius * (c.lz + c.radius * 4 / 3)

/-- Source function `Capsule::computeMomentofInertia`
(geometric_shapes.h:180-191); `0.25`, `0.4` and `0.5` are written `1 / 4`,
`2 / 5` and `1 / 2`. -/
def computeMomentofInertia (pi : K) (c : Capsule K) : Matrix3f K :=
  let v_cyl := c.radius * c.radius * c.lz * pi
  let v_sph := c.radius * c.radius * c.radius * pi * 4 / 3
  let ix := v_cyl * c.lz * c.lz / 12 + 1 / 4 * v_cyl * c.radius
    + 2 / 5 * v_sph * c.radius * c.radius + 1 / 4 * v_sph * c.lz * c.lz
  let iz := (1 / 2 * v_cyl + 2 / 5 * v_sph) * c.radius * c.radius
  ⟨ix, 0, 0, 0, ix, 0, 0, 0, iz⟩

end Capsule

/-- Source class `Cylinder` (geometric_shapes.h:239-281). -/
structure Cylinder (K : Type) where
  radius : K
  lz : K
  HalfLength : K

namespace Cylinder

variable {K : Type} [LinearOrderedField K]

/-- Source constructor `Cylinder(radius_, lz_)` (geometric_shapes.h:242-246). -/
def create (radius_ lz_ : K) : Cylinder K := ⟨radius_, lz_, lz_ / 2⟩

/-- Source function `Cylinder::computeVolume` (geometric_shapes.h:266-269). -/
def computeVolume (pi : K) (c : Cylinder K) : K := pi * c.radius * c.radius * c.lz

/-- Source function `Cylinder::computeMomentofInertia`
(geometric_shapes.h:271-279). -/
def computeMomentofInertia (pi : K) (c : Cylinder K) : Matrix3f K :=
  let V := c.computeVolume pi
  let ix := V * (3 * c.radius * c.radius + c.lz * c.lz) / 12
  let iz := V * c.radius * c.radius / 2
  ⟨ix, 0, 0, 0, ix, 0, 0, 0, iz⟩

end Cylinder

/-! ## Faces of a convex polytope -/

/-- The flat run-length encoding of a list of faces in the buffer `polygons`
(geometric_shapes.h:338-340): for each face the number `n` of its vertices
followed by its vertex indices `i_0, ..., i_{n-1}`. -/
def encodeFaces (faces : List (List Int)) : List Int :=
  faces.flatMap (fun f => (f.length : Int) :: f)

/-- The point `points[i]` of an index `i` that is inside the array. -/
def pointAt {K : Type} [LinearOrderedField K] (points : List (Vec3f K)) (i : Int) : Vec3f K :=
  (readAt points i).getD ⟨0, 0, 0⟩

/-- The centre of a face: the mean of the points of its vertices. -/
def faceCenter {K : Type} [LinearOrderedField K] (points : List (Vec3f K)) (f : List Int) :
    Vec3f K :=
  Vec3f.scale ((f.map (pointAt points)).foldl Vec3f.add ⟨0, 0, 0⟩) (1 / (f.length : K))

/-- The edges `(i_j, i_{(j+1) mod n})`, `j = 0, ..., n-1`, of a face with the
vertex indices `i_0, ..., i_{n-1}`, in this order, each as the pair of the
points of its two ends. -/
def faceEdges {K : Type} [LinearOrderedField K] (points : List (Vec3f K)) (f : List Int) :
    List (Vec3f K × Vec3f K) :=
  (List.range f.length).map (fun j =>
    (pointAt points (f.getD j 0), pointAt points (f.getD ((j + 1) % f.length) 0)))

/-- The sum of `(v1 x v2) . v3` over the faces in their order, each face once,
and over the edges `(v1, v2)` of the face, each edge once, with `v3` the centre
of the face. -/
def faceVolumeSum {K : Type} [LinearOrderedField K] (points : List (Vec3f K))
    (faces : List (List Int)) : K :=
  faces.foldl (fun vol f =>
    (faceEdges points f).foldl (fun vol e =>
      vol + Vec3f.dot (Vec3f.cross e.1 e.2) (faceCenter points f)) vol) 0

/-- The sums of `(v1 + v2 + v3) * ((v1 x v2) . v3)` and of `(v1 x v2) . v3` over
the faces in their order, each face once, and over the edges `(v1, v2)` of the
face, each edge once, with `v3` the centre of the face. -/
def faceMomentSum {K : Type} [LinearOrderedField K] (points : List (Vec3f K))
    (faces : List (List Int)) : Vec3f K × K :=
  faces.foldl (fun acc f =>
    (faceEdges points f).foldl (fun (acc : Vec3f K × K) e =>
      (Vec3f.add acc.1 (Vec3f.scale (Vec3f.add (Vec3f.add e.1 e.2) (faceCenter points f))
          (Vec3f.dot (Vec3f.cross e.1 e.2) (faceCenter points f))),
        acc.2 + Vec3f.dot (Vec3f.cross e.1 e.2) (faceCenter points f))) acc) (⟨0, 0, 0⟩, 0)

/-- The sum of the matrices `Convex.edgeCovariance v1 v2 v3` over the faces in
their order, each face once, and over the edges `(v1, v2)` of the face, each
edge once, with `v3` the centre of the face. -/
def faceCovarianceSum {K : Type} [LinearOrderedField K] (points : List (Vec3f K))
    (faces : List (List Int)) : Matrix3f K :=
  faces.foldl (fun C f =>
    (faceEdges points f).foldl (fun C e =>
      Matrix3f.add C (Convex.edgeCovariance e.1 e.2 (faceCenter points f))) C) Matrix3f.Zero

/-! ## Distance between two octrees -/

namespace OcTreeSolver

variable {K Sh BV : Type} [LinearOrderedField K]

/-- The recursive calls of the loop over the existing children of `root1` in
`OcTreeDistanceRecurse` (traversal_node_octree.h:658-679): the call for a child
is guarded by `d < dresult->min_distance`, with `d` the distance between the
converted cells `bv1` and `bv2` of the activation, not the cell of the
child. -/
def descendFirstDistance (sv : OcTreeSolver K Sh BV) (tf1 tf2 : Transform3f K)
    (a : OcTreePair K) : List (OcTreePair K × (DistanceResult K → Bool)) :=
  (List.range 8).filterMap (fun i =>
    if a.root1.nodeChildExists i then
      let child_bv := sv.computeChildBV a.bv1 i
      let aabb1 := details.Converter_AABB_AABB_convert sv.sqrt a.bv1 tf1
      let aabb2 := details.Converter_AABB_AABB_convert sv.sqrt a.bv2 tf2
      let d := sv.aabbDistance aabb1 aabb2
      some (⟨a.root1.getNodeChild i, child_bv, a.root2, a.bv2⟩,
        fun r => decide (d < r.min_distance))
    else none)

/-- The recursive calls of the loop over the existing children of `root2` in
`OcTreeDistanceRecurse` (traversal_node_octree.h:683-703), with the same
bound `d`. -/
def descendSecondDistance (sv : OcTreeSolver K Sh BV) (tf1 tf2 : Transform3f K)
    (a : OcTreePair K) : List (OcTreePair K × (DistanceResult K → Bool)) :=
  (List.range 8).filterMap (fun i =>
    if a.root2.nodeChildExists i then
      let child_bv := sv.computeChildBV a.bv2 i
      let aabb1 := details.Converter_AABB_AABB_convert sv.sqrt a.bv1 tf1
      let aabb2 := details.Converter_AABB_AABB_convert sv.sqrt a.bv2 tf2
      let d := sv.aabbDistance aabb1 aabb2
      some (⟨a.root1, a.bv1, a.root2.getNodeChild i, child_bv⟩,
        fun r => decide (d < r.min_distance))
    else none)

/-- The pair of childless cells of `OcTreeDistanceRecurse` when both are
occupied (traversal_node_octree.h:634-646): the result after `update`. -/
def distanceLeafPair (sv : OcTreeSolver K Sh BV) (tree1 tree2 : OcTree K)
    (tf1 tf2 : Transform3f K) (a : OcTreePair K) (res : DistanceResult K) : DistanceResult K :=
  let box1 := sv.constructBox a.bv1 tf1
  let box2 := sv.constructBox a.bv2 tf2
  let d := sv.boxDistance box1.1 box1.2 box2.1 box2.2
  res.update d.1 tree1.addr tree2.addr (tree1.index a.root1) (tree2.index a.root2)
    d.2.1 d.2.2.1 d.2.2.2

/-- One activation of `OcTreeDistanceRecurse` (traversal_node_octree.h:626-707):
what the body does up to its recursive calls. The function reads the nodes
without a null test, so a null pointer stops the program where it is read:
`root1` in the first condition, `root2` in the first condition when `root1` has
no children and otherwise in the occupancy test when `root1` is occupied. -/
def visitOcTreeDistance (sv : OcTreeSolver K Sh BV) (tree1 tree2 : OcTree K)
    (tf1 tf2 : Transform3f K) (request : DistanceRequest K) (a : OcTreePair K)
    (res : DistanceResult K) : Visit (OcTreePair K) (DistanceResult K) :=
  if a.root1.isNull then
    Visit.fail
  else if !a.root1.nodeHasChildren && a.root2.isNull then
    Visit.fail
  else if !a.root1.nodeHasChildren && !a.root2.nodeHasChildren then
    if tree1.isNodeOccupied a.root1 && tree2.isNodeOccupied a.root2 then
      let res1 := sv.distanceLeafPair tree1 tree2 tf1 tf2 a res
      Visit.ret (sv.distanceSatisfied request res1) res1
    else
      Visit.ret false res
  else if !tree1.isNodeOccupied a.root1 then
    Visit.ret false res
  else if a.root2.isNull then
    Visit.fail
  else if !tree2.isNodeOccupied a.root2 then
    Visit.ret false res
  else if !a.root2.nodeHasChildren
      || (a.root1.nodeHasChildren && decide (sv.size a.bv1 > sv.size a.bv2)) then
    Visit.recurse (sv.descendFirstDistance tf1 tf2 a)
  else
    Visit.recurse (sv.descendSecondDistance tf1 tf2 a)

/-- Source function `OcTreeSolver::OcTreeDistanceRecurse`
(traversal_node_octree.h:626-707) with the arguments `a`, entered with the
result `res` and run with the recursion budget `fuel`. -/
def OcTreeDistanceRecurse (sv : OcTreeSolver K Sh BV) (tree1 tree2 : OcTree K)
    (tf1 tf2 : Transform3f K) (request : DistanceRequest K) (fuel : Nat) (a : OcTreePair K)
    (res : DistanceResult K) : Outcome (DistanceResult K) :=
  traverse (sv.visitOcTreeDistance tree1 tree2 tf1 tf2 request) fuel a res

/-- Source function `OcTreeSolver::OcTreeDistance`
(traversal_node_octree.h:91-102); the recursion budget is the sum of the heights
of the two trees plus one. -/
def OcTreeDistance (sv : OcTreeSolver K Sh BV) (tree1 tree2 : OcTree K)
    (tf1 tf2 : Transform3f K) (request : DistanceRequest K) (result : DistanceResult K) :
    Outcome (DistanceResult K) :=
  sv.OcTreeDistanceRecurse tree1 tree2 tf1 tf2 request
    (tree1.root.height + tree2.root.height + 1)
    ⟨tree1.root, tree1.rootBV, tree2.root, tree2.rootBV⟩ result

/-- The loop over the existing children of `root1` of the variant of
`OcTreeDistanceRecurse` that computes the bound `d` from `child_bv`, as
`OcTreeShapeDistanceRecurse` does: `d` is the distance between the converted
cell of the child and the converted cell `bv2`. -/
def descendFirstDistanceChildBV (sv : OcTreeSolver K Sh BV) (tf1 tf2 : Transform3f K)
    (a : OcTreePair K) : List (OcTreePair K × (DistanceResult K → Bool)) :=
  (List.range 8).filterMap (fun i =>
    if a.root1.nodeChildExists i then
      let child_bv := sv.computeChildBV a.bv1 i
      let aabb1 := details.Converter_AABB_AABB_convert sv.sqrt child_bv tf1
      let aabb2 := details.Converter_AABB_AABB_convert sv.sqrt a.bv2 tf2
      let d := sv.aabbDistance aabb1 aabb2
      some (⟨a.root1.getNodeChild i, child_bv, a.root2, a.bv2⟩,
        fun r => decide (d < r.min_distance))
    else none)

/-- The loop over the existing children of `root2` of the variant that
computes the bound `d` from `child_bv`. -/
def descendSecondDistanceChildBV (sv : OcTreeSolver K Sh BV) (tf1 tf2 : Transform3f K)
    (a : OcTreePair K) : List (OcTreePair K × (DistanceResult K → Bool)) :=
  (List.range 8).filterMap (fun i =>
    if a.root2.nodeChildExists i then
      let child_bv := sv.computeChildBV a.bv2 i
      let aabb1 := details.Converter_AABB_AABB_convert sv.sqrt a.bv1 tf1
      let aabb2 := details.Converter_AABB_AABB_convert sv.sqrt child_bv tf2
      let d := sv.aabbDistance aabb1 aabb2
      some (⟨a.root1, a.bv1, a.root2.getNodeChild i, child_bv⟩,
        fun r => decide (d < r.min_distance))
    else none)

/-- One activation of the variant of `OcTreeDistanceRecurse` that computes the
bound `d` from `child_bv`: the body of `visitOcTreeDistance` with the two
loops replaced. -/
def visitOcTreeDistanceChildBV (sv : OcTreeSolver K Sh BV) (tree1 tree2 : OcTree K)
    (tf1 tf2 : Transform3f K) (request : DistanceRequest K) (a : OcTreePair K)
    (res : DistanceResult K) : Visit (OcTreePair K) (DistanceResult K) :=
  if a.root1.isNull then
    Visit.fail
  else if !a.root1.nodeHasChildren && a.root2.isNull then
    Visit.fail
  else if !a.root1.nodeHasChildren && !a.root2.nodeHasChildren then
    if tree1.isNodeOccupied a.root1 && tree2.isNodeOccupied a.root2 then
      let res1 := sv.distanceLeafPair tree1 tree2 tf1 tf2 a res
      Visit.ret (sv.distanceSatisfied request res1) res1
    else
      Visit.ret false res
  else if !tree1.isNodeOccupied a.root1 then
    Visit.ret false res
  else if a.root2.isNull then
    Visit.fail
  else if !tree2.isNodeOccupied a.root2 then
    Visit.ret false res
  else if !a.root2.nodeHasChildren
      || (a.root1.nodeHasChildren && decide (sv.size a.bv1 > sv.size a.bv2)) then
    Visit.recurse (sv.descendFirstDistanceChildBV tf1 tf2 a)
  else
    Visit.recurse (sv.descendSecondDistanceChildBV tf1 tf2 a)

/-- The variant of `OcTreeDistance` that computes the bound `d` from
`child_bv`. -/
def OcTreeDistanceChildBV (sv : OcTreeSolver K Sh BV) (tree1 tree2 : OcTree K)
    (tf1 tf2 : Transform3f K) (request : DistanceRequest K) (result : DistanceResult K) :
    Outcome (DistanceResult K) :=
  traverse (sv.visitOcTreeDistanceChildBV tree1 tree2 tf1 tf2 request)
    (tree1.root.height + tree2.root.height + 1)
    ⟨tree1.root, tree1.rootBV, tree2.root, tree2.rootBV⟩ result

/-- The arguments of the recursive calls that `OcTreeDistanceRecurse` has on a
pair of cells that it descends (traversal_node_octree.h:656-704): the existing
children of `root1` with `root2`, or `root1` with the existing children of
`root2`, in the order of the octants. -/
def descendPairs (sv : OcTreeSolver K Sh BV) (a : OcTreePair K) : List (OcTreePair K) :=
  if !a.root2.nodeHasChildren
      || (a.root1.nodeHasChildren && decide (sv.size a.bv1 > sv.size a.bv2)) then
    ((List.range 8).filter (fun i => a.root1.nodeChildExists i)).map
      (fun i => ⟨a.root1.getNodeChild i, sv.computeChildBV a.bv1 i, a.root2, a.bv2⟩)
  else
    ((List.range 8).filter (fun i => a.root2.nodeChildExists i)).map
      (fun i => ⟨a.root1, a.bv1, a.root2.getNodeChild i, sv.computeChildBV a.bv2 i⟩)

/-- The solver distances of the pairs of occupied childless cells that the
descent of `OcTreeDistanceRecurse` reaches below a pair of cells within the
recursion budget `fuel`, when no call is skipped: the pair itself when both
cells are childless and occupied, nothing when one of them is not occupied,
and otherwise the pairs below the existing children of the cell that is
descended. -/
def pairDistances (sv : OcTreeSolver K Sh BV) (tree1 tree2 : OcTree K)
    (tf1 tf2 : Transform3f K) : Nat → OcTreePair K → List K
  | 0, _ => []
  | fuel + 1, a =>
    if !a.root1.nodeHasChildren && !a.root2.nodeHasChildren then
      if tree1.isNodeOccupied a.root1 && tree2.isNodeOccupied a.root2 then
        [(sv.boxDistance (sv.constructBox a.bv1 tf1).1 (sv.constructBox a.bv1 tf1).2
          (sv.constructBox a.bv2 tf2).1 (sv.constructBox a.bv2 tf2).2).1]
      else []
    else if !tree1.isNodeOccupied a.root1 || !tree2.isNodeOccupied a.root2 then
      []
    else
      (sv.descendPairs a).flatMap (fun c => pairDistances sv tree1 tree2 tf1 tf2 fuel c)

/-- The recursive calls of the loop over the existing children of `root1` in
`OcTreeMeshDistanceRecurse` (traversal_node_octree.h:428-446), with the
conversion `convertBV` of a `BV` to an AABB, which is outside the sources, as a
parameter: the bound `d` of a call is the distance between the converted cell
of the child and the converted volume of the node `root2`. -/
def descendMeshFirstDistance (sv : OcTreeSolver K Sh BV)
    (convertBV : BV → Transform3f K → AABB K) (tf1 tf2 : Transform3f K)
    (a : OcTreeMeshPair K BV) : List (OcTreeMeshPair K BV × (DistanceResult K → Bool)) :=
  (List.range 8).filterMap (fun i =>
    if a.root1.nodeChildExists i then
      let child_bv := sv.computeChildBV a.bv1 i
      let aabb1 := details.Converter_AABB_AABB_convert sv.sqrt child_bv tf1
      let aabb2 := convertBV a.root2.bv tf2
      let d := sv.aabbDistance aabb1 aabb2
      some (⟨a.root1.getNodeChild i, child_bv, a.root2⟩, fun r => decide (d < r.min_distance))
    else none)

/-- The two recursive calls on the children of the node `root2` of the
hierarchy in `OcTreeMeshDistanceRecurse` (traversal_node_octree.h:448-472): the
bound `d` of a call is the distance between the converted cell `bv1` and the
converted volume of the child; a leaf has no children. -/
def descendMeshSecondDistance (sv : OcTreeSolver K Sh BV)
    (convertBV : BV → Transform3f K → AABB K) (tf1 tf2 : Transform3f K)
    (a : OcTreeMeshPair K BV) : List (OcTreeMeshPair K BV × (DistanceResult K → Bool)) :=
  match a.root2 with
  | BVNode.leaf _ _ _ _ _ => []
  | BVNode.inner _ l r =>
    let aabb1 := details.Converter_AABB_AABB_convert sv.sqrt a.bv1 tf1
    [(⟨a.root1, a.bv1, l⟩,
        fun res => decide (sv.aabbDistance aabb1 (convertBV l.bv tf2) < res.min_distance)),
      (⟨a.root1, a.bv1, r⟩,
        fun res => decide (sv.aabbDistance aabb1 (convertBV r.bv tf2) < res.min_distance))]

end OcTreeSolver

/-! ## Trace of a traversal -/

/-- The loop of `traverseLoop` with the activations made, in the order in which
they are entered. -/
def traceLoop {A S : Type} (recurse : A → S → List (A × S) × Outcome S) :
    List (A × (S → Bool)) → S → List (A × S) × Outcome S
  | [], s => ([], Outcome.ret false s)
  | c :: cs, s =>
    if c.2 s then
      match recurse c.1 s with
      | (t, Outcome.ret true s1) => (t, Outcome.ret true s1)
      | (t, Outcome.ret false s1) =>
        (t ++ (traceLoop recurse cs s1).1, (traceLoop recurse cs s1).2)
      | (t, Outcome.fail) => (t, Outcome.fail)
      | (t, Outcome.outOfFuel) => (t, Outcome.outOfFuel)
    else traceLoop recurse cs s

/-- The traversal `traverse` with its trace: the activations made, each with its
arguments and the state it is entered with, in the order in which they are
entered, and the outcome. -/
def traverseTrace {A S : Type} (visit : A → S → Visit A S) :
    Nat → A → S → List (A × S) × Outcome S
  | 0, _, _ => ([], Outcome.outOfFuel)
  | fuel + 1, a, s =>
    match visit a s with
    | Visit.ret v s1 => ([(a, s)], Outcome.ret v s1)
    | Visit.recurse calls =>
      ((a, s) :: (traceLoop (traverseTrace visit fuel) calls s).1,
        (traceLoop (traverseTrace visit fuel) calls s).2)
    | Visit.fail => ([(a, s)], Outcome.fail)

/-- Whether the arguments of an activation of `OcTreeIntersectRecurse` are a
pair of childless cells that are both occupied, the pairs the function
processes (traversal_node_octree.h:798-800). -/
def OcTreePair.isOccupiedLeafPair {K : Type} (tree1 tree2 : OcTree K) (a : OcTreePair K) : Bool :=
  !a.root1.isNull && !a.root2.isNull && !a.root1.nodeHasChildren && !a.root2.nodeHasChildren
    && tree1.isNodeOccupied a.root1 && tree2.isNodeOccupied a.root2

/-- The solver with a collision request that is never satisfied: the traversal
that never exits early. -/
def OcTreeSolver.neverSatisfied {K Sh BV : Type} (sv : OcTreeSolver K Sh BV) :
    OcTreeSolver K Sh BV :=
  { sv with collisionSatisfied := fun _ _ => false }

/-! ## Sample inputs -/

/-- A box with three different sides, `[0, 2] x [0, 4] x [0, 6]`. -/
def sampleBox (K : Type) [LinearOrderedField K] : AABB K := ⟨⟨0, 0, 0⟩, ⟨2, 4, 6⟩⟩

/-- The quarter turn about the z axis followed by the translation `(1, 0, 0)`. -/
def quarterTurn (K : Type) [LinearOrderedField K] : Transform3f K :=
  ⟨⟨0, -1, 0, 1, 0, 0, 0, 0, 1⟩, ⟨1, 0, 0⟩⟩

/-! ## Sample octrees and a sample solver -/

/-- A cell without children. -/
def voxel (addr : Int) (occupancy : ℚ) : OcTreeNode ℚ :=
  OcTreeNode.node addr occupancy OcTreeNode.null OcTreeNode.null OcTreeNode.null OcTreeNode.null
    OcTreeNode.null OcTreeNode.null OcTreeNode.null OcTreeNode.null

/-- An octree whose cells are occupied from the occupancy `1/2` on, free up to
the occupancy `0`, and uncertain in between. -/
def sampleOcTree (addr : Nat) (root : OcTreeNode ℚ) (rootBV : AABB ℚ) : OcTree ℚ :=
  ⟨addr, root, rootBV, fun n => decide (1 / 2 ≤ n.getOccupancy),
    fun n => decide (n.getOccupancy ≤ 0),
    fun n => !decide (1 / 2 ≤ n.getOccupancy) && !decide (n.getOccupancy ≤ 0)⟩

/-- The cube with the centre `(x, 0, 0)` and the side `1`. -/
def unitCube (x : ℚ) : AABB ℚ := ⟨⟨x - 1 / 2, -(1 / 2), -(1 / 2)⟩, ⟨x + 1 / 2, 1 / 2, 1 / 2⟩⟩

/-- The octree of one occupied cell, the unit cube with the centre `(x, 0, 0)`. -/
def voxelTree (addr : Nat) (x : ℚ) : OcTree ℚ := sampleOcTree addr (voxel 0 1) (unitCube x)

/-- The octree of the cube `[-1, 1]^3` with two occupied childless cells, in
the octants 0 and 1. -/
def twoVoxelTree (addr : Nat) : OcTree ℚ :=
  sampleOcTree addr
    (OcTreeNode.node 0 1 (voxel 1 1) (voxel 2 1) OcTreeNode.null OcTreeNode.null OcTreeNode.null
      OcTreeNode.null OcTreeNode.null OcTreeNode.null)
    ⟨⟨-1, -1, -1⟩, ⟨1, 1, 1⟩⟩

/-- The overlap test of two boxes with parallel axes. -/
def sampleOverlap (a b : OBB ℚ) : Bool :=
  decide (|a.To.x - b.To.x| ≤ a.extent.x + b.extent.x) &&
    decide (|a.To.y - b.To.y| ≤ a.extent.y + b.extent.y) &&
    decide (|a.To.z - b.To.z| ≤ a.extent.z + b.extent.z)

/-- The octant `i` of a box, bit 0 of `i` choosing the upper half in x, bit 1 in
y and bit 2 in z. -/
def sampleChildBV (bv : AABB ℚ) (i : Nat) : AABB ℚ :=
  ⟨⟨if i % 2 = 1 then bv.center.x else bv.min_.x,
      if i / 2 % 2 = 1 then bv.center.y else bv.min_.y,
      if i / 4 % 2 = 1 then bv.center.z else bv.min_.z⟩,
    ⟨if i % 2 = 1 then bv.max_.x else bv.center.x,
      if i / 2 % 2 = 1 then bv.max_.y else bv.center.y,
      if i / 4 % 2 = 1 then bv.max_.z else bv.center.z⟩⟩

/-- A solver for spheres and meshes with AABBs and without rotations: the box
of a cell has the sides of the cell and sits at its centre, two boxes intersect
when their centres are closer than the sum of the half sides along each axis,
a box and a sphere when the centres are closer than half side plus radius
along each axis, the distance of a box to a sphere or to a box is the absolute
difference of the x coordinates of the centres, a box and a triangle never interact, a
collision request is satisfied when the cap is reached and a distance request
never. -/
def sampleSolver : OcTreeSolver ℚ (Sphere ℚ) (AABB ℚ) where
  sqrt := fun x => x
  overlap := sampleOverlap
  size := fun b => b.width
  aabbDistance := fun _ _ => 0
  constructBox := fun bv tf =>
    (Box.create bv.width bv.height bv.depth, ⟨tf.R, tf.transform bv.center⟩)
  computeChildBV := sampleChildBV
  computeBV := fun s tf =>
    ⟨Vec3f.sub tf.T (Vec3f.Constant s.radius), Vec3f.add tf.T (Vec3f.Constant s.radius)⟩
  convertBVtoOBB := fun bv tf => details.Converter_AABB_OBB_convert bv tf
  bvSize := fun b => b.width
  shapeAddr := fun _ => 2
  shapeGeom := fun s => CollisionGeometry.create ⟨0, 0, 0⟩ s.radius
    ⟨Vec3f.Constant (-s.radius), Vec3f.Constant s.radius⟩
  boxIntersect := fun b1 tf1 b2 tf2 =>
    if sampleOverlap ⟨tf1.R, tf1.T, b1.halfSide⟩ ⟨tf2.R, tf2.T, b2.halfSide⟩ then
      some (Vec3f.scale (Vec3f.add tf1.T tf2.T) (1 / 2), 0, ⟨1, 0, 0⟩)
    else none
  shapeIntersectTest := fun b tf s tf2 =>
    sampleOverlap ⟨tf.R, tf.T, b.halfSide⟩ ⟨tf2.R, tf2.T, Vec3f.Constant s.radius⟩
  shapeIntersect := fun b tf s tf2 =>
    if sampleOverlap ⟨tf.R, tf.T, b.halfSide⟩ ⟨tf2.R, tf2.T, Vec3f.Constant s.radius⟩ then
      some (Vec3f.scale (Vec3f.add tf.T tf2.T) (1 / 2), 0, ⟨1, 0, 0⟩)
    else none
  shapeTriangleInteraction := fun _ _ _ _ _ _ => none
  shapeDistance := fun _ tf _ tf2 => (|tf.T.x - tf2.T.x|, tf.T, tf2.T, ⟨1, 0, 0⟩)
  boxDistance := fun _ tf _ tf2 => (|tf.T.x - tf2.T.x|, tf.T, tf2.T, ⟨1, 0, 0⟩)
  collisionSatisfied := fun request result =>
    decide (request.num_max_contacts ≤ result.numContacts)
  distanceSatisfied := fun _ _ => false

/-- The sample solver with a collision request that is never satisfied, so that
a traversal goes on after the cap of the contacts is reached. -/
def patientSolver : OcTreeSolver ℚ (Sphere ℚ) (AABB ℚ) :=
  { sampleSolver with collisionSatisfied := fun _ _ => false }

/-- The sample solver with a box that interacts with every triangle, at the
first vertex of the triangle and with the distance `0`. -/
def touchingSolver : OcTreeSolver ℚ (Sphere ℚ) (AABB ℚ) :=
  { sampleSolver with
    shapeTriangleInteraction := fun _ _ p1 _ _ _ => some (0, p1, p1, ⟨1, 0, 0⟩) }

/-- A mesh of one triangle in the unit cube at the origin. -/
def triangleMesh (addr : Nat) : BVHModel ℚ (AABB ℚ) :=
  ⟨addr, BVNode.leaf (unitCube 0) 0 ⟨0, 0, 0⟩ ⟨1 / 2, 0, 0⟩ ⟨0, 1 / 2, 0⟩,
    CollisionGeometry.create ⟨0, 0, 0⟩ 1 (unitCube 0)⟩

/-- The square root of the squared diagonals `9`, `81` and `324` of the cells of
the sample trees `wideTree` and `farVoxelTree`. -/
def tableSqrt (x : ℚ) : ℚ := if x = 9 then 3 else if x = 81 then 9 else if x = 324 then 18 else 0

/-- The distance between the projections of two boxes on the x axis, a lower
bound of the distance between the boxes. -/
def xGap (a b : AABB ℚ) : ℚ := max 0 (max (b.min_.x - a.max_.x) (a.min_.x - b.max_.x))

/-- The sample solver with the square root of the diagonals of the sample cells
and with the distance of the projections on the x axis as the distance of two
AABBs. -/
def gapSolver : OcTreeSolver ℚ (Sphere ℚ) (AABB ℚ) :=
  { sampleSolver with sqrt := tableSqrt, aabbDistance := xGap }

/-- The octree of the box `[-8, 8] x [-4, 4] x [-1, 1]` with two occupied
childless cells, in the octants 0 and 1: the boxes `[-8, 0] x [-4, 0] x [-1, 0]`
and `[0, 8] x [-4, 0] x [-1, 0]`, with the diagonal `9`; the diagonal of the root
cell is `18`. -/
def wideTree (addr : Nat) : OcTree ℚ :=
  sampleOcTree addr
    (OcTreeNode.node 0 1 (voxel 1 1) (voxel 2 1) OcTreeNode.null OcTreeNode.null OcTreeNode.null
      OcTreeNode.null OcTreeNode.null OcTreeNode.null)
    ⟨⟨-8, -4, -1⟩, ⟨8, 4, 1⟩⟩

/-- The octree of one occupied cell, the box with the centre `(x, 0, 0)`, the
sides `1`, `2`, `2` and the diagonal `3`. -/
def farVoxelTree (addr : Nat) (x : ℚ) : OcTree ℚ :=
  sampleOcTree addr (voxel 0 1) ⟨⟨x - 1 / 2, -1, -1⟩, ⟨x + 1 / 2, 1, 1⟩⟩

/-- An octree without cells: the root pointer is null. -/
def emptyTree (addr : Nat) : OcTree ℚ := sampleOcTree addr OcTreeNode.null (unitCube 0)

/-- The octree of the cube `[-1, 1]^3` whose root cell has the occupancy `0`, so
is free, and has one child, an occupied childless cell in the octant 0. -/
def freeRootTree (addr : Nat) : OcTree ℚ :=
  sampleOcTree addr
    (OcTreeNode.node 0 0 (voxel 1 1) OcTreeNode.null OcTreeNode.null OcTreeNode.null
      OcTreeNode.null OcTreeNode.null OcTreeNode.null OcTreeNode.null)
    ⟨⟨-1, -1, -1⟩, ⟨1, 1, 1⟩⟩

/-- An octree whose two thresholds are equal to `0`: a cell is occupied from the
occupancy `0` on and free up to the occupancy `0`, so that a cell with the
occupancy `0` is occupied and free. -/
def tieOcTree (addr : Nat) (root : OcTreeNode ℚ) (rootBV : AABB ℚ) : OcTree ℚ :=
  ⟨addr, root, rootBV, fun n => decide (0 ≤ n.getOccupancy),
    fun n => decide (n.getOccupancy ≤ 0),
    fun n => !decide (0 ≤ n.getOccupancy) && !decide (n.getOccupancy ≤ 0)⟩

/-! ## Auxiliary lemmas -/

section Aux

variable {K : Type} [LinearOrderedField K]

theorem IsOrthonormal.cols {M : Matrix3f K} (h : M.IsOrthonormal) :
    (M.m00 * M.m00 + M.m10 * M.m10 + M.m20 * M.m20 = 1 ∧
     M.m01 * M.m01 + M.m11 * M.m11 + M.m21 * M.m21 = 1 ∧
     M.m02 * M.m02 + M.m12 * M.m12 + M.m22 * M.m22 = 1) ∧
    (M.m00 * M.m01 + M.m10 * M.m11 + M.m20 * M.m21 = 0 ∧
     M.m00 * M.m02 + M.m10 * M.m12 + M.m20 * M.m22 = 0 ∧
     M.m01 * M.m02 + M.m11 * M.m12 + M.m21 * M.m22 = 0) := by
  unfold Matrix3f.IsOrthonormal at h
  have h00 := congrArg Matrix3f.m00 h
  have h11 := congrArg Matrix3f.m11 h
  have h22 := congrArg Matrix3f.m22 h
  have h01 := congrArg Matrix3f.m01 h
  have h02 := congrArg Matrix3f.m02 h
  have h12 := congrArg Matrix3f.m12 h
  simp [Matrix3f.mul, Matrix3f.transpose, Matrix3f.ofCols, Matrix3f.mulVec, Matrix3f.col,
    Matrix3f.Identity] at h00 h11 h22 h01 h02 h12
  exact ⟨⟨h00, h11, h22⟩, h01, h02, h12⟩

/-- A rotation preserves the squared norm. -/
theorem squaredNorm_mulVec {M : Matrix3f K} (h : M.IsOrthonormal) (d : Vec3f K) :
    (M.mulVec d).squaredNorm = d.squaredNorm := by
  obtain ⟨⟨h0, h1, h2⟩, h01, h02, h12⟩ := IsOrthonormal.cols h
  simp only [Vec3f.squaredNorm, Matrix3f.mulVec]
  linear_combination (d.x * d.x) * h0 + (d.y * d.y) * h1 + (d.z * d.z) * h2
    + (2 * d.x * d.y) * h01 + (2 * d.x * d.z) * h02 + (2 * d.y * d.z) * h12

/-- Each component of a vector is bounded by any bound of its norm. -/
theorem comp_bound_of_squaredNorm_le (v : Vec3f K) (r : K) (hr : 0 ≤ r)
    (h : v.squaredNorm ≤ r * r) :
    (-r ≤ v.x ∧ v.x ≤ r) ∧ (-r ≤ v.y ∧ v.y ≤ r) ∧ (-r ≤ v.z ∧ v.z ≤ r) := by
  simp only [Vec3f.squaredNorm] at h
  refine ⟨abs_le_of_sq_le_sq' ?_ hr, abs_le_of_sq_le_sq' ?_ hr, abs_le_of_sq_le_sq' ?_ hr⟩
  · nlinarith [mul_self_nonneg v.y, mul_self_nonneg v.z]
  · nlinarith [mul_self_nonneg v.x, mul_self_nonneg v.z]
  · nlinarith [mul_self_nonneg v.x, mul_self_nonneg v.y]

/-- A point of a box is within half the diagonal of the centre of the box. -/
theorem squaredNorm_sub_center_le (b : AABB K) (p : Vec3f K) (hp : b.contain p) :
    4 * (Vec3f.sub p b.center).squaredNorm ≤ (Vec3f.sub b.max_ b.min_).squaredNorm := by
  obtain ⟨⟨h1, h2, h3⟩, h4, h5, h6⟩ := hp
  simp only [Vec3f.squaredNorm, Vec3f.sub, AABB.center, Vec3f.add, Vec3f.scale]
  nlinarith [mul_nonneg (sub_nonneg.2 h1) (sub_nonneg.2 h4),
    mul_nonneg (sub_nonneg.2 h2) (sub_nonneg.2 h5),
    mul_nonneg (sub_nonneg.2 h3) (sub_nonneg.2 h6)]

/-- The image of a difference under a rigid transform. -/
theorem transform_sub (tf : Transform3f K) (p c : Vec3f K) :
    Vec3f.sub (tf.transform p) (tf.transform c) = tf.R.mulVec (Vec3f.sub p c) := by
  ext <;> simp [Transform3f.transform, Vec3f.sub, Vec3f.add, Matrix3f.mulVec] <;> ring

end Aux

/-! ## Conversion AABB to AABB -/

section ConvertAABB

variable {K : Type} [LinearOrderedField K]

theorem squaredNorm_nonneg (v : Vec3f K) : 0 ≤ v.squaredNorm := by
  simp only [Vec3f.squaredNorm]
  nlinarith [mul_self_nonneg v.x, mul_self_nonneg v.y, mul_self_nonneg v.z]

/-- The cube of half side `r` around `tf(c)` contains `tf(p)` as soon as
`|p - c| <= r`. -/
theorem cube_contains_transform (tf : Transform3f K) (hR : tf.R.IsOrthonormal)
    (c p : Vec3f K) (r : K) (hr : 0 ≤ r) (h : (Vec3f.sub p c).squaredNorm ≤ r * r) :
    AABB.contain ⟨Vec3f.sub (tf.transform c) (Vec3f.Constant r),
      Vec3f.add (tf.transform c) (Vec3f.Constant r)⟩ (tf.transform p) := by
  have h2 := squaredNorm_mulVec hR (Vec3f.sub p c)
  rw [← transform_sub] at h2
  have h3 := comp_bound_of_squaredNorm_le _ r hr (h2.le.trans h)
  simp only [Vec3f.sub] at h3
  simp only [AABB.contain, Vec3f.le, Vec3f.sub, Vec3f.add, Vec3f.Constant]
  obtain ⟨⟨a1, a2⟩, ⟨a3, a4⟩, a5, a6⟩ := h3
  refine ⟨⟨?_, ?_, ?_⟩, ?_, ?_, ?_⟩ <;> linarith

/-- C1: `Converter<AABB, AABB>::convert` returns the cube centred at
`tf(centre of b)` with half side `r = ||max - min|| / 2`, and for an orthonormal
rotation that cube contains `tf(p)` for every point `p` of `b`. -/
theorem convert_AABB_AABB_conservative (sqrt : K → K) (hs : IsSqrt sqrt) (b : AABB K)
    (tf : Transform3f K) (hR : tf.R.IsOrthonormal) :
    (details.Converter_AABB_AABB_convert sqrt b tf).min_
        = Vec3f.sub (tf.transform b.center)
            (Vec3f.Constant (Vec3f.norm sqrt (Vec3f.sub b.max_ b.min_) / 2)) ∧
    (details.Converter_AABB_AABB_convert sqrt b tf).max_
        = Vec3f.add (tf.transform b.center)
            (Vec3f.Constant (Vec3f.norm sqrt (Vec3f.sub b.max_ b.min_) / 2)) ∧
    ∀ p : Vec3f K, b.contain p →
      (details.Converter_AABB_AABB_convert sqrt b tf).contain (tf.transform p) := by
  have e : Vec3f.norm sqrt (Vec3f.sub b.max_ b.min_) * (1 / 2)
      = Vec3f.norm sqrt (Vec3f.sub b.max_ b.min_) / 2 := by ring
  refine ⟨?_, ?_, ?_⟩
  · simp only [details.Converter_AABB_AABB_convert, Vec3f.Constant, e]
  · simp only [details.Converter_AABB_AABB_convert, Vec3f.Constant, e]
  · intro p hp
    obtain ⟨hr0, hrr⟩ := hs _ (squaredNorm_nonneg (Vec3f.sub b.max_ b.min_))
    have h1 := squaredNorm_sub_center_le b p hp
    have h := cube_contains_transform tf hR b.center p
      (Vec3f.norm sqrt (Vec3f.sub b.max_ b.min_) * (1 / 2))
      (by unfold Vec3f.norm; linarith) (by unfold Vec3f.norm; nlinarith)
    simpa only [details.Converter_AABB_AABB_convert, Vec3f.Constant] using h

end ConvertAABB

/-! ## Conversion AABB to OBB -/

section ConvertOBB

variable {K : Type} [LinearOrderedField K]

/-- C2: `Converter<AABB, OBB>::convert` is exact: the output has
`To = tf(centre of b)`, `extent = (max - min) / 2` (non-negative for
`min <= max`) and `axes = R`, and its point set
`{To + axes * x : |x_i| <= extent_i}` is the image `tf(b)` of the box. -/
theorem convert_AABB_OBB_exact (b : AABB K) (tf : Transform3f K) (hb : b.Valid) :
    (details.Converter_AABB_OBB_convert b tf).To = tf.transform b.center ∧
    (details.Converter_AABB_OBB_convert b tf).extent
      = ⟨(b.max_.x - b.min_.x) / 2, (b.max_.y - b.min_.y) / 2, (b.max_.z - b.min_.z) / 2⟩ ∧
    Vec3f.le ⟨0, 0, 0⟩ (details.Converter_AABB_OBB_convert b tf).extent ∧
    (details.Converter_AABB_OBB_convert b tf).axes = tf.R ∧
    ∀ q : Vec3f K, (details.Converter_AABB_OBB_convert b tf).contain q
      ↔ ∃ p : Vec3f K, b.contain p ∧ q = tf.transform p := by
  obtain ⟨hx, hy, hz⟩ := hb
  refine ⟨rfl, ?_, ?_, rfl, ?_⟩
  · simp only [details.Converter_AABB_OBB_convert, Vec3f.scale, Vec3f.sub]
    ext <;> simp only [] <;> ring
  · simp only [details.Converter_AABB_OBB_convert, Vec3f.scale, Vec3f.sub, Vec3f.le]
    refine ⟨?_, ?_, ?_⟩ <;> nlinarith
  · intro q
    simp only [OBB.contain, details.Converter_AABB_OBB_convert, Vec3f.scale, Vec3f.sub,
      Transform3f.getRotation]
    constructor
    · rintro ⟨x, h1, h2, h3, rfl⟩
      rw [abs_le] at h1 h2 h3
      refine ⟨Vec3f.add b.center x, ⟨⟨?_, ?_, ?_⟩, ?_, ?_, ?_⟩, ?_⟩
      · simp only [AABB.center, Vec3f.add, Vec3f.scale]; linarith [h1.1]
      · simp only [AABB.center, Vec3f.add, Vec3f.scale]; linarith [h2.1]
      · simp only [AABB.center, Vec3f.add, Vec3f.scale]; linarith [h3.1]
      · simp only [AABB.center, Vec3f.add, Vec3f.scale]; linarith [h1.2]
      · simp only [AABB.center, Vec3f.add, Vec3f.scale]; linarith [h2.2]
      · simp only [AABB.center, Vec3f.add, Vec3f.scale]; linarith [h3.2]
      · ext <;> simp only [Transform3f.transform, Vec3f.add, Matrix3f.mulVec] <;> ring
    · rintro ⟨p, ⟨⟨h1, h2, h3⟩, h4, h5, h6⟩, rfl⟩
      refine ⟨Vec3f.sub p b.center, ?_, ?_, ?_, ?_⟩
      · rw [abs_le]; simp only [AABB.center, Vec3f.add, Vec3f.scale, Vec3f.sub]
        constructor <;> linarith
      · rw [abs_le]; simp only [AABB.center, Vec3f.add, Vec3f.scale, Vec3f.sub]
        constructor <;> linarith
      · rw [abs_le]; simp only [AABB.center, Vec3f.add, Vec3f.scale, Vec3f.sub]
        constructor <;> linarith
      · ext <;> simp only [Transform3f.transform, Vec3f.add, Vec3f.sub, Matrix3f.mulVec] <;> ring

end ConvertOBB

/-! ## Conversions between RSS and OBB -/

section ConvertRSS

variable {K : Type} [LinearOrderedField K]

theorem identity_isOrthonormal : (Matrix3f.Identity : Matrix3f K).IsOrthonormal := by
  unfold Matrix3f.IsOrthonormal
  ext <;> simp [Matrix3f.mul, Matrix3f.transpose, Matrix3f.ofCols, Matrix3f.mulVec,
    Matrix3f.col, Matrix3f.Identity]

theorem identity_transform (v : Vec3f K) : (Transform3f.Identity : Transform3f K).transform v = v := by
  ext <;> simp [Transform3f.transform, Transform3f.Identity, Matrix3f.Identity,
    Matrix3f.mulVec, Vec3f.add]

/-- C3: evaluation of `Converter<RSS, OBB>::convert` on the RSS with origin
`(0,0,0)`, axes the identity, lengths `(4, 2)` and radius `1` under the identity
transform: the RSS is well formed and contains its rectangle corner
`(4, 2, 0)`, but the OBB produced, centred at the rectangle origin with
extent `(3, 2, 1)`, does not contain that point. -/
theorem convert_RSS_OBB_misses_corner :
    (Matrix3f.Identity : Matrix3f ℚ).IsOrthonormal ∧
    RSS.Valid (⟨Matrix3f.Identity, ⟨0, 0, 0⟩, (4, 2), 1⟩ : RSS ℚ) ∧
    RSS.contain (⟨Matrix3f.Identity, ⟨0, 0, 0⟩, (4, 2), 1⟩ : RSS ℚ) ⟨4, 2, 0⟩ ∧
    (details.Converter_RSS_OBB_convert (⟨Matrix3f.Identity, ⟨0, 0, 0⟩, (4, 2), 1⟩ : RSS ℚ)
      Transform3f.Identity).extent = ⟨3, 2, 1⟩ ∧
    (details.Converter_RSS_OBB_convert (⟨Matrix3f.Identity, ⟨0, 0, 0⟩, (4, 2), 1⟩ : RSS ℚ)
      Transform3f.Identity).To = ⟨0, 0, 0⟩ ∧
    ¬ OBB.contain
      (details.Converter_RSS_OBB_convert (⟨Matrix3f.Identity, ⟨0, 0, 0⟩, (4, 2), 1⟩ : RSS ℚ)
        Transform3f.Identity)
      ((Transform3f.Identity : Transform3f ℚ).transform ⟨4, 2, 0⟩) := by
  refine ⟨identity_isOrthonormal, ?_, ?_, ?_, ?_, ?_⟩
  · norm_num [RSS.Valid]
  · refine ⟨by norm_num, 4, 2, ?_⟩
    norm_num [RSS.rectPoint, Vec3f.squaredNorm, Vec3f.sub, Vec3f.add, Vec3f.scale,
      Matrix3f.col, Matrix3f.Identity]
  · norm_num [details.Converter_RSS_OBB_convert]
  · simp [details.Converter_RSS_OBB_convert, identity_transform]
  · rintro ⟨x, h1, -, -, h⟩
    have hx := congrArg Vec3f.x h
    norm_num [details.Converter_RSS_OBB_convert, Transform3f.transform, Transform3f.getRotation,
      Transform3f.Identity, Matrix3f.mul, Matrix3f.ofCols, Matrix3f.mulVec, Matrix3f.col,
      Matrix3f.Identity, Vec3f.add] at hx h1
    rw [← hx] at h1
    norm_num at h1

/-- C4 (as stated) fails: the OBB with extent `(1, 1, 2) >= 0` is converted
into an RSS whose first rectangle length is `2 * (1 - 2) = -2 < 0`. -/
theorem convert_OBB_RSS_negative_length :
    Vec3f.le ⟨0, 0, 0⟩ (⟨1, 1, 2⟩ : Vec3f ℚ) ∧
    (details.Converter_OBB_RSS_convert
      (⟨Matrix3f.Identity, ⟨0, 0, 0⟩, ⟨1, 1, 2⟩⟩ : OBB ℚ) Transform3f.Identity).length.1 = -2 ∧
    ¬ RSS.Valid (details.Converter_OBB_RSS_convert
      (⟨Matrix3f.Identity, ⟨0, 0, 0⟩, ⟨1, 1, 2⟩⟩ : OBB ℚ) Transform3f.Identity) := by
  refine ⟨?_, ?_, ?_⟩
  · norm_num [Vec3f.le]
  · norm_num [details.Converter_OBB_RSS_convert, Vec3f.get]
  · norm_num [RSS.Valid, details.Converter_OBB_RSS_convert, Vec3f.get]

/-- C4 (amended): for every OBB with `extent >= 0` and every transform,
`Converter<OBB, RSS>::convert` returns `radius = extent[2] >= 0` and
`length[i] = 2 * (extent[i] - radius)` for `i = 0, 1`, and `length[i] >= 0`
holds exactly when `extent[i] >= extent[2]`. -/
theorem convert_OBB_RSS_lengths (b : OBB K) (tf : Transform3f K)
    (he : Vec3f.le ⟨0, 0, 0⟩ b.extent) :
    (details.Converter_OBB_RSS_convert b tf).radius = b.extent.get 2 ∧
    0 ≤ (details.Converter_OBB_RSS_convert b tf).radius ∧
    (details.Converter_OBB_RSS_convert b tf).length.1
      = 2 * (b.extent.get 0 - (details.Converter_OBB_RSS_convert b tf).radius) ∧
    (details.Converter_OBB_RSS_convert b tf).length.2
      = 2 * (b.extent.get 1 - (details.Converter_OBB_RSS_convert b tf).radius) ∧
    (0 ≤ (details.Converter_OBB_RSS_convert b tf).length.1 ↔ b.extent.get 2 ≤ b.extent.get 0) ∧
    (0 ≤ (details.Converter_OBB_RSS_convert b tf).length.2 ↔ b.extent.get 2 ≤ b.extent.get 1) := by
  obtain ⟨-, -, hz⟩ := he
  refine ⟨rfl, ?_, rfl, rfl, ?_, ?_⟩
  · simpa [details.Converter_OBB_RSS_convert, Vec3f.get] using hz
  · simp only [details.Converter_OBB_RSS_convert]
    constructor <;> intro h <;> linarith
  · simp only [details.Converter_OBB_RSS_convert]
    constructor <;> intro h <;> linarith

theorem convert_OBB_RSS_lengths_witness :
    Vec3f.le ⟨0, 0, 0⟩ (⟨3, 2, 1⟩ : Vec3f ℚ) ∧
    (details.Converter_OBB_RSS_convert
      (⟨Matrix3f.Identity, ⟨0, 0, 0⟩, ⟨3, 2, 1⟩⟩ : OBB ℚ) Transform3f.Identity).radius
        = (⟨3, 2, 1⟩ : Vec3f ℚ).get 2 :=
  ⟨by norm_num [Vec3f.le],
    (convert_OBB_RSS_lengths (⟨Matrix3f.Identity, ⟨0, 0, 0⟩, ⟨3, 2, 1⟩⟩ : OBB ℚ)
      Transform3f.Identity (by norm_num [Vec3f.le])).1⟩

end ConvertRSS

/-! ## Conversion AABB to RSS -/

section ConvertAABBRSS

variable {K : Type} [LinearOrderedField K]

/-- The sort of BV.h:211-232 started from `d = (a, b, c)` and `id = (0, 1, 2)`:
the six possible index triples, each with the order of the entries that
produces it. -/
theorem sortExtents_spec (a b c : K) :
    ((details.sortExtents ((⟨a, b, c⟩ : Arr3 K), (⟨0, 1, 2⟩ : Arr3 Nat))).2 = ⟨0, 1, 2⟩
      ∧ a ≥ b ∧ b ≥ c) ∨
    ((details.sortExtents ((⟨a, b, c⟩ : Arr3 K), (⟨0, 1, 2⟩ : Arr3 Nat))).2 = ⟨0, 2, 1⟩
      ∧ a ≥ c ∧ c ≥ b) ∨
    ((details.sortExtents ((⟨a, b, c⟩ : Arr3 K), (⟨0, 1, 2⟩ : Arr3 Nat))).2 = ⟨1, 0, 2⟩
      ∧ b ≥ a ∧ a ≥ c) ∨
    ((details.sortExtents ((⟨a, b, c⟩ : Arr3 K), (⟨0, 1, 2⟩ : Arr3 Nat))).2 = ⟨1, 2, 0⟩
      ∧ b ≥ c ∧ c ≥ a) ∨
    ((details.sortExtents ((⟨a, b, c⟩ : Arr3 K), (⟨0, 1, 2⟩ : Arr3 Nat))).2 = ⟨2, 0, 1⟩
      ∧ c ≥ a ∧ a ≥ b) ∨
    ((details.sortExtents ((⟨a, b, c⟩ : Arr3 K), (⟨0, 1, 2⟩ : Arr3 Nat))).2 = ⟨2, 1, 0⟩
      ∧ c ≥ b ∧ b ≥ a) := by
  simp only [details.sortExtents, details.sortInner, details.sortStep, Arr3.swapDown, Arr3.get,
    Arr3.set]
  norm_num
  split_ifs <;> simp_all <;> (try (first | linarith | (constructor <;> linarith)))

/-- The index triple of `Converter<AABB, RSS>::convert` in terms of the sides of
the box. -/
theorem sortedIds_spec (b : AABB K) :
    (details.sortedIds b = ⟨0, 1, 2⟩ ∧ b.width ≥ b.height ∧ b.height ≥ b.depth) ∨
    (details.sortedIds b = ⟨0, 2, 1⟩ ∧ b.width ≥ b.depth ∧ b.depth ≥ b.height) ∨
    (details.sortedIds b = ⟨1, 0, 2⟩ ∧ b.height ≥ b.width ∧ b.width ≥ b.depth) ∨
    (details.sortedIds b = ⟨1, 2, 0⟩ ∧ b.height ≥ b.depth ∧ b.depth ≥ b.width) ∨
    (details.sortedIds b = ⟨2, 0, 1⟩ ∧ b.depth ≥ b.width ∧ b.width ≥ b.height) ∨
    (details.sortedIds b = ⟨2, 1, 0⟩ ∧ b.depth ≥ b.height ∧ b.height ≥ b.width) :=
  sortExtents_spec b.width b.height b.depth

/-- C5: `Converter<AABB, RSS>::convert` sorts the half extents
`e = (max - min) / 2` in descending order: the index triple `id` is a
permutation of `{0, 1, 2}` with `e[id[0]] >= e[id[1]] >= e[id[2]]`, the output
has `radius = e[id[2]]`, `length[0] = 2 * (e[id[0]] - radius)`,
`length[1] = 2 * (e[id[1]] - radius)` and `Tr = tf(centre)`, and for
`min <= max` the radius and both lengths are non-negative. -/
theorem convert_AABB_RSS_sorted (b : AABB K) (tf : Transform3f K) (hb : b.Valid) :
    List.Perm [(details.sortedIds b).get 0, (details.sortedIds b).get 1,
      (details.sortedIds b).get 2] [0, 1, 2] ∧
    (Vec3f.scale (Vec3f.sub b.max_ b.min_) (1 / 2)).get ((details.sortedIds b).get 0)
      ≥ (Vec3f.scale (Vec3f.sub b.max_ b.min_) (1 / 2)).get ((details.sortedIds b).get 1) ∧
    (Vec3f.scale (Vec3f.sub b.max_ b.min_) (1 / 2)).get ((details.sortedIds b).get 1)
      ≥ (Vec3f.scale (Vec3f.sub b.max_ b.min_) (1 / 2)).get ((details.sortedIds b).get 2) ∧
    (details.Converter_AABB_RSS_convert b tf).radius
      = (Vec3f.scale (Vec3f.sub b.max_ b.min_) (1 / 2)).get ((details.sortedIds b).get 2) ∧
    (details.Converter_AABB_RSS_convert b tf).length.1
      = 2 * ((Vec3f.scale (Vec3f.sub b.max_ b.min_) (1 / 2)).get ((details.sortedIds b).get 0)
          - (details.Converter_AABB_RSS_convert b tf).radius) ∧
    (details.Converter_AABB_RSS_convert b tf).length.2
      = 2 * ((Vec3f.scale (Vec3f.sub b.max_ b.min_) (1 / 2)).get ((details.sortedIds b).get 1)
          - (details.Converter_AABB_RSS_convert b tf).radius) ∧
    (details.Converter_AABB_RSS_convert b tf).Tr = tf.transform b.center ∧
    0 ≤ (details.Converter_AABB_RSS_convert b tf).radius ∧
    0 ≤ (details.Converter_AABB_RSS_convert b tf).length.1 ∧
    0 ≤ (details.Converter_AABB_RSS_convert b tf).length.2 := by
  obtain ⟨hx, hy, hz⟩ := hb
  simp only [details.Converter_AABB_RSS_convert]
  rcases sortedIds_spec b with h | h | h | h | h | h <;>
    obtain ⟨hid, h1, h2⟩ := h <;>
    simp only [AABB.width, AABB.height, AABB.depth] at h1 h2 <;>
    refine ⟨by rw [hid]; decide, ?_, ?_, ?_, ?_, ?_, ?_, ?_, ?_, ?_⟩ <;>
    simp only [hid] <;>
    (try norm_num [Arr3.get, Vec3f.get, Vec3f.scale, Vec3f.sub]) <;>
    (try linarith)

/-- Orthonormality of a matrix given by its columns. -/
theorem isOrthonormal_ofCols (c0 c1 c2 : Vec3f K) (h00 : Vec3f.dot c0 c0 = 1)
    (h11 : Vec3f.dot c1 c1 = 1) (h22 : Vec3f.dot c2 c2 = 1) (h01 : Vec3f.dot c0 c1 = 0)
    (h02 : Vec3f.dot c0 c2 = 0) (h12 : Vec3f.dot c1 c2 = 0) :
    (Matrix3f.ofCols c0 c1 c2).IsOrthonormal := by
  simp only [Vec3f.dot] at h00 h11 h22 h01 h02 h12
  unfold Matrix3f.IsOrthonormal
  ext <;>
    simp only [Matrix3f.mul, Matrix3f.transpose, Matrix3f.ofCols, Matrix3f.mulVec,
      Matrix3f.col, Matrix3f.Identity] <;>
    norm_num <;> linarith

/-- The dot products of the columns of an orthonormal matrix. -/
theorem dot_col_col {M : Matrix3f K} (h : M.IsOrthonormal) :
    (Vec3f.dot (M.col 0) (M.col 0) = 1 ∧ Vec3f.dot (M.col 1) (M.col 1) = 1 ∧
      Vec3f.dot (M.col 2) (M.col 2) = 1) ∧
    (Vec3f.dot (M.col 0) (M.col 1) = 0 ∧ Vec3f.dot (M.col 0) (M.col 2) = 0 ∧
      Vec3f.dot (M.col 1) (M.col 2) = 0) ∧
    (Vec3f.dot (M.col 1) (M.col 0) = 0 ∧ Vec3f.dot (M.col 2) (M.col 0) = 0 ∧
      Vec3f.dot (M.col 2) (M.col 1) = 0) := by
  obtain ⟨⟨h0, h1, h2⟩, h01, h02, h12⟩ := IsOrthonormal.cols h
  refine ⟨⟨?_, ?_, ?_⟩, ⟨?_, ?_, ?_⟩, ?_, ?_, ?_⟩ <;>
    norm_num [Vec3f.dot, Matrix3f.col] <;> linarith

theorem dot_neg_left (a b : Vec3f K) : Vec3f.dot (Vec3f.neg a) b = - Vec3f.dot a b := by
  simp only [Vec3f.dot, Vec3f.neg]; ring

theorem dot_neg_right (a b : Vec3f K) : Vec3f.dot a (Vec3f.neg b) = - Vec3f.dot a b := by
  simp only [Vec3f.dot, Vec3f.neg]; ring

/-- The determinant after a permutation of the columns, the first column
negated for the odd permutations. -/
theorem determinant_ofCols_col (M : Matrix3f K) :
    (Matrix3f.ofCols (M.col 0) (M.col 1) (M.col 2)).determinant = M.determinant ∧
    (Matrix3f.ofCols (M.col 1) (M.col 2) (M.col 0)).determinant = M.determinant ∧
    (Matrix3f.ofCols (M.col 2) (M.col 0) (M.col 1)).determinant = M.determinant ∧
    (Matrix3f.ofCols (Vec3f.neg (M.col 0)) (M.col 2) (M.col 1)).determinant = M.determinant ∧
    (Matrix3f.ofCols (Vec3f.neg (M.col 1)) (M.col 0) (M.col 2)).determinant = M.determinant ∧
    (Matrix3f.ofCols (Vec3f.neg (M.col 2)) (M.col 1) (M.col 0)).determinant = M.determinant := by
  refine ⟨?_, ?_, ?_, ?_, ?_, ?_⟩ <;>
    norm_num [Matrix3f.determinant, Matrix3f.ofCols, Matrix3f.col, Vec3f.neg] <;> ring

/-- The axes of `Converter<AABB, RSS>::convert` for each index triple the sort
can produce. -/
theorem convert_AABB_RSS_axes (b : AABB K) (tf : Transform3f K) :
    (details.Converter_AABB_RSS_convert b tf).axes
        = Matrix3f.ofCols (tf.R.col 0) (tf.R.col 1) (tf.R.col 2) ∨
    (details.Converter_AABB_RSS_convert b tf).axes
        = Matrix3f.ofCols (tf.R.col 1) (tf.R.col 2) (tf.R.col 0) ∨
    (details.Converter_AABB_RSS_convert b tf).axes
        = Matrix3f.ofCols (tf.R.col 2) (tf.R.col 0) (tf.R.col 1) ∨
    (details.Converter_AABB_RSS_convert b tf).axes
        = Matrix3f.ofCols (Vec3f.neg (tf.R.col 0)) (tf.R.col 2) (tf.R.col 1) ∨
    (details.Converter_AABB_RSS_convert b tf).axes
        = Matrix3f.ofCols (Vec3f.neg (tf.R.col 1)) (tf.R.col 0) (tf.R.col 2) ∨
    (details.Converter_AABB_RSS_convert b tf).axes
        = Matrix3f.ofCols (Vec3f.neg (tf.R.col 2)) (tf.R.col 1) (tf.R.col 0) := by
  rcases sortedIds_spec b with h | h | h | h | h | h <;>
    obtain ⟨hid, -, -⟩ := h <;>
    simp only [details.Converter_AABB_RSS_convert, hid, Transform3f.getRotation] <;>
    norm_num [Arr3.get]

/-- C6: `Converter<AABB, RSS>::convert` preserves right-handedness: whatever
order the sort yields, for a rotation `R` that is orthonormal with determinant
`+1` the output axes (columns `+-R.col(id[0])`, `R.col(id[1])`, `R.col(id[2])`,
the first negated exactly when `id[0] == (id[1] + 1) mod 3`) are orthonormal
with determinant `+1`. -/
theorem convert_AABB_RSS_right_handed (b : AABB K) (tf : Transform3f K)
    (hR : tf.R.IsOrthonormal) (hdet : tf.R.determinant = 1) :
    (details.Converter_AABB_RSS_convert b tf).axes
      = Matrix3f.ofCols
          (if (details.sortedIds b).get 0 = ((details.sortedIds b).get 1 + 1) % 3
            then Vec3f.neg (tf.R.col ((details.sortedIds b).get 0))
            else tf.R.col ((details.sortedIds b).get 0))
          (tf.R.col ((details.sortedIds b).get 1))
          (tf.R.col ((details.sortedIds b).get 2)) ∧
    (details.Converter_AABB_RSS_convert b tf).axes.IsOrthonormal ∧
    (details.Converter_AABB_RSS_convert b tf).axes.determinant = 1 := by
  obtain ⟨⟨d0, d1, d2⟩, ⟨d01, d02, d12⟩, d10, d20, d21⟩ := dot_col_col hR
  obtain ⟨e1, e2, e3, e4, e5, e6⟩ := determinant_ofCols_col tf.R
  refine ⟨by simp [details.Converter_AABB_RSS_convert, Transform3f.getRotation], ?_, ?_⟩
  · rcases convert_AABB_RSS_axes b tf with h | h | h | h | h | h <;> rw [h] <;>
      apply isOrthonormal_ofCols <;>
      simp only [dot_neg_left, dot_neg_right, neg_neg, d0, d1, d2, d01, d02, d12, d10, d20, d21,
        neg_zero]
  · rcases convert_AABB_RSS_axes b tf with h | h | h | h | h | h <;> rw [h]
    · rw [e1, hdet]
    · rw [e2, hdet]
    · rw [e3, hdet]
    · rw [e4, hdet]
    · rw [e5, hdet]
    · rw [e6, hdet]

/-- C7: evaluation of `Converter<AABB, RSS>::convert` on the cube
`[-1, 1]^3` under the identity transform: the output RSS has origin
`(0, 0, 0)`, rectangle lengths `(0, 0)` and radius `1`, so it is the ball of
radius `1` around the centre, and the image of the corner `(1, 1, 1)` of the
cube is not in it. -/
theorem convert_AABB_RSS_misses_corner :
    AABB.Valid (⟨⟨-1, -1, -1⟩, ⟨1, 1, 1⟩⟩ : AABB ℚ) ∧
    AABB.contain (⟨⟨-1, -1, -1⟩, ⟨1, 1, 1⟩⟩ : AABB ℚ) ⟨1, 1, 1⟩ ∧
    details.Converter_AABB_RSS_convert (⟨⟨-1, -1, -1⟩, ⟨1, 1, 1⟩⟩ : AABB ℚ) Transform3f.Identity
      = ⟨Matrix3f.Identity, ⟨0, 0, 0⟩, (0, 0), 1⟩ ∧
    ¬ RSS.contain
      (details.Converter_AABB_RSS_convert (⟨⟨-1, -1, -1⟩, ⟨1, 1, 1⟩⟩ : AABB ℚ)
        Transform3f.Identity)
      ((Transform3f.Identity : Transform3f ℚ).transform ⟨1, 1, 1⟩) := by
  have hid : details.sortedIds (⟨⟨-1, -1, -1⟩, ⟨1, 1, 1⟩⟩ : AABB ℚ) = ⟨0, 1, 2⟩ := by
    norm_num [details.sortedIds, details.sortExtents, details.sortInner, details.sortStep,
      Arr3.swapDown, Arr3.get, Arr3.set, AABB.width, AABB.height, AABB.depth]
  have hout : details.Converter_AABB_RSS_convert (⟨⟨-1, -1, -1⟩, ⟨1, 1, 1⟩⟩ : AABB ℚ)
      Transform3f.Identity = ⟨Matrix3f.Identity, ⟨0, 0, 0⟩, (0, 0), 1⟩ := by
    simp only [details.Converter_AABB_RSS_convert, hid, identity_transform]
    norm_num [Arr3.get, Vec3f.get, Vec3f.scale, Vec3f.sub, Vec3f.add, AABB.center,
      Transform3f.getRotation, Transform3f.Identity, Matrix3f.col, Matrix3f.ofCols,
      Matrix3f.Identity]
  refine ⟨by norm_num [AABB.Valid, Vec3f.le], by norm_num [AABB.contain, Vec3f.le], hout, ?_⟩
  rw [hout, identity_transform]
  rintro ⟨-, u, v, hu0, hu1, hv0, hv1, h⟩
  have hu : u = 0 := le_antisymm hu1 hu0
  have hv : v = 0 := le_antisymm hv1 hv0
  subst hu hv
  norm_num [RSS.rectPoint, Vec3f.squaredNorm, Vec3f.sub, Vec3f.add, Vec3f.scale,
    Matrix3f.col, Matrix3f.Identity] at h

end ConvertAABBRSS

/-! ## Round trip AABB, OBB, AABB -/

section RoundTrip

variable {K : Type} [LinearOrderedField K]

/-- The box returned by the round trip: the cube around the centre of `b` with
half side `||max - min|| / 2`. -/
theorem roundtrip_eq (sqrt : K → K) (b : AABB K) :
    details.Converter_OBB_AABB_convert sqrt
        (details.Converter_AABB_OBB_convert b Transform3f.Identity) Transform3f.Identity
      = ⟨Vec3f.sub b.center
          (Vec3f.Constant (Vec3f.norm sqrt (Vec3f.sub b.max_ b.min_) * (1 / 2))),
        Vec3f.add b.center
          (Vec3f.Constant (Vec3f.norm sqrt (Vec3f.sub b.max_ b.min_) * (1 / 2)))⟩ := by
  have hv : (⟨(details.Converter_AABB_OBB_convert b Transform3f.Identity).width,
      (details.Converter_AABB_OBB_convert b Transform3f.Identity).height,
      (details.Converter_AABB_OBB_convert b Transform3f.Identity).depth⟩ : Vec3f K)
      = Vec3f.sub b.max_ b.min_ := by
    ext <;>
      simp only [OBB.width, OBB.height, OBB.depth, details.Converter_AABB_OBB_convert,
        Vec3f.get, Vec3f.scale, Vec3f.sub] <;>
      norm_num <;> ring
  simp only [details.Converter_OBB_AABB_convert]
  rw [hv]
  simp only [identity_transform, OBB.center, details.Converter_AABB_OBB_convert, Vec3f.Constant]

/-- C8: converting an AABB `b` with `min <= max` to an OBB and back with the
identity transform yields an AABB that contains `b` (as a box and as a point
set) and whose diagonal is at most `sqrt 3` times the diagonal of `b`. -/
theorem roundtrip_AABB_OBB_AABB (sqrt : K → K) (hs : IsSqrt sqrt) (b : AABB K) (hb : b.Valid) :
    Vec3f.le (details.Converter_OBB_AABB_convert sqrt
        (details.Converter_AABB_OBB_convert b Transform3f.Identity) Transform3f.Identity).min_
      b.min_ ∧
    Vec3f.le b.max_ (details.Converter_OBB_AABB_convert sqrt
        (details.Converter_AABB_OBB_convert b Transform3f.Identity) Transform3f.Identity).max_ ∧
    (∀ p : Vec3f K, b.contain p →
      (details.Converter_OBB_AABB_convert sqrt
        (details.Converter_AABB_OBB_convert b Transform3f.Identity)
        Transform3f.Identity).contain p) ∧
    Vec3f.norm sqrt (Vec3f.sub
        (details.Converter_OBB_AABB_convert sqrt
          (details.Converter_AABB_OBB_convert b Transform3f.Identity) Transform3f.Identity).max_
        (details.Converter_OBB_AABB_convert sqrt
          (details.Converter_AABB_OBB_convert b Transform3f.Identity) Transform3f.Identity).min_)
      ≤ sqrt 3 * Vec3f.norm sqrt (Vec3f.sub b.max_ b.min_) := by
  obtain ⟨hr0, hrr⟩ := hs _ (squaredNorm_nonneg (Vec3f.sub b.max_ b.min_))
  have hin : ∀ p : Vec3f K, b.contain p →
      (details.Converter_OBB_AABB_convert sqrt
        (details.Converter_AABB_OBB_convert b Transform3f.Identity)
        Transform3f.Identity).contain p := by
    intro p hp
    have h1 := squaredNorm_sub_center_le b p hp
    have h := cube_contains_transform (Transform3f.Identity : Transform3f K)
      identity_isOrthonormal b.center p
      (Vec3f.norm sqrt (Vec3f.sub b.max_ b.min_) * (1 / 2))
      (by unfold Vec3f.norm; linarith) (by unfold Vec3f.norm; nlinarith)
    rw [roundtrip_eq]
    simpa only [identity_transform] using h
  have hmin : b.contain b.min_ := ⟨⟨le_refl _, le_refl _, le_refl _⟩, hb⟩
  have hmax : b.contain b.max_ := ⟨hb, ⟨le_refl _, le_refl _, le_refl _⟩⟩
  refine ⟨(hin _ hmin).1, (hin _ hmax).2, hin, ?_⟩
  rw [roundtrip_eq]
  obtain ⟨h30, h33⟩ := hs 3 (by norm_num)
  obtain ⟨hd0, hdd⟩ := hs _ (squaredNorm_nonneg (Vec3f.sub
    (Vec3f.add b.center (Vec3f.Constant (Vec3f.norm sqrt (Vec3f.sub b.max_ b.min_) * (1 / 2))))
    (Vec3f.sub b.center (Vec3f.Constant (Vec3f.norm sqrt (Vec3f.sub b.max_ b.min_) * (1 / 2))))))
  refine (mul_self_le_mul_self_iff hd0 (mul_nonneg h30 hr0)).2 (le_of_eq ?_)
  simp only [Vec3f.norm] at hdd ⊢
  rw [hdd]
  have e : sqrt 3 * sqrt (Vec3f.sub b.max_ b.min_).squaredNorm
      * (sqrt 3 * sqrt (Vec3f.sub b.max_ b.min_).squaredNorm)
      = (sqrt 3 * sqrt 3) * (sqrt (Vec3f.sub b.max_ b.min_).squaredNorm
          * sqrt (Vec3f.sub b.max_ b.min_).squaredNorm) := by ring
  rw [e, h33, ← hrr]
  simp only [Vec3f.squaredNorm, Vec3f.sub, Vec3f.add, Vec3f.Constant, Vec3f.norm]
  ring

end RoundTrip

/-! ## World AABB of a collision object -/

section WorldAABB

variable {K : Type} [LinearOrderedField K]

theorem isIdentity_iff (M : Matrix3f K) : M.isIdentity = true ↔ M = Matrix3f.Identity := by
  simp only [Matrix3f.isIdentity, decide_eq_true_eq, Matrix3f.Identity]
  constructor
  · rintro ⟨h1, h2, h3, h4, h5, h6, h7, h8, h9⟩
    ext <;> assumption
  · intro h
    rw [h]
    exact ⟨rfl, rfl, rfl, rfl, rfl, rfl, rfl, rfl, rfl⟩

/-- C9: `CollisionObject::computeAABB` takes the translation-only path exactly
when the rotation is the identity: then the world box is the local box moved by
`T`; otherwise it is the cube centred at `t.transform(aabb_center)` with half
side `aabb_radius`. -/
theorem computeAABB_branches (o : CollisionObject K) :
    (o.t.getRotation = Matrix3f.Identity ∧
      o.computeAABB.aabb = translate o.cgeom.aabb_local o.t.getTranslation ∧
      o.computeAABB.aabb.min_ = Vec3f.add o.cgeom.aabb_local.min_ o.t.getTranslation ∧
      o.computeAABB.aabb.max_ = Vec3f.add o.cgeom.aabb_local.max_ o.t.getTranslation) ∨
    (o.t.getRotation ≠ Matrix3f.Identity ∧
      o.computeAABB.aabb.min_ = Vec3f.sub (o.t.transform o.cgeom.aabb_center)
        (Vec3f.Constant o.cgeom.aabb_radius) ∧
      o.computeAABB.aabb.max_ = Vec3f.add (o.t.transform o.cgeom.aabb_center)
        (Vec3f.Constant o.cgeom.aabb_radius)) := by
  by_cases h : o.t.getRotation.isIdentity = true
  · left
    refine ⟨(isIdentity_iff _).1 h, ?_, ?_, ?_⟩ <;>
      simp only [CollisionObject.computeAABB, h, if_true, translate]
  · right
    refine ⟨fun hI => h ((isIdentity_iff _).2 hI), ?_, ?_⟩ <;>
      simp only [CollisionObject.computeAABB, h, if_false, Bool.false_eq_true]

/-- C10: for a geometry whose `computeLocalAABB` stores the centre of
`aabb_local` and the distance from that centre to `aabb_local.min_`, and a
transform `t` with orthonormal rotation, the box computed by
`CollisionObject::computeAABB` contains `t(p)` for every point `p` of
`aabb_local`, in the identity-rotation branch and in the general branch. -/
theorem computeAABB_conservative (sqrt : K → K) (hs : IsSqrt sqrt) (bv : AABB K)
    (g : CollisionGeometry K) (t : Transform3f K) (old : AABB K) (hR : t.R.IsOrthonormal)
    (p : Vec3f K) (hp : bv.contain p) :
    (computeLocalAABB sqrt bv g).aabb_local = bv ∧
    (CollisionObject.computeAABB ⟨computeLocalAABB sqrt bv g, t, old⟩).aabb.contain
      (t.transform p) := by
  refine ⟨rfl, ?_⟩
  by_cases h : t.R.isIdentity = true
  · have hI := (isIdentity_iff _).1 h
    obtain ⟨⟨h1, h2, h3⟩, h4, h5, h6⟩ := hp
    simp only [CollisionObject.computeAABB, Transform3f.getRotation, h, if_true]
    simp only [translate, computeLocalAABB, Transform3f.getTranslation, AABB.contain, Vec3f.le,
      Vec3f.add, Transform3f.transform, Matrix3f.mulVec, hI, Matrix3f.Identity]
    refine ⟨⟨?_, ?_, ?_⟩, ?_, ?_, ?_⟩ <;> linarith
  · obtain ⟨hr0, hrr⟩ := hs _ (squaredNorm_nonneg (Vec3f.sub bv.min_ bv.center))
    have h1 := squaredNorm_sub_center_le bv p hp
    have h2 : 4 * (Vec3f.sub bv.min_ bv.center).squaredNorm
        = (Vec3f.sub bv.max_ bv.min_).squaredNorm := by
      simp only [Vec3f.squaredNorm, Vec3f.sub, AABB.center, Vec3f.add, Vec3f.scale]
      ring
    have hc := cube_contains_transform t hR bv.center p
      (Vec3f.norm sqrt (Vec3f.sub bv.min_ bv.center)) hr0
      (by unfold Vec3f.norm; rw [hrr]; linarith)
    simpa only [CollisionObject.computeAABB, Transform3f.getRotation, h, if_false,
      Bool.false_eq_true, computeLocalAABB] using hc

end WorldAABB

/-! ## Instances of the theorems on sample inputs -/

section Instances

theorem isSqrt_real : IsSqrt Real.sqrt :=
  fun x hx => ⟨Real.sqrt_nonneg x, Real.mul_self_sqrt hx⟩

theorem quarterTurn_isOrthonormal (K : Type) [LinearOrderedField K] :
    (quarterTurn K).R.IsOrthonormal := by
  unfold Matrix3f.IsOrthonormal
  ext <;> norm_num [quarterTurn, Matrix3f.mul, Matrix3f.transpose, Matrix3f.ofCols,
    Matrix3f.mulVec, Matrix3f.col, Matrix3f.Identity]

theorem quarterTurn_determinant (K : Type) [LinearOrderedField K] :
    (quarterTurn K).R.determinant = 1 := by
  norm_num [quarterTurn, Matrix3f.determinant]

theorem sampleBox_valid (K : Type) [LinearOrderedField K] : (sampleBox K).Valid := by
  norm_num [sampleBox, AABB.Valid, Vec3f.le]

theorem sampleBox_contain (K : Type) [LinearOrderedField K] :
    (sampleBox K).contain ⟨1, 1, 1⟩ := by
  norm_num [sampleBox, AABB.contain, Vec3f.le]

theorem convert_AABB_AABB_conservative_witness :
    IsSqrt Real.sqrt ∧ (quarterTurn ℝ).R.IsOrthonormal ∧ (sampleBox ℝ).contain ⟨1, 1, 1⟩ ∧
    (details.Converter_AABB_AABB_convert Real.sqrt (sampleBox ℝ) (quarterTurn ℝ)).contain
      ((quarterTurn ℝ).transform ⟨1, 1, 1⟩) :=
  ⟨isSqrt_real, quarterTurn_isOrthonormal ℝ, sampleBox_contain ℝ,
    (convert_AABB_AABB_conservative Real.sqrt isSqrt_real (sampleBox ℝ) (quarterTurn ℝ)
      (quarterTurn_isOrthonormal ℝ)).2.2 ⟨1, 1, 1⟩ (sampleBox_contain ℝ)⟩

theorem convert_AABB_OBB_exact_witness :
    (sampleBox ℚ).Valid ∧
    (details.Converter_AABB_OBB_convert (sampleBox ℚ) (quarterTurn ℚ)).extent = ⟨1, 2, 3⟩ ∧
    ∀ q : Vec3f ℚ, (details.Converter_AABB_OBB_convert (sampleBox ℚ) (quarterTurn ℚ)).contain q
      ↔ ∃ p : Vec3f ℚ, (sampleBox ℚ).contain p ∧ q = (quarterTurn ℚ).transform p :=
  ⟨sampleBox_valid ℚ,
    by
      rw [(convert_AABB_OBB_exact (sampleBox ℚ) (quarterTurn ℚ) (sampleBox_valid ℚ)).2.1]
      norm_num [sampleBox],
    (convert_AABB_OBB_exact (sampleBox ℚ) (quarterTurn ℚ) (sampleBox_valid ℚ)).2.2.2.2⟩

theorem convert_AABB_RSS_sorted_witness :
    (sampleBox ℚ).Valid ∧
    0 ≤ (details.Converter_AABB_RSS_convert (sampleBox ℚ) (quarterTurn ℚ)).radius ∧
    0 ≤ (details.Converter_AABB_RSS_convert (sampleBox ℚ) (quarterTurn ℚ)).length.1 ∧
    0 ≤ (details.Converter_AABB_RSS_convert (sampleBox ℚ) (quarterTurn ℚ)).length.2 :=
  ⟨sampleBox_valid ℚ,
    (convert_AABB_RSS_sorted (sampleBox ℚ) (quarterTurn ℚ) (sampleBox_valid ℚ)).2.2.2.2.2.2.2⟩

theorem convert_AABB_RSS_right_handed_witness :
    (quarterTurn ℚ).R.IsOrthonormal ∧ (quarterTurn ℚ).R.determinant = 1 ∧
    (details.Converter_AABB_RSS_convert (sampleBox ℚ) (quarterTurn ℚ)).axes.IsOrthonormal ∧
    (details.Converter_AABB_RSS_convert (sampleBox ℚ) (quarterTurn ℚ)).axes.determinant = 1 :=
  ⟨quarterTurn_isOrthonormal ℚ, quarterTurn_determinant ℚ,
    (convert_AABB_RSS_right_handed (sampleBox ℚ) (quarterTurn ℚ) (quarterTurn_isOrthonormal ℚ)
      (quarterTurn_determinant ℚ)).2⟩

theorem roundtrip_AABB_OBB_AABB_witness :
    IsSqrt Real.sqrt ∧ (sampleBox ℝ).Valid ∧
    Vec3f.norm Real.sqrt (Vec3f.sub
        (details.Converter_OBB_AABB_convert Real.sqrt
          (details.Converter_AABB_OBB_convert (sampleBox ℝ) Transform3f.Identity)
          Transform3f.Identity).max_
        (details.Converter_OBB_AABB_convert Real.sqrt
          (details.Converter_AABB_OBB_convert (sampleBox ℝ) Transform3f.Identity)
          Transform3f.Identity).min_)
      ≤ Real.sqrt 3 * Vec3f.norm Real.sqrt (Vec3f.sub (sampleBox ℝ).max_ (sampleBox ℝ).min_) :=
  ⟨isSqrt_real, sampleBox_valid ℝ,
    (roundtrip_AABB_OBB_AABB Real.sqrt isSqrt_real (sampleBox ℝ) (sampleBox_valid ℝ)).2.2.2⟩

theorem computeAABB_conservative_witness :
    IsSqrt Real.sqrt ∧ (quarterTurn ℝ).R.IsOrthonormal ∧ (sampleBox ℝ).contain ⟨1, 1, 1⟩ ∧
    (CollisionObject.computeAABB
      ⟨computeLocalAABB Real.sqrt (sampleBox ℝ) ⟨⟨0, 0, 0⟩, 0, sampleBox ℝ, 1, 1, 0⟩,
        quarterTurn ℝ, sampleBox ℝ⟩).aabb.contain ((quarterTurn ℝ).transform ⟨1, 1, 1⟩) :=
  ⟨isSqrt_real, quarterTurn_isOrthonormal ℝ, sampleBox_contain ℝ,
    (computeAABB_conservative Real.sqrt isSqrt_real (sampleBox ℝ)
      ⟨⟨0, 0, 0⟩, 0, sampleBox ℝ, 1, 1, 0⟩ (quarterTurn ℝ) (sampleBox ℝ)
      (quarterTurn_isOrthonormal ℝ) ⟨1, 1, 1⟩ (sampleBox_contain ℝ)).2⟩

end Instances

/-! ## Mass properties of the closed-form shapes -/

section MassProperties

variable {K : Type} [LinearOrderedField K]

/-- C11: evaluation of `Sphere::computeVolume` at radius `2`: the code returns
`4 * pi * 2 * 2 / 3 = 16 * pi / 3`, which is not the volume
`(4/3) * pi * 2^3 = 32 * pi / 3` of the sphere. -/
theorem sphere_computeVolume_radius_two :
    (0 : ℝ) ≤ 2 ∧
    Sphere.computeVolume Real.pi (⟨2⟩ : Sphere ℝ) = 16 * Real.pi / 3 ∧
    Sphere.computeVolume Real.pi (⟨2⟩ : Sphere ℝ) ≠ 4 / 3 * Real.pi * 2 ^ 3 := by
  have hpi := Real.pi_pos
  refine ⟨by norm_num, ?_, ?_⟩
  · simp only [Sphere.computeVolume]; ring
  · simp only [Sphere.computeVolume]
    intro h
    nlinarith

/-- C12: `Box(x, y, z).computeVolume()` is `x * y * z`, and
`computeMomentofInertia()` is the diagonal matrix with entries
`V * (y^2 + z^2) / 12`, `V * (x^2 + z^2) / 12`, `V * (x^2 + y^2) / 12` for
`V = x * y * z`. -/
theorem box_mass_properties (x y z : K) :
    (Box.create x y z).computeVolume = x * y * z ∧
    (Box.create x y z).computeMomentofInertia
      = ⟨x * y * z * (y ^ 2 + z ^ 2) / 12, 0, 0,
         0, x * y * z * (x ^ 2 + z ^ 2) / 12, 0,
         0, 0, x * y * z * (x ^ 2 + y ^ 2) / 12⟩ := by
  constructor
  · simp only [Box.computeVolume, Box.create, Vec3f.prod]; ring
  · simp only [Box.computeMomentofInertia, Box.computeVolume, Box.create, Vec3f.prod,
      Vec3f.cwiseAbs2, Vec3f.scale, Vec3f.divScalar, Matrix3f.asDiagonal]
    ext <;> norm_num [Vec3f.get] <;> ring

/-- C13: `computeMomentofInertiaRelatedToCOM` is the parallel-axis formula
`C - V * ((c.c) * I - c * c^T)` for every inertia `C` about the origin, centre
of mass `c` and volume `V`; it returns `C` for `c = 0`, whatever `C`, and a
symmetric matrix whenever `C` is symmetric. -/
theorem relatedToCOM_parallel_axis (C : Matrix3f K) (c : Vec3f K) (V : K) :
    computeMomentofInertiaRelatedToCOM C c V
      = Matrix3f.sub C (Matrix3f.scale
          (Matrix3f.sub (Matrix3f.scale Matrix3f.Identity (Vec3f.dot c c)) (Vec3f.outer c c)) V) ∧
    computeMomentofInertiaRelatedToCOM C ⟨0, 0, 0⟩ V = C ∧
    (C.transpose = C →
      (computeMomentofInertiaRelatedToCOM C c V).transpose
        = computeMomentofInertiaRelatedToCOM C c V) := by
  refine ⟨?_, ?_, ?_⟩
  · ext <;>
      simp only [computeMomentofInertiaRelatedToCOM, Matrix3f.sub, Matrix3f.scale,
        Matrix3f.Identity, Vec3f.outer, Vec3f.dot, Vec3f.get] <;>
      norm_num <;> ring
  · ext <;> norm_num [computeMomentofInertiaRelatedToCOM, Vec3f.get]
  · intro hC
    have h01 := congrArg Matrix3f.m01 hC
    have h02 := congrArg Matrix3f.m02 hC
    have h12 := congrArg Matrix3f.m12 hC
    simp only [Matrix3f.transpose] at h01 h02 h12
    ext <;>
      simp only [computeMomentofInertiaRelatedToCOM, Matrix3f.transpose, Vec3f.get] <;>
      norm_num <;>
      first | (rw [h01]; ring) | (rw [h02]; ring) | (rw [h12]; ring)

/-- The formula and the case `c = 0` on a matrix that is not symmetric, and the
symmetry of the result on a symmetric one. -/
theorem relatedToCOM_parallel_axis_witness :
    (computeMomentofInertiaRelatedToCOM (⟨2, 1, 0, 5, 3, 0, 0, 0, 4⟩ : Matrix3f ℚ) ⟨1, 2, 3⟩ 5
      = Matrix3f.sub ⟨2, 1, 0, 5, 3, 0, 0, 0, 4⟩ (Matrix3f.scale
          (Matrix3f.sub (Matrix3f.scale Matrix3f.Identity (Vec3f.dot ⟨1, 2, 3⟩ ⟨1, 2, 3⟩))
            (Vec3f.outer ⟨1, 2, 3⟩ ⟨1, 2, 3⟩)) 5) ∧
      computeMomentofInertiaRelatedToCOM (⟨2, 1, 0, 5, 3, 0, 0, 0, 4⟩ : Matrix3f ℚ) ⟨0, 0, 0⟩ 5
        = ⟨2, 1, 0, 5, 3, 0, 0, 0, 4⟩) ∧
    ((⟨2, 1, 0, 1, 3, 0, 0, 0, 4⟩ : Matrix3f ℚ).transpose = ⟨2, 1, 0, 1, 3, 0, 0, 0, 4⟩ ∧
      (computeMomentofInertiaRelatedToCOM (⟨2, 1, 0, 1, 3, 0, 0, 0, 4⟩ : Matrix3f ℚ)
          ⟨1, 2, 3⟩ 5).transpose
        = computeMomentofInertiaRelatedToCOM (⟨2, 1, 0, 1, 3, 0, 0, 0, 4⟩ : Matrix3f ℚ)
            ⟨1, 2, 3⟩ 5) :=
  ⟨⟨(relatedToCOM_parallel_axis (⟨2, 1, 0, 5, 3, 0, 0, 0, 4⟩ : Matrix3f ℚ) ⟨1, 2, 3⟩ 5).1,
      (relatedToCOM_parallel_axis (⟨2, 1, 0, 5, 3, 0, 0, 0, 4⟩ : Matrix3f ℚ) ⟨1, 2, 3⟩ 5).2.1⟩,
    rfl, (relatedToCOM_parallel_axis (⟨2, 1, 0, 1, 3, 0, 0, 0, 4⟩ : Matrix3f ℚ)
      ⟨1, 2, 3⟩ 5).2.2 rfl⟩

/-- C14: `Cone::computeCOM()` is `(0, 0, -lz / 4)`, and the inertia about the
centre of mass given by `computeMomentofInertiaRelatedToCOM` is the diagonal
matrix with entries `V * (3 * lz^2 / 80 + 3 * r^2 / 20)` twice and
`3 * V * r^2 / 10`, for `V = pi * r^2 * lz / 3`. -/
theorem cone_mass_properties (pi r lz : K) :
    (Cone.create r lz).computeCOM = ⟨0, 0, -lz / 4⟩ ∧
    (Cone.create r lz).computeVolume pi = pi * r ^ 2 * lz / 3 ∧
    computeMomentofInertiaRelatedToCOM ((Cone.create r lz).computeMomentofInertia pi)
        (Cone.create r lz).computeCOM ((Cone.create r lz).computeVolume pi)
      = ⟨pi * r ^ 2 * lz / 3 * (3 * lz ^ 2 / 80 + 3 * r ^ 2 / 20), 0, 0,
         0, pi * r ^ 2 * lz / 3 * (3 * lz ^ 2 / 80 + 3 * r ^ 2 / 20), 0,
         0, 0, 3 * (pi * r ^ 2 * lz / 3) * r ^ 2 / 10⟩ := by
  refine ⟨?_, ?_, ?_⟩
  · simp only [Cone.computeCOM, Cone.create]
    ext <;> simp only []
    ring
  · simp only [Cone.computeVolume, Cone.create]; ring
  · simp only [computeMomentofInertiaRelatedToCOM, Cone.computeMomentofInertia,
      Cone.computeCOM, Cone.computeVolume, Cone.create]
    ext <;> norm_num [Vec3f.get] <;> ring

end MassProperties

/-! ## Half spaces and planes -/

section Planes

variable {K : Type} [LinearOrderedField K]

theorem squaredNorm_pos {v : Vec3f K} (hv : v ≠ ⟨0, 0, 0⟩) : 0 < v.squaredNorm := by
  rcases lt_or_eq_of_le (squaredNorm_nonneg v) with h | h
  · exact h
  · exfalso
    apply hv
    simp only [Vec3f.squaredNorm] at h
    have hx : v.x = 0 := by nlinarith [mul_self_nonneg v.x, mul_self_nonneg v.y, mul_self_nonneg v.z]
    have hy : v.y = 0 := by nlinarith [mul_self_nonneg v.x, mul_self_nonneg v.y, mul_self_nonneg v.z]
    have hz : v.z = 0 := by nlinarith [mul_self_nonneg v.x, mul_self_nonneg v.y, mul_self_nonneg v.z]
    ext <;> assumption

/-- The norm of a non-zero vector is positive. -/
theorem norm_pos_of_ne {sqrt : K → K} (hs : IsSqrt sqrt) {v : Vec3f K} (hv : v ≠ ⟨0, 0, 0⟩) :
    0 < Vec3f.norm sqrt v := by
  obtain ⟨h0, h1⟩ := hs _ (squaredNorm_nonneg v)
  have hp := squaredNorm_pos hv
  unfold Vec3f.norm
  rcases lt_or_eq_of_le h0 with h | h
  · exact h
  · rw [← h] at h1
    linarith

theorem sqrt_mul_self {sqrt : K → K} (hs : IsSqrt sqrt) (a : K) : sqrt (a * a) = |a| := by
  obtain ⟨h0, h1⟩ := hs _ (mul_self_nonneg a)
  rcases mul_self_eq_mul_self_iff.1 h1 with h | h
  · rw [h] at h0 ⊢
    exact (abs_of_nonneg h0).symm
  · rw [h] at h0 ⊢
    have : a ≤ 0 := by linarith
    exact (abs_of_nonpos this).symm

theorem abs_le_sqrt {sqrt : K → K} (hs : IsSqrt sqrt) (a X : K) (h0 : 0 ≤ X)
    (h : a * a ≤ X) : |a| ≤ sqrt X := by
  obtain ⟨g0, g1⟩ := hs _ h0
  exact abs_le.2 (abs_le_of_sq_le_sq' (by rw [sq, sq, g1]; exact h) g0)

/-- The Cauchy-Schwarz inequality for the dot product. -/
theorem dot_mul_self_le (a b : Vec3f K) :
    Vec3f.dot a b * Vec3f.dot a b ≤ a.squaredNorm * b.squaredNorm := by
  simp only [Vec3f.dot, Vec3f.squaredNorm]
  nlinarith [mul_self_nonneg (a.x * b.y - a.y * b.x), mul_self_nonneg (a.x * b.z - a.z * b.x),
    mul_self_nonneg (a.y * b.z - a.z * b.y)]

/-- The normal stored by `unitNormalTest` for a non-zero normal has squared
norm one. -/
theorem scaled_squaredNorm {sqrt : K → K} (hs : IsSqrt sqrt) {n0 : Vec3f K}
    (hn : n0 ≠ ⟨0, 0, 0⟩) :
    (Vec3f.scale n0 (1 / Vec3f.norm sqrt n0)).squaredNorm = 1 := by
  have hl := norm_pos_of_ne hs hn
  obtain ⟨-, h1⟩ := hs _ (squaredNorm_nonneg n0)
  have e : (Vec3f.scale n0 (1 / Vec3f.norm sqrt n0)).squaredNorm
      = n0.squaredNorm / (Vec3f.norm sqrt n0 * Vec3f.norm sqrt n0) := by
    simp only [Vec3f.scale, Vec3f.squaredNorm]
    field_simp
  rw [e]
  unfold Vec3f.norm
  rw [h1]
  exact div_self (squaredNorm_pos hn).ne'

theorem halfspace_create_eq {sqrt : K → K} (hs : IsSqrt sqrt) {n0 : Vec3f K}
    (hn : n0 ≠ ⟨0, 0, 0⟩) (d0 : K) :
    Halfspace.create sqrt n0 d0
      = ⟨Vec3f.scale n0 (1 / Vec3f.norm sqrt n0), d0 * (1 / Vec3f.norm sqrt n0)⟩ := by
  simp only [Halfspace.create, Halfspace.unitNormalTest, gt_iff_lt, norm_pos_of_ne hs hn, if_true]

theorem plane_create_eq {sqrt : K → K} (hs : IsSqrt sqrt) {n0 : Vec3f K}
    (hn : n0 ≠ ⟨0, 0, 0⟩) (d0 : K) :
    Plane.create sqrt n0 d0
      = ⟨Vec3f.scale n0 (1 / Vec3f.norm sqrt n0), d0 * (1 / Vec3f.norm sqrt n0)⟩ := by
  simp only [Plane.create, Plane.unitNormalTest, gt_iff_lt, norm_pos_of_ne hs hn, if_true]

/-- C20: for a plane constructed from a non-zero normal, `distance(p)` is
`|signedDistance(p)| >= 0`, it is attained at a point of the plane, no point of
the plane is nearer to `p`, and it is zero iff `p` lies on the plane. -/
theorem plane_distance_euclidean (sqrt : K → K) (hs : IsSqrt sqrt) (n0 : Vec3f K) (d0 : K)
    (hn : n0 ≠ ⟨0, 0, 0⟩) (p : Vec3f K) :
    (Plane.create sqrt n0 d0).distance p = |(Plane.create sqrt n0 d0).signedDistance p| ∧
    0 ≤ (Plane.create sqrt n0 d0).distance p ∧
    (∃ q : Vec3f K, Vec3f.dot (Plane.create sqrt n0 d0).n q = (Plane.create sqrt n0 d0).d ∧
      Vec3f.norm sqrt (Vec3f.sub p q) = (Plane.create sqrt n0 d0).distance p) ∧
    (∀ q : Vec3f K, Vec3f.dot (Plane.create sqrt n0 d0).n q = (Plane.create sqrt n0 d0).d →
      (Plane.create sqrt n0 d0).distance p ≤ Vec3f.norm sqrt (Vec3f.sub p q)) ∧
    ((Plane.create sqrt n0 d0).distance p = 0
      ↔ Vec3f.dot (Plane.create sqrt n0 d0).n p = (Plane.create sqrt n0 d0).d) := by
  have hu : (Plane.create sqrt n0 d0).n.squaredNorm = 1 := by
    rw [plane_create_eq hs hn]
    exact scaled_squaredNorm hs hn
  generalize Plane.create sqrt n0 d0 = P at hu ⊢
  refine ⟨rfl, abs_nonneg _, ?_, ?_, ?_⟩
  · refine ⟨Vec3f.sub p (Vec3f.scale P.n (Vec3f.dot P.n p - P.d)), ?_, ?_⟩
    · simp only [Vec3f.squaredNorm] at hu
      simp only [Vec3f.dot, Vec3f.sub, Vec3f.scale]
      linear_combination (-(P.n.x * p.x + P.n.y * p.y + P.n.z * p.z - P.d)) * hu
    · have e : (Vec3f.sub p (Vec3f.sub p (Vec3f.scale P.n (Vec3f.dot P.n p - P.d)))).squaredNorm
          = (Vec3f.dot P.n p - P.d) * (Vec3f.dot P.n p - P.d) := by
        simp only [Vec3f.squaredNorm] at hu
        simp only [Vec3f.squaredNorm, Vec3f.sub, Vec3f.scale]
        linear_combination ((Vec3f.dot P.n p - P.d) * (Vec3f.dot P.n p - P.d)) * hu
      unfold Vec3f.norm Plane.distance
      rw [e]
      exact sqrt_mul_self hs _
  · intro q hq
    unfold Vec3f.norm Plane.distance
    apply abs_le_sqrt hs _ _ (squaredNorm_nonneg _)
    have hcs := dot_mul_self_le P.n (Vec3f.sub p q)
    rw [hu, one_mul] at hcs
    have e : Vec3f.dot P.n (Vec3f.sub p q) = Vec3f.dot P.n p - P.d := by
      rw [← hq]
      simp only [Vec3f.dot, Vec3f.sub]
      ring
    rwa [e] at hcs
  · unfold Plane.distance
    rw [abs_eq_zero, sub_eq_zero]

end Planes

/-! ## Centre of a convex polytope -/

section ConvexCenter

variable {K : Type} [LinearOrderedField K]

theorem readAt_natCast {α : Type} (a : List α) (j : Nat) : readAt a (j : Int) = a[j]? := by
  simp [readAt]

/-- The summation loop over the first `k` points from position `j` on. -/
theorem forLoop_sum (pts : List (Vec3f K)) :
    ∀ (k j : Nat) (acc : Vec3f K), j + k ≤ pts.length →
      forLoop (fun i s => (readAt pts i).map (fun p => Vec3f.add s p)) k j acc
        = some (((pts.drop j).take k).foldl Vec3f.add acc) := by
  intro k
  induction k with
  | zero => intro j acc _; simp [forLoop]
  | succ k ih =>
    intro j acc h
    have hj : j < pts.length := by omega
    have hd : pts.drop j = pts[j] :: pts.drop (j + 1) := List.drop_eq_getElem_cons hj
    simp only [readAt_natCast] at ih
    simp only [forLoop, readAt_natCast, List.getElem?_eq_getElem hj, Option.map_some',
      Option.some_bind]
    rw [ih (j + 1) _ (by omega), hd, List.take_succ_cons, List.foldl_cons]

theorem foldl_add_x (l : List (Vec3f K)) :
    ∀ acc : Vec3f K, (l.foldl Vec3f.add acc) = ⟨acc.x + (l.map Vec3f.x).sum,
      acc.y + (l.map Vec3f.y).sum, acc.z + (l.map Vec3f.z).sum⟩ := by
  induction l with
  | nil => intro acc; simp
  | cons a l ih =>
    intro acc
    rw [List.foldl_cons, ih]
    ext <;> simp [Vec3f.add, add_assoc]

theorem zipWith_replicate_sum (f : Vec3f K → K) (c : K) (l : List (Vec3f K)) :
    (List.zipWith (fun a p => a * f p) (List.replicate l.length c) l).sum
      = c * (l.map f).sum := by
  induction l with
  | nil => simp
  | cons a l ih =>
    simp only [List.length_cons, List.replicate_succ, List.zipWith_cons_cons, List.sum_cons,
      List.map_cons, ih]
    ring

/-- The arithmetic mean of at least one point is in the convex hull of the
points. -/
theorem meanPoint_inConvexHull (pts : List (Vec3f K)) (hn : 1 ≤ pts.length) :
    InConvexHull pts (meanPoint pts) := by
  have hpos : (0 : K) < (pts.length : K) := by exact_mod_cast hn
  refine ⟨List.replicate pts.length (1 / (pts.length : K)), by simp, ?_, ?_, ?_⟩
  · intro a ha
    rw [List.eq_of_mem_replicate ha]
    exact (one_div_pos.2 hpos).le
  · rw [List.sum_replicate, nsmul_eq_mul]
    field_simp
  · simp only [zipWith_replicate_sum, meanPoint]
    ext <;> simp only [] <;> ring

/-- C18: a `Convex` constructed from `num_points >= 1` points has as `center`
the arithmetic mean of the points, which belongs to the convex hull of the
points; `ConvexBase::computeCenter` computes the same point. -/
theorem convex_center_in_hull (pts : List (Vec3f K)) (polygons : List Int)
    (num_polygons : Int) (hn : 1 ≤ pts.length) :
    ∃ c : Convex K, Convex.create pts (pts.length : Int) polygons num_polygons = some c ∧
      c.points = pts ∧ c.center = meanPoint pts ∧ InConvexHull pts c.center ∧
      ConvexBase_computeCenter pts (pts.length : Int) = some c.center := by
  have hsum := forLoop_sum pts pts.length 0 ⟨0, 0, 0⟩ (by omega)
  simp only [List.drop_zero, List.take_length] at hsum
  rw [foldl_add_x] at hsum
  have hc : Vec3f.scale (⟨0 + (pts.map Vec3f.x).sum, 0 + (pts.map Vec3f.y).sum,
      0 + (pts.map Vec3f.z).sum⟩ : Vec3f K) (1 / (((pts.length : Nat) : Int) : K))
      = meanPoint pts := by
    simp only [Vec3f.scale, meanPoint, Int.cast_natCast]
    ext <;> simp only [] <;> ring
  refine ⟨⟨polygons, pts, (pts.length : Int), num_polygons, meanPoint pts⟩, ?_, rfl, rfl,
    meanPoint_inConvexHull pts hn, ?_⟩
  · simp only [Convex.create, Int.toNat_ofNat, hsum, Option.map_some', hc]
  · simp only [ConvexBase_computeCenter, Int.toNat_ofNat, hsum, Option.map_some',
      Vec3f.divScalar, meanPoint, Int.cast_natCast, zero_add]

end ConvexCenter

/-! ## Mass properties of a convex polytope -/

section ConvexMass

variable {K : Type} [LinearOrderedField K]

/-- The centre and the edges of a triangle stored at offset `pos` of the
polygon buffer. -/
theorem tri_reads (c : Convex K) (pos i0 i1 i2 : Int) (q0 q1 q2 : Vec3f K)
    (h0 : readAt c.polygons (pos + 1) = some i0) (h1 : readAt c.polygons (pos + 2) = some i1)
    (h2 : readAt c.polygons (pos + 3) = some i2)
    (g0 : readAt c.points i0 = some q0) (g1 : readAt c.points i1 = some q1)
    (g2 : readAt c.points i2 = some q2) :
    c.planeCenter pos 3 = some (center3 q0 q1 q2) ∧
    c.edgePoints pos 3 0 = some (q0, q1) ∧ c.edgePoints pos 3 (0 + 1) = some (q1, q2) ∧
    c.edgePoints pos 3 (0 + 1 + 1) = some (q2, q0) := by
  have t : (3 : Int).toNat = 3 := rfl
  have e0 : pos + 1 + ((0 : Nat) : Int) = pos + 1 := by omega
  have e1 : pos + 1 + ((0 + 1 : Nat) : Int) = pos + 2 := by omega
  have e2 : pos + 1 + ((0 + 1 + 1 : Nat) : Int) = pos + 3 := by omega
  have m0 : pos + 1 + (((0 : Nat) : Int) + 1) % 3 = pos + 2 := by omega
  have m1 : pos + 1 + (((0 + 1 : Nat) : Int) + 1) % 3 = pos + 3 := by omega
  have m2 : pos + 1 + (((0 + 1 + 1 : Nat) : Int) + 1) % 3 = pos + 1 := by omega
  refine ⟨?_, ?_, ?_, ?_⟩
  · simp only [Convex.planeCenter, t, forLoop, e0, e1, e2, h0, h1, h2, g0, g1, g2,
      Option.some_bind, Option.map_some', Int.cast_ofNat, center3]
  · simp only [Convex.edgePoints, e0, m0, h0, h1, g0, g1, Option.some_bind, Option.map_some']
  · simp only [Convex.edgePoints, e1, m1, h1, h2, g1, g2, Option.some_bind, Option.map_some']
  · simp only [Convex.edgePoints, e2, m2, h2, h0, g2, g0, Option.some_bind, Option.map_some']

/-- The centre and the edges of a quadrilateral stored at offset `pos` of the
polygon buffer. -/
theorem quad_reads (c : Convex K) (pos i0 i1 i2 i3 : Int) (q0 q1 q2 q3 : Vec3f K)
    (h0 : readAt c.polygons (pos + 1) = some i0) (h1 : readAt c.polygons (pos + 2) = some i1)
    (h2 : readAt c.polygons (pos + 3) = some i2) (h3 : readAt c.polygons (pos + 4) = some i3)
    (g0 : readAt c.points i0 = some q0) (g1 : readAt c.points i1 = some q1)
    (g2 : readAt c.points i2 = some q2) (g3 : readAt c.points i3 = some q3) :
    c.planeCenter pos 4 = some (center4 q0 q1 q2 q3) ∧
    c.edgePoints pos 4 0 = some (q0, q1) ∧ c.edgePoints pos 4 (0 + 1) = some (q1, q2) ∧
    c.edgePoints pos 4 (0 + 1 + 1) = some (q2, q3) ∧
    c.edgePoints pos 4 (0 + 1 + 1 + 1) = some (q3, q0) := by
  have t : (4 : Int).toNat = 4 := rfl
  have e0 : pos + 1 + ((0 : Nat) : Int) = pos + 1 := by omega
  have e1 : pos + 1 + ((0 + 1 : Nat) : Int) = pos + 2 := by omega
  have e2 : pos + 1 + ((0 + 1 + 1 : Nat) : Int) = pos + 3 := by omega
  have e3 : pos + 1 + ((0 + 1 + 1 + 1 : Nat) : Int) = pos + 4 := by omega
  have m0 : pos + 1 + (((0 : Nat) : Int) + 1) % 4 = pos + 2 := by omega
  have m1 : pos + 1 + (((0 + 1 : Nat) : Int) + 1) % 4 = pos + 3 := by omega
  have m2 : pos + 1 + (((0 + 1 + 1 : Nat) : Int) + 1) % 4 = pos + 4 := by omega
  have m3 : pos + 1 + (((0 + 1 + 1 + 1 : Nat) : Int) + 1) % 4 = pos + 1 := by omega
  refine ⟨?_, ?_, ?_, ?_, ?_⟩
  · simp only [Convex.planeCenter, t, forLoop, e0, e1, e2, e3, h0, h1, h2, h3, g0, g1, g2, g3,
      Option.some_bind, Option.map_some', Int.cast_ofNat, center4]
  · simp only [Convex.edgePoints, e0, m0, h0, h1, g0, g1, Option.some_bind, Option.map_some']
  · simp only [Convex.edgePoints, e1, m1, h1, h2, g1, g2, Option.some_bind, Option.map_some']
  · simp only [Convex.edgePoints, e2, m2, h2, h3, g2, g3, Option.some_bind, Option.map_some']
  · simp only [Convex.edgePoints, e3, m3, h3, h0, g3, g0, Option.some_bind, Option.map_some']

/-- The pass of the outer loop of `computeVolume` over a triangle. -/
theorem volumeFace_tri (c : Convex K) (pos pos1 i0 i1 i2 : Int) (q0 q1 q2 : Vec3f K)
    (hn : readAt c.polygons pos = some 3) (hpos : pos + (3 + 1) = pos1)
    (h0 : readAt c.polygons (pos + 1) = some i0) (h1 : readAt c.polygons (pos + 2) = some i1)
    (h2 : readAt c.polygons (pos + 3) = some i2)
    (g0 : readAt c.points i0 = some q0) (g1 : readAt c.points i1 = some q1)
    (g2 : readAt c.points i2 = some q2) (vol : K) :
    c.volumeFace (pos, vol)
      = some (pos1, vol + sixVol q0 q1 (center3 q0 q1 q2) + sixVol q1 q2 (center3 q0 q1 q2)
          + sixVol q2 q0 (center3 q0 q1 q2)) := by
  obtain ⟨hc, a0, a1, a2⟩ := tri_reads c pos i0 i1 i2 q0 q1 q2 h0 h1 h2 g0 g1 g2
  have t : (3 : Int).toNat = 3 := rfl
  simp only [Convex.volumeFace, hn, hc, t, forLoop, a0, a1, a2, Option.some_bind,
    Option.map_some', hpos, sixVol]

/-- The pass of the outer loop of `computeCOM` over a triangle. -/
theorem comFace_tri (c : Convex K) (pos pos1 i0 i1 i2 : Int) (q0 q1 q2 : Vec3f K)
    (hn : readAt c.polygons pos = some 3) (hpos : pos + (3 + 1) = pos1)
    (h0 : readAt c.polygons (pos + 1) = some i0) (h1 : readAt c.polygons (pos + 2) = some i1)
    (h2 : readAt c.polygons (pos + 3) = some i2)
    (g0 : readAt c.points i0 = some q0) (g1 : readAt c.points i1 = some q1)
    (g2 : readAt c.points i2 = some q2) (com : Vec3f K) (vol : K) :
    c.comFace (pos, com, vol)
      = some (pos1,
          Vec3f.add (Vec3f.add (Vec3f.add com
            (Vec3f.scale (Vec3f.add (Vec3f.add q0 q1) (center3 q0 q1 q2))
              (sixVol q0 q1 (center3 q0 q1 q2))))
            (Vec3f.scale (Vec3f.add (Vec3f.add q1 q2) (center3 q0 q1 q2))
              (sixVol q1 q2 (center3 q0 q1 q2))))
            (Vec3f.scale (Vec3f.add (Vec3f.add q2 q0) (center3 q0 q1 q2))
              (sixVol q2 q0 (center3 q0 q1 q2))),
          vol + sixVol q0 q1 (center3 q0 q1 q2) + sixVol q1 q2 (center3 q0 q1 q2)
            + sixVol q2 q0 (center3 q0 q1 q2)) := by
  obtain ⟨hc, a0, a1, a2⟩ := tri_reads c pos i0 i1 i2 q0 q1 q2 h0 h1 h2 g0 g1 g2
  have t : (3 : Int).toNat = 3 := rfl
  simp only [Convex.comFace, hn, hc, t, forLoop, a0, a1, a2, Option.some_bind,
    Option.map_some', hpos, sixVol]

/-- The pass of the outer loop of `computeVolume` over a quadrilateral. -/
theorem volumeFace_quad (c : Convex K) (pos pos1 i0 i1 i2 i3 : Int) (q0 q1 q2 q3 : Vec3f K)
    (hn : readAt c.polygons pos = some 4) (hpos : pos + (4 + 1) = pos1)
    (h0 : readAt c.polygons (pos + 1) = some i0) (h1 : readAt c.polygons (pos + 2) = some i1)
    (h2 : readAt c.polygons (pos + 3) = some i2) (h3 : readAt c.polygons (pos + 4) = some i3)
    (g0 : readAt c.points i0 = some q0) (g1 : readAt c.points i1 = some q1)
    (g2 : readAt c.points i2 = some q2) (g3 : readAt c.points i3 = some q3) (vol : K) :
    c.volumeFace (pos, vol)
      = some (pos1, vol + sixVol q0 q1 (center4 q0 q1 q2 q3)
          + sixVol q1 q2 (center4 q0 q1 q2 q3) + sixVol q2 q3 (center4 q0 q1 q2 q3)
          + sixVol q3 q0 (center4 q0 q1 q2 q3)) := by
  obtain ⟨hc, a0, a1, a2, a3⟩ :=
    quad_reads c pos i0 i1 i2 i3 q0 q1 q2 q3 h0 h1 h2 h3 g0 g1 g2 g3
  have t : (4 : Int).toNat = 4 := rfl
  simp only [Convex.volumeFace, hn, hc, t, forLoop, a0, a1, a2, a3, Option.some_bind,
    Option.map_some', hpos, sixVol]

/-- The pass of the outer loop of `computeMomentofInertia` over a
quadrilateral. -/
theorem inertiaFace_quad (c : Convex K) (pos pos1 i0 i1 i2 i3 : Int) (q0 q1 q2 q3 : Vec3f K)
    (hn : readAt c.polygons pos = some 4) (hpos : pos + (4 + 1) = pos1)
    (h0 : readAt c.polygons (pos + 1) = some i0) (h1 : readAt c.polygons (pos + 2) = some i1)
    (h2 : readAt c.polygons (pos + 3) = some i2) (h3 : readAt c.polygons (pos + 4) = some i3)
    (g0 : readAt c.points i0 = some q0) (g1 : readAt c.points i1 = some q1)
    (g2 : readAt c.points i2 = some q2) (g3 : readAt c.points i3 = some q3)
    (C : Matrix3f K) :
    c.inertiaFace (pos, C) = some (pos1, Matrix3f.add C (quadCovariance q0 q1 q2 q3)) := by
  obtain ⟨hc, a0, a1, a2, a3⟩ :=
    quad_reads c pos i0 i1 i2 i3 q0 q1 q2 q3 h0 h1 h2 h3 g0 g1 g2 g3
  have t : (4 : Int).toNat = 4 := rfl
  simp only [Convex.inertiaFace, hn, hc, t, forLoop, a0, a1, a2, a3, Option.some_bind,
    Option.map_some', hpos, quadCovariance]
  congr 2
  ext <;> simp only [Matrix3f.add] <;> ring

theorem divScalar_eq_of_scale (v w : Vec3f K) (d : K) (hd : d ≠ 0)
    (h : v = Vec3f.scale w d) : Vec3f.divScalar v d = w := by
  rw [h]
  ext <;> simp only [Vec3f.divScalar, Vec3f.scale] <;> field_simp

/-- C15: for the tetrahedron `p0, p1, p2, p3` encoded with the polygon buffer
`[3,0,2,1, 3,0,1,3, 3,0,3,2, 3,1,2,3]`, wherever it lies relative to the
origin, `Convex::computeVolume` returns `det(p1-p0, p2-p0, p3-p0) / 6`. -/
theorem convex_tetrahedron_volume (p0 p1 p2 p3 : Vec3f K) :
    (tetraConvex p0 p1 p2 p3).computeVolume
      = some ((Matrix3f.ofCols (Vec3f.sub p1 p0) (Vec3f.sub p2 p0)
          (Vec3f.sub p3 p0)).determinant / 6) := by
  have f0 := volumeFace_tri (tetraConvex p0 p1 p2 p3) 0 4 0 2 1 p0 p2 p1
    rfl rfl rfl rfl rfl rfl rfl rfl
  have f1 := volumeFace_tri (tetraConvex p0 p1 p2 p3) 4 8 0 1 3 p0 p1 p3
    rfl rfl rfl rfl rfl rfl rfl rfl
  have f2 := volumeFace_tri (tetraConvex p0 p1 p2 p3) 8 12 0 3 2 p0 p3 p2
    rfl rfl rfl rfl rfl rfl rfl rfl
  have f3 := volumeFace_tri (tetraConvex p0 p1 p2 p3) 12 16 1 2 3 p1 p2 p3
    rfl rfl rfl rfl rfl rfl rfl rfl
  have t : (tetraConvex p0 p1 p2 p3).num_polygons.toNat = 4 := rfl
  simp only [Convex.computeVolume, t, forLoop, f0, f1, f2, f3, Option.some_bind,
    Option.map_some']
  congr 1
  simp only [sixVol, center3, Vec3f.dot, Vec3f.cross, Vec3f.add, Vec3f.scale, Vec3f.sub,
    Matrix3f.determinant, Matrix3f.ofCols]
  ring

/-- C16: for the non-degenerate tetrahedron `p0, p1, p2, p3`
(`det(p1-p0, p2-p0, p3-p0) > 0`) encoded with the polygon buffer
`[3,0,2,1, 3,0,1,3, 3,0,3,2, 3,1,2,3]`, wherever it lies relative to the
origin, `Convex::computeCOM` returns the centroid `(p0 + p1 + p2 + p3) / 4`. -/
theorem convex_tetrahedron_com (p0 p1 p2 p3 : Vec3f K)
    (hdet : 0 < (Matrix3f.ofCols (Vec3f.sub p1 p0) (Vec3f.sub p2 p0)
      (Vec3f.sub p3 p0)).determinant) :
    (tetraConvex p0 p1 p2 p3).computeCOM
      = some (Vec3f.divScalar (Vec3f.add (Vec3f.add (Vec3f.add p0 p1) p2) p3) 4) := by
  have f0 := comFace_tri (tetraConvex p0 p1 p2 p3) 0 4 0 2 1 p0 p2 p1
    rfl rfl rfl rfl rfl rfl rfl rfl
  have f1 := comFace_tri (tetraConvex p0 p1 p2 p3) 4 8 0 1 3 p0 p1 p3
    rfl rfl rfl rfl rfl rfl rfl rfl
  have f2 := comFace_tri (tetraConvex p0 p1 p2 p3) 8 12 0 3 2 p0 p3 p2
    rfl rfl rfl rfl rfl rfl rfl rfl
  have f3 := comFace_tri (tetraConvex p0 p1 p2 p3) 12 16 1 2 3 p1 p2 p3
    rfl rfl rfl rfl rfl rfl rfl rfl
  have t : (tetraConvex p0 p1 p2 p3).num_polygons.toNat = 4 := rfl
  simp only [Convex.computeCOM, t, forLoop, f0, f1, f2, f3, Option.some_bind,
    Option.map_some']
  congr 1
  apply divScalar_eq_of_scale
  · intro h
    apply hdet.ne'
    simp only [sixVol, center3, Vec3f.dot, Vec3f.cross, Vec3f.add, Vec3f.scale, Vec3f.sub,
      Matrix3f.determinant, Matrix3f.ofCols] at h ⊢
    linear_combination (1 / 4 : K) * h
  · ext <;>
      simp only [sixVol, center3, Vec3f.dot, Vec3f.cross, Vec3f.add, Vec3f.scale, Vec3f.sub,
        Vec3f.divScalar] <;>
      ring

/-- The volume that `Convex::computeVolume` returns for the box given by its
corners and faces. -/
theorem boxConvex_volume (hx hy hz : K) :
    (boxConvex hx hy hz).computeVolume
      = some (Box.create (2 * hx) (2 * hy) (2 * hz)).computeVolume := by
  have f0 := volumeFace_quad (boxConvex hx hy hz) 0 5 1 3 7 5
    ⟨hx, -hy, -hz⟩ ⟨hx, hy, -hz⟩ ⟨hx, hy, hz⟩ ⟨hx, -hy, hz⟩
    rfl rfl rfl rfl rfl rfl rfl rfl rfl rfl
  have f1 := volumeFace_quad (boxConvex hx hy hz) 5 10 0 4 6 2
    ⟨-hx, -hy, -hz⟩ ⟨-hx, -hy, hz⟩ ⟨-hx, hy, hz⟩ ⟨-hx, hy, -hz⟩
    rfl rfl rfl rfl rfl rfl rfl rfl rfl rfl
  have f2 := volumeFace_quad (boxConvex hx hy hz) 10 15 2 6 7 3
    ⟨-hx, hy, -hz⟩ ⟨-hx, hy, hz⟩ ⟨hx, hy, hz⟩ ⟨hx, hy, -hz⟩
    rfl rfl rfl rfl rfl rfl rfl rfl rfl rfl
  have f3 := volumeFace_quad (boxConvex hx hy hz) 15 20 0 1 5 4
    ⟨-hx, -hy, -hz⟩ ⟨hx, -hy, -hz⟩ ⟨hx, -hy, hz⟩ ⟨-hx, -hy, hz⟩
    rfl rfl rfl rfl rfl rfl rfl rfl rfl rfl
  have f4 := volumeFace_quad (boxConvex hx hy hz) 20 25 4 5 7 6
    ⟨-hx, -hy, hz⟩ ⟨hx, -hy, hz⟩ ⟨hx, hy, hz⟩ ⟨-hx, hy, hz⟩
    rfl rfl rfl rfl rfl rfl rfl rfl rfl rfl
  have f5 := volumeFace_quad (boxConvex hx hy hz) 25 30 0 2 3 1
    ⟨-hx, -hy, -hz⟩ ⟨-hx, hy, -hz⟩ ⟨hx, hy, -hz⟩ ⟨hx, -hy, -hz⟩
    rfl rfl rfl rfl rfl rfl rfl rfl rfl rfl
  have t : (boxConvex hx hy hz).num_polygons.toNat = 6 := rfl
  simp only [Convex.computeVolume, t, forLoop, f0, f1, f2, f3, f4, f5, Option.some_bind,
    Option.map_some']
  congr 1
  simp only [sixVol, center4, Vec3f.dot, Vec3f.cross, Vec3f.add, Vec3f.scale,
    Box.computeVolume, Box.create, Vec3f.prod]
  ring

/-- The entries of a matrix product. -/
theorem mul_entries (A B : Matrix3f K) :
    Matrix3f.mul A B
      = ⟨A.m00 * B.m00 + A.m01 * B.m10 + A.m02 * B.m20,
         A.m00 * B.m01 + A.m01 * B.m11 + A.m02 * B.m21,
         A.m00 * B.m02 + A.m01 * B.m12 + A.m02 * B.m22,
         A.m10 * B.m00 + A.m11 * B.m10 + A.m12 * B.m20,
         A.m10 * B.m01 + A.m11 * B.m11 + A.m12 * B.m21,
         A.m10 * B.m02 + A.m11 * B.m12 + A.m12 * B.m22,
         A.m20 * B.m00 + A.m21 * B.m10 + A.m22 * B.m20,
         A.m20 * B.m01 + A.m21 * B.m11 + A.m22 * B.m21,
         A.m20 * B.m02 + A.m21 * B.m12 + A.m22 * B.m22⟩ := by
  simp [Matrix3f.mul, Matrix3f.ofCols, Matrix3f.mulVec, Matrix3f.col]

/-- The term of an edge in closed form: entry `(i, j)` of
`A^T * C_canonical * A` is `(s_i * s_j + sum_k v_k[i] * v_k[j]) / 120` with
`s = v1 + v2 + v3`. -/
theorem edgeCovariance_entries (v1 v2 v3 : Vec3f K) :
    Convex.edgeCovariance v1 v2 v3
      = Matrix3f.scale
          ⟨((v1.x + v2.x + v3.x) * (v1.x + v2.x + v3.x)
              + (v1.x * v1.x + v2.x * v2.x + v3.x * v3.x)) / 120,
           ((v1.x + v2.x + v3.x) * (v1.y + v2.y + v3.y)
              + (v1.x * v1.y + v2.x * v2.y + v3.x * v3.y)) / 120,
           ((v1.x + v2.x + v3.x) * (v1.z + v2.z + v3.z)
              + (v1.x * v1.z + v2.x * v2.z + v3.x * v3.z)) / 120,
           ((v1.y + v2.y + v3.y) * (v1.x + v2.x + v3.x)
              + (v1.y * v1.x + v2.y * v2.x + v3.y * v3.x)) / 120,
           ((v1.y + v2.y + v3.y) * (v1.y + v2.y + v3.y)
              + (v1.y * v1.y + v2.y * v2.y + v3.y * v3.y)) / 120,
           ((v1.y + v2.y + v3.y) * (v1.z + v2.z + v3.z)
              + (v1.y * v1.z + v2.y * v2.z + v3.y * v3.z)) / 120,
           ((v1.z + v2.z + v3.z) * (v1.x + v2.x + v3.x)
              + (v1.z * v1.x + v2.z * v2.x + v3.z * v3.x)) / 120,
           ((v1.z + v2.z + v3.z) * (v1.y + v2.y + v3.y)
              + (v1.z * v1.y + v2.z * v2.y + v3.z * v3.y)) / 120,
           ((v1.z + v2.z + v3.z) * (v1.z + v2.z + v3.z)
              + (v1.z * v1.z + v2.z * v2.z + v3.z * v3.z)) / 120⟩
          (sixVol v1 v2 v3) := by
  simp only [Convex.edgeCovariance, mul_entries, Matrix3f.transpose, Matrix3f.ofRows,
    Convex.C_canonical, sixVol, Matrix3f.scale]
  ext <;> simp only [] <;> ring

/-- The covariance term of the face `xPos` of the box: that of the pyramid from
the origin to the face. -/
theorem quadCovariance_xPos (hx hy hz : K) :
    quadCovariance (⟨hx, -hy, -hz⟩ : Vec3f K) ⟨hx, hy, -hz⟩ ⟨hx, hy, hz⟩ ⟨hx, -hy, hz⟩
      = ⟨4 / 5 * (hx * hy * hz) * (hx * hx), 0, 0,
         0, 4 / 15 * (hx * hy * hz) * (hy * hy), 0,
         0, 0, 4 / 15 * (hx * hy * hz) * (hz * hz)⟩ := by
  simp only [quadCovariance, edgeCovariance_entries, sixVol, center4, Vec3f.dot, Vec3f.cross,
    Vec3f.add, Vec3f.scale, Matrix3f.scale, Matrix3f.add]
  ext <;> simp only [] <;> ring

/-- The covariance term of the face `xNeg` of the box: that of the pyramid from
the origin to the face. -/
theorem quadCovariance_xNeg (hx hy hz : K) :
    quadCovariance (⟨-hx, -hy, -hz⟩ : Vec3f K) ⟨-hx, -hy, hz⟩ ⟨-hx, hy, hz⟩ ⟨-hx, hy, -hz⟩
      = ⟨4 / 5 * (hx * hy * hz) * (hx * hx), 0, 0,
         0, 4 / 15 * (hx * hy * hz) * (hy * hy), 0,
         0, 0, 4 / 15 * (hx * hy * hz) * (hz * hz)⟩ := by
  simp only [quadCovariance, edgeCovariance_entries, sixVol, center4, Vec3f.dot, Vec3f.cross,
    Vec3f.add, Vec3f.scale, Matrix3f.scale, Matrix3f.add]
  ext <;> simp only [] <;> ring

/-- The covariance term of the face `yPos` of the box: that of the pyramid from
the origin to the face. -/
theorem quadCovariance_yPos (hx hy hz : K) :
    quadCovariance (⟨-hx, hy, -hz⟩ : Vec3f K) ⟨-hx, hy, hz⟩ ⟨hx, hy, hz⟩ ⟨hx, hy, -hz⟩
      = ⟨4 / 15 * (hx * hy * hz) * (hx * hx), 0, 0,
         0, 4 / 5 * (hx * hy * hz) * (hy * hy), 0,
         0, 0, 4 / 15 * (hx * hy * hz) * (hz * hz)⟩ := by
  simp only [quadCovariance, edgeCovariance_entries, sixVol, center4, Vec3f.dot, Vec3f.cross,
    Vec3f.add, Vec3f.scale, Matrix3f.scale, Matrix3f.add]
  ext <;> simp only [] <;> ring

/-- The covariance term of the face `yNeg` of the box: that of the pyramid from
the origin to the face. -/
theorem quadCovariance_yNeg (hx hy hz : K) :
    quadCovariance (⟨-hx, -hy, -hz⟩ : Vec3f K) ⟨hx, -hy, -hz⟩ ⟨hx, -hy, hz⟩ ⟨-hx, -hy, hz⟩
      = ⟨4 / 15 * (hx * hy * hz) * (hx * hx), 0, 0,
         0, 4 / 5 * (hx * hy * hz) * (hy * hy), 0,
         0, 0, 4 / 15 * (hx * hy * hz) * (hz * hz)⟩ := by
  simp only [quadCovariance, edgeCovariance_entries, sixVol, center4, Vec3f.dot, Vec3f.cross,
    Vec3f.add, Vec3f.scale, Matrix3f.scale, Matrix3f.add]
  ext <;> simp only [] <;> ring

/-- The covariance term of the face `zPos` of the box: that of the pyramid from
the origin to the face. -/
theorem quadCovariance_zPos (hx hy hz : K) :
    quadCovariance (⟨-hx, -hy, hz⟩ : Vec3f K) ⟨hx, -hy, hz⟩ ⟨hx, hy, hz⟩ ⟨-hx, hy, hz⟩
      = ⟨4 / 15 * (hx * hy * hz) * (hx * hx), 0, 0,
         0, 4 / 15 * (hx * hy * hz) * (hy * hy), 0,
         0, 0, 4 / 5 * (hx * hy * hz) * (hz * hz)⟩ := by
  simp only [quadCovariance, edgeCovariance_entries, sixVol, center4, Vec3f.dot, Vec3f.cross,
    Vec3f.add, Vec3f.scale, Matrix3f.scale, Matrix3f.add]
  ext <;> simp only [] <;> ring

/-- The covariance term of the face `zNeg` of the box: that of the pyramid from
the origin to the face. -/
theorem quadCovariance_zNeg (hx hy hz : K) :
    quadCovariance (⟨-hx, -hy, -hz⟩ : Vec3f K) ⟨-hx, hy, -hz⟩ ⟨hx, hy, -hz⟩ ⟨hx, -hy, -hz⟩
      = ⟨4 / 15 * (hx * hy * hz) * (hx * hx), 0, 0,
         0, 4 / 15 * (hx * hy * hz) * (hy * hy), 0,
         0, 0, 4 / 5 * (hx * hy * hz) * (hz * hz)⟩ := by
  simp only [quadCovariance, edgeCovariance_entries, sixVol, center4, Vec3f.dot, Vec3f.cross,
    Vec3f.add, Vec3f.scale, Matrix3f.scale, Matrix3f.add]
  ext <;> simp only [] <;> ring

/-- The inertia matrix that `Convex::computeMomentofInertia` returns for the box
given by its corners and faces. -/
theorem boxConvex_inertia (hx hy hz : K) :
    (boxConvex hx hy hz).computeMomentofInertia
      = some (Box.create (2 * hx) (2 * hy) (2 * hz)).computeMomentofInertia := by
  have f0 := inertiaFace_quad (boxConvex hx hy hz) 0 5 1 3 7 5
    ⟨hx, -hy, -hz⟩ ⟨hx, hy, -hz⟩ ⟨hx, hy, hz⟩ ⟨hx, -hy, hz⟩
    rfl rfl rfl rfl rfl rfl rfl rfl rfl rfl
  have f1 := inertiaFace_quad (boxConvex hx hy hz) 5 10 0 4 6 2
    ⟨-hx, -hy, -hz⟩ ⟨-hx, -hy, hz⟩ ⟨-hx, hy, hz⟩ ⟨-hx, hy, -hz⟩
    rfl rfl rfl rfl rfl rfl rfl rfl rfl rfl
  have f2 := inertiaFace_quad (boxConvex hx hy hz) 10 15 2 6 7 3
    ⟨-hx, hy, -hz⟩ ⟨-hx, hy, hz⟩ ⟨hx, hy, hz⟩ ⟨hx, hy, -hz⟩
    rfl rfl rfl rfl rfl rfl rfl rfl rfl rfl
  have f3 := inertiaFace_quad (boxConvex hx hy hz) 15 20 0 1 5 4
    ⟨-hx, -hy, -hz⟩ ⟨hx, -hy, -hz⟩ ⟨hx, -hy, hz⟩ ⟨-hx, -hy, hz⟩
    rfl rfl rfl rfl rfl rfl rfl rfl rfl rfl
  have f4 := inertiaFace_quad (boxConvex hx hy hz) 20 25 4 5 7 6
    ⟨-hx, -hy, hz⟩ ⟨hx, -hy, hz⟩ ⟨hx, hy, hz⟩ ⟨-hx, hy, hz⟩
    rfl rfl rfl rfl rfl rfl rfl rfl rfl rfl
  have f5 := inertiaFace_quad (boxConvex hx hy hz) 25 30 0 2 3 1
    ⟨-hx, -hy, -hz⟩ ⟨-hx, hy, -hz⟩ ⟨hx, hy, -hz⟩ ⟨hx, -hy, -hz⟩
    rfl rfl rfl rfl rfl rfl rfl rfl rfl rfl
  have t : (boxConvex hx hy hz).num_polygons.toNat = 6 := rfl
  simp only [Convex.computeMomentofInertia, t, forLoop, f0, f1, f2, f3, f4, f5,
    Option.some_bind, Option.map_some', quadCovariance_xPos, quadCovariance_xNeg,
    quadCovariance_yPos, quadCovariance_yNeg, quadCovariance_zPos, quadCovariance_zNeg]
  congr 1
  ext <;>
    simp only [Matrix3f.sub, Matrix3f.scale, Matrix3f.Identity, Matrix3f.trace, Matrix3f.add,
      Matrix3f.Zero, Box.computeMomentofInertia, Box.computeVolume, Box.create, Vec3f.prod,
      Matrix3f.asDiagonal, Vec3f.divScalar, Vec3f.cwiseAbs2, Vec3f.scale, Vec3f.get] <;>
    norm_num <;> ring

/-- C17: the `Convex` built from the eight corners `(+-hx, +-hy, +-hz)` and the
six quadrilateral faces listed counter-clockwise seen from outside has the same
`computeVolume()` and the same `computeMomentofInertia()` as
`Box(2hx, 2hy, 2hz)`. -/
theorem convex_box_agree (hx hy hz : K) (hpx : 0 < hx) (hpy : 0 < hy) (hpz : 0 < hz) :
    (boxConvex hx hy hz).points
      = [⟨-hx, -hy, -hz⟩, ⟨hx, -hy, -hz⟩, ⟨-hx, hy, -hz⟩, ⟨hx, hy, -hz⟩,
         ⟨-hx, -hy, hz⟩, ⟨hx, -hy, hz⟩, ⟨-hx, hy, hz⟩, ⟨hx, hy, hz⟩] ∧
    0 < (Box.create (2 * hx) (2 * hy) (2 * hz)).computeVolume ∧
    (boxConvex hx hy hz).computeVolume
      = some (Box.create (2 * hx) (2 * hy) (2 * hz)).computeVolume ∧
    (boxConvex hx hy hz).computeMomentofInertia
      = some (Box.create (2 * hx) (2 * hy) (2 * hz)).computeMomentofInertia := by
  refine ⟨rfl, ?_, boxConvex_volume hx hy hz, boxConvex_inertia hx hy hz⟩
  rw [(box_mass_properties (2 * hx) (2 * hy) (2 * hz)).1]
  positivity

end ConvexMass

/-! ## Instances of the shape theorems on sample inputs -/

section ShapeInstances

theorem sampleNormal_ne : (⟨3, 4, 0⟩ : Vec3f ℝ) ≠ ⟨0, 0, 0⟩ := by
  intro h
  have hx := congrArg Vec3f.x h
  norm_num at hx

theorem convex_tetrahedron_com_witness :
    0 < (Matrix3f.ofCols (Vec3f.sub (⟨6, 5, 5⟩ : Vec3f ℚ) ⟨5, 5, 5⟩)
      (Vec3f.sub ⟨5, 6, 5⟩ ⟨5, 5, 5⟩) (Vec3f.sub ⟨5, 5, 6⟩ ⟨5, 5, 5⟩)).determinant ∧
    (tetraConvex (⟨5, 5, 5⟩ : Vec3f ℚ) ⟨6, 5, 5⟩ ⟨5, 6, 5⟩ ⟨5, 5, 6⟩).computeCOM
      = some (Vec3f.divScalar
          (Vec3f.add (Vec3f.add (Vec3f.add (⟨5, 5, 5⟩ : Vec3f ℚ) ⟨6, 5, 5⟩) ⟨5, 6, 5⟩)
            ⟨5, 5, 6⟩) 4) :=
  ⟨by norm_num [Matrix3f.determinant, Matrix3f.ofCols, Vec3f.sub],
    convex_tetrahedron_com ⟨5, 5, 5⟩ ⟨6, 5, 5⟩ ⟨5, 6, 5⟩ ⟨5, 5, 6⟩
      (by norm_num [Matrix3f.determinant, Matrix3f.ofCols, Vec3f.sub])⟩

theorem convex_box_agree_witness :
    (0 : ℚ) < 1 ∧ (0 : ℚ) < 2 ∧ (0 : ℚ) < 3 ∧
    (boxConvex (1 : ℚ) 2 3).computeVolume
      = some (Box.create (2 * (1 : ℚ)) (2 * 2) (2 * 3)).computeVolume ∧
    (boxConvex (1 : ℚ) 2 3).computeMomentofInertia
      = some (Box.create (2 * (1 : ℚ)) (2 * 2) (2 * 3)).computeMomentofInertia :=
  ⟨by norm_num, by norm_num, by norm_num,
    (convex_box_agree (1 : ℚ) 2 3 (by norm_num) (by norm_num) (by norm_num)).2.2⟩

theorem convex_center_in_hull_witness :
    1 ≤ ([⟨0, 0, 0⟩, ⟨2, 4, 6⟩] : List (Vec3f ℚ)).length ∧
    ∃ c : Convex ℚ,
      Convex.create ([⟨0, 0, 0⟩, ⟨2, 4, 6⟩] : List (Vec3f ℚ))
        (([⟨0, 0, 0⟩, ⟨2, 4, 6⟩] : List (Vec3f ℚ)).length : Int) [] 0 = some c ∧
      c.points = [⟨0, 0, 0⟩, ⟨2, 4, 6⟩] ∧
      c.center = meanPoint [⟨0, 0, 0⟩, ⟨2, 4, 6⟩] ∧
      InConvexHull [⟨0, 0, 0⟩, ⟨2, 4, 6⟩] c.center ∧
      ConvexBase_computeCenter ([⟨0, 0, 0⟩, ⟨2, 4, 6⟩] : List (Vec3f ℚ))
        (([⟨0, 0, 0⟩, ⟨2, 4, 6⟩] : List (Vec3f ℚ)).length : Int) = some c.center :=
  ⟨by decide, convex_center_in_hull [⟨0, 0, 0⟩, ⟨2, 4, 6⟩] [] 0 (by decide)⟩

theorem plane_distance_euclidean_witness :
    IsSqrt Real.sqrt ∧ (⟨3, 4, 0⟩ : Vec3f ℝ) ≠ ⟨0, 0, 0⟩ ∧
    ∀ q : Vec3f ℝ,
      Vec3f.dot (Plane.create Real.sqrt ⟨3, 4, 0⟩ 5).n q = (Plane.create Real.sqrt ⟨3, 4, 0⟩ 5).d →
      (Plane.create Real.sqrt ⟨3, 4, 0⟩ 5).distance ⟨1, 1, 1⟩
        ≤ Vec3f.norm Real.sqrt (Vec3f.sub ⟨1, 1, 1⟩ q) :=
  ⟨isSqrt_real, sampleNormal_ne,
    (plane_distance_euclidean Real.sqrt isSqrt_real ⟨3, 4, 0⟩ 5 sampleNormal_ne
      ⟨1, 1, 1⟩).2.2.2.1⟩

end ShapeInstances

/-! ## Type tags and occupancy classes -/

section Tags

variable {K : Type} [LinearOrderedField K]

/-- C21: the type tags have the integer values of their declaration order
(`OT_UNKNOWN = 0`, ..., `OT_OCTREE = 3`; `BV_UNKNOWN = 0`, ...,
`GEOM_OCTREE = 18`), and every concrete shape class reports the object type
`OT_GEOM` and the node tag of its own kind. -/
theorem type_tags_values :
    (OBJECT_TYPE.OT_UNKNOWN.value = 0 ∧ OBJECT_TYPE.OT_BVH.value = 1 ∧
      OBJECT_TYPE.OT_GEOM.value = 2 ∧ OBJECT_TYPE.OT_OCTREE.value = 3) ∧
    (NODE_TYPE.BV_UNKNOWN.value = 0 ∧ NODE_TYPE.BV_AABB.value = 1 ∧
      NODE_TYPE.BV_OBB.value = 2 ∧ NODE_TYPE.BV_RSS.value = 3 ∧ NODE_TYPE.BV_kIOS.value = 4 ∧
      NODE_TYPE.BV_OBBRSS.value = 5 ∧ NODE_TYPE.BV_KDOP16.value = 6 ∧
      NODE_TYPE.BV_KDOP18.value = 7 ∧ NODE_TYPE.BV_KDOP24.value = 8 ∧
      NODE_TYPE.GEOM_BOX.value = 9 ∧ NODE_TYPE.GEOM_SPHERE.value = 10 ∧
      NODE_TYPE.GEOM_CAPSULE.value = 11 ∧ NODE_TYPE.GEOM_CONE.value = 12 ∧
      NODE_TYPE.GEOM_CYLINDER.value = 13 ∧ NODE_TYPE.GEOM_CONVEX.value = 14 ∧
      NODE_TYPE.GEOM_PLANE.value = 15 ∧ NODE_TYPE.GEOM_HALFSPACE.value = 16 ∧
      NODE_TYPE.GEOM_TRIANGLE.value = 17 ∧ NODE_TYPE.GEOM_OCTREE.value = 18) ∧
    (∀ c : ShapeClass, c.getObjectType = OBJECT_TYPE.OT_GEOM) ∧
    (ShapeClass.TriangleP.getNodeType.value = 17 ∧ ShapeClass.Box.getNodeType.value = 9 ∧
      ShapeClass.Sphere.getNodeType.value = 10 ∧ ShapeClass.Capsule.getNodeType.value = 11 ∧
      ShapeClass.Cone.getNodeType.value = 12 ∧ ShapeClass.Cylinder.getNodeType.value = 13 ∧
      ShapeClass.Convex.getNodeType.value = 14 ∧ ShapeClass.Halfspace.getNodeType.value = 16 ∧
      ShapeClass.Plane.getNodeType.value = 15) := by
  refine ⟨by decide, by decide, fun c => rfl, by decide⟩

/-- C22 (as stated) fails: with `threshold_occupied = threshold_free = 1` and
`cost_density = 1` the geometry is both occupied and free. -/
theorem occupied_and_free_at_equal_thresholds :
    (⟨⟨0, 0, 0⟩, 0, ⟨⟨0, 0, 0⟩, ⟨0, 0, 0⟩⟩, 1, 1, 1⟩ : CollisionGeometry ℚ).threshold_occupied
      ≥ (⟨⟨0, 0, 0⟩, 0, ⟨⟨0, 0, 0⟩, ⟨0, 0, 0⟩⟩, 1, 1, 1⟩ : CollisionGeometry ℚ).threshold_free ∧
    (⟨⟨0, 0, 0⟩, 0, ⟨⟨0, 0, 0⟩, ⟨0, 0, 0⟩⟩, 1, 1, 1⟩ : CollisionGeometry ℚ).isOccupied = true ∧
    (⟨⟨0, 0, 0⟩, 0, ⟨⟨0, 0, 0⟩, ⟨0, 0, 0⟩⟩, 1, 1, 1⟩ : CollisionGeometry ℚ).isFree = true := by
  refine ⟨le_refl _, ?_, ?_⟩ <;> simp [CollisionGeometry.isOccupied, CollisionGeometry.isFree]

/-- C22 (amended): for thresholds with `threshold_occupied > threshold_free`,
`isOccupied()` and `isFree()` are never both true, and exactly one of occupied,
free and uncertain holds. -/
theorem occupancy_partition (g : CollisionGeometry K)
    (h : g.threshold_free < g.threshold_occupied) :
    ¬ (g.isOccupied = true ∧ g.isFree = true) ∧
    ((g.isOccupied = true ∧ g.isFree = false ∧ g.isUncertain = false) ∨
      (g.isOccupied = false ∧ g.isFree = true ∧ g.isUncertain = false) ∨
      (g.isOccupied = false ∧ g.isFree = false ∧ g.isUncertain = true)) := by
  simp only [CollisionGeometry.isUncertain, CollisionGeometry.isOccupied,
    CollisionGeometry.isFree]
  by_cases h1 : g.cost_density ≥ g.threshold_occupied
  · have h2 : ¬ g.cost_density ≤ g.threshold_free := by
      intro h2
      exact absurd (lt_of_lt_of_le h h1) (not_lt.2 h2)
    simp [h1, h2]
  · by_cases h2 : g.cost_density ≤ g.threshold_free <;> simp [h1, h2]

theorem occupancy_partition_witness :
    (CollisionGeometry.create (⟨0, 0, 0⟩ : Vec3f ℚ) 0 ⟨⟨0, 0, 0⟩, ⟨0, 0, 0⟩⟩).threshold_free
      < (CollisionGeometry.create (⟨0, 0, 0⟩ : Vec3f ℚ) 0 ⟨⟨0, 0, 0⟩, ⟨0, 0, 0⟩⟩).threshold_occupied ∧
    ¬ ((CollisionGeometry.create (⟨0, 0, 0⟩ : Vec3f ℚ) 0 ⟨⟨0, 0, 0⟩, ⟨0, 0, 0⟩⟩).isOccupied = true ∧
      (CollisionGeometry.create (⟨0, 0, 0⟩ : Vec3f ℚ) 0 ⟨⟨0, 0, 0⟩, ⟨0, 0, 0⟩⟩).isFree = true) :=
  ⟨by norm_num [CollisionGeometry.create],
    (occupancy_partition (CollisionGeometry.create (⟨0, 0, 0⟩ : Vec3f ℚ) 0 ⟨⟨0, 0, 0⟩, ⟨0, 0, 0⟩⟩)
      (by norm_num [CollisionGeometry.create])).1⟩

end Tags

/-! ## Recursive traversals -/

section Traversal

variable {A S : Type}

theorem traverseLoop_outcome (recurse : A → S → Outcome S) (P : A → Prop)
    (Q : S → Bool → S → Prop) (F : Prop)
    (hrefl : ∀ s, Q s false s)
    (htrans : ∀ s s1 v s2, Q s false s1 → Q s1 v s2 → Q s v s2)
    (hrec : ∀ a s, P a →
      (∃ v s1, recurse a s = Outcome.ret v s1 ∧ Q s v s1) ∨ (recurse a s = Outcome.fail ∧ F)) :
    ∀ (calls : List (A × (S → Bool))), (∀ c ∈ calls, P c.1) →
      ∀ s, (∃ v s1, traverseLoop recurse calls s = Outcome.ret v s1 ∧ Q s v s1) ∨
        (traverseLoop recurse calls s = Outcome.fail ∧ F) := by
  intro calls
  induction calls with
  | nil => intro _ s; exact Or.inl ⟨false, s, rfl, hrefl s⟩
  | cons c cs ih =>
    intro hP s
    have hcs : ∀ c ∈ cs, P c.1 := fun c hc => hP c (List.mem_cons_of_mem _ hc)
    by_cases hg : c.2 s = true
    · rcases hrec c.1 s (hP c (List.mem_cons_self _ _)) with ⟨v, s1, h1, hq⟩ | ⟨h1, hF⟩
      · cases v with
        | true =>
          left
          refine ⟨true, s1, ?_, hq⟩
          simp [traverseLoop, hg, h1]
        | false =>
          rcases ih hcs s1 with ⟨v2, s2, h2, hq2⟩ | ⟨h2, hF⟩
          · left
            refine ⟨v2, s2, ?_, htrans _ _ _ _ hq hq2⟩
            simp [traverseLoop, hg, h1, h2]
          · right
            refine ⟨?_, hF⟩
            simp [traverseLoop, hg, h1, h2]
      · right
        refine ⟨?_, hF⟩
        simp [traverseLoop, hg, h1]
    · rcases ih hcs s with ⟨v2, s2, h2, hq2⟩ | ⟨h2, hF⟩
      · left
        refine ⟨v2, s2, ?_, hq2⟩
        simp [traverseLoop, hg, h2]
      · right
        refine ⟨?_, hF⟩
        simp [traverseLoop, hg, h2]

/-- A traversal whose recursive calls decrease the measure `μ` returns when the
budget exceeds the measure of its arguments, or stops the program where an
activation does; the relation `Q` between the state at entry, the returned value
and the state at exit holds when it holds for the activations without a
recursive call and composes along the loop. -/
theorem traverse_outcome (visit : A → S → Visit A S) (P : A → Prop) (μ : A → Nat)
    (Q : S → Bool → S → Prop) (F : Prop)
    (hrefl : ∀ s, Q s false s)
    (htrans : ∀ s s1 v s2, Q s false s1 → Q s1 v s2 → Q s v s2)
    (hvisit : ∀ a s, P a →
      (∃ v s1, visit a s = Visit.ret v s1 ∧ Q s v s1) ∨
      (∃ calls, visit a s = Visit.recurse calls ∧ ∀ c ∈ calls, P c.1 ∧ μ c.1 < μ a) ∨
      (visit a s = Visit.fail ∧ F)) :
    ∀ (fuel : Nat) (a : A) (s : S), P a → μ a < fuel →
      (∃ v s1, traverse visit fuel a s = Outcome.ret v s1 ∧ Q s v s1) ∨
        (traverse visit fuel a s = Outcome.fail ∧ F) := by
  intro fuel
  induction fuel with
  | zero => intro a s _ h; exact absurd h (Nat.not_lt_zero _)
  | succ fuel ih =>
    intro a s hP hμ
    rcases hvisit a s hP with ⟨v, s1, h1, hq⟩ | ⟨calls, h1, hcalls⟩ | ⟨h1, hF⟩
    · left
      refine ⟨v, s1, ?_, hq⟩
      simp [traverse, h1]
    · have hloop := traverseLoop_outcome (traverse visit fuel)
        (fun c => P c ∧ μ c < μ a) Q F hrefl htrans
        (fun c s hc => ih c s hc.1 (by omega)) calls hcalls s
      simpa [traverse, h1] using hloop
    · right
      refine ⟨?_, hF⟩
      simp [traverse, h1]

/-- A traversal whose activations leave the collision result as it is or append
one contact with the property `G` while fewer than `N` contacts are stored:
the contacts at exit are those at entry followed by contacts with the property
`G`, and their number is at most the larger of `N` and the number at entry. -/
theorem traverse_contacts {K : Type} (visit : A → CollisionResult K → Visit A (CollisionResult K))
    (N : Nat) (P : A → Prop) (μ : A → Nat) (G : Contact K → Prop) (F : Prop)
    (hvisit : ∀ a s, P a →
      (∃ v s1, visit a s = Visit.ret v s1 ∧
        (s1 = s ∨ (s.numContacts < N ∧ ∃ c, G c ∧ s1 = s.addContact c))) ∨
      (∃ calls, visit a s = Visit.recurse calls ∧ ∀ c ∈ calls, P c.1 ∧ μ c.1 < μ a) ∨
      (visit a s = Visit.fail ∧ F)) :
    ∀ (fuel : Nat) (a : A) (s : CollisionResult K), P a → μ a < fuel →
      (∃ v s1, traverse visit fuel a s = Outcome.ret v s1 ∧
        (∃ added, s1.contacts = s.contacts ++ added ∧ ∀ c ∈ added, G c) ∧
        s1.numContacts ≤ max s.numContacts N) ∨
      (traverse visit fuel a s = Outcome.fail ∧ F) := by
  intro fuel a s hP hμ
  have h := traverse_outcome visit P μ
    (fun s _ s1 => (∃ added, s1.contacts = s.contacts ++ added ∧ ∀ c ∈ added, G c) ∧
      s1.numContacts ≤ max s.numContacts N) F
    (fun s => ⟨⟨[], by simp, by simp⟩, le_max_left _ _⟩)
    (fun s s1 v s2 h1 h2 => by
      obtain ⟨⟨l1, e1, g1⟩, n1⟩ := h1
      obtain ⟨⟨l2, e2, g2⟩, n2⟩ := h2
      refine ⟨⟨l1 ++ l2, by rw [e2, e1, List.append_assoc], ?_⟩, ?_⟩
      · intro c hc
        rcases List.mem_append.1 hc with hc | hc
        · exact g1 c hc
        · exact g2 c hc
      · exact le_trans n2 (max_le n1 (le_max_right _ _)))
    (fun a s hP => by
      rcases hvisit a s hP with ⟨v, s1, h1, hs⟩ | h | h
      · refine Or.inl ⟨v, s1, h1, ?_⟩
        rcases hs with rfl | ⟨hn, c, hc, rfl⟩
        · exact ⟨⟨[], by simp, by simp⟩, le_max_left _ _⟩
        · refine ⟨⟨[c], rfl, by simpa using hc⟩, ?_⟩
          simp only [CollisionResult.numContacts, CollisionResult.addContact,
            List.length_append, List.length_singleton] at hn ⊢
          exact le_trans hn (le_max_right _ _)
      · exact Or.inr (Or.inl h)
      · exact Or.inr (Or.inr h))
    fuel a s hP hμ
  exact h

theorem traverse_of_ret (visit : A → S → Visit A S) (fuel : Nat) (a : A) (s : S) (v : Bool)
    (s1 : S) (h : visit a s = Visit.ret v s1) :
    traverse visit (fuel + 1) a s = Outcome.ret v s1 := by
  simp [traverse, h]

end Traversal

/-! ## Octree nodes -/

section Nodes

variable {K : Type}

theorem OcTreeNode.height_of_isNull {n : OcTreeNode K} (h : n.isNull = true) : n.height = 0 := by
  cases n with
  | null => rfl
  | node a o c0 c1 c2 c3 c4 c5 c6 c7 => simp [OcTreeNode.isNull] at h

theorem OcTreeNode.height_pos {n : OcTreeNode K} (h : n.isNull = false) : 0 < n.height := by
  cases n with
  | null => simp [OcTreeNode.isNull] at h
  | node a o c0 c1 c2 c3 c4 c5 c6 c7 => simp [OcTreeNode.height]

theorem OcTreeNode.height_getNodeChild_lt {n : OcTreeNode K} (h : n.isNull = false) (i : Nat) :
    (n.getNodeChild i).height < n.height := by
  cases n with
  | null => simp [OcTreeNode.isNull] at h
  | node a o c0 c1 c2 c3 c4 c5 c6 c7 =>
    rcases i with _ | _ | _ | _ | _ | _ | _ | _ | i <;>
      simp only [OcTreeNode.getNodeChild, OcTreeNode.children, List.getD_cons_zero,
        List.getD_cons_succ, List.getD_nil, OcTreeNode.height] <;> omega

theorem OcTreeNode.isNull_of_mem_nodes {root n : OcTreeNode K} (h : n ∈ root.nodes) :
    n.isNull = false := by
  induction root with
  | null => simp [OcTreeNode.nodes] at h
  | node a o c0 c1 c2 c3 c4 c5 c6 c7 ih0 ih1 ih2 ih3 ih4 ih5 ih6 ih7 =>
    simp only [OcTreeNode.nodes, List.mem_cons, List.mem_append] at h
    rcases h with h | h
    · rw [h]; rfl
    · rcases h with ((((((h | h) | h) | h) | h) | h) | h) | h
      · exact ih0 h
      · exact ih1 h
      · exact ih2 h
      · exact ih3 h
      · exact ih4 h
      · exact ih5 h
      · exact ih6 h
      · exact ih7 h

theorem OcTreeNode.mem_nodes_self {n : OcTreeNode K} (h : n.isNull = false) : n ∈ n.nodes := by
  cases n with
  | null => simp [OcTreeNode.isNull] at h
  | node a o c0 c1 c2 c3 c4 c5 c6 c7 => simp [OcTreeNode.nodes]

theorem OcTreeNode.nodes_getNodeChild_subset (n : OcTreeNode K) (i : Nat) (m : OcTreeNode K)
    (h : m ∈ (n.getNodeChild i).nodes) : m ∈ n.nodes := by
  cases n with
  | null => simp [OcTreeNode.getNodeChild, OcTreeNode.children, OcTreeNode.nodes] at h
  | node a o c0 c1 c2 c3 c4 c5 c6 c7 =>
    rcases i with _ | _ | _ | _ | _ | _ | _ | _ | i <;>
      simp only [OcTreeNode.getNodeChild, OcTreeNode.children, List.getD_cons_zero,
        List.getD_cons_succ, List.getD_nil, OcTreeNode.nodes, List.not_mem_nil] at h <;>
      simp [OcTreeNode.nodes, h]

theorem OcTreeNode.nodes_subset_of_mem {root n : OcTreeNode K} (h : n ∈ root.nodes)
    (m : OcTreeNode K) (hm : m ∈ n.nodes) : m ∈ root.nodes := by
  induction root with
  | null => simp [OcTreeNode.nodes] at h
  | node a o c0 c1 c2 c3 c4 c5 c6 c7 ih0 ih1 ih2 ih3 ih4 ih5 ih6 ih7 =>
    simp only [OcTreeNode.nodes, List.mem_cons, List.mem_append] at h
    rcases h with h | h
    · rw [← h]; exact hm
    · simp only [OcTreeNode.nodes, List.mem_cons, List.mem_append]
      rcases h with ((((((h | h) | h) | h) | h) | h) | h) | h
      · simp only [ih0 h, true_or, or_true]
      · simp only [ih1 h, true_or, or_true]
      · simp only [ih2 h, true_or, or_true]
      · simp only [ih3 h, true_or, or_true]
      · simp only [ih4 h, true_or, or_true]
      · simp only [ih5 h, true_or, or_true]
      · simp only [ih6 h, true_or, or_true]
      · simp only [ih7 h, true_or, or_true]

theorem OcTreeNode.mem_nodes_getNodeChild {root n : OcTreeNode K} (h : n ∈ root.nodes) (i : Nat)
    (hi : n.nodeChildExists i = true) : n.getNodeChild i ∈ root.nodes := by
  apply OcTreeNode.nodes_subset_of_mem h
  apply OcTreeNode.nodes_getNodeChild_subset n i
  apply OcTreeNode.mem_nodes_self
  simpa [OcTreeNode.nodeChildExists] using hi

theorem OcTreeNode.nodeChildExists_of_isNull {n : OcTreeNode K} (h : n.isNull = true) (i : Nat) :
    n.nodeChildExists i = false := by
  cases n with
  | null => simp [OcTreeNode.nodeChildExists, OcTreeNode.getNodeChild, OcTreeNode.children,
      OcTreeNode.isNull]
  | node a o c0 c1 c2 c3 c4 c5 c6 c7 => simp [OcTreeNode.isNull] at h

end Nodes

/-! ## Recursive calls of the octree traversals -/

section Calls

variable {K Sh BV : Type}

theorem CollisionResult.addContactCapped_cases (r : CollisionResult K)
    (request : CollisionRequest K) (c : Contact K) :
    r.addContactCapped request c = r ∨
      (r.numContacts < request.num_max_contacts ∧ r.addContactCapped request c = r.addContact c) := by
  unfold CollisionResult.addContactCapped
  split_ifs with h
  · exact Or.inr ⟨h, rfl⟩
  · exact Or.inl rfl

theorem OcTreeSolver.mem_descendFirst (sv : OcTreeSolver K Sh BV) (a : OcTreePair K)
    (c : OcTreePair K × (CollisionResult K → Bool)) (hc : c ∈ sv.descendFirst a) :
    ∃ i, a.root1.nodeChildExists i = true ∧
      c = (⟨a.root1.getNodeChild i, sv.computeChildBV a.bv1 i, a.root2, a.bv2⟩, always) := by
  simp only [OcTreeSolver.descendFirst, List.mem_filterMap] at hc
  obtain ⟨i, -, hi⟩ := hc
  split_ifs at hi with h
  exact ⟨i, h, (Option.some.inj hi).symm⟩

theorem OcTreeSolver.mem_descendSecond (sv : OcTreeSolver K Sh BV) (a : OcTreePair K)
    (c : OcTreePair K × (CollisionResult K → Bool)) (hc : c ∈ sv.descendSecond a) :
    ∃ i, a.root2.nodeChildExists i = true ∧
      c = (⟨a.root1, a.bv1, a.root2.getNodeChild i, sv.computeChildBV a.bv2 i⟩, always) := by
  simp only [OcTreeSolver.descendSecond, List.mem_filterMap] at hc
  obtain ⟨i, -, hi⟩ := hc
  split_ifs at hi with h
  exact ⟨i, h, (Option.some.inj hi).symm⟩

theorem OcTreeSolver.mem_descendCell (sv : OcTreeSolver K Sh BV) (a : OcTreeCell K)
    (c : OcTreeCell K × (CollisionResult K → Bool)) (hc : c ∈ sv.descendCell a) :
    ∃ i, a.root1.nodeChildExists i = true ∧
      c = (⟨a.root1.getNodeChild i, sv.computeChildBV a.bv1 i⟩, always) := by
  simp only [OcTreeSolver.descendCell, List.mem_filterMap] at hc
  obtain ⟨i, -, hi⟩ := hc
  split_ifs at hi with h
  exact ⟨i, h, (Option.some.inj hi).symm⟩

theorem OcTreeSolver.mem_descendMeshFirst (sv : OcTreeSolver K Sh BV) (a : OcTreeMeshPair K BV)
    (c : OcTreeMeshPair K BV × (CollisionResult K → Bool)) (hc : c ∈ sv.descendMeshFirst a) :
    ∃ i, a.root1.nodeChildExists i = true ∧
      c = (⟨a.root1.getNodeChild i, sv.computeChildBV a.bv1 i, a.root2⟩, always) := by
  simp only [OcTreeSolver.descendMeshFirst, List.mem_filterMap] at hc
  obtain ⟨i, -, hi⟩ := hc
  split_ifs at hi with h
  exact ⟨i, h, (Option.some.inj hi).symm⟩

theorem OcTreeSolver.mem_descendMeshSecond (a : OcTreeMeshPair K BV)
    (c : OcTreeMeshPair K BV × (CollisionResult K → Bool))
    (hc : c ∈ OcTreeSolver.descendMeshSecond a) :
    c.1.root1 = a.root1 ∧ c.1.root2.height < a.root2.height := by
  unfold OcTreeSolver.descendMeshSecond at hc
  split at hc
  · simp at hc
  · rename_i b l r heq
    simp only [List.mem_cons, List.mem_singleton, List.not_mem_nil, or_false] at hc
    rcases hc with rfl | rfl
    · refine ⟨rfl, ?_⟩
      simp only [heq, BVNode.height]
      omega
    · refine ⟨rfl, ?_⟩
      simp only [heq, BVNode.height]
      omega

theorem OcTreeSolver.shapeIntersectLeaf_cases (sv : OcTreeSolver K Sh BV) (tree1 : OcTree K)
    (s : Sh) (tf1 tf2 : Transform3f K) (request : CollisionRequest K) (a : OcTreeCell K)
    (res : CollisionResult K) :
    sv.shapeIntersectLeaf tree1 s tf1 tf2 request a res = res ∨
      (res.numContacts < request.num_max_contacts ∧
        ∃ d, sv.shapeIntersectLeaf tree1 s tf1 tf2 request a res =
          res.addContact ⟨tree1.addr, sv.shapeAddr s, tree1.index a.root1, Contact.NONE, d⟩) := by
  generalize hv : sv.shapeIntersectLeaf tree1 s tf1 tf2 request a res = v
  simp only [OcTreeSolver.shapeIntersectLeaf] at hv
  split_ifs at hv with h1 h2
  · subst hv
    rcases CollisionResult.addContactCapped_cases res request
      ⟨tree1.addr, sv.shapeAddr s, tree1.index a.root1, Contact.NONE, none⟩ with h | ⟨h, h3⟩
    · exact Or.inl h
    · exact Or.inr ⟨h, none, h3⟩
  · exact Or.inl hv.symm
  · split at hv
    · rename_i contact depth normal _
      subst hv
      rcases CollisionResult.addContactCapped_cases res request
        ⟨tree1.addr, sv.shapeAddr s, tree1.index a.root1, Contact.NONE,
          some (contact, normal, depth)⟩ with h | ⟨h, h3⟩
      · exact Or.inl h
      · exact Or.inr ⟨h, _, h3⟩
    · exact Or.inl hv.symm

theorem OcTreeNode.eq_null_of_isNull {n : OcTreeNode K} (h : n.isNull = true) :
    n = OcTreeNode.null := by
  cases n with
  | null => rfl
  | node a o c0 c1 c2 c3 c4 c5 c6 c7 => simp [OcTreeNode.isNull] at h

theorem OcTreeSolver.leafDistances_leaf (sv : OcTreeSolver K Sh BV) (tree1 : OcTree K) (s : Sh)
    (tf1 tf2 : Transform3f K) (n : OcTreeNode K) (bv : AABB K) (hn : n.isNull = false)
    (hl : n.nodeHasChildren = false) :
    sv.leafDistances tree1 s tf1 tf2 n bv =
      if tree1.isNodeOccupied n then
        [(sv.shapeDistance (sv.constructBox bv tf1).1 (sv.constructBox bv tf1).2 s tf2).1]
      else [] := by
  cases n with
  | null => simp [OcTreeNode.isNull] at hn
  | node a o c0 c1 c2 c3 c4 c5 c6 c7 =>
    simp only [OcTreeSolver.leafDistances, hl, Bool.false_eq_true, if_false]

theorem OcTreeSolver.cells_self (sv : OcTreeSolver K Sh BV) (n : OcTreeNode K) (bv : AABB K)
    (hn : n.isNull = false) : (⟨n, bv⟩ : OcTreeCell K) ∈ sv.cells n bv := by
  cases n with
  | null => simp [OcTreeNode.isNull] at hn
  | node a o c0 c1 c2 c3 c4 c5 c6 c7 => simp [OcTreeSolver.cells]

theorem OcTreeSolver.cells_child (sv : OcTreeSolver K Sh BV) (n : OcTreeNode K) (bv : AABB K)
    (i : Nat) (c : OcTreeCell K)
    (hc : c ∈ sv.cells (n.getNodeChild i) (sv.computeChildBV bv i)) : c ∈ sv.cells n bv := by
  cases n with
  | null => simp [OcTreeNode.getNodeChild, OcTreeNode.children, OcTreeSolver.cells] at hc
  | node a o c0 c1 c2 c3 c4 c5 c6 c7 =>
    rcases i with _ | _ | _ | _ | _ | _ | _ | _ | i <;>
      simp only [OcTreeNode.getNodeChild, OcTreeNode.children, List.getD_cons_zero,
        List.getD_cons_succ, List.getD_nil, OcTreeSolver.cells, List.not_mem_nil] at hc <;>
      simp [OcTreeSolver.cells, hc]

end Calls

/-! ## Octree against octree -/

section Intersect

variable {K Sh BV : Type} [LinearOrderedField K]

theorem OcTreeSolver.intersectLeafPair_cases (sv : OcTreeSolver K Sh BV) (tree1 tree2 : OcTree K)
    (tf1 tf2 : Transform3f K) (request : CollisionRequest K) (a : OcTreePair K)
    (res : CollisionResult K) :
    sv.intersectLeafPair tree1 tree2 tf1 tf2 request a res = res ∨
      (res.numContacts < request.num_max_contacts ∧
        ∃ d, sv.intersectLeafPair tree1 tree2 tf1 tf2 request a res =
          res.addContact ⟨tree1.addr, tree2.addr, tree1.index a.root1, tree2.index a.root2, d⟩) := by
  generalize hv : sv.intersectLeafPair tree1 tree2 tf1 tf2 request a res = v
  simp only [OcTreeSolver.intersectLeafPair] at hv
  split_ifs at hv with h1 h2
  · subst hv
    rcases CollisionResult.addContactCapped_cases res request
      ⟨tree1.addr, tree2.addr, tree1.index a.root1, tree2.index a.root2, none⟩ with h | ⟨h, h3⟩
    · exact Or.inl h
    · exact Or.inr ⟨h, none, h3⟩
  · exact Or.inl hv.symm
  · split at hv
    · rename_i contact depth normal _
      subst hv
      rcases CollisionResult.addContactCapped_cases res request
        ⟨tree1.addr, tree2.addr, tree1.index a.root1, tree2.index a.root2,
          some (contact, normal, depth)⟩ with h | ⟨h, h3⟩
      · exact Or.inl h
      · exact Or.inr ⟨h, _, h3⟩
    · exact Or.inl hv.symm

theorem OcTreeSolver.visitOcTreeIntersect_cases (sv : OcTreeSolver K Sh BV)
    (tree1 tree2 : OcTree K) (tf1 tf2 : Transform3f K) (request : CollisionRequest K)
    (a : OcTreePair K) (res : CollisionResult K) :
    sv.visitOcTreeIntersect tree1 tree2 tf1 tf2 request a res = Visit.ret false res ∨
    (a.root1.isNull = false ∧ a.root2.isNull = false ∧ a.root1.nodeHasChildren = false ∧
      a.root2.nodeHasChildren = false ∧ tree1.isNodeOccupied a.root1 = true ∧
      tree2.isNodeOccupied a.root2 = true ∧
      sv.visitOcTreeIntersect tree1 tree2 tf1 tf2 request a res =
        Visit.ret
          (sv.collisionSatisfied request (sv.intersectLeafPair tree1 tree2 tf1 tf2 request a res))
          (sv.intersectLeafPair tree1 tree2 tf1 tf2 request a res)) ∨
    (∃ calls, sv.visitOcTreeIntersect tree1 tree2 tf1 tf2 request a res = Visit.recurse calls ∧
      ∀ c ∈ calls,
        (c.1.root1 = a.root1 ∨ c.1.root1.isNull = true ∨
          ∃ i, a.root1.nodeChildExists i = true ∧ c.1.root1 = a.root1.getNodeChild i) ∧
        (c.1.root2 = a.root2 ∨ c.1.root2.isNull = true ∨
          ∃ i, a.root2.nodeChildExists i = true ∧ c.1.root2 = a.root2.getNodeChild i) ∧
        c.1.root1.height + c.1.root2.height < a.root1.height + a.root2.height) := by
  generalize hv : sv.visitOcTreeIntersect tree1 tree2 tf1 tf2 request a res = v
  unfold OcTreeSolver.visitOcTreeIntersect at hv
  split_ifs at hv with c1 c2 c3 c4 c5 c6 c7 c8 c9 c10 c11 <;> subst hv
  · exact Or.inl rfl
  · refine Or.inr (Or.inr ⟨_, rfl, ?_⟩)
    have h1 : a.root1.isNull = true := by revert c2; cases a.root1.isNull <;> simp
    have h2 : a.root2.isNull = false := by revert c2; cases a.root2.isNull <;> simp
    have hh1 := OcTreeNode.height_of_isNull h1
    intro c hc
    simp only [List.mem_map] at hc
    obtain ⟨i, -, rfl⟩ := hc
    split_ifs with hi
    · refine ⟨Or.inr (Or.inl rfl), Or.inr (Or.inr ⟨i, hi, rfl⟩), ?_⟩
      have := OcTreeNode.height_getNodeChild_lt h2 i
      simp only [OcTreeNode.height]
      omega
    · refine ⟨Or.inr (Or.inl rfl), Or.inr (Or.inl rfl), ?_⟩
      have := OcTreeNode.height_pos h2
      simp only [OcTreeNode.height]
      omega
  · refine Or.inr (Or.inr ⟨_, rfl, ?_⟩)
    have h2 : a.root2.isNull = false := by revert c2; cases a.root2.isNull <;> simp
    intro c hc
    simp only [List.mem_singleton] at hc
    subst hc
    refine ⟨Or.inr (Or.inl rfl), Or.inr (Or.inl rfl), ?_⟩
    have := OcTreeNode.height_pos h2
    simp only [OcTreeNode.height]
    omega
  · refine Or.inr (Or.inr ⟨_, rfl, ?_⟩)
    have h1 : a.root1.isNull = false := by revert c4; cases a.root1.isNull <;> simp
    have h2 : a.root2.isNull = true := by revert c4; cases a.root2.isNull <;> simp
    have hh2 := OcTreeNode.height_of_isNull h2
    intro c hc
    simp only [List.mem_map] at hc
    obtain ⟨i, -, rfl⟩ := hc
    split_ifs with hi
    · refine ⟨Or.inr (Or.inr ⟨i, hi, rfl⟩), Or.inr (Or.inl rfl), ?_⟩
      have := OcTreeNode.height_getNodeChild_lt h1 i
      simp only [OcTreeNode.height]
      omega
    · refine ⟨Or.inr (Or.inl rfl), Or.inr (Or.inl rfl), ?_⟩
      have := OcTreeNode.height_pos h1
      simp only [OcTreeNode.height]
      omega
  · refine Or.inr (Or.inr ⟨_, rfl, ?_⟩)
    have h1 : a.root1.isNull = false := by revert c4; cases a.root1.isNull <;> simp
    intro c hc
    simp only [List.mem_singleton] at hc
    subst hc
    refine ⟨Or.inr (Or.inl rfl), Or.inr (Or.inl rfl), ?_⟩
    have := OcTreeNode.height_pos h1
    simp only [OcTreeNode.height]
    omega
  · refine Or.inr (Or.inl ?_)
    have h1 : a.root1.isNull = false := by
      revert c1 c2 c4; cases a.root1.isNull <;> cases a.root2.isNull <;> simp
    have h2 : a.root2.isNull = false := by
      revert c1 c2 c4; cases a.root1.isNull <;> cases a.root2.isNull <;> simp
    have h3 : a.root1.nodeHasChildren = false := by
      revert c6; cases a.root1.nodeHasChildren <;> simp
    have h4 : a.root2.nodeHasChildren = false := by
      revert c6; cases a.root2.nodeHasChildren <;> simp
    have h5 : tree1.isNodeOccupied a.root1 = true := by
      revert c7; cases tree1.isNodeOccupied a.root1 <;> simp
    have h6 : tree2.isNodeOccupied a.root2 = true := by
      revert c7; cases tree2.isNodeOccupied a.root2 <;> simp
    exact ⟨h1, h2, h3, h4, h5, h6, rfl⟩
  · exact Or.inl rfl
  · exact Or.inl rfl
  · exact Or.inl rfl
  · exact Or.inl rfl
  · refine Or.inr (Or.inr ⟨_, rfl, ?_⟩)
    have h1 : a.root1.isNull = false := by
      revert c1 c2 c4; cases a.root1.isNull <;> cases a.root2.isNull <;> simp
    intro c hc
    obtain ⟨i, hi, rfl⟩ := sv.mem_descendFirst a c hc
    refine ⟨Or.inr (Or.inr ⟨i, hi, rfl⟩), Or.inl rfl, ?_⟩
    have := OcTreeNode.height_getNodeChild_lt h1 i
    simp only
    omega
  · refine Or.inr (Or.inr ⟨_, rfl, ?_⟩)
    have h2 : a.root2.isNull = false := by
      revert c1 c2 c4; cases a.root1.isNull <;> cases a.root2.isNull <;> simp
    intro c hc
    obtain ⟨i, hi, rfl⟩ := sv.mem_descendSecond a c hc
    refine ⟨Or.inl rfl, Or.inr (Or.inr ⟨i, hi, rfl⟩), ?_⟩
    have := OcTreeNode.height_getNodeChild_lt h2 i
    simp only
    omega

/-- An activation of `OcTreeIntersectRecurse` on cells of the two trees, in the
form the traversal lemmas take. -/
theorem OcTreeSolver.visitOcTreeIntersect_step (sv : OcTreeSolver K Sh BV)
    (tree1 tree2 : OcTree K) (tf1 tf2 : Transform3f K) (request : CollisionRequest K)
    (root1 root2 : OcTreeNode K) (a : OcTreePair K) (res : CollisionResult K)
    (hP : (a.root1.isNull = true ∨ a.root1 ∈ root1.nodes) ∧
      (a.root2.isNull = true ∨ a.root2 ∈ root2.nodes)) :
    (∃ v s1, sv.visitOcTreeIntersect tree1 tree2 tf1 tf2 request a res = Visit.ret v s1 ∧
      (s1 = res ∨ (res.numContacts < request.num_max_contacts ∧
        ∃ c, (∃ n1 ∈ root1.nodes, ∃ n2 ∈ root2.nodes,
            n1.nodeHasChildren = false ∧ n2.nodeHasChildren = false ∧
            tree1.isNodeOccupied n1 = true ∧ tree2.isNodeOccupied n2 = true ∧
            c.o1 = tree1.addr ∧ c.o2 = tree2.addr ∧
            c.b1 = tree1.index n1 ∧ c.b2 = tree2.index n2) ∧
          s1 = res.addContact c))) ∨
    (∃ calls, sv.visitOcTreeIntersect tree1 tree2 tf1 tf2 request a res = Visit.recurse calls ∧
      ∀ c ∈ calls,
        ((c.1.root1.isNull = true ∨ c.1.root1 ∈ root1.nodes) ∧
          (c.1.root2.isNull = true ∨ c.1.root2 ∈ root2.nodes)) ∧
        c.1.root1.height + c.1.root2.height < a.root1.height + a.root2.height) ∨
    (sv.visitOcTreeIntersect tree1 tree2 tf1 tf2 request a res = Visit.fail ∧ False) := by
  rcases sv.visitOcTreeIntersect_cases tree1 tree2 tf1 tf2 request a res with
    h | ⟨h1, h2, h3, h4, h5, h6, h⟩ | ⟨calls, h, hcalls⟩
  · exact Or.inl ⟨false, res, h, Or.inl rfl⟩
  · refine Or.inl ⟨_, _, h, ?_⟩
    rcases sv.intersectLeafPair_cases tree1 tree2 tf1 tf2 request a res with e | ⟨hn, d, e⟩
    · exact Or.inl e
    · refine Or.inr ⟨hn, _, ⟨a.root1, ?_, a.root2, ?_, h3, h4, h5, h6, rfl, rfl, rfl, rfl⟩, e⟩
      · rcases hP.1 with hh | hh
        · rw [hh] at h1; cases h1
        · exact hh
      · rcases hP.2 with hh | hh
        · rw [hh] at h2; cases h2
        · exact hh
  · refine Or.inr (Or.inl ⟨calls, h, ?_⟩)
    intro c hc
    obtain ⟨s1, s2, hlt⟩ := hcalls c hc
    refine ⟨⟨?_, ?_⟩, hlt⟩
    · rcases s1 with e | e | ⟨i, hi, e⟩
      · rw [e]; exact hP.1
      · exact Or.inl e
      · rcases hP.1 with hh | hh
        · rw [OcTreeNode.nodeChildExists_of_isNull hh] at hi; cases hi
        · rw [e]; exact Or.inr (OcTreeNode.mem_nodes_getNodeChild hh i hi)
    · rcases s2 with e | e | ⟨i, hi, e⟩
      · rw [e]; exact hP.2
      · exact Or.inl e
      · rcases hP.2 with hh | hh
        · rw [OcTreeNode.nodeChildExists_of_isNull hh] at hi; cases hi
        · rw [e]; exact Or.inr (OcTreeNode.mem_nodes_getNodeChild hh i hi)

/-- Every activation of `OcTreeIntersectRecurse` returns; the contacts at exit
are those at entry followed by contacts of childless occupied cells below the
two cells of the activation, and the cap of the request is kept. -/
theorem OcTreeSolver.intersect_activation (sv : OcTreeSolver K Sh BV)
    (tree1 tree2 : OcTree K) (tf1 tf2 : Transform3f K) (request : CollisionRequest K)
    (fuel : Nat) (a : OcTreePair K) (res : CollisionResult K)
    (hfuel : a.root1.height + a.root2.height < fuel) :
    ∃ v res1, traverse (sv.visitOcTreeIntersect tree1 tree2 tf1 tf2 request) fuel a res =
        Outcome.ret v res1 ∧
      (∃ added, res1.contacts = res.contacts ++ added ∧
        ∀ c ∈ added, ∃ n1 ∈ a.root1.nodes, ∃ n2 ∈ a.root2.nodes,
          n1.nodeHasChildren = false ∧ n2.nodeHasChildren = false ∧
          tree1.isNodeOccupied n1 = true ∧ tree2.isNodeOccupied n2 = true ∧
          c.o1 = tree1.addr ∧ c.o2 = tree2.addr ∧
          c.b1 = tree1.index n1 ∧ c.b2 = tree2.index n2) ∧
      res1.numContacts ≤ max res.numContacts request.num_max_contacts := by
  have h := traverse_contacts (sv.visitOcTreeIntersect tree1 tree2 tf1 tf2 request)
    request.num_max_contacts
    (fun c => (c.root1.isNull = true ∨ c.root1 ∈ a.root1.nodes) ∧
      (c.root2.isNull = true ∨ c.root2 ∈ a.root2.nodes))
    (fun c => c.root1.height + c.root2.height) _ False
    (fun c s hc => sv.visitOcTreeIntersect_step tree1 tree2 tf1 tf2 request a.root1 a.root2 c s hc)
    fuel a res ?_ hfuel
  · rcases h with h | ⟨-, h⟩
    · exact h
    · exact h.elim
  · constructor
    · cases h1 : a.root1.isNull
      · exact Or.inr (OcTreeNode.mem_nodes_self h1)
      · exact Or.inl rfl
    · cases h2 : a.root2.isNull
      · exact Or.inr (OcTreeNode.mem_nodes_self h2)
      · exact Or.inl rfl

end Intersect

/-! ## Octree against shape -/

section ShapeIntersect

variable {K Sh BV : Type} [LinearOrderedField K]

/-- An activation of `OcTreeShapeIntersectRecurse` on a cell of the tree, in the
form the traversal lemmas take. -/
theorem OcTreeSolver.visitOcTreeShapeIntersect_step (sv : OcTreeSolver K Sh BV)
    (tree1 : OcTree K) (s : Sh) (obb2 : OBB K) (tf1 tf2 : Transform3f K)
    (request : CollisionRequest K) (root : OcTreeNode K) (a : OcTreeCell K)
    (res : CollisionResult K) (hP : a.root1.isNull = true ∨ a.root1 ∈ root.nodes) :
    (∃ v s1, sv.visitOcTreeShapeIntersect tree1 s obb2 tf1 tf2 request a res = Visit.ret v s1 ∧
      (s1 = res ∨ (res.numContacts < request.num_max_contacts ∧
        ∃ c, (∃ n ∈ root.nodes, n.nodeHasChildren = false ∧ tree1.isNodeOccupied n = true ∧
            c.o1 = tree1.addr ∧ c.o2 = sv.shapeAddr s ∧
            c.b1 = tree1.index n ∧ c.b2 = Contact.NONE) ∧
          s1 = res.addContact c))) ∨
    (∃ calls,
      sv.visitOcTreeShapeIntersect tree1 s obb2 tf1 tf2 request a res = Visit.recurse calls ∧
      ∀ c ∈ calls, (c.1.root1.isNull = true ∨ c.1.root1 ∈ root.nodes) ∧
        c.1.root1.height < a.root1.height) ∨
    (sv.visitOcTreeShapeIntersect tree1 s obb2 tf1 tf2 request a res = Visit.fail ∧ False) := by
  generalize hv : sv.visitOcTreeShapeIntersect tree1 s obb2 tf1 tf2 request a res = v
  unfold OcTreeSolver.visitOcTreeShapeIntersect at hv
  split_ifs at hv with c1 c2 c3 c4 c5 c6 c7 <;> subst hv
  · exact Or.inl ⟨false, res, rfl, Or.inl rfl⟩
  · refine Or.inl ⟨_, _, rfl, ?_⟩
    rcases sv.shapeIntersectLeaf_cases tree1 s tf1 tf2 request a res with e | ⟨hn, d, e⟩
    · exact Or.inl e
    · have h1 : a.root1.isNull = false := by simpa using c1
      have h2 : a.root1.nodeHasChildren = false := by simpa using c2
      refine Or.inr ⟨hn, _, ⟨a.root1, ?_, h2, c3, rfl, rfl, rfl, rfl⟩, e⟩
      rcases hP with hh | hh
      · rw [hh] at h1; cases h1
      · exact hh
  · exact Or.inl ⟨false, res, rfl, Or.inl rfl⟩
  · exact Or.inl ⟨false, res, rfl, Or.inl rfl⟩
  · exact Or.inl ⟨false, res, rfl, Or.inl rfl⟩
  · exact Or.inl ⟨false, res, rfl, Or.inl rfl⟩
  · exact Or.inl ⟨false, res, rfl, Or.inl rfl⟩
  · refine Or.inr (Or.inl ⟨_, rfl, ?_⟩)
    have h1 : a.root1.isNull = false := by simpa using c1
    intro c hc
    obtain ⟨i, hi, rfl⟩ := sv.mem_descendCell a c hc
    refine ⟨?_, OcTreeNode.height_getNodeChild_lt h1 i⟩
    rcases hP with hh | hh
    · rw [hh] at h1; cases h1
    · exact Or.inr (OcTreeNode.mem_nodes_getNodeChild hh i hi)

/-- Every activation of `OcTreeShapeIntersectRecurse` returns; the contacts at
exit are those at entry followed by contacts between a childless occupied cell
below the cell of the activation (object 1) and the shape (object 2), and the
cap of the request is kept. -/
theorem OcTreeSolver.shapeIntersect_activation (sv : OcTreeSolver K Sh BV)
    (tree1 : OcTree K) (s : Sh) (obb2 : OBB K) (tf1 tf2 : Transform3f K)
    (request : CollisionRequest K) (fuel : Nat) (a : OcTreeCell K) (res : CollisionResult K)
    (hfuel : a.root1.height < fuel) :
    ∃ v res1, traverse (sv.visitOcTreeShapeIntersect tree1 s obb2 tf1 tf2 request) fuel a res =
        Outcome.ret v res1 ∧
      (∃ added, res1.contacts = res.contacts ++ added ∧
        ∀ c ∈ added, ∃ n ∈ a.root1.nodes, n.nodeHasChildren = false ∧
          tree1.isNodeOccupied n = true ∧ c.o1 = tree1.addr ∧ c.o2 = sv.shapeAddr s ∧
          c.b1 = tree1.index n ∧ c.b2 = Contact.NONE) ∧
      res1.numContacts ≤ max res.numContacts request.num_max_contacts := by
  have h := traverse_contacts (sv.visitOcTreeShapeIntersect tree1 s obb2 tf1 tf2 request)
    request.num_max_contacts
    (fun c => c.root1.isNull = true ∨ c.root1 ∈ a.root1.nodes)
    (fun c => c.root1.height) _ False
    (fun c r hc => sv.visitOcTreeShapeIntersect_step tree1 s obb2 tf1 tf2 request a.root1 c r hc)
    fuel a res ?_ hfuel
  · rcases h with h | ⟨-, h⟩
    · exact h
    · exact h.elim
  · show a.root1.isNull = true ∨ a.root1 ∈ a.root1.nodes
    cases h1 : a.root1.isNull
    · exact Or.inr (OcTreeNode.mem_nodes_self h1)
    · exact Or.inl rfl

end ShapeIntersect

/-! ## Octree against mesh -/

section MeshIntersect

variable {K Sh BV : Type} [LinearOrderedField K]

theorem OcTreeSolver.meshIntersectLeaf_cases (sv : OcTreeSolver K Sh BV) (tree1 : OcTree K)
    (tree2 : BVHModel K BV) (tf1 tf2 : Transform3f K) (request : CollisionRequest K)
    (bv1 : AABB K) (root1 : OcTreeNode K) (primitive_id : Int) (p1 p2 p3 : Vec3f K)
    (res : CollisionResult K) :
    (∃ v s1, sv.meshIntersectLeaf tree1 tree2 tf1 tf2 request bv1 root1 primitive_id p1 p2 p3 res
        = Visit.ret v s1 ∧
      (s1 = res ∨ (res.numContacts < request.num_max_contacts ∧
        ∃ d, s1 = res.addContact
          ⟨tree1.addr, tree2.addr, tree1.index root1, primitive_id, d⟩))) ∨
    (sv.meshIntersectLeaf tree1 tree2 tf1 tf2 request bv1 root1 primitive_id p1 p2 p3 res
        = Visit.fail ∧ request.enable_contact = true ∧ request.security_margin ≠ 0) := by
  generalize hv :
    sv.meshIntersectLeaf tree1 tree2 tf1 tf2 request bv1 root1 primitive_id p1 p2 p3 res = v
  simp only [OcTreeSolver.meshIntersectLeaf] at hv
  split_ifs at hv with h1 h2
  · split at hv
    · subst hv
      refine Or.inl ⟨_, _, rfl, ?_⟩
      rcases CollisionResult.addContactCapped_cases res request
        ⟨tree1.addr, tree2.addr, tree1.index root1, primitive_id, none⟩ with h | ⟨h, h3⟩
      · exact Or.inl h
      · exact Or.inr ⟨h, none, h3⟩
    · subst hv
      exact Or.inl ⟨_, _, rfl, Or.inl rfl⟩
  · split at hv
    · rename_i distance c1 c2 normal _
      subst hv
      refine Or.inl ⟨_, _, rfl, ?_⟩
      rcases CollisionResult.addContactCapped_cases res request
        ⟨tree1.addr, tree2.addr, tree1.index root1, primitive_id,
          some (c1, normal, -distance)⟩ with h | ⟨h, h3⟩
      · exact Or.inl h
      · exact Or.inr ⟨h, _, h3⟩
    · subst hv
      exact Or.inl ⟨_, _, rfl, Or.inl rfl⟩
  · split at hv
    · subst hv
      exact Or.inr ⟨rfl, by simpa using h1, h2⟩
    · subst hv
      exact Or.inl ⟨_, _, rfl, Or.inl rfl⟩

/-- An activation of `OcTreeMeshIntersectRecurse` on a cell of the tree, in the
form the traversal lemmas take: it stops the program only on the assertion
`security_margin == 0`. -/
theorem OcTreeSolver.visitOcTreeMeshIntersect_step (sv : OcTreeSolver K Sh BV)
    (tree1 : OcTree K) (tree2 : BVHModel K BV) (tf1 tf2 : Transform3f K)
    (request : CollisionRequest K) (root : OcTreeNode K) (a : OcTreeMeshPair K BV)
    (res : CollisionResult K) (hP : a.root1.isNull = true ∨ a.root1 ∈ root.nodes) :
    (∃ v s1, sv.visitOcTreeMeshIntersect tree1 tree2 tf1 tf2 request a res = Visit.ret v s1 ∧
      (s1 = res ∨ (res.numContacts < request.num_max_contacts ∧
        ∃ c, (∃ n ∈ root.nodes, n.nodeHasChildren = false ∧ tree1.isNodeOccupied n = true ∧
            c.o1 = tree1.addr ∧ c.o2 = tree2.addr ∧ c.b1 = tree1.index n) ∧
          s1 = res.addContact c))) ∨
    (∃ calls,
      sv.visitOcTreeMeshIntersect tree1 tree2 tf1 tf2 request a res = Visit.recurse calls ∧
      ∀ c ∈ calls, (c.1.root1.isNull = true ∨ c.1.root1 ∈ root.nodes) ∧
        c.1.root1.height + c.1.root2.height < a.root1.height + a.root2.height) ∨
    (sv.visitOcTreeMeshIntersect tree1 tree2 tf1 tf2 request a res = Visit.fail ∧
      request.enable_contact = true ∧ request.security_margin ≠ 0) := by
  generalize hv : sv.visitOcTreeMeshIntersect tree1 tree2 tf1 tf2 request a res = v
  unfold OcTreeSolver.visitOcTreeMeshIntersect at hv
  split_ifs at hv with c1 c2 c3 c4 c5 c6 c7 c8 c9
  · subst hv
    exact Or.inl ⟨false, res, rfl, Or.inl rfl⟩
  · subst hv
    refine Or.inr (Or.inl ⟨_, rfl, ?_⟩)
    intro c hc
    obtain ⟨e, hlt⟩ := OcTreeSolver.mem_descendMeshSecond a c hc
    refine ⟨Or.inl (by rw [e]; exact c1), ?_⟩
    rw [e]
    omega
  · split at hv
    · rename_i b primitive_id p1 p2 p3 heq
      subst hv
      have h1 : a.root1.isNull = false := by simpa using c1
      have h2 : a.root1.nodeHasChildren = false := by
        revert c3; cases a.root1.nodeHasChildren <;> simp
      rcases sv.meshIntersectLeaf_cases tree1 tree2 tf1 tf2 request a.bv1 a.root1 primitive_id
        p1 p2 p3 res with ⟨v, s1, e, hs⟩ | hf
      · refine Or.inl ⟨v, s1, e, ?_⟩
        rcases hs with hs | ⟨hn, d, hs⟩
        · exact Or.inl hs
        · refine Or.inr ⟨hn, _, ⟨a.root1, ?_, h2, c4, rfl, rfl, rfl⟩, hs⟩
          rcases hP with hh | hh
          · rw [hh] at h1; cases h1
          · exact hh
      · exact Or.inr (Or.inr hf)
    · subst hv
      exact Or.inl ⟨false, res, rfl, Or.inl rfl⟩
  · subst hv
    exact Or.inl ⟨false, res, rfl, Or.inl rfl⟩
  · subst hv
    exact Or.inl ⟨false, res, rfl, Or.inl rfl⟩
  · subst hv
    exact Or.inl ⟨false, res, rfl, Or.inl rfl⟩
  · subst hv
    exact Or.inl ⟨false, res, rfl, Or.inl rfl⟩
  · subst hv
    exact Or.inl ⟨false, res, rfl, Or.inl rfl⟩
  · subst hv
    refine Or.inr (Or.inl ⟨_, rfl, ?_⟩)
    have h1 : a.root1.isNull = false := by simpa using c1
    intro c hc
    obtain ⟨i, hi, rfl⟩ := sv.mem_descendMeshFirst a c hc
    have := OcTreeNode.height_getNodeChild_lt h1 i
    refine ⟨?_, by simp only; omega⟩
    rcases hP with hh | hh
    · rw [hh] at h1; cases h1
    · exact Or.inr (OcTreeNode.mem_nodes_getNodeChild hh i hi)
  · subst hv
    refine Or.inr (Or.inl ⟨_, rfl, ?_⟩)
    intro c hc
    obtain ⟨e, hlt⟩ := OcTreeSolver.mem_descendMeshSecond a c hc
    refine ⟨by rw [e]; exact hP, ?_⟩
    rw [e]
    omega

/-- Every activation of `OcTreeMeshIntersectRecurse` returns or stops on the
assertion `security_margin == 0`; when it returns, the contacts at exit are
those at entry followed by contacts of childless occupied cells below the cell
of the activation, and the cap of the request is kept. -/
theorem OcTreeSolver.meshIntersect_activation (sv : OcTreeSolver K Sh BV)
    (tree1 : OcTree K) (tree2 : BVHModel K BV) (tf1 tf2 : Transform3f K)
    (request : CollisionRequest K) (fuel : Nat) (a : OcTreeMeshPair K BV)
    (res : CollisionResult K) (hfuel : a.root1.height + a.root2.height < fuel) :
    (∃ v res1, traverse (sv.visitOcTreeMeshIntersect tree1 tree2 tf1 tf2 request) fuel a res =
        Outcome.ret v res1 ∧
      (∃ added, res1.contacts = res.contacts ++ added ∧
        ∀ c ∈ added, ∃ n ∈ a.root1.nodes, n.nodeHasChildren = false ∧
          tree1.isNodeOccupied n = true ∧ c.o1 = tree1.addr ∧ c.o2 = tree2.addr ∧
          c.b1 = tree1.index n) ∧
      res1.numContacts ≤ max res.numContacts request.num_max_contacts) ∨
    (traverse (sv.visitOcTreeMeshIntersect tree1 tree2 tf1 tf2 request) fuel a res =
        Outcome.fail ∧ request.enable_contact = true ∧ request.security_margin ≠ 0) := by
  refine traverse_contacts (sv.visitOcTreeMeshIntersect tree1 tree2 tf1 tf2 request)
    request.num_max_contacts
    (fun c => c.root1.isNull = true ∨ c.root1 ∈ a.root1.nodes)
    (fun c => c.root1.height + c.root2.height) _ _
    (fun c r hc => sv.visitOcTreeMeshIntersect_step tree1 tree2 tf1 tf2 request a.root1 c r hc)
    fuel a res ?_ hfuel
  show a.root1.isNull = true ∨ a.root1 ∈ a.root1.nodes
  cases h1 : a.root1.isNull
  · exact Or.inr (OcTreeNode.mem_nodes_self h1)
  · exact Or.inl rfl

end MeshIntersect

/-! ## Contacts of the octree traversals -/

section Contacts

variable {K Sh BV : Type} [LinearOrderedField K]

/-- C23 (amended): overflow of the contact limit is silent and the cap is never
exceeded. `OcTreeIntersect` and `OcTreeShapeIntersect` always return, for every
pair of trees, transforms, request and initial result, and the number of
contacts afterwards is at most the larger of the initial number and
`request.num_max_contacts`; so does `OcTreeMeshIntersect` for every request with
`security_margin = 0` or `enable_contact = false`. For the other requests
`OcTreeMeshIntersect` either returns within the same bound or stops on its
assertion `security_margin == 0`, which comes before the test of the cap. -/
theorem contact_cap_is_silent (sv : OcTreeSolver K Sh BV) (tree1 tree2 : OcTree K) (s : Sh)
    (mesh : BVHModel K BV) (tf1 tf2 : Transform3f K) (request : CollisionRequest K)
    (result : CollisionResult K) :
    (∃ v r, sv.OcTreeIntersect tree1 tree2 tf1 tf2 request result = Outcome.ret v r ∧
      r.numContacts ≤ max result.numContacts request.num_max_contacts) ∧
    (∃ v r, sv.OcTreeShapeIntersect tree1 s tf1 tf2 request result = Outcome.ret v r ∧
      r.numContacts ≤ max result.numContacts request.num_max_contacts) ∧
    ((request.security_margin = 0 ∨ request.enable_contact = false) →
      ∃ v r, sv.OcTreeMeshIntersect tree1 mesh tf1 tf2 request result = Outcome.ret v r ∧
        r.numContacts ≤ max result.numContacts request.num_max_contacts) ∧
    ((∃ v r, sv.OcTreeMeshIntersect tree1 mesh tf1 tf2 request result = Outcome.ret v r ∧
        r.numContacts ≤ max result.numContacts request.num_max_contacts) ∨
      (sv.OcTreeMeshIntersect tree1 mesh tf1 tf2 request result = Outcome.fail ∧
        request.enable_contact = true ∧ request.security_margin ≠ 0)) := by
  have hmesh := sv.meshIntersect_activation tree1 mesh tf1 tf2 request
    (tree1.root.height + mesh.root.height + 1) ⟨tree1.root, tree1.rootBV, mesh.root⟩ result
    (Nat.lt_succ_self _)
  refine ⟨?_, ?_, ?_, ?_⟩
  · obtain ⟨v, r, h, -, hn⟩ := sv.intersect_activation tree1 tree2 tf1 tf2 request
      (tree1.root.height + tree2.root.height + 1)
      ⟨tree1.root, tree1.rootBV, tree2.root, tree2.rootBV⟩ result (Nat.lt_succ_self _)
    exact ⟨v, r, h, hn⟩
  · obtain ⟨v, r, h, -, hn⟩ := sv.shapeIntersect_activation tree1 s
      (details.Converter_AABB_OBB_convert (sv.computeBV s Transform3f.Identity) tf2) tf1 tf2
      request (tree1.root.height + 1) ⟨tree1.root, tree1.rootBV⟩ result (Nat.lt_succ_self _)
    exact ⟨v, r, h, hn⟩
  · intro hreq
    rcases hmesh with ⟨v, r, h, -, hn⟩ | ⟨-, he, hm⟩
    · exact ⟨v, r, h, hn⟩
    · rcases hreq with h0 | h0
      · exact absurd h0 hm
      · rw [h0] at he; cases he
  · rcases hmesh with ⟨v, r, h, -, hn⟩ | h
    · exact Or.inl ⟨v, r, h, hn⟩
    · exact Or.inr h

/-- C24 (amended): occupancy pruning. For every pair of octrees, `OcTreeIntersect`
returns and every contact it adds is
`Contact(tree1, tree2, n1 - root1, n2 - root2, ...)` for a childless cell `n1` of
`tree1` and a childless cell `n2` of `tree2` that are both occupied; these
cells are neither free nor uncertain when, in their tree, no occupied cell is
free or uncertain. An activation on two cells, none of them null, one of which
is free or uncertain, returns `false` at once, without a recursive call and
with the result unchanged, so that no pair below it is examined, when one of
the two cells has children, and also when both are childless and in both trees
no occupied cell is free or uncertain. -/
theorem occupancy_pruning (sv : OcTreeSolver K Sh BV) (tree1 tree2 : OcTree K)
    (tf1 tf2 : Transform3f K) (request : CollisionRequest K) (result : CollisionResult K) :
    (∃ v r added, sv.OcTreeIntersect tree1 tree2 tf1 tf2 request result = Outcome.ret v r ∧
      r.contacts = result.contacts ++ added ∧
      ∀ c ∈ added, ∃ n1 ∈ tree1.root.nodes, ∃ n2 ∈ tree2.root.nodes,
        c.o1 = tree1.addr ∧ c.o2 = tree2.addr ∧
        c.b1 = tree1.index n1 ∧ c.b2 = tree2.index n2 ∧
        n1.nodeHasChildren = false ∧ n2.nodeHasChildren = false ∧
        tree1.isNodeOccupied n1 = true ∧ tree2.isNodeOccupied n2 = true ∧
        ((∀ n, tree1.isNodeOccupied n = true →
            tree1.isNodeFree n = false ∧ tree1.isNodeUncertain n = false) →
          tree1.isNodeFree n1 = false ∧ tree1.isNodeUncertain n1 = false) ∧
        ((∀ n, tree2.isNodeOccupied n = true →
            tree2.isNodeFree n = false ∧ tree2.isNodeUncertain n = false) →
          tree2.isNodeFree n2 = false ∧ tree2.isNodeUncertain n2 = false)) ∧
    (∀ (a : OcTreePair K) (res : CollisionResult K),
      a.root1.isNull = false → a.root2.isNull = false →
      (tree1.isNodeFree a.root1 = true ∨ tree1.isNodeUncertain a.root1 = true ∨
        tree2.isNodeFree a.root2 = true ∨ tree2.isNodeUncertain a.root2 = true) →
      (a.root1.nodeHasChildren = true ∨ a.root2.nodeHasChildren = true ∨
        ((∀ n, tree1.isNodeOccupied n = true →
            tree1.isNodeFree n = false ∧ tree1.isNodeUncertain n = false) ∧
          (∀ n, tree2.isNodeOccupied n = true →
            tree2.isNodeFree n = false ∧ tree2.isNodeUncertain n = false))) →
      sv.visitOcTreeIntersect tree1 tree2 tf1 tf2 request a res = Visit.ret false res) := by
  constructor
  · obtain ⟨v, r, h, ⟨added, e, hadd⟩, -⟩ := sv.intersect_activation tree1 tree2 tf1 tf2 request
      (tree1.root.height + tree2.root.height + 1)
      ⟨tree1.root, tree1.rootBV, tree2.root, tree2.rootBV⟩ result (Nat.lt_succ_self _)
    refine ⟨v, r, added, h, e, ?_⟩
    intro c hc
    obtain ⟨n1, hn1, n2, hn2, l1, l2, o1, o2, e1, e2, e3, e4⟩ := hadd c hc
    exact ⟨n1, hn1, n2, hn2, e1, e2, e3, e4, l1, l2, o1, o2, fun hexcl1 => hexcl1 n1 o1,
      fun hexcl2 => hexcl2 n2 o2⟩
  · intro a res ha1 ha2 hprune halt
    rcases sv.visitOcTreeIntersect_cases tree1 tree2 tf1 tf2 request a res with
      h | ⟨-, -, l1, l2, o1, o2, -⟩ | ⟨calls, h, -⟩
    · exact h
    · exfalso
      rcases halt with hc | hc | ⟨hexcl1, hexcl2⟩
      · rw [l1] at hc; cases hc
      · rw [l2] at hc; cases hc
      · have f1 := hexcl1 _ o1
        have f2 := hexcl2 _ o2
        rw [f1.1, f1.2, f2.1, f2.2] at hprune
        simp at hprune
    · exfalso
      unfold OcTreeSolver.visitOcTreeIntersect at h
      have n1 : (a.root1.isNull && a.root2.isNull) = false := by simp [ha1]
      have n2 : (a.root1.isNull && !a.root2.isNull) = false := by simp [ha1]
      have n3 : (!a.root1.isNull && a.root2.isNull) = false := by simp [ha2]
      simp only [n1, n2, n3, Bool.false_eq_true, if_false] at h
      split_ifs at h with c6 c7 c8 c9 c10 c11
      · rcases hprune with p | p | p | p
        · exact c8 (by simp [p])
        · exact c9 (by simp [p])
        · exact c8 (by simp [p])
        · exact c9 (by simp [p])
      · rcases hprune with p | p | p | p
        · exact c8 (by simp [p])
        · exact c9 (by simp [p])
        · exact c8 (by simp [p])
        · exact c9 (by simp [p])

/-- C25: the null-cell branches never add contacts. Every call of
`OcTreeIntersectRecurse` in which `root1` or `root2` is null, whatever the other
tree, the cell boxes, the transforms and the request, terminates (a recursion
budget above `h(root1) + h(root2)` is enough), returns `false` and leaves the
collision result unchanged. -/
theorem null_cell_adds_no_contact (sv : OcTreeSolver K Sh BV) (tree1 tree2 : OcTree K)
    (tf1 tf2 : Transform3f K) (request : CollisionRequest K) (a : OcTreePair K)
    (res : CollisionResult K) (extra : Nat)
    (hnull : a.root1.isNull = true ∨ a.root2.isNull = true) :
    sv.OcTreeIntersectRecurse tree1 tree2 tf1 tf2 request
      (a.root1.height + a.root2.height + 1 + extra) a res = Outcome.ret false res := by
  unfold OcTreeSolver.OcTreeIntersectRecurse
  have h := traverse_outcome (sv.visitOcTreeIntersect tree1 tree2 tf1 tf2 request)
    (fun c => c.root1.isNull = true ∨ c.root2.isNull = true)
    (fun c => c.root1.height + c.root2.height)
    (fun s v s1 => v = false ∧ s1 = s) False
    (fun s => ⟨rfl, rfl⟩)
    (fun s s1 v s2 h1 h2 => ⟨h2.1, by rw [h2.2, h1.2]⟩)
    (fun c s hc => by
      rcases sv.visitOcTreeIntersect_cases tree1 tree2 tf1 tf2 request c s with
        h | ⟨n1, n2, -⟩ | ⟨calls, h, hcalls⟩
      · exact Or.inl ⟨false, s, h, rfl, rfl⟩
      · rcases hc with hc | hc
        · rw [hc] at n1; cases n1
        · rw [hc] at n2; cases n2
      · refine Or.inr (Or.inl ⟨calls, h, ?_⟩)
        intro c1 hc1
        obtain ⟨s1, s2, hlt⟩ := hcalls c1 hc1
        refine ⟨?_, hlt⟩
        rcases hc with hc | hc
        · left
          rcases s1 with e | e | ⟨i, hi, -⟩
          · rw [e]; exact hc
          · exact e
          · rw [OcTreeNode.nodeChildExists_of_isNull hc] at hi; cases hi
        · right
          rcases s2 with e | e | ⟨i, hi, -⟩
          · rw [e]; exact hc
          · exact e
          · rw [OcTreeNode.nodeChildExists_of_isNull hc] at hi; cases hi)
    (a.root1.height + a.root2.height + 1 + extra) a res hnull (by simp only; omega)
  rcases h with ⟨v, s1, h, hv, hs⟩ | ⟨-, h⟩
  · rw [h, hv, hs]
  · exact h.elim

/-- C26: contacts only append. Every activation of `OcTreeIntersectRecurse` and
of `OcTreeShapeIntersectRecurse`, whatever its arguments and the result it is
entered with, returns with a contact sequence that has the one at entry as a
prefix and is at least as long, and so does every activation of
`OcTreeMeshIntersectRecurse` that does not stop on the assertion
`security_margin == 0`; the runs of `OcTreeIntersect`, `OcTreeShapeIntersect`
and `OcTreeMeshIntersect` are the activations on the roots. -/
theorem contacts_only_append (sv : OcTreeSolver K Sh BV) (tree1 tree2 : OcTree K) (s : Sh)
    (obb2 : OBB K) (mesh : BVHModel K BV) (tf1 tf2 : Transform3f K)
    (request : CollisionRequest K) (result : CollisionResult K)
    (a : OcTreePair K) (b : OcTreeCell K) (m : OcTreeMeshPair K BV) (res : CollisionResult K)
    (extra : Nat) :
    ((∃ v r, sv.OcTreeIntersect tree1 tree2 tf1 tf2 request result = Outcome.ret v r ∧
        result.contacts <+: r.contacts ∧ result.numContacts ≤ r.numContacts) ∧
      (∃ v r, sv.OcTreeShapeIntersect tree1 s tf1 tf2 request result = Outcome.ret v r ∧
        result.contacts <+: r.contacts ∧ result.numContacts ≤ r.numContacts) ∧
      ((∃ v r, sv.OcTreeMeshIntersect tree1 mesh tf1 tf2 request result = Outcome.ret v r ∧
          result.contacts <+: r.contacts ∧ result.numContacts ≤ r.numContacts) ∨
        (sv.OcTreeMeshIntersect tree1 mesh tf1 tf2 request result = Outcome.fail ∧
          request.enable_contact = true ∧ request.security_margin ≠ 0))) ∧
    ((∃ v r, sv.OcTreeIntersectRecurse tree1 tree2 tf1 tf2 request
          (a.root1.height + a.root2.height + 1 + extra) a res = Outcome.ret v r ∧
        res.contacts <+: r.contacts ∧ res.numContacts ≤ r.numContacts) ∧
      (∃ v r, sv.OcTreeShapeIntersectRecurse tree1 s obb2 tf1 tf2 request
          (b.root1.height + 1 + extra) b res = Outcome.ret v r ∧
        res.contacts <+: r.contacts ∧ res.numContacts ≤ r.numContacts) ∧
      ((∃ v r, sv.OcTreeMeshIntersectRecurse tree1 mesh tf1 tf2 request
            (m.root1.height + m.root2.height + 1 + extra) m res = Outcome.ret v r ∧
          res.contacts <+: r.contacts ∧ res.numContacts ≤ r.numContacts) ∨
        (sv.OcTreeMeshIntersectRecurse tree1 mesh tf1 tf2 request
            (m.root1.height + m.root2.height + 1 + extra) m res = Outcome.fail ∧
          request.enable_contact = true ∧ request.security_margin ≠ 0))) := by
  have key : ∀ (r0 r1 : CollisionResult K) (G : Contact K → Prop),
      (∃ added, r1.contacts = r0.contacts ++ added ∧ ∀ c ∈ added, G c) →
      r0.contacts <+: r1.contacts ∧ r0.numContacts ≤ r1.numContacts := by
    intro r0 r1 G h
    obtain ⟨added, e, -⟩ := h
    refine ⟨⟨added, e.symm⟩, ?_⟩
    simp only [CollisionResult.numContacts, e, List.length_append]
    omega
  refine ⟨⟨?_, ?_, ?_⟩, ?_, ?_, ?_⟩
  · obtain ⟨v, r, h, hadd, -⟩ := sv.intersect_activation tree1 tree2 tf1 tf2 request
      (tree1.root.height + tree2.root.height + 1)
      ⟨tree1.root, tree1.rootBV, tree2.root, tree2.rootBV⟩ result (Nat.lt_succ_self _)
    exact ⟨v, r, h, key _ _ _ hadd⟩
  · obtain ⟨v, r, h, hadd, -⟩ := sv.shapeIntersect_activation tree1 s
      (details.Converter_AABB_OBB_convert (sv.computeBV s Transform3f.Identity) tf2) tf1 tf2
      request (tree1.root.height + 1) ⟨tree1.root, tree1.rootBV⟩ result (Nat.lt_succ_self _)
    exact ⟨v, r, h, key _ _ _ hadd⟩
  · rcases sv.meshIntersect_activation tree1 mesh tf1 tf2 request
      (tree1.root.height + mesh.root.height + 1) ⟨tree1.root, tree1.rootBV, mesh.root⟩ result
      (Nat.lt_succ_self _) with ⟨v, r, h, hadd, -⟩ | h
    · exact Or.inl ⟨v, r, h, key _ _ _ hadd⟩
    · exact Or.inr h
  · obtain ⟨v, r, h, hadd, -⟩ := sv.intersect_activation tree1 tree2 tf1 tf2 request
      (a.root1.height + a.root2.height + 1 + extra) a res (by omega)
    exact ⟨v, r, h, key _ _ _ hadd⟩
  · obtain ⟨v, r, h, hadd, -⟩ := sv.shapeIntersect_activation tree1 s obb2 tf1 tf2
      request (b.root1.height + 1 + extra) b res (by omega)
    exact ⟨v, r, h, key _ _ _ hadd⟩
  · rcases sv.meshIntersect_activation tree1 mesh tf1 tf2 request
      (m.root1.height + m.root2.height + 1 + extra) m res (by omega) with ⟨v, r, h, hadd, -⟩ | h
    · exact Or.inl ⟨v, r, h, key _ _ _ hadd⟩
    · exact Or.inr h

/-- C27 (as stated) fails: for the sphere of radius 1 at `(1/4, 0, 0)` (address
2) and the octree of one occupied unit cube at the origin (address 1),
`ShapeOcTreeIntersect(s, tree, tf_s, tf_t)` produces the contact
`(o1, o2, b1, b2) = (1, 2, 0, NONE)`, whose first object is the octree, and so
does `OcTreeShapeIntersect(tree, s, tf_t, tf_s)`; the former is not the latter
with the roles swapped. -/
theorem shape_octree_roles_not_swapped :
    ∃ r1 r2,
      sampleSolver.ShapeOcTreeIntersect ⟨1⟩ (voxelTree 1 0) ⟨Matrix3f.Identity, ⟨1 / 4, 0, 0⟩⟩
        Transform3f.Identity ⟨1, false, 0, 0⟩ ⟨[], 0⟩ = Outcome.ret true r1 ∧
      sampleSolver.OcTreeShapeIntersect (voxelTree 1 0) ⟨1⟩ Transform3f.Identity
        ⟨Matrix3f.Identity, ⟨1 / 4, 0, 0⟩⟩ ⟨1, false, 0, 0⟩ ⟨[], 0⟩ = Outcome.ret true r2 ∧
      r1.contacts = [⟨1, 2, 0, Contact.NONE, none⟩] ∧
      r2.contacts = [⟨1, 2, 0, Contact.NONE, none⟩] ∧
      (voxelTree 1 0).addr = 1 ∧ sampleSolver.shapeAddr ⟨1⟩ = 2 ∧
      r1.contacts ≠ r2.contacts.map Contact.swapRoles := by
  have h : sampleSolver.visitOcTreeShapeIntersect (voxelTree 1 0) ⟨1⟩
      (details.Converter_AABB_OBB_convert (sampleSolver.computeBV ⟨1⟩ Transform3f.Identity)
        ⟨Matrix3f.Identity, ⟨1 / 4, 0, 0⟩⟩)
      Transform3f.Identity ⟨Matrix3f.Identity, ⟨1 / 4, 0, 0⟩⟩ ⟨1, false, 0, 0⟩
      ⟨(voxelTree 1 0).root, (voxelTree 1 0).rootBV⟩ ⟨[], 0⟩ =
      Visit.ret true ⟨[⟨1, 2, 0, Contact.NONE, none⟩], 0⟩ := by
    norm_num [OcTreeSolver.visitOcTreeShapeIntersect,
      OcTreeSolver.shapeIntersectLeaf, voxelTree, sampleOcTree, voxel, OcTreeNode.isNull,
      OcTreeNode.nodeHasChildren, OcTreeNode.children, OcTreeNode.getOccupancy,
      sampleSolver, sampleOverlap, details.Converter_AABB_OBB_convert, unitCube,
      Transform3f.Identity, Transform3f.transform, Transform3f.getRotation, Matrix3f.Identity,
      Matrix3f.mulVec, AABB.center, AABB.width, AABB.height, AABB.depth, Vec3f.add, Vec3f.sub,
      Vec3f.scale, Vec3f.Constant, Box.create, CollisionResult.addContactCapped,
      CollisionResult.addContact, CollisionResult.numContacts, OcTree.index, OcTreeNode.address,
      Contact.NONE, abs_le]
  refine ⟨⟨[⟨1, 2, 0, Contact.NONE, none⟩], 0⟩, ⟨[⟨1, 2, 0, Contact.NONE, none⟩], 0⟩,
    traverse_of_ret _ _ _ _ _ _ h, traverse_of_ret _ _ _ _ _ _ h, rfl, rfl, rfl, rfl, ?_⟩
  intro e
  have e1 := congrArg (List.map Contact.o1) e
  simp [Contact.swapRoles] at e1

/-- C27 (amended): `ShapeOcTreeIntersect(s, tree, tf_s, tf_t)` is the same
computation as `OcTreeShapeIntersect(tree, s, tf_t, tf_s)`, with the same
outcome and no exchange of the contact roles: it returns, and each contact it
adds has the octree as its first object, with the index of a childless occupied
cell as primitive id 1, and the shape as its second object, with primitive id
`NONE`. -/
theorem shape_octree_contact_roles (sv : OcTreeSolver K Sh BV) (s : Sh) (tree : OcTree K)
    (tf_s tf_t : Transform3f K) (request : CollisionRequest K) (result : CollisionResult K) :
    sv.ShapeOcTreeIntersect s tree tf_s tf_t request result =
      sv.OcTreeShapeIntersect tree s tf_t tf_s request result ∧
    ∃ v r added, sv.ShapeOcTreeIntersect s tree tf_s tf_t request result = Outcome.ret v r ∧
      r.contacts = result.contacts ++ added ∧
      ∀ c ∈ added, c.o1 = tree.addr ∧ c.o2 = sv.shapeAddr s ∧ c.b2 = Contact.NONE ∧
        ∃ n ∈ tree.root.nodes, c.b1 = tree.index n ∧ n.nodeHasChildren = false ∧
          tree.isNodeOccupied n = true := by
  refine ⟨rfl, ?_⟩
  obtain ⟨v, r, h, ⟨added, e, hadd⟩, -⟩ := sv.shapeIntersect_activation tree s
    (details.Converter_AABB_OBB_convert (sv.computeBV s Transform3f.Identity) tf_s) tf_t tf_s
    request (tree.root.height + 1) ⟨tree.root, tree.rootBV⟩ result (Nat.lt_succ_self _)
  refine ⟨v, r, added, h, e, ?_⟩
  intro c hc
  obtain ⟨n, hn, l, o, e1, e2, e3, e4⟩ := hadd c hc
  exact ⟨e1, e2, e4, n, hn, e3, l, o⟩

/-- C30: the single-voxel scenario. For two octrees whose roots are childless
occupied cells, a request with `num_max_contacts >= 1` and an empty initial
result, `OcTreeIntersect` returns with exactly one contact, between the two
trees and with the primitive ids `(0, 0)`, whenever the OBBs of the two cells
overlap (`enable_contact = false`), respectively whenever the function
`shapeIntersect` of the solver on the boxes of the two cells succeeds
(`enable_contact = true`). -/
theorem single_voxel_contact (sv : OcTreeSolver K Sh BV) (tree1 tree2 : OcTree K)
    (tf1 tf2 : Transform3f K) (request : CollisionRequest K) (result : CollisionResult K)
    (hroot1 : tree1.root.isNull = false) (hleaf1 : tree1.root.nodeHasChildren = false)
    (hocc1 : tree1.isNodeOccupied tree1.root = true)
    (hroot2 : tree2.root.isNull = false) (hleaf2 : tree2.root.nodeHasChildren = false)
    (hocc2 : tree2.isNodeOccupied tree2.root = true)
    (hmax : 1 ≤ request.num_max_contacts) (hempty : result.contacts = [])
    (hhit : (request.enable_contact = false ∧
        sv.overlap (details.Converter_AABB_OBB_convert tree1.rootBV tf1)
          (details.Converter_AABB_OBB_convert tree2.rootBV tf2) = true) ∨
      (request.enable_contact = true ∧
        (sv.boxIntersect (sv.constructBox tree1.rootBV tf1).1 (sv.constructBox tree1.rootBV tf1).2
          (sv.constructBox tree2.rootBV tf2).1 (sv.constructBox tree2.rootBV tf2).2).isSome
            = true)) :
    ∃ v r c, sv.OcTreeIntersect tree1 tree2 tf1 tf2 request result = Outcome.ret v r ∧
      r.contacts = [c] ∧ c.o1 = tree1.addr ∧ c.o2 = tree2.addr ∧ c.b1 = 0 ∧ c.b2 = 0 := by
  have hcap : ∀ c : Contact K, (result.addContactCapped request c).contacts = [c] := by
    intro c
    have : result.numContacts < request.num_max_contacts := by
      simp only [CollisionResult.numContacts, hempty, List.length_nil]
      omega
    simp [CollisionResult.addContactCapped, this, CollisionResult.addContact, hempty]
  have hvisit : sv.visitOcTreeIntersect tree1 tree2 tf1 tf2 request
      ⟨tree1.root, tree1.rootBV, tree2.root, tree2.rootBV⟩ result =
      Visit.ret (sv.collisionSatisfied request (sv.intersectLeafPair tree1 tree2 tf1 tf2 request
          ⟨tree1.root, tree1.rootBV, tree2.root, tree2.rootBV⟩ result))
        (sv.intersectLeafPair tree1 tree2 tf1 tf2 request
          ⟨tree1.root, tree1.rootBV, tree2.root, tree2.rootBV⟩ result) := by
    simp [OcTreeSolver.visitOcTreeIntersect, hroot1, hroot2, hleaf1, hleaf2, hocc1, hocc2]
  have hrun := traverse_of_ret _ (tree1.root.height + tree2.root.height) _ _ _ _ hvisit
  rcases hhit with ⟨he, ho⟩ | ⟨he, hb⟩
  · refine ⟨_, _, ⟨tree1.addr, tree2.addr, 0, 0, none⟩, hrun, ?_, rfl, rfl, rfl, rfl⟩
    simp only [OcTreeSolver.intersectLeafPair, he, Bool.not_false, if_true, ho, OcTree.index,
      sub_self]
    exact hcap _
  · obtain ⟨⟨contact, depth, normal⟩, hx⟩ := Option.isSome_iff_exists.1 hb
    refine ⟨_, _, ⟨tree1.addr, tree2.addr, 0, 0, some (contact, normal, depth)⟩, hrun, ?_,
      rfl, rfl, rfl, rfl⟩
    simp only [OcTreeSolver.intersectLeafPair, he, Bool.not_true, Bool.false_eq_true, if_false,
      hx, OcTree.index, sub_self]
    exact hcap _

end Contacts

/-! ## Distance between an octree and a shape -/

section ShapeDistance

variable {K Sh BV : Type} [LinearOrderedField K]

theorem DistanceResult.update_min_distance (r : DistanceResult K) (d : K) (o1 o2 : Nat)
    (b1 b2 : Int) (p1 p2 n : Vec3f K) :
    (r.update d o1 o2 b1 b2 p1 p2 n).min_distance = min r.min_distance d := by
  unfold DistanceResult.update
  split_ifs with h
  · simp [min_eq_right (le_of_lt h)]
  · simp [min_eq_left (not_lt.1 h)]

theorem foldl_min_of_le (l : List K) (m : K) (h : ∀ x ∈ l, m ≤ x) : l.foldl min m = m := by
  induction l generalizing m with
  | nil => rfl
  | cons x xs ih =>
    have hx : m ≤ x := h x (List.mem_cons_self _ _)
    simp only [List.foldl_cons, min_eq_left hx]
    exact ih m (fun y hy => h y (List.mem_cons_of_mem _ hy))

theorem OcTreeSolver.leafDistances_children (sv : OcTreeSolver K Sh BV) (tree1 : OcTree K)
    (s : Sh) (tf1 tf2 : Transform3f K) (n : OcTreeNode K) (bv : AABB K)
    (h : n.nodeHasChildren = true) (m : K) :
    (sv.leafDistances tree1 s tf1 tf2 n bv).foldl min m =
      (List.range 8).foldl (fun acc i =>
        (sv.leafDistances tree1 s tf1 tf2 (n.getNodeChild i) (sv.computeChildBV bv i)).foldl
          min acc) m := by
  cases n with
  | null => simp [OcTreeNode.nodeHasChildren, OcTreeNode.children] at h
  | node a o c0 c1 c2 c3 c4 c5 c6 c7 =>
    have hr : List.range 8 = [0, 1, 2, 3, 4, 5, 6, 7] := by decide
    simp only [OcTreeSolver.leafDistances, h, if_true, hr, List.foldl_append, List.foldl_cons,
      List.foldl_nil, OcTreeNode.getNodeChild, OcTreeNode.children, List.getD_cons_zero,
      List.getD_cons_succ]

/-- The loop over the children in `OcTreeShapeDistanceRecurse`: when the call
for each existing child leaves the minimum of the distance at entry and the
distances of the occupied childless cells below the child, and the bound `d`
tested for a child is below those distances, the loop leaves the minimum over
all the children. -/
theorem OcTreeSolver.shapeDistance_loop (sv : OcTreeSolver K Sh BV) (tree1 : OcTree K) (s : Sh)
    (aabb2 : AABB K) (tf1 tf2 : Transform3f K) (request : DistanceRequest K) (fuel : Nat)
    (n : OcTreeNode K) (bv : AABB K)
    (hchild : ∀ i res, n.nodeChildExists i = true →
      ∃ r, traverse (sv.visitOcTreeShapeDistance tree1 s aabb2 tf1 tf2 request) fuel
          ⟨n.getNodeChild i, sv.computeChildBV bv i⟩ res = Outcome.ret false r ∧
        r.min_distance = (sv.leafDistances tree1 s tf1 tf2 (n.getNodeChild i)
          (sv.computeChildBV bv i)).foldl min res.min_distance)
    (hlb : ∀ i, ∀ d ∈ sv.leafDistances tree1 s tf1 tf2 (n.getNodeChild i)
        (sv.computeChildBV bv i),
      sv.aabbDistance (details.Converter_AABB_AABB_convert sv.sqrt (sv.computeChildBV bv i) tf1)
        aabb2 ≤ d) :
    ∀ (is : List Nat) (res : DistanceResult K),
      ∃ r, traverseLoop (traverse (sv.visitOcTreeShapeDistance tree1 s aabb2 tf1 tf2 request) fuel)
          (is.filterMap (fun i =>
            if n.nodeChildExists i then
              some ((⟨n.getNodeChild i, sv.computeChildBV bv i⟩ : OcTreeCell K),
                fun r : DistanceResult K => decide (sv.aabbDistance
                  (details.Converter_AABB_AABB_convert sv.sqrt (sv.computeChildBV bv i) tf1) aabb2
                    < r.min_distance))
            else none)) res = Outcome.ret false r ∧
        r.min_distance = is.foldl (fun acc i =>
          (sv.leafDistances tree1 s tf1 tf2 (n.getNodeChild i) (sv.computeChildBV bv i)).foldl
            min acc) res.min_distance := by
  intro is
  induction is with
  | nil => intro res; exact ⟨res, rfl, rfl⟩
  | cons i is ih =>
    intro res
    by_cases hi : n.nodeChildExists i = true
    · simp only [List.filterMap_cons, hi, if_true, List.foldl_cons]
      by_cases hg : sv.aabbDistance
          (details.Converter_AABB_AABB_convert sv.sqrt (sv.computeChildBV bv i) tf1) aabb2
            < res.min_distance
      · obtain ⟨r1, h1, e1⟩ := hchild i res hi
        obtain ⟨r, h, e⟩ := ih r1
        refine ⟨r, ?_, ?_⟩
        · simp only [traverseLoop, hg, decide_True, if_true, h1]
          exact h
        · rw [e, e1]
      · obtain ⟨r, h, e⟩ := ih res
        refine ⟨r, ?_, ?_⟩
        · simp only [traverseLoop, hg, decide_False, Bool.false_eq_true, if_false]
          exact h
        · rw [e, foldl_min_of_le _ _ (fun d hd => le_trans (not_lt.1 hg) (hlb i d hd))]
    · have hnull : n.getNodeChild i = OcTreeNode.null := by
        apply OcTreeNode.eq_null_of_isNull
        simpa [OcTreeNode.nodeChildExists] using hi
      obtain ⟨r, h, e⟩ := ih res
      refine ⟨r, ?_, ?_⟩
      · simp only [List.filterMap_cons, hi, Bool.false_eq_true, if_false]
        exact h
      · simp only [List.foldl_cons, hnull, OcTreeSolver.leafDistances, List.foldl_nil]
        simpa only [hnull, OcTreeSolver.leafDistances, List.foldl_nil] using e

/-- Every activation of `OcTreeShapeDistanceRecurse` on a cell returns `false`
with the minimum of the distance at entry and the distances of the occupied
childless cells below the cell, when the request is never satisfied, the inner
cells above occupied leaves are occupied and the tested bounds are lower
bounds. -/
theorem OcTreeSolver.shapeDistance_activation (sv : OcTreeSolver K Sh BV) (tree1 : OcTree K)
    (s : Sh) (aabb2 : AABB K) (tf1 tf2 : Transform3f K) (request : DistanceRequest K)
    (hsat : ∀ r, sv.distanceSatisfied request r = false) :
    ∀ (fuel : Nat) (n : OcTreeNode K) (bv : AABB K) (res : DistanceResult K),
      n.isNull = false → n.height < fuel →
      (∀ c ∈ sv.cells n bv, c.root1.nodeHasChildren = true →
        sv.leafDistances tree1 s tf1 tf2 c.root1 c.bv1 ≠ [] →
        tree1.isNodeOccupied c.root1 = true) →
      (∀ c ∈ sv.cells n bv, ∀ d ∈ sv.leafDistances tree1 s tf1 tf2 c.root1 c.bv1,
        sv.aabbDistance (details.Converter_AABB_AABB_convert sv.sqrt c.bv1 tf1) aabb2 ≤ d) →
      ∃ r, traverse (sv.visitOcTreeShapeDistance tree1 s aabb2 tf1 tf2 request) fuel ⟨n, bv⟩ res =
          Outcome.ret false r ∧
        r.min_distance = (sv.leafDistances tree1 s tf1 tf2 n bv).foldl min res.min_distance := by
  intro fuel
  induction fuel with
  | zero => intro n bv res _ h; exact absurd h (Nat.not_lt_zero _)
  | succ fuel ih =>
    intro n bv res hn hfuel hocc hlb
    by_cases hl : n.nodeHasChildren = true
    · by_cases ho : tree1.isNodeOccupied n = true
      · have hloop := sv.shapeDistance_loop tree1 s aabb2 tf1 tf2 request fuel n bv
          (fun i res1 hi => ih (n.getNodeChild i) (sv.computeChildBV bv i) res1
            (by simpa [OcTreeNode.nodeChildExists] using hi)
            (by have := OcTreeNode.height_getNodeChild_lt hn i; omega)
            (fun c hc => hocc c (sv.cells_child n bv i c hc))
            (fun c hc => hlb c (sv.cells_child n bv i c hc)))
          (fun i d hd => by
            by_cases hi : n.nodeChildExists i = true
            · have hne : (n.getNodeChild i).isNull = false := by
                simpa [OcTreeNode.nodeChildExists] using hi
              exact hlb ⟨n.getNodeChild i, sv.computeChildBV bv i⟩
                (sv.cells_child n bv i _ (sv.cells_self _ _ hne)) d hd
            · have hnull : n.getNodeChild i = OcTreeNode.null := by
                apply OcTreeNode.eq_null_of_isNull
                simpa [OcTreeNode.nodeChildExists] using hi
              rw [hnull] at hd
              simp [OcTreeSolver.leafDistances] at hd)
          (List.range 8) res
        obtain ⟨r, h, e⟩ := hloop
        refine ⟨r, ?_, ?_⟩
        · simp only [traverse, OcTreeSolver.visitOcTreeShapeDistance, hn, hl, ho,
            Bool.false_eq_true, if_false, Bool.not_true]
          exact h
        · rw [e, sv.leafDistances_children tree1 s tf1 tf2 n bv hl]
      · have hnil : sv.leafDistances tree1 s tf1 tf2 n bv = [] := by
          by_contra hne
          exact ho (hocc ⟨n, bv⟩ (sv.cells_self n bv hn) hl hne)
        refine ⟨res, ?_, ?_⟩
        · have ho1 : tree1.isNodeOccupied n = false := by simpa using ho
          simp [traverse, OcTreeSolver.visitOcTreeShapeDistance, hn, hl, ho1]
        · rw [hnil]
          rfl
    · have hl1 : n.nodeHasChildren = false := by simpa using hl
      rw [sv.leafDistances_leaf tree1 s tf1 tf2 n bv hn hl1]
      by_cases ho : tree1.isNodeOccupied n = true
      · refine ⟨res.update
          (sv.shapeDistance (sv.constructBox bv tf1).1 (sv.constructBox bv tf1).2 s tf2).1
          tree1.addr (sv.shapeAddr s) (tree1.index n) DistanceResult.NONE
          (sv.shapeDistance (sv.constructBox bv tf1).1 (sv.constructBox bv tf1).2 s tf2).2.1
          (sv.shapeDistance (sv.constructBox bv tf1).1 (sv.constructBox bv tf1).2 s tf2).2.2.1
          (sv.shapeDistance (sv.constructBox bv tf1).1 (sv.constructBox bv tf1).2 s tf2).2.2.2,
          ?_, ?_⟩
        · simp only [traverse, OcTreeSolver.visitOcTreeShapeDistance, hn, hl1, ho,
            Bool.false_eq_true, if_false, Bool.not_false, if_true, hsat]
        · simp only [ho, if_true, List.foldl_cons, List.foldl_nil]
          exact DistanceResult.update_min_distance _ _ _ _ _ _ _ _ _
      · have ho1 : tree1.isNodeOccupied n = false := by simpa using ho
        refine ⟨res, ?_, ?_⟩
        · simp [traverse, OcTreeSolver.visitOcTreeShapeDistance, hn, hl1, ho1]
        · simp [ho1]

/-- C29: `OcTreeShapeDistance` computes the minimum distance and pruning never
loses it. For an octree with a root cell, with `DistanceResult::update` keeping
the smaller distance, a request that is never satisfied early, every inner cell
that has an occupied leaf below it occupied itself, and, for every cell, the
AABB distance between `convertBV(cell, tf1)` and the world AABB of the shape a
lower bound of the solver distance of every occupied leaf in the subtree of the
cell: the run returns, and the final `min_distance` is the minimum of the
initial `min_distance` and `solver.shapeDistance(box(L), s)` over all occupied
childless cells `L` of the octree. -/
theorem octree_shape_distance_minimum (sv : OcTreeSolver K Sh BV) (tree : OcTree K) (s : Sh)
    (tf1 tf2 : Transform3f K) (request : DistanceRequest K) (result : DistanceResult K)
    (hroot : tree.root.isNull = false)
    (hsat : ∀ r, sv.distanceSatisfied request r = false)
    (hocc : ∀ c ∈ sv.cells tree.root tree.rootBV, c.root1.nodeHasChildren = true →
      sv.leafDistances tree s tf1 tf2 c.root1 c.bv1 ≠ [] → tree.isNodeOccupied c.root1 = true)
    (hlb : ∀ c ∈ sv.cells tree.root tree.rootBV,
      ∀ d ∈ sv.leafDistances tree s tf1 tf2 c.root1 c.bv1,
        sv.aabbDistance (details.Converter_AABB_AABB_convert sv.sqrt c.bv1 tf1)
          (sv.computeBV s tf2) ≤ d) :
    ∃ r, sv.OcTreeShapeDistance tree s tf1 tf2 request result = Outcome.ret false r ∧
      r.min_distance =
        (sv.leafDistances tree s tf1 tf2 tree.root tree.rootBV).foldl min result.min_distance :=
  sv.shapeDistance_activation tree s (sv.computeBV s tf2) tf1 tf2 request hsat
    (tree.root.height + 1) tree.root tree.rootBV result hroot (Nat.lt_succ_self _) hocc hlb

end ShapeDistance

/-! ## Mesh against octree -/

/-- C28: `MeshOcTreeDistance` passes
`(tree1, 0, tree2, tree2->getRoot(), tree2->getRootBV(), tf1, tf2)` to
`OcTreeMeshDistanceRecurse`, whose parameters are
`(const OcTree*, const OcTree::OcTreeNode*, const AABB&, const BVHModel<BV>*, int,
const Transform3f&, const Transform3f&)`: the mesh pointer stands where the
octree pointer is expected and the call matches no function, so
`MeshOcTreeDistance` leaves no `min_distance` to compare; the calls of
`OcTreeMeshDistance` and of the sibling `MeshOcTreeIntersect`, which passes the
octree first and exchanges the transforms, do match. -/
theorem meshOcTreeDistance_call_mismatch :
    ArgType.callMatches MeshOcTreeDistance_arguments OcTreeMeshDistanceRecurse_parameters = false ∧
    ArgType.convertsTo ArgType.bvhModelPtr ArgType.ocTreePtr = false ∧
    ArgType.callMatches OcTreeMeshDistance_arguments OcTreeMeshDistanceRecurse_parameters = true ∧
    ArgType.callMatches MeshOcTreeIntersect_arguments OcTreeMeshDistanceRecurse_parameters = true := by
  decide

/-! ## Instances of the octree theorems on sample inputs -/

section OctreeSamples

theorem sampleOcTree_exclusive (addr : Nat) (root : OcTreeNode ℚ) (rootBV : AABB ℚ)
    (n : OcTreeNode ℚ) (h : (sampleOcTree addr root rootBV).isNodeOccupied n = true) :
    (sampleOcTree addr root rootBV).isNodeFree n = false ∧
      (sampleOcTree addr root rootBV).isNodeUncertain n = false := by
  simp only [sampleOcTree, decide_eq_true_eq] at h
  have h2 : ¬ n.getOccupancy ≤ 0 := by
    intro h2
    linarith
  simp only [sampleOcTree, h, h2, decide_True, decide_False, Bool.not_true, Bool.false_and,
    and_self]

theorem sample_leafDistances_nonneg (tree : OcTree ℚ) (s : Sphere ℚ) (tf1 tf2 : Transform3f ℚ)
    (n : OcTreeNode ℚ) :
    ∀ (bv : AABB ℚ), ∀ d ∈ sampleSolver.leafDistances tree s tf1 tf2 n bv, 0 ≤ d := by
  induction n with
  | null => intro bv d hd; simp [OcTreeSolver.leafDistances] at hd
  | node a o c0 c1 c2 c3 c4 c5 c6 c7 ih0 ih1 ih2 ih3 ih4 ih5 ih6 ih7 =>
    intro bv d hd
    simp only [OcTreeSolver.leafDistances] at hd
    split_ifs at hd with h1 h2
    · simp only [List.mem_append] at hd
      rcases hd with ((((((h | h) | h) | h) | h) | h) | h) | h
      · exact ih0 _ d h
      · exact ih1 _ d h
      · exact ih2 _ d h
      · exact ih3 _ d h
      · exact ih4 _ d h
      · exact ih5 _ d h
      · exact ih6 _ d h
      · exact ih7 _ d h
    · simp only [List.mem_singleton] at hd
      rw [hd]
      exact abs_nonneg _
    · simp at hd

/-- An overflow of the contact limit: both occupied cells of the sample tree
intersect the sphere of radius 2 at the origin; with `num_max_contacts = 1` and
a request that is never satisfied the traversal visits both, stores the contact
of the first (cell index 1) and drops that of the second without an error. -/
theorem contact_cap_overflow_example :
    patientSolver.OcTreeShapeIntersect (twoVoxelTree 1) ⟨2⟩ Transform3f.Identity
      Transform3f.Identity ⟨1, false, 0, 0⟩ ⟨[], 0⟩ =
    Outcome.ret false ⟨[⟨1, 2, 1, -1, none⟩], 0⟩ := by
  have hr : List.range 8 = [0, 1, 2, 3, 4, 5, 6, 7] := by decide
  norm_num [OcTreeSolver.OcTreeShapeIntersect, OcTreeSolver.OcTreeShapeIntersectRecurse,
    traverse, traverseLoop, OcTreeSolver.visitOcTreeShapeIntersect, OcTreeSolver.descendCell, hr,
    OcTreeSolver.shapeIntersectLeaf, twoVoxelTree, sampleOcTree, voxel, OcTreeNode.isNull,
    OcTreeNode.nodeHasChildren, OcTreeNode.children, OcTreeNode.getOccupancy, OcTreeNode.height,
    OcTreeNode.nodeChildExists, OcTreeNode.getNodeChild, always,
    patientSolver, sampleSolver, sampleOverlap, sampleChildBV,
    details.Converter_AABB_OBB_convert,
    Transform3f.Identity, Transform3f.transform, Transform3f.getRotation, Matrix3f.Identity,
    Matrix3f.mulVec, AABB.center, AABB.width, AABB.height, AABB.depth, Vec3f.add, Vec3f.sub,
    Vec3f.scale, Vec3f.Constant, Box.create, CollisionResult.addContactCapped,
    CollisionResult.addContact, CollisionResult.numContacts, OcTree.index, OcTreeNode.address,
    Contact.NONE, CollisionGeometry.isUncertain, CollisionGeometry.isOccupied,
    CollisionGeometry.isFree, CollisionGeometry.create, abs_le]

theorem occupancy_pruning_witness :
    sampleSolver.visitOcTreeIntersect (freeRootTree 1) (voxelTree 2 0) Transform3f.Identity
        Transform3f.Identity ⟨1, false, 0, 0⟩
        ⟨(freeRootTree 1).root, (freeRootTree 1).rootBV, voxel 0 1, unitCube 0⟩ ⟨[], 0⟩
      = Visit.ret false ⟨[], 0⟩ ∧
    sampleSolver.visitOcTreeIntersect (twoVoxelTree 1) (voxelTree 2 0) Transform3f.Identity
        Transform3f.Identity ⟨1, false, 0, 0⟩ ⟨voxel 7 0, unitCube 0, voxel 0 1, unitCube 0⟩
        ⟨[], 0⟩ = Visit.ret false ⟨[], 0⟩ :=
  ⟨(occupancy_pruning sampleSolver (freeRootTree 1) (voxelTree 2 0) Transform3f.Identity
      Transform3f.Identity ⟨1, false, 0, 0⟩ ⟨[], 0⟩).2
      ⟨(freeRootTree 1).root, (freeRootTree 1).rootBV, voxel 0 1, unitCube 0⟩ ⟨[], 0⟩ rfl rfl
      (Or.inl (by simp [freeRootTree, sampleOcTree, OcTreeNode.getOccupancy]))
      (Or.inl rfl),
    (occupancy_pruning sampleSolver (twoVoxelTree 1) (voxelTree 2 0) Transform3f.Identity
      Transform3f.Identity ⟨1, false, 0, 0⟩ ⟨[], 0⟩).2
      ⟨voxel 7 0, unitCube 0, voxel 0 1, unitCube 0⟩ ⟨[], 0⟩ rfl rfl
      (Or.inl (by simp [twoVoxelTree, sampleOcTree, voxel, OcTreeNode.getOccupancy]))
      (Or.inr (Or.inr ⟨sampleOcTree_exclusive _ _ _, sampleOcTree_exclusive _ _ _⟩))⟩

/-- C24 (as stated) fails beside a null cell, where the occupancy is not looked
at: in the run of `OcTreeIntersect` on an octree without cells and the octree
whose root cell is free and has an occupied child, the activation on the null
pointer and the free root makes its recursive calls, and the pair of the null
pointer and the child of the free cell is examined: it is in the trace of the
run. -/
theorem free_cell_descended_beside_null :
    (freeRootTree 2).isNodeFree (freeRootTree 2).root = true ∧
    (freeRootTree 2).root.nodeHasChildren = true ∧
    (emptyTree 1).root = OcTreeNode.null ∧
    (∃ calls, sampleSolver.visitOcTreeIntersect (emptyTree 1) (freeRootTree 2)
        Transform3f.Identity Transform3f.Identity ⟨1, false, 0, 0⟩
        ⟨(emptyTree 1).root, (emptyTree 1).rootBV, (freeRootTree 2).root,
          (freeRootTree 2).rootBV⟩ ⟨[], 0⟩ = Visit.recurse calls ∧
      (⟨OcTreeNode.null, unitCube 0, voxel 1 1, sampleChildBV ⟨⟨-1, -1, -1⟩, ⟨1, 1, 1⟩⟩ 0⟩,
        always) ∈ calls) ∧
    ((⟨OcTreeNode.null, unitCube 0, voxel 1 1, sampleChildBV ⟨⟨-1, -1, -1⟩, ⟨1, 1, 1⟩⟩ 0⟩,
        ⟨[], 0⟩) : OcTreePair ℚ × CollisionResult ℚ) ∈
      (traverseTrace
        (sampleSolver.visitOcTreeIntersect (emptyTree 1) (freeRootTree 2) Transform3f.Identity
          Transform3f.Identity ⟨1, false, 0, 0⟩)
        ((emptyTree 1).root.height + (freeRootTree 2).root.height + 1)
        ⟨(emptyTree 1).root, (emptyTree 1).rootBV, (freeRootTree 2).root,
          (freeRootTree 2).rootBV⟩ ⟨[], 0⟩).1 := by
  have hr : List.range 8 = [0, 1, 2, 3, 4, 5, 6, 7] := by decide
  refine ⟨by simp [freeRootTree, sampleOcTree, OcTreeNode.getOccupancy], rfl, rfl, ?_, ?_⟩
  · refine ⟨_, rfl, ?_⟩
    simp [hr, emptyTree, freeRootTree, sampleOcTree, voxel, OcTreeNode.nodeChildExists,
      OcTreeNode.getNodeChild, OcTreeNode.children, OcTreeNode.isNull, sampleSolver]
  · simp [hr, traverseTrace, traceLoop, OcTreeSolver.visitOcTreeIntersect, emptyTree,
      freeRootTree, sampleOcTree, voxel, OcTreeNode.nodeChildExists, OcTreeNode.getNodeChild,
      OcTreeNode.children, OcTreeNode.isNull, OcTreeNode.nodeHasChildren, OcTreeNode.height,
      sampleSolver, always]

/-- A cell that is occupied and free gets a contact: in two octrees with equal
thresholds the cell with the occupancy `0` is classified occupied and free, and
the run of `OcTreeIntersect` on the two cells, which overlap, adds their
contact. -/
theorem contact_with_free_cell_example :
    (tieOcTree 1 (voxel 0 0) (unitCube 0)).isNodeOccupied (voxel 0 0) = true ∧
    (tieOcTree 1 (voxel 0 0) (unitCube 0)).isNodeFree (voxel 0 0) = true ∧
    sampleSolver.OcTreeIntersect (tieOcTree 1 (voxel 0 0) (unitCube 0))
        (tieOcTree 2 (voxel 0 0) (unitCube (1 / 2))) Transform3f.Identity Transform3f.Identity
        ⟨1, false, 0, 0⟩ ⟨[], 0⟩ =
      Outcome.ret true ⟨[⟨1, 2, 0, 0, none⟩], 0⟩ := by
  refine ⟨by simp [tieOcTree, voxel, OcTreeNode.getOccupancy],
    by simp [tieOcTree, voxel, OcTreeNode.getOccupancy], ?_⟩
  norm_num [OcTreeSolver.OcTreeIntersect, OcTreeSolver.OcTreeIntersectRecurse, traverse,
    OcTreeSolver.visitOcTreeIntersect, OcTreeSolver.intersectLeafPair, tieOcTree, voxel,
    unitCube, OcTreeNode.isNull, OcTreeNode.nodeHasChildren, OcTreeNode.children,
    OcTreeNode.getOccupancy, OcTreeNode.height, sampleSolver, sampleOverlap,
    details.Converter_AABB_OBB_convert, Transform3f.Identity, Transform3f.transform,
    Transform3f.getRotation, Matrix3f.Identity, Matrix3f.mulVec, AABB.center, Vec3f.add,
    Vec3f.sub, Vec3f.scale, CollisionResult.addContactCapped, CollisionResult.addContact,
    CollisionResult.numContacts, OcTree.index, OcTreeNode.address, abs_le]

theorem null_cell_adds_no_contact_witness :
    ((OcTreeNode.null : OcTreeNode ℚ).isNull = true ∨ (twoVoxelTree 2).root.isNull = true) ∧
    sampleSolver.OcTreeIntersectRecurse (sampleOcTree 1 OcTreeNode.null (unitCube 0))
      (twoVoxelTree 2) Transform3f.Identity Transform3f.Identity ⟨1, false, 0, 0⟩
      ((OcTreeNode.null : OcTreeNode ℚ).height + (twoVoxelTree 2).root.height + 1 + 0)
      ⟨OcTreeNode.null, unitCube 0, (twoVoxelTree 2).root, (twoVoxelTree 2).rootBV⟩ ⟨[], 0⟩ =
        Outcome.ret false ⟨[], 0⟩ :=
  ⟨Or.inl rfl,
    null_cell_adds_no_contact sampleSolver (sampleOcTree 1 OcTreeNode.null (unitCube 0))
      (twoVoxelTree 2) Transform3f.Identity Transform3f.Identity ⟨1, false, 0, 0⟩
      ⟨OcTreeNode.null, unitCube 0, (twoVoxelTree 2).root, (twoVoxelTree 2).rootBV⟩ ⟨[], 0⟩ 0
      (Or.inl rfl)⟩

theorem octree_shape_distance_minimum_witness :
    ((wideTree 1).root.isNull = false ∧
      (∀ r, gapSolver.distanceSatisfied (⟨0, 0, false⟩ : DistanceRequest ℚ) r = false) ∧
      (∀ c ∈ gapSolver.cells (wideTree 1).root (wideTree 1).rootBV,
        ∀ d ∈ gapSolver.leafDistances (wideTree 1) ⟨1⟩ Transform3f.Identity
            ⟨Matrix3f.Identity, ⟨-20, 0, 0⟩⟩ c.root1 c.bv1,
          gapSolver.aabbDistance
            (details.Converter_AABB_AABB_convert gapSolver.sqrt c.bv1 Transform3f.Identity)
            (gapSolver.computeBV ⟨1⟩ ⟨Matrix3f.Identity, ⟨-20, 0, 0⟩⟩) ≤ d)) ∧
    ∃ r, gapSolver.OcTreeShapeDistance (wideTree 1) ⟨1⟩ Transform3f.Identity
        ⟨Matrix3f.Identity, ⟨-20, 0, 0⟩⟩ ⟨0, 0, false⟩
        ⟨100, (⟨0, 0, 0⟩, ⟨0, 0, 0⟩), ⟨0, 0, 0⟩, 0, 0, -1, -1⟩ = Outcome.ret false r ∧
      r.min_distance =
        (gapSolver.leafDistances (wideTree 1) ⟨1⟩ Transform3f.Identity
          ⟨Matrix3f.Identity, ⟨-20, 0, 0⟩⟩ (wideTree 1).root (wideTree 1).rootBV).foldl
            min 100 :=
  have hlb : ∀ c ∈ gapSolver.cells (wideTree 1).root (wideTree 1).rootBV,
      ∀ d ∈ gapSolver.leafDistances (wideTree 1) ⟨1⟩ Transform3f.Identity
          ⟨Matrix3f.Identity, ⟨-20, 0, 0⟩⟩ c.root1 c.bv1,
        gapSolver.aabbDistance
          (details.Converter_AABB_AABB_convert gapSolver.sqrt c.bv1 Transform3f.Identity)
          (gapSolver.computeBV ⟨1⟩ ⟨Matrix3f.Identity, ⟨-20, 0, 0⟩⟩) ≤ d := by
    intro c hc d hd
    simp only [OcTreeSolver.cells, wideTree, sampleOcTree, voxel, List.mem_cons,
      List.mem_append, List.not_mem_nil, List.append_nil, or_false, List.nil_append] at hc
    rcases hc with rfl | rfl | rfl <;>
      norm_num [OcTreeSolver.leafDistances, wideTree, sampleOcTree, voxel,
        OcTreeNode.nodeHasChildren, OcTreeNode.children, OcTreeNode.isNull,
        OcTreeNode.getOccupancy, gapSolver, sampleSolver, sampleChildBV, xGap, tableSqrt,
        details.Converter_AABB_AABB_convert, Transform3f.Identity, Transform3f.transform,
        Matrix3f.Identity, Matrix3f.mulVec, AABB.center, AABB.width, AABB.height, AABB.depth,
        Vec3f.add, Vec3f.sub, Vec3f.scale, Vec3f.norm, Vec3f.squaredNorm, Vec3f.Constant,
        Box.create] at hd ⊢ <;>
      (try rcases hd with rfl | rfl) <;> norm_num [abs_of_pos]
  ⟨⟨rfl, fun _ => rfl, hlb⟩,
    octree_shape_distance_minimum gapSolver (wideTree 1) ⟨1⟩ Transform3f.Identity
      ⟨Matrix3f.Identity, ⟨-20, 0, 0⟩⟩ ⟨0, 0, false⟩
      ⟨100, (⟨0, 0, 0⟩, ⟨0, 0, 0⟩), ⟨0, 0, 0⟩, 0, 0, -1, -1⟩ rfl (fun _ => rfl)
      (fun c hc _ _ => by
        simp only [OcTreeSolver.cells, wideTree, sampleOcTree, voxel, List.mem_cons,
          List.mem_append, List.not_mem_nil, List.append_nil, or_false, List.nil_append] at hc
        rcases hc with rfl | rfl | rfl <;>
          norm_num [wideTree, sampleOcTree, OcTreeNode.getOccupancy])
      hlb⟩

set_option maxHeartbeats 1600000 in
/-- The pruning of `OcTreeShapeDistanceRecurse` at work: for the sample tree of
two occupied cells and the sphere of radius `1` at `(-20, 0, 0)`, the cell in
the octant 0 gives the distance `16`; the bound `37/2` of the cell in the
octant 1 is not below it, so the cell, whose distance is `24`, is not visited:
the run visits the root cell and the cell with the address `1` only, and
returns the minimum `16`. -/
theorem shape_distance_pruning_example :
    gapSolver.OcTreeShapeDistance (wideTree 1) ⟨1⟩ Transform3f.Identity
        ⟨Matrix3f.Identity, ⟨-20, 0, 0⟩⟩ ⟨0, 0, false⟩
        ⟨100, (⟨0, 0, 0⟩, ⟨0, 0, 0⟩), ⟨0, 0, 0⟩, 0, 0, -1, -1⟩ =
      Outcome.ret false
        ⟨16, (⟨-4, -2, -(1 / 2)⟩, ⟨-20, 0, 0⟩), ⟨1, 0, 0⟩, 1, 2, 1, -1⟩ ∧
    (traverseTrace
        (gapSolver.visitOcTreeShapeDistance (wideTree 1) ⟨1⟩
          (gapSolver.computeBV ⟨1⟩ ⟨Matrix3f.Identity, ⟨-20, 0, 0⟩⟩) Transform3f.Identity
          ⟨Matrix3f.Identity, ⟨-20, 0, 0⟩⟩ ⟨0, 0, false⟩)
        ((wideTree 1).root.height + 1) ⟨(wideTree 1).root, (wideTree 1).rootBV⟩
        ⟨100, (⟨0, 0, 0⟩, ⟨0, 0, 0⟩), ⟨0, 0, 0⟩, 0, 0, -1, -1⟩).1.map
      (fun p => p.1.root1.address) = [0, 1] ∧
    gapSolver.leafDistances (wideTree 1) ⟨1⟩ Transform3f.Identity
      ⟨Matrix3f.Identity, ⟨-20, 0, 0⟩⟩ (wideTree 1).root (wideTree 1).rootBV = [16, 24] := by
  have hr : List.range 8 = [0, 1, 2, 3, 4, 5, 6, 7] := by decide
  have h16 : |(16 : ℚ)| = 16 := abs_of_pos (by norm_num)
  have h24 : |(24 : ℚ)| = 24 := abs_of_pos (by norm_num)
  refine ⟨?_, ?_, ?_⟩ <;>
    norm_num [h16, h24, hr, OcTreeSolver.OcTreeShapeDistance,
      OcTreeSolver.OcTreeShapeDistanceRecurse, traverse, traverseLoop, traverseTrace, traceLoop,
      OcTreeSolver.visitOcTreeShapeDistance, OcTreeSolver.descendCellDistance,
      OcTreeSolver.leafDistances, DistanceResult.update, DistanceResult.NONE, wideTree,
      sampleOcTree, voxel, OcTreeNode.isNull, OcTreeNode.nodeHasChildren, OcTreeNode.children,
      OcTreeNode.getOccupancy, OcTreeNode.height, OcTreeNode.nodeChildExists,
      OcTreeNode.getNodeChild, OcTreeNode.address, gapSolver, sampleSolver, sampleChildBV, xGap,
      tableSqrt, details.Converter_AABB_AABB_convert, Transform3f.Identity,
      Transform3f.transform, Transform3f.getRotation, Matrix3f.Identity, Matrix3f.mulVec,
      AABB.center, AABB.width, AABB.height, AABB.depth, Vec3f.add, Vec3f.sub, Vec3f.scale,
      Vec3f.norm, Vec3f.squaredNorm, Vec3f.Constant, Box.create, OcTree.index]

theorem single_voxel_contact_witness :
    ((1 : Nat) ≤ (⟨1, false, 0, 0⟩ : CollisionRequest ℚ).num_max_contacts ∧
      sampleSolver.overlap
        (details.Converter_AABB_OBB_convert (voxelTree 1 0).rootBV Transform3f.Identity)
        (details.Converter_AABB_OBB_convert (voxelTree 2 (1 / 2)).rootBV Transform3f.Identity)
          = true) ∧
    ∃ v r c, sampleSolver.OcTreeIntersect (voxelTree 1 0) (voxelTree 2 (1 / 2))
        Transform3f.Identity Transform3f.Identity ⟨1, false, 0, 0⟩ ⟨[], 0⟩ = Outcome.ret v r ∧
      r.contacts = [c] ∧ c.o1 = (voxelTree 1 0).addr ∧ c.o2 = (voxelTree 2 (1 / 2)).addr ∧
      c.b1 = 0 ∧ c.b2 = 0 :=
  have hov : sampleSolver.overlap
      (details.Converter_AABB_OBB_convert (voxelTree 1 0).rootBV Transform3f.Identity)
      (details.Converter_AABB_OBB_convert (voxelTree 2 (1 / 2)).rootBV Transform3f.Identity)
        = true := by
    norm_num [sampleSolver, sampleOverlap, details.Converter_AABB_OBB_convert, voxelTree,
      sampleOcTree, unitCube, Transform3f.Identity, Transform3f.transform,
      Transform3f.getRotation, Matrix3f.Identity, Matrix3f.mulVec, AABB.center, Vec3f.add,
      Vec3f.sub, Vec3f.scale, abs_le]
  have hocc : ∀ (addr : Nat) (x : ℚ),
      (voxelTree addr x).isNodeOccupied (voxelTree addr x).root = true := by
    intro addr x
    norm_num [voxelTree, sampleOcTree, voxel, OcTreeNode.getOccupancy]
  ⟨⟨le_refl _, hov⟩,
    single_voxel_contact sampleSolver (voxelTree 1 0) (voxelTree 2 (1 / 2)) Transform3f.Identity
      Transform3f.Identity ⟨1, false, 0, 0⟩ ⟨[], 0⟩ rfl rfl (hocc 1 0) rfl rfl (hocc 2 (1 / 2))
      (le_refl _) rfl (Or.inl ⟨rfl, hov⟩)⟩

end OctreeSamples

/-! ## Degenerate normals, poses and capsules -/

section Degenerate

variable {K : Type} [LinearOrderedField K]

theorem sqrt_zero_of_isSqrt {sqrt : K → K} (hsqrt : IsSqrt sqrt) : sqrt 0 = 0 := by
  have h := (hsqrt 0 (le_refl 0)).2
  exact mul_self_eq_zero.1 h

/-- C35: a `Halfspace` or a `Plane` constructed with the zero normal `(0, 0, 0)`
and any offset `d0`, through either constructor, has `n = (1, 0, 0)` and
`d = 0`: the given offset is discarded and the value is that of the default
constructor. The constructors are total, the branch taken does not divide. -/
theorem zero_normal_fallback (sqrt : K → K) (hsqrt : IsSqrt sqrt) (d0 : K) :
    (Halfspace.create sqrt ⟨0, 0, 0⟩ d0 = ⟨⟨1, 0, 0⟩, 0⟩ ∧
      Halfspace.create4 sqrt 0 0 0 d0 = ⟨⟨1, 0, 0⟩, 0⟩ ∧
      Halfspace.create sqrt ⟨0, 0, 0⟩ d0 = Halfspace.default) ∧
    (Plane.create sqrt ⟨0, 0, 0⟩ d0 = ⟨⟨1, 0, 0⟩, 0⟩ ∧
      Plane.create4 sqrt 0 0 0 d0 = ⟨⟨1, 0, 0⟩, 0⟩ ∧
      Plane.create sqrt ⟨0, 0, 0⟩ d0 = Plane.default) := by
  have h0 := sqrt_zero_of_isSqrt hsqrt
  have hn : Vec3f.norm sqrt (⟨0, 0, 0⟩ : Vec3f K) = 0 := by
    simp [Vec3f.norm, Vec3f.squaredNorm, h0]
  refine ⟨⟨?_, ?_, ?_⟩, ?_, ?_, ?_⟩ <;>
    simp [Halfspace.create, Halfspace.create4, Halfspace.unitNormalTest, Halfspace.default,
      Plane.create, Plane.create4, Plane.unitNormalTest, Plane.default, hn]

/-- C36: changing the pose does not refresh the cached world AABB.
`setRotation`, `setTranslation`, both `setTransform` overloads and
`setIdentityTransform` set the transform `t` as told and leave the geometry and
the `aabb` field as they are, so `getAABB` after any of them, also right after
`computeAABB`, returns the box stored before. -/
theorem pose_setters_keep_aabb (o : CollisionObject K) (R : Matrix3f K) (T : Vec3f K)
    (tf : Transform3f K) :
    ((o.setRotation R).getAABB = o.getAABB ∧ (o.setTranslation T).getAABB = o.getAABB ∧
      (o.setTransform R T).getAABB = o.getAABB ∧ (o.setTransformTf tf).getAABB = o.getAABB ∧
      o.setIdentityTransform.getAABB = o.getAABB) ∧
    ((o.setRotation R).cgeom = o.cgeom ∧ (o.setTranslation T).cgeom = o.cgeom ∧
      (o.setTransform R T).cgeom = o.cgeom ∧ (o.setTransformTf tf).cgeom = o.cgeom ∧
      o.setIdentityTransform.cgeom = o.cgeom) ∧
    ((o.setRotation R).t = ⟨R, o.t.T⟩ ∧ (o.setTranslation T).t = ⟨o.t.R, T⟩ ∧
      (o.setTransform R T).t = ⟨R, T⟩ ∧ (o.setTransformTf tf).t = tf ∧
      o.setIdentityTransform.t = Transform3f.Identity) ∧
    ((o.computeAABB.setRotation R).getAABB = o.computeAABB.getAABB ∧
      (o.computeAABB.setTranslation T).getAABB = o.computeAABB.getAABB ∧
      (o.computeAABB.setTransform R T).getAABB = o.computeAABB.getAABB ∧
      (o.computeAABB.setTransformTf tf).getAABB = o.computeAABB.getAABB ∧
      o.computeAABB.setIdentityTransform.getAABB = o.computeAABB.getAABB) :=
  ⟨⟨rfl, rfl, rfl, rfl, rfl⟩, ⟨rfl, rfl, rfl, rfl, rfl⟩, ⟨rfl, rfl, rfl, rfl, rfl⟩,
    ⟨rfl, rfl, rfl, rfl, rfl⟩⟩

/-- The cached box goes stale: after `setTranslation((1, 0, 0))` on the sample
object at the identity pose, `getAABB` still returns the box `[0, 2] x [0, 4] x
[0, 6]`, while `computeAABB` would store the box moved by `(1, 0, 0)`. -/
theorem stale_aabb_example :
    ((⟨CollisionGeometry.create ⟨1, 2, 3⟩ 4 (sampleBox ℚ), Transform3f.Identity,
        sampleBox ℚ⟩ : CollisionObject ℚ).computeAABB.setTranslation ⟨1, 0, 0⟩).getAABB
      = sampleBox ℚ ∧
    ((⟨CollisionGeometry.create ⟨1, 2, 3⟩ 4 (sampleBox ℚ), Transform3f.Identity,
        sampleBox ℚ⟩ : CollisionObject ℚ).computeAABB.setTranslation
          ⟨1, 0, 0⟩).computeAABB.getAABB
      = ⟨⟨1, 0, 0⟩, ⟨3, 4, 6⟩⟩ := by
  constructor <;>
    norm_num [CollisionObject.computeAABB, CollisionObject.setTranslation,
      CollisionObject.getAABB, Transform3f.setTranslation, Transform3f.Identity,
      Transform3f.getRotation, Transform3f.getTranslation, Matrix3f.isIdentity,
      Matrix3f.Identity, translate, sampleBox, CollisionGeometry.create, Vec3f.add]

/-- C37: evaluation of `Capsule::computeMomentofInertia` under a uniform scaling.
The entry `ix` of `Capsule(s*r, s*lz)` differs from `s^5` times that of
`Capsule(r, lz)` by `pi * r^3 * lz / 4 * (s^4 - s^5)`, the share of the term
`0.25 * v_cyl * radius`, which has one factor `radius` less than the term
`0.25 * V * radius * radius` of `Cylinder::computeMomentofInertia`; for
`r = lz = 1` and `s = 2` the tensor is not `2^5` times the unscaled one. The
tensors of `Box`, `Cone` and `Cylinder` do scale with `s^5`. -/
theorem capsule_inertia_not_fifth_power :
    (∀ pi r lz s : ℝ,
      ((Capsule.create (s * r) (s * lz)).computeMomentofInertia pi).m00
        - s ^ 5 * ((Capsule.create r lz).computeMomentofInertia pi).m00
        = pi * r ^ 3 * lz / 4 * (s ^ 4 - s ^ 5)) ∧
    ((0 : ℝ) ≤ 1 ∧ (0 : ℝ) < 2 ∧
      (Capsule.create (2 * 1) (2 * 1)).computeMomentofInertia Real.pi
        ≠ Matrix3f.scale ((Capsule.create (1 : ℝ) 1).computeMomentofInertia Real.pi) (2 ^ 5)) ∧
    (∀ pi r lz s : ℝ,
      (Cylinder.create (s * r) (s * lz)).computeMomentofInertia pi
        = Matrix3f.scale ((Cylinder.create r lz).computeMomentofInertia pi) (s ^ 5) ∧
      (Cone.create (s * r) (s * lz)).computeMomentofInertia pi
        = Matrix3f.scale ((Cone.create r lz).computeMomentofInertia pi) (s ^ 5)) ∧
    (∀ x y z s : ℝ,
      (Box.create (s * x) (s * y) (s * z)).computeMomentofInertia
        = Matrix3f.scale (Box.create x y z).computeMomentofInertia (s ^ 5)) ∧
    (∀ pi r lz : ℝ,
      ((Cylinder.create r lz).computeMomentofInertia pi).m00
        = r * r * lz * pi * lz * lz / 12 + 1 / 4 * (r * r * lz * pi) * r * r) := by
  refine ⟨?_, ⟨by norm_num, by norm_num, ?_⟩, ?_, ?_, ?_⟩
  · intro pi r lz s
    simp only [Capsule.computeMomentofInertia, Capsule.create]
    ring
  · intro h
    have h00 := congrArg Matrix3f.m00 h
    simp only [Capsule.computeMomentofInertia, Capsule.create, Matrix3f.scale] at h00
    have hpi := Real.pi_pos
    nlinarith
  · intro pi r lz s
    constructor
    · simp only [Cylinder.computeMomentofInertia, Cylinder.computeVolume, Cylinder.create,
        Matrix3f.scale]
      ext <;> simp only [] <;> ring
    · simp only [Cone.computeMomentofInertia, Cone.computeVolume, Cone.create, Matrix3f.scale]
      ext <;> simp only [] <;> ring
  · intro x y z s
    simp only [Box.computeMomentofInertia, Box.computeVolume, Box.create, Matrix3f.scale,
      Matrix3f.asDiagonal, Vec3f.divScalar, Vec3f.scale, Vec3f.cwiseAbs2, Vec3f.prod, Vec3f.get]
    ext <;> norm_num <;> ring
  · intro pi r lz
    simp only [Cylinder.computeMomentofInertia, Cylinder.computeVolume, Cylinder.create]
    ring

end Degenerate

section DegenerateSamples

theorem zero_normal_fallback_witness :
    IsSqrt Real.sqrt ∧
    Halfspace.create Real.sqrt ⟨0, 0, 0⟩ 5 = ⟨⟨1, 0, 0⟩, 0⟩ ∧
    Plane.create Real.sqrt ⟨0, 0, 0⟩ 5 = ⟨⟨1, 0, 0⟩, 0⟩ :=
  ⟨isSqrt_real, (zero_normal_fallback Real.sqrt isSqrt_real 5).1.1,
    (zero_normal_fallback Real.sqrt isSqrt_real 5).2.1⟩

end DegenerateSamples

/-! ## Termination and descent of the octree traversals -/

section DescentCalls

variable {K Sh BV : Type}

theorem OcTreeNode.foldr_max_height_filter (l : List (OcTreeNode K)) :
    ((l.filter (fun c => !c.isNull)).map OcTreeNode.height).foldr max 0
      = (l.map OcTreeNode.height).foldr max 0 := by
  induction l with
  | nil => rfl
  | cons c cs ih =>
    cases hc : c.isNull
    · simp [List.filter, hc, ih]
    · simp [List.filter, hc, ih, OcTreeNode.height_of_isNull hc]

theorem OcTreeSolver.descendFirst_eq (sv : OcTreeSolver K Sh BV) (a : OcTreePair K) :
    sv.descendFirst a = ((List.range 8).filter (fun i => a.root1.nodeChildExists i)).map
      (fun i => ((⟨a.root1.getNodeChild i, sv.computeChildBV a.bv1 i, a.root2, a.bv2⟩ :
        OcTreePair K), (always : CollisionResult K → Bool))) := by
  unfold OcTreeSolver.descendFirst
  generalize List.range 8 = l
  induction l with
  | nil => rfl
  | cons i is ih =>
    by_cases h : a.root1.nodeChildExists i = true
    · simp [List.filterMap_cons, List.filter_cons, h, ih]
    · simp [List.filterMap_cons, List.filter_cons, h, ih]

theorem OcTreeSolver.descendSecond_eq (sv : OcTreeSolver K Sh BV) (a : OcTreePair K) :
    sv.descendSecond a = ((List.range 8).filter (fun i => a.root2.nodeChildExists i)).map
      (fun i => ((⟨a.root1, a.bv1, a.root2.getNodeChild i, sv.computeChildBV a.bv2 i⟩ :
        OcTreePair K), (always : CollisionResult K → Bool))) := by
  unfold OcTreeSolver.descendSecond
  generalize List.range 8 = l
  induction l with
  | nil => rfl
  | cons i is ih =>
    by_cases h : a.root2.nodeChildExists i = true
    · simp [List.filterMap_cons, List.filter_cons, h, ih]
    · simp [List.filterMap_cons, List.filter_cons, h, ih]

end DescentCalls

section Descent

variable {K Sh BV : Type} [LinearOrderedField K]

/-- C31: the octree-octree traversal terminates with a recursion stack bounded by
the depths of the trees. With `h(null) = 0` and `h(n)` one more than the largest
`h` of the existing children of `n`, every recursive call of an activation of
`OcTreeIntersectRecurse`, whatever its arguments (roots possibly null) and the
result it is entered with, has a strictly smaller `h(root1) + h(root2)`, and the
call returns within every recursion budget of at least `h(root1) + h(root2) + 1`
nested activations. -/
theorem intersect_recursion_bounded (sv : OcTreeSolver K Sh BV) (tree1 tree2 : OcTree K)
    (tf1 tf2 : Transform3f K) (request : CollisionRequest K) (a : OcTreePair K)
    (res : CollisionResult K) (extra : Nat) :
    (∀ n : OcTreeNode K, n.height =
      if n.isNull then 0
      else 1 + ((n.children.filter (fun c => !c.isNull)).map OcTreeNode.height).foldr max 0) ∧
    (∀ calls, sv.visitOcTreeIntersect tree1 tree2 tf1 tf2 request a res = Visit.recurse calls →
      ∀ c ∈ calls,
        c.1.root1.height + c.1.root2.height < a.root1.height + a.root2.height) ∧
    (∃ v r, sv.OcTreeIntersectRecurse tree1 tree2 tf1 tf2 request
      (a.root1.height + a.root2.height + 1 + extra) a res = Outcome.ret v r) := by
  refine ⟨?_, ?_, ?_⟩
  · intro n
    rw [OcTreeNode.foldr_max_height_filter]
    cases n with
    | null => rfl
    | node ad o c0 c1 c2 c3 c4 c5 c6 c7 =>
      simp [OcTreeNode.isNull, OcTreeNode.children, OcTreeNode.height]
  · intro calls h c hc
    rcases sv.visitOcTreeIntersect_cases tree1 tree2 tf1 tf2 request a res with
      h1 | ⟨-, -, -, -, -, -, h1⟩ | ⟨calls1, h1, hcalls⟩
    · rw [h1] at h; cases h
    · rw [h1] at h; cases h
    · rw [h1] at h
      cases h
      exact (hcalls c hc).2.2
  · obtain ⟨v, r, h, -⟩ := sv.intersect_activation tree1 tree2 tf1 tf2 request
      (a.root1.height + a.root2.height + 1 + extra) a res (by omega)
    exact ⟨v, r, h⟩

theorem OcTreeSolver.descendFirstDistance_eq (sv : OcTreeSolver K Sh BV)
    (tf1 tf2 : Transform3f K) (a : OcTreePair K) :
    sv.descendFirstDistance tf1 tf2 a =
      ((List.range 8).filter (fun i => a.root1.nodeChildExists i)).map
        (fun i => ((⟨a.root1.getNodeChild i, sv.computeChildBV a.bv1 i, a.root2, a.bv2⟩ :
          OcTreePair K), fun r : DistanceResult K => decide (sv.aabbDistance
            (details.Converter_AABB_AABB_convert sv.sqrt a.bv1 tf1)
            (details.Converter_AABB_AABB_convert sv.sqrt a.bv2 tf2) < r.min_distance))) := by
  unfold OcTreeSolver.descendFirstDistance
  generalize List.range 8 = l
  induction l with
  | nil => rfl
  | cons i is ih =>
    by_cases h : a.root1.nodeChildExists i = true
    · simp [List.filterMap_cons, List.filter_cons, h, ih]
    · simp [List.filterMap_cons, List.filter_cons, h, ih]

theorem OcTreeSolver.descendSecondDistance_eq (sv : OcTreeSolver K Sh BV)
    (tf1 tf2 : Transform3f K) (a : OcTreePair K) :
    sv.descendSecondDistance tf1 tf2 a =
      ((List.range 8).filter (fun i => a.root2.nodeChildExists i)).map
        (fun i => ((⟨a.root1, a.bv1, a.root2.getNodeChild i, sv.computeChildBV a.bv2 i⟩ :
          OcTreePair K), fun r : DistanceResult K => decide (sv.aabbDistance
            (details.Converter_AABB_AABB_convert sv.sqrt a.bv1 tf1)
            (details.Converter_AABB_AABB_convert sv.sqrt a.bv2 tf2) < r.min_distance))) := by
  unfold OcTreeSolver.descendSecondDistance
  generalize List.range 8 = l
  induction l with
  | nil => rfl
  | cons i is ih =>
    by_cases h : a.root2.nodeChildExists i = true
    · simp [List.filterMap_cons, List.filter_cons, h, ih]
    · simp [List.filterMap_cons, List.filter_cons, h, ih]

/-- C32: the descent rule of the octree-octree traversals. For a pair of cells
(both pointers non-null) that is not a pair of two childless cells and is not
pruned (no cell free or uncertain and the OBBs overlap, for
`OcTreeIntersectRecurse`; both cells occupied, for `OcTreeDistanceRecurse`), the
activation recurses into the existing children of `root1`, in the order of the
octants and with `root2` and `bv2` passed on unchanged, when `root2` has no
children or when `root1` has children and `bv1.size() > bv2.size()`; otherwise,
also when both have children and the cells have equal size, it recurses into
the existing children of `root2` with `root1` and `bv1` passed on unchanged. The
cell that is descended has children. -/
theorem descent_rule (sv : OcTreeSolver K Sh BV) (tree1 tree2 : OcTree K)
    (tf1 tf2 : Transform3f K) (request : CollisionRequest K) (drequest : DistanceRequest K)
    (a : OcTreePair K) (res : CollisionResult K) (dres : DistanceResult K)
    (h1 : a.root1.isNull = false) (h2 : a.root2.isNull = false)
    (hinner : a.root1.nodeHasChildren = true ∨ a.root2.nodeHasChildren = true) :
    ((tree1.isNodeFree a.root1 = false ∧ tree2.isNodeFree a.root2 = false ∧
        tree1.isNodeUncertain a.root1 = false ∧ tree2.isNodeUncertain a.root2 = false ∧
        sv.overlap (details.Converter_AABB_OBB_convert a.bv1 tf1)
          (details.Converter_AABB_OBB_convert a.bv2 tf2) = true) →
      sv.visitOcTreeIntersect tree1 tree2 tf1 tf2 request a res =
        Visit.recurse
          (if a.root2.nodeHasChildren = false ∨
              (a.root1.nodeHasChildren = true ∧ sv.size a.bv1 > sv.size a.bv2) then
            ((List.range 8).filter (fun i => a.root1.nodeChildExists i)).map
              (fun i => (⟨a.root1.getNodeChild i, sv.computeChildBV a.bv1 i, a.root2, a.bv2⟩,
                always))
          else
            ((List.range 8).filter (fun i => a.root2.nodeChildExists i)).map
              (fun i => (⟨a.root1, a.bv1, a.root2.getNodeChild i, sv.computeChildBV a.bv2 i⟩,
                always)))) ∧
    ((tree1.isNodeOccupied a.root1 = true ∧ tree2.isNodeOccupied a.root2 = true) →
      sv.visitOcTreeDistance tree1 tree2 tf1 tf2 drequest a dres =
        Visit.recurse
          (if a.root2.nodeHasChildren = false ∨
              (a.root1.nodeHasChildren = true ∧ sv.size a.bv1 > sv.size a.bv2) then
            ((List.range 8).filter (fun i => a.root1.nodeChildExists i)).map
              (fun i => (⟨a.root1.getNodeChild i, sv.computeChildBV a.bv1 i, a.root2, a.bv2⟩,
                fun r => decide (sv.aabbDistance
                  (details.Converter_AABB_AABB_convert sv.sqrt a.bv1 tf1)
                  (details.Converter_AABB_AABB_convert sv.sqrt a.bv2 tf2) < r.min_distance)))
          else
            ((List.range 8).filter (fun i => a.root2.nodeChildExists i)).map
              (fun i => (⟨a.root1, a.bv1, a.root2.getNodeChild i, sv.computeChildBV a.bv2 i⟩,
                fun r => decide (sv.aabbDistance
                  (details.Converter_AABB_AABB_convert sv.sqrt a.bv1 tf1)
                  (details.Converter_AABB_AABB_convert sv.sqrt a.bv2 tf2) < r.min_distance))))) ∧
    ((a.root2.nodeHasChildren = false ∨
        (a.root1.nodeHasChildren = true ∧ sv.size a.bv1 > sv.size a.bv2)) →
      a.root1.nodeHasChildren = true) ∧
    (¬ (a.root2.nodeHasChildren = false ∨
        (a.root1.nodeHasChildren = true ∧ sv.size a.bv1 > sv.size a.bv2)) →
      a.root2.nodeHasChildren = true) ∧
    ((a.root1.nodeHasChildren = true ∧ a.root2.nodeHasChildren = true ∧
        sv.size a.bv1 = sv.size a.bv2) →
      ¬ (a.root2.nodeHasChildren = false ∨
        (a.root1.nodeHasChildren = true ∧ sv.size a.bv1 > sv.size a.bv2))) := by
  have hleaf : (!a.root1.nodeHasChildren && !a.root2.nodeHasChildren) = false := by
    rcases hinner with h | h <;> simp [h]
  have hcond : (!a.root2.nodeHasChildren
      || (a.root1.nodeHasChildren && decide (sv.size a.bv1 > sv.size a.bv2))) = true ↔
      (a.root2.nodeHasChildren = false ∨
        (a.root1.nodeHasChildren = true ∧ sv.size a.bv1 > sv.size a.bv2)) := by
    simp
  refine ⟨?_, ?_, ?_, ?_, ?_⟩
  · rintro ⟨f1, f2, u1, u2, ho⟩
    by_cases hc : (a.root2.nodeHasChildren = false ∨
        (a.root1.nodeHasChildren = true ∧ sv.size a.bv1 > sv.size a.bv2))
    · rw [if_pos hc, ← sv.descendFirst_eq]
      have hc1 := hcond.2 hc
      simp only [OcTreeSolver.visitOcTreeIntersect, h1, h2, hleaf, f1, f2, u1, u2, ho, hc1,
        Bool.false_and, Bool.and_false, Bool.not_false, Bool.not_true, Bool.or_self,
        Bool.false_eq_true, if_false, if_true]
    · rw [if_neg hc, ← sv.descendSecond_eq]
      have hc1 : (!a.root2.nodeHasChildren
          || (a.root1.nodeHasChildren && decide (sv.size a.bv1 > sv.size a.bv2))) = false := by
        rw [← Bool.not_eq_true]
        exact fun h => hc (hcond.1 h)
      simp only [OcTreeSolver.visitOcTreeIntersect, h1, h2, hleaf, f1, f2, u1, u2, ho, hc1,
        Bool.false_and, Bool.and_false, Bool.not_false, Bool.not_true, Bool.or_self,
        Bool.false_eq_true, if_false, if_true]
  · rintro ⟨o1, o2⟩
    by_cases hc : (a.root2.nodeHasChildren = false ∨
        (a.root1.nodeHasChildren = true ∧ sv.size a.bv1 > sv.size a.bv2))
    · rw [if_pos hc, ← sv.descendFirstDistance_eq]
      have hc1 := hcond.2 hc
      simp only [OcTreeSolver.visitOcTreeDistance, h1, h2, hleaf, o1, o2, hc1,
        Bool.false_and, Bool.and_false, Bool.not_false, Bool.not_true, Bool.or_self,
        Bool.false_eq_true, if_false, if_true]
    · rw [if_neg hc, ← sv.descendSecondDistance_eq]
      have hc1 : (!a.root2.nodeHasChildren
          || (a.root1.nodeHasChildren && decide (sv.size a.bv1 > sv.size a.bv2))) = false := by
        rw [← Bool.not_eq_true]
        exact fun h => hc (hcond.1 h)
      simp only [OcTreeSolver.visitOcTreeDistance, h1, h2, hleaf, o1, o2, hc1,
        Bool.false_and, Bool.and_false, Bool.not_false, Bool.not_true, Bool.or_self,
        Bool.false_eq_true, if_false, if_true]
  · rintro (h | ⟨h, -⟩)
    · rcases hinner with h3 | h3
      · exact h3
      · rw [h] at h3; cases h3
    · exact h
  · intro h
    by_contra h3
    exact h (Or.inl (by simpa using h3))
  · rintro ⟨c1, c2, e⟩ (h | ⟨-, h⟩)
    · rw [h] at c2; cases c2
    · exact absurd h (by rw [e]; exact lt_irrefl _)

end Descent

/-! ## Trace of a traversal and early exit -/

section Trace

variable {A S : Type}

theorem traceLoop_snd (recurse : A → S → List (A × S) × Outcome S) (rec0 : A → S → Outcome S)
    (h : ∀ a s, (recurse a s).2 = rec0 a s) :
    ∀ (calls : List (A × (S → Bool))) (s : S),
      (traceLoop recurse calls s).2 = traverseLoop rec0 calls s := by
  intro calls
  induction calls with
  | nil => intro s; rfl
  | cons c cs ih =>
    intro s
    by_cases hg : c.2 s = true
    · have h1 := h c.1 s
      rcases hr : recurse c.1 s with ⟨t, out⟩
      rw [hr] at h1
      simp only at h1
      rcases out with ⟨v, s1⟩ | _ | _
      · cases v
        · simp only [traceLoop, traverseLoop, hg, if_true, hr, ← h1]
          exact ih s1
        · simp only [traceLoop, traverseLoop, hg, if_true, hr, ← h1]
      · simp only [traceLoop, traverseLoop, hg, if_true, hr, ← h1]
      · simp only [traceLoop, traverseLoop, hg, if_true, hr, ← h1]
    · simp only [traceLoop, traverseLoop, hg, Bool.false_eq_true, if_false]
      exact ih s

/-- The outcome of the traversal with its trace is the outcome of the
traversal. -/
theorem traverseTrace_snd (visit : A → S → Visit A S) :
    ∀ (fuel : Nat) (a : A) (s : S),
      (traverseTrace visit fuel a s).2 = traverse visit fuel a s := by
  intro fuel
  induction fuel with
  | zero => intro a s; rfl
  | succ fuel ih =>
    intro a s
    rcases hv : visit a s with ⟨v, s1⟩ | calls | _
    · simp only [traverseTrace, traverse, hv]
    · simp only [traverseTrace, traverse, hv]
      exact traceLoop_snd _ _ ih calls s
    · simp only [traverseTrace, traverse, hv]

theorem traceLoop_exit (visit : A → S → Visit A S)
    (recurse : A → S → List (A × S) × Outcome S)
    (h : ∀ a s v r, (recurse a s).2 = Outcome.ret v r →
      (v = false ∧ ∀ p ∈ (recurse a s).1, ∀ s1, visit p.1 p.2 ≠ Visit.ret true s1) ∨
      (v = true ∧ ∃ t0 p, (recurse a s).1 = t0 ++ [p] ∧ visit p.1 p.2 = Visit.ret true r ∧
        ∀ q ∈ t0, ∀ s1, visit q.1 q.2 ≠ Visit.ret true s1)) :
    ∀ (calls : List (A × (S → Bool))) (s : S) (v : Bool) (r : S),
      (traceLoop recurse calls s).2 = Outcome.ret v r →
      (v = false ∧ ∀ p ∈ (traceLoop recurse calls s).1, ∀ s1,
        visit p.1 p.2 ≠ Visit.ret true s1) ∨
      (v = true ∧ ∃ t0 p, (traceLoop recurse calls s).1 = t0 ++ [p] ∧
        visit p.1 p.2 = Visit.ret true r ∧
        ∀ q ∈ t0, ∀ s1, visit q.1 q.2 ≠ Visit.ret true s1) := by
  intro calls
  induction calls with
  | nil =>
    intro s v r hr
    simp only [traceLoop] at hr
    cases hr
    exact Or.inl ⟨rfl, by simp [traceLoop]⟩
  | cons c cs ih =>
    intro s v r hr
    by_cases hg : c.2 s = true
    · have h1 := h c.1 s
      rcases hrec : recurse c.1 s with ⟨t, out⟩
      rw [hrec] at h1
      simp only at h1
      rcases out with ⟨v1, s1⟩ | _ | _
      · cases v1
        · simp only [traceLoop, hg, if_true, hrec] at hr ⊢
          rcases h1 false s1 rfl with ⟨-, hno⟩ | ⟨hv, -⟩
          · rcases ih s1 v r hr with ⟨hv, hno2⟩ | ⟨hv, t0, p, e, hp, hno2⟩
            · refine Or.inl ⟨hv, ?_⟩
              intro p hp
              rcases List.mem_append.1 hp with hp | hp
              · exact hno p hp
              · exact hno2 p hp
            · refine Or.inr ⟨hv, t ++ t0, p, by rw [e, List.append_assoc], hp, ?_⟩
              intro q hq
              rcases List.mem_append.1 hq with hq | hq
              · exact hno q hq
              · exact hno2 q hq
          · cases hv
        · simp only [traceLoop, hg, if_true, hrec] at hr ⊢
          cases hr
          rcases h1 true r rfl with ⟨hv, -⟩ | ⟨-, t0, p, e, hp, hno⟩
          · cases hv
          · exact Or.inr ⟨rfl, t0, p, e, hp, hno⟩
      · simp only [traceLoop, hg, if_true, hrec] at hr
        cases hr
      · simp only [traceLoop, hg, if_true, hrec] at hr
        cases hr
    · simp only [traceLoop, hg, Bool.false_eq_true, if_false] at hr ⊢
      exact ih s v r hr

/-- Early exit of a traversal: when it returns `false`, no activation of its
trace returned `true` by itself; when it returns `true`, the last activation of
the trace returned `true` by itself, with the final state, and no earlier one
did. -/
theorem traverseTrace_exit (visit : A → S → Visit A S) :
    ∀ (fuel : Nat) (a : A) (s : S) (v : Bool) (r : S),
      (traverseTrace visit fuel a s).2 = Outcome.ret v r →
      (v = false ∧ ∀ p ∈ (traverseTrace visit fuel a s).1, ∀ s1,
        visit p.1 p.2 ≠ Visit.ret true s1) ∨
      (v = true ∧ ∃ t0 p, (traverseTrace visit fuel a s).1 = t0 ++ [p] ∧
        visit p.1 p.2 = Visit.ret true r ∧
        ∀ q ∈ t0, ∀ s1, visit q.1 q.2 ≠ Visit.ret true s1) := by
  intro fuel
  induction fuel with
  | zero =>
    intro a s v r hr
    simp only [traverseTrace] at hr
    cases hr
  | succ fuel ih =>
    intro a s v r hr
    rcases hv : visit a s with ⟨v1, s1⟩ | calls | _
    · simp only [traverseTrace, hv] at hr ⊢
      cases hr
      cases v
      · refine Or.inl ⟨rfl, ?_⟩
        intro p hp s2
        simp only [List.mem_singleton] at hp
        rw [hp, hv]
        intro e
        cases e
      · refine Or.inr ⟨rfl, [], (a, s), rfl, hv, ?_⟩
        intro q hq
        cases hq
    · simp only [traverseTrace, hv] at hr ⊢
      have ha : ∀ s2, visit a s ≠ Visit.ret true s2 := by
        intro s2 e
        rw [hv] at e
        cases e
      rcases traceLoop_exit visit (traverseTrace visit fuel) ih calls s v r hr with
        ⟨hv1, hno⟩ | ⟨hv1, t0, p, e, hp, hno⟩
      · refine Or.inl ⟨hv1, ?_⟩
        intro p hp
        rcases List.mem_cons.1 hp with hp | hp
        · rw [hp]; exact ha
        · exact hno p hp
      · refine Or.inr ⟨hv1, (a, s) :: t0, p, by rw [e, List.cons_append], hp, ?_⟩
        intro q hq
        rcases List.mem_cons.1 hq with hq | hq
        · rw [hq]; exact ha
        · exact hno q hq
    · simp only [traverseTrace, hv] at hr
      cases hr

theorem traceLoop_exhaustive (recurse recurse1 : A → S → List (A × S) × Outcome S)
    (h : ∀ a s t r, recurse a s = (t, Outcome.ret false r) →
      recurse1 a s = (t, Outcome.ret false r)) :
    ∀ (calls : List (A × (S → Bool))) (s : S) (t : List (A × S)) (r : S),
      traceLoop recurse calls s = (t, Outcome.ret false r) →
      traceLoop recurse1 calls s = (t, Outcome.ret false r) := by
  intro calls
  induction calls with
  | nil => intro s t r hr; exact hr
  | cons c cs ih =>
    intro s t r hr
    by_cases hg : c.2 s = true
    · rcases hrec : recurse c.1 s with ⟨t1, out⟩
      rcases out with ⟨v1, s1⟩ | _ | _
      · cases v1
        · have h1 := h c.1 s t1 s1 hrec
          simp only [traceLoop, hg, if_true, hrec, h1] at hr ⊢
          have e1 : traceLoop recurse cs s1
              = ((traceLoop recurse cs s1).1, (traceLoop recurse cs s1).2) := rfl
          have e2 := congrArg Prod.snd hr
          simp only at e2
          rw [e2] at e1
          have h2 := ih s1 _ r e1
          rw [h2]
          rw [Prod.mk.injEq] at hr ⊢
          exact ⟨hr.1, rfl⟩
        · simp only [traceLoop, hg, if_true, hrec] at hr
          cases hr
      · simp only [traceLoop, hg, if_true, hrec] at hr
        cases hr
      · simp only [traceLoop, hg, if_true, hrec] at hr
        cases hr
    · simp only [traceLoop, hg, Bool.false_eq_true, if_false] at hr ⊢
      exact ih s t r hr

/-- A traversal that returns `false` has the trace and the final state of the
traversal `visit1` whose activations return `false` wherever those of `visit`
return a value, and are those of `visit` otherwise. -/
theorem traverseTrace_exhaustive (visit visit1 : A → S → Visit A S)
    (hrel : ∀ a s, visit1 a s = visit a s ∨
      ∃ v s1, visit a s = Visit.ret v s1 ∧ visit1 a s = Visit.ret false s1) :
    ∀ (fuel : Nat) (a : A) (s : S) (t : List (A × S)) (r : S),
      traverseTrace visit fuel a s = (t, Outcome.ret false r) →
      traverseTrace visit1 fuel a s = (t, Outcome.ret false r) := by
  intro fuel
  induction fuel with
  | zero =>
    intro a s t r hr
    simp only [traverseTrace] at hr
    cases hr
  | succ fuel ih =>
    intro a s t r hr
    rcases hv : visit a s with ⟨v1, s1⟩ | calls | _
    · simp only [traverseTrace, hv] at hr
      cases hr
      rcases hrel a s with e | ⟨v2, s2, e1, e2⟩
      · simp only [traverseTrace, e, hv]
      · rw [hv] at e1
        cases e1
        simp only [traverseTrace, e2]
    · have e : visit1 a s = Visit.recurse calls := by
        rcases hrel a s with e | ⟨v2, s2, e1, -⟩
        · rw [e, hv]
        · rw [hv] at e1; cases e1
      simp only [traverseTrace, hv] at hr
      simp only [traverseTrace, e]
      have e1 : traceLoop (traverseTrace visit fuel) calls s
          = ((traceLoop (traverseTrace visit fuel) calls s).1, Outcome.ret false r) := by
        have := congrArg Prod.snd hr
        simp only at this
        rw [← this]
      have h2 := traceLoop_exhaustive _ _ ih calls s _ r e1
      rw [h2]
      rw [Prod.mk.injEq] at hr ⊢
      exact ⟨hr.1, rfl⟩
    · simp only [traverseTrace, hv] at hr
      cases hr

/-- A loop without guards that returns `false` has made every call: each call
returned `false`, and its trace is part of the trace of the loop. -/
theorem traceLoop_covers (recurse : A → S → List (A × S) × Outcome S) :
    ∀ (calls : List (A × (S → Bool))) (s : S) (t : List (A × S)) (r : S),
      traceLoop recurse calls s = (t, Outcome.ret false r) →
      (∀ c ∈ calls, ∀ s1, c.2 s1 = true) →
      ∀ c ∈ calls, ∃ s1 t1 r1, recurse c.1 s1 = (t1, Outcome.ret false r1) ∧
        ∀ p ∈ t1, p ∈ t := by
  intro calls
  induction calls with
  | nil => intro s t r _ _ c hc; cases hc
  | cons c0 cs ih =>
    intro s t r h hg c hc
    have hg0 := hg c0 (List.mem_cons_self _ _) s
    rcases hrec : recurse c0.1 s with ⟨t0, out⟩
    rcases out with ⟨v1, s1⟩ | _ | _
    · cases v1
      · simp only [traceLoop, hg0, if_true, hrec] at h
        have ht : t = t0 ++ (traceLoop recurse cs s1).1 := (Prod.mk.inj h).1.symm
        have hrest : traceLoop recurse cs s1
            = ((traceLoop recurse cs s1).1, Outcome.ret false r) := by
          rw [← (Prod.mk.inj h).2]
        rcases List.mem_cons.1 hc with e | hc1
        · refine ⟨s, t0, s1, by rw [e, hrec], ?_⟩
          intro p hp
          rw [ht]
          exact List.mem_append_left _ hp
        · obtain ⟨s2, t2, r2, h2, hsub⟩ := ih s1 _ r hrest
            (fun c1 h1 => hg c1 (List.mem_cons_of_mem _ h1)) c hc1
          refine ⟨s2, t2, r2, h2, ?_⟩
          intro p hp
          rw [ht]
          exact List.mem_append_right _ (hsub p hp)
      · simp only [traceLoop, hg0, if_true, hrec] at h
        cases (Prod.mk.inj h).2
    · simp only [traceLoop, hg0, if_true, hrec] at h
      cases (Prod.mk.inj h).2
    · simp only [traceLoop, hg0, if_true, hrec] at h
      cases (Prod.mk.inj h).2

end Trace

section CellCover

variable {K Sh BV : Type}

theorem OcTreeSolver.isNull_of_mem_cells (sv : OcTreeSolver K Sh BV) {n : OcTreeNode K}
    {bv : AABB K} {c : OcTreeCell K} (hc : c ∈ sv.cells n bv) : n.isNull = false := by
  cases n with
  | null => simp [OcTreeSolver.cells] at hc
  | node a o c0 c1 c2 c3 c4 c5 c6 c7 => rfl

/-- A cell of the subtree of a cell is the cell itself or a cell of the subtree
of one of its eight children. -/
theorem OcTreeSolver.mem_cells_cases (sv : OcTreeSolver K Sh BV) (n : OcTreeNode K)
    (bv : AABB K) (c : OcTreeCell K) (hc : c ∈ sv.cells n bv) :
    c = ⟨n, bv⟩ ∨ ∃ i, i < 8 ∧ n.nodeChildExists i = true ∧
      c ∈ sv.cells (n.getNodeChild i) (sv.computeChildBV bv i) := by
  cases n with
  | null => simp [OcTreeSolver.cells] at hc
  | node a o c0 c1 c2 c3 c4 c5 c6 c7 =>
    simp only [OcTreeSolver.cells, List.mem_cons, List.mem_append] at hc
    have key : ∀ i, i < 8 →
        c ∈ sv.cells ((OcTreeNode.node a o c0 c1 c2 c3 c4 c5 c6 c7).getNodeChild i)
          (sv.computeChildBV bv i) →
        ∃ i, i < 8 ∧ (OcTreeNode.node a o c0 c1 c2 c3 c4 c5 c6 c7).nodeChildExists i = true ∧
          c ∈ sv.cells ((OcTreeNode.node a o c0 c1 c2 c3 c4 c5 c6 c7).getNodeChild i)
            (sv.computeChildBV bv i) := by
      intro i hi h
      refine ⟨i, hi, ?_, h⟩
      have := sv.isNull_of_mem_cells h
      simp [OcTreeNode.nodeChildExists, this]
    rcases hc with h | ((((((h | h) | h) | h) | h) | h) | h) | h
    · exact Or.inl h
    · exact Or.inr (key 0 (by omega) h)
    · exact Or.inr (key 1 (by omega) h)
    · exact Or.inr (key 2 (by omega) h)
    · exact Or.inr (key 3 (by omega) h)
    · exact Or.inr (key 4 (by omega) h)
    · exact Or.inr (key 5 (by omega) h)
    · exact Or.inr (key 6 (by omega) h)
    · exact Or.inr (key 7 (by omega) h)

/-- The subtree of a childless cell has this cell only. -/
theorem OcTreeSolver.mem_cells_childless (sv : OcTreeSolver K Sh BV) (n : OcTreeNode K)
    (bv : AABB K) (c : OcTreeCell K) (hc : c ∈ sv.cells n bv)
    (hl : n.nodeHasChildren = false) : c = ⟨n, bv⟩ := by
  rcases sv.mem_cells_cases n bv c hc with h | ⟨i, -, hi, -⟩
  · exact h
  · exfalso
    have hn := sv.isNull_of_mem_cells hc
    cases n with
    | null => cases hn
    | node a o c0 c1 c2 c3 c4 c5 c6 c7 =>
      simp only [OcTreeNode.nodeHasChildren, OcTreeNode.children, List.any_cons, List.any_nil,
        Bool.or_false, Bool.or_eq_false_iff, Bool.not_eq_false'] at hl
      obtain ⟨h0, h1, h2, h3, h4, h5, h6, h7⟩ := hl
      have hnull : (OcTreeNode.null : OcTreeNode K).isNull = true := rfl
      rcases i with _ | _ | _ | _ | _ | _ | _ | _ | i <;>
        simp [OcTreeNode.nodeChildExists, OcTreeNode.getNodeChild, OcTreeNode.children, h0,
          h1, h2, h3, h4, h5, h6, h7, hnull] at hi

/-- A cell with children that has a childless cell in its subtree has it in the
subtree of an existing child. -/
theorem OcTreeSolver.mem_cells_child (sv : OcTreeSolver K Sh BV) (n : OcTreeNode K)
    (bv : AABB K) (c : OcTreeCell K) (hc : c ∈ sv.cells n bv)
    (hn : n.nodeHasChildren = true) (hl : c.root1.nodeHasChildren = false) :
    ∃ i, i < 8 ∧ n.nodeChildExists i = true ∧
      c ∈ sv.cells (n.getNodeChild i) (sv.computeChildBV bv i) := by
  rcases sv.mem_cells_cases n bv c hc with h | h
  · rw [h] at hl
    rw [hn] at hl
    cases hl
  · exact h

theorem OcTreeSolver.descendFirst_mem (sv : OcTreeSolver K Sh BV) (a : OcTreePair K) (i : Nat)
    (hi : i < 8) (he : a.root1.nodeChildExists i = true) :
    ((⟨a.root1.getNodeChild i, sv.computeChildBV a.bv1 i, a.root2, a.bv2⟩ : OcTreePair K),
      (always : CollisionResult K → Bool)) ∈ sv.descendFirst a := by
  rw [sv.descendFirst_eq]
  exact List.mem_map.2 ⟨i, List.mem_filter.2 ⟨List.mem_range.2 hi, he⟩, rfl⟩

theorem OcTreeSolver.descendSecond_mem (sv : OcTreeSolver K Sh BV) (a : OcTreePair K) (i : Nat)
    (hi : i < 8) (he : a.root2.nodeChildExists i = true) :
    ((⟨a.root1, a.bv1, a.root2.getNodeChild i, sv.computeChildBV a.bv2 i⟩ : OcTreePair K),
      (always : CollisionResult K → Bool)) ∈ sv.descendSecond a := by
  rw [sv.descendSecond_eq]
  exact List.mem_map.2 ⟨i, List.mem_filter.2 ⟨List.mem_range.2 hi, he⟩, rfl⟩

end CellCover

section EarlyExit

variable {K Sh BV : Type} [LinearOrderedField K]

theorem OcTreeSolver.visitOcTreeIntersect_leafPair (sv : OcTreeSolver K Sh BV)
    (tree1 tree2 : OcTree K) (tf1 tf2 : Transform3f K) (request : CollisionRequest K)
    (a : OcTreePair K) (res : CollisionResult K)
    (h : a.isOccupiedLeafPair tree1 tree2 = true) :
    sv.visitOcTreeIntersect tree1 tree2 tf1 tf2 request a res =
      Visit.ret
        (sv.collisionSatisfied request (sv.intersectLeafPair tree1 tree2 tf1 tf2 request a res))
        (sv.intersectLeafPair tree1 tree2 tf1 tf2 request a res) := by
  simp only [OcTreePair.isOccupiedLeafPair, Bool.and_eq_true, Bool.not_eq_true'] at h
  obtain ⟨⟨⟨⟨⟨h1, h2⟩, h3⟩, h4⟩, h5⟩, h6⟩ := h
  simp [OcTreeSolver.visitOcTreeIntersect, h1, h2, h3, h4, h5, h6]

theorem OcTreeSolver.visitOcTreeIntersect_ret_true (sv : OcTreeSolver K Sh BV)
    (tree1 tree2 : OcTree K) (tf1 tf2 : Transform3f K) (request : CollisionRequest K)
    (a : OcTreePair K) (res r : CollisionResult K) :
    sv.visitOcTreeIntersect tree1 tree2 tf1 tf2 request a res = Visit.ret true r ↔
      (a.isOccupiedLeafPair tree1 tree2 = true ∧
        sv.collisionSatisfied request (sv.intersectLeafPair tree1 tree2 tf1 tf2 request a res)
          = true ∧
        r = sv.intersectLeafPair tree1 tree2 tf1 tf2 request a res) := by
  constructor
  · intro h
    rcases sv.visitOcTreeIntersect_cases tree1 tree2 tf1 tf2 request a res with
      h1 | ⟨n1, n2, l1, l2, o1, o2, h1⟩ | ⟨calls, h1, -⟩
    · rw [h1] at h; cases h
    · rw [h1] at h
      injection h with hv hr
      exact ⟨by simp [OcTreePair.isOccupiedLeafPair, n1, n2, l1, l2, o1, o2], hv, hr.symm⟩
    · rw [h1] at h; cases h
  · rintro ⟨hl, hs, hr⟩
    rw [sv.visitOcTreeIntersect_leafPair tree1 tree2 tf1 tf2 request a res hl, hs, hr]

theorem OcTreeSolver.visitOcTreeIntersect_neverSatisfied (sv : OcTreeSolver K Sh BV)
    (tree1 tree2 : OcTree K) (tf1 tf2 : Transform3f K) (request : CollisionRequest K)
    (a : OcTreePair K) (res : CollisionResult K) :
    sv.neverSatisfied.visitOcTreeIntersect tree1 tree2 tf1 tf2 request a res =
        sv.visitOcTreeIntersect tree1 tree2 tf1 tf2 request a res ∨
      ∃ v s1, sv.visitOcTreeIntersect tree1 tree2 tf1 tf2 request a res = Visit.ret v s1 ∧
        sv.neverSatisfied.visitOcTreeIntersect tree1 tree2 tf1 tf2 request a res =
          Visit.ret false s1 := by
  by_cases hl : a.isOccupiedLeafPair tree1 tree2 = true
  · right
    refine ⟨_, _, sv.visitOcTreeIntersect_leafPair tree1 tree2 tf1 tf2 request a res hl, ?_⟩
    rw [sv.neverSatisfied.visitOcTreeIntersect_leafPair tree1 tree2 tf1 tf2 request a res hl]
    rfl
  · left
    have hl1 : a.isOccupiedLeafPair tree1 tree2 = false := by simpa using hl
    simp only [OcTreePair.isOccupiedLeafPair] at hl1
    unfold OcTreeSolver.visitOcTreeIntersect
    cases e1 : a.root1.isNull <;> cases e2 : a.root2.isNull <;>
      cases e3 : a.root1.nodeHasChildren <;> cases e4 : a.root2.nodeHasChildren <;>
      simp only [e1, e2, e3, e4, Bool.and_self, Bool.and_true, Bool.and_false, Bool.not_true,
        Bool.not_false, Bool.true_and, Bool.false_and, Bool.false_eq_true, if_true,
        if_false] at hl1 ⊢ <;>
      first
        | rfl
        | (simp only [hl1, Bool.false_eq_true, if_false])

/-- The activation of `OcTreeIntersectRecurse` on two cells, none of them null
and one of them with children, that is not pruned has the recursive calls of
the loop over the children of the cell that the descent rule selects. -/
theorem OcTreeSolver.visitOcTreeIntersect_descend (sv : OcTreeSolver K Sh BV)
    (tree1 tree2 : OcTree K) (tf1 tf2 : Transform3f K) (request : CollisionRequest K)
    (a : OcTreePair K) (res : CollisionResult K)
    (h1 : a.root1.isNull = false) (h2 : a.root2.isNull = false)
    (hinner : ¬ (a.root1.nodeHasChildren = false ∧ a.root2.nodeHasChildren = false))
    (f1 : tree1.isNodeFree a.root1 = false) (f2 : tree2.isNodeFree a.root2 = false)
    (u1 : tree1.isNodeUncertain a.root1 = false) (u2 : tree2.isNodeUncertain a.root2 = false)
    (ho : sv.overlap (details.Converter_AABB_OBB_convert a.bv1 tf1)
      (details.Converter_AABB_OBB_convert a.bv2 tf2) = true) :
    (a.root1.nodeHasChildren = true ∧
      sv.visitOcTreeIntersect tree1 tree2 tf1 tf2 request a res
        = Visit.recurse (sv.descendFirst a)) ∨
    (a.root2.nodeHasChildren = true ∧
      sv.visitOcTreeIntersect tree1 tree2 tf1 tf2 request a res
        = Visit.recurse (sv.descendSecond a)) := by
  have hleaf : (!a.root1.nodeHasChildren && !a.root2.nodeHasChildren) = false := by
    cases e1 : a.root1.nodeHasChildren <;> cases e2 : a.root2.nodeHasChildren <;>
      simp [e1, e2] at hinner ⊢
  cases hc : (!a.root2.nodeHasChildren
      || (a.root1.nodeHasChildren && decide (sv.size a.bv1 > sv.size a.bv2)))
  · right
    constructor
    · cases e2 : a.root2.nodeHasChildren
      · rw [e2] at hc; simp at hc
      · rfl
    · simp only [OcTreeSolver.visitOcTreeIntersect, h1, h2, hleaf, f1, f2, u1, u2, ho, hc,
        Bool.false_and, Bool.and_false, Bool.not_false, Bool.not_true, Bool.or_self,
        Bool.false_eq_true, if_false, if_true]
  · left
    constructor
    · cases e1 : a.root1.nodeHasChildren
      · cases e2 : a.root2.nodeHasChildren
        · exact absurd ⟨e1, e2⟩ hinner
        · rw [e1, e2] at hc; simp at hc
      · rfl
    · simp only [OcTreeSolver.visitOcTreeIntersect, h1, h2, hleaf, f1, f2, u1, u2, ho, hc,
        Bool.false_and, Bool.and_false, Bool.not_false, Bool.not_true, Bool.or_self,
        Bool.false_eq_true, if_false, if_true]

/-- A call of `OcTreeIntersectRecurse` that returns `false` has examined every
pair of a childless cell below `root1` and a childless cell below `root2` above
which no pair of cells is pruned: the pair is in the trace. A pair of cells
above the two, not both childless, is pruned when one of the cells is free or
uncertain or when the OBBs of the two cells are disjoint. -/
theorem OcTreeSolver.intersect_covers (sv : OcTreeSolver K Sh BV) (tree1 tree2 : OcTree K)
    (tf1 tf2 : Transform3f K) (request : CollisionRequest K) :
    ∀ (fuel : Nat) (a : OcTreePair K) (res : CollisionResult K)
      (t : List (OcTreePair K × CollisionResult K)) (r : CollisionResult K),
      traverseTrace (sv.visitOcTreeIntersect tree1 tree2 tf1 tf2 request) fuel a res
        = (t, Outcome.ret false r) →
      ∀ L1 ∈ sv.cells a.root1 a.bv1, ∀ L2 ∈ sv.cells a.root2 a.bv2,
        L1.root1.nodeHasChildren = false → L2.root1.nodeHasChildren = false →
        (∀ A1 ∈ sv.cells a.root1 a.bv1, ∀ A2 ∈ sv.cells a.root2 a.bv2,
          L1 ∈ sv.cells A1.root1 A1.bv1 → L2 ∈ sv.cells A2.root1 A2.bv1 →
          ¬ (A1.root1.nodeHasChildren = false ∧ A2.root1.nodeHasChildren = false) →
          tree1.isNodeFree A1.root1 = false ∧ tree2.isNodeFree A2.root1 = false ∧
          tree1.isNodeUncertain A1.root1 = false ∧ tree2.isNodeUncertain A2.root1 = false ∧
          sv.overlap (details.Converter_AABB_OBB_convert A1.bv1 tf1)
            (details.Converter_AABB_OBB_convert A2.bv1 tf2) = true) →
        ∃ s, ((⟨L1.root1, L1.bv1, L2.root1, L2.bv1⟩ : OcTreePair K), s) ∈ t := by
  intro fuel
  induction fuel with
  | zero =>
    intro a res t r h
    simp only [traverseTrace] at h
    cases (Prod.mk.inj h).2
  | succ fuel ih =>
    intro a res t r h L1 hL1 L2 hL2 l1 l2 hnp
    have n1 : a.root1.isNull = false := sv.isNull_of_mem_cells hL1
    have n2 : a.root2.isNull = false := sv.isNull_of_mem_cells hL2
    by_cases hleaf : a.root1.nodeHasChildren = false ∧ a.root2.nodeHasChildren = false
    · have e1 := sv.mem_cells_childless a.root1 a.bv1 L1 hL1 hleaf.1
      have e2 := sv.mem_cells_childless a.root2 a.bv2 L2 hL2 hleaf.2
      have hv : ∃ v s1, sv.visitOcTreeIntersect tree1 tree2 tf1 tf2 request a res
          = Visit.ret v s1 := by
        simp only [OcTreeSolver.visitOcTreeIntersect, n1, n2, hleaf.1, hleaf.2, Bool.false_and,
          Bool.and_false, Bool.not_false, Bool.and_self, Bool.false_eq_true, if_false, if_true]
        split_ifs
        · exact ⟨_, _, rfl⟩
        · exact ⟨_, _, rfl⟩
      obtain ⟨v, s1, hv⟩ := hv
      simp only [traverseTrace, hv] at h
      refine ⟨res, ?_⟩
      rw [← (Prod.mk.inj h).1, e1, e2]
      exact List.mem_singleton.2 rfl
    · obtain ⟨f1, f2, u1, u2, ho⟩ := hnp ⟨a.root1, a.bv1⟩ (sv.cells_self _ _ n1)
        ⟨a.root2, a.bv2⟩ (sv.cells_self _ _ n2) hL1 hL2 hleaf
      rcases sv.visitOcTreeIntersect_descend tree1 tree2 tf1 tf2 request a res n1 n2 hleaf
        f1 f2 u1 u2 ho with ⟨hc, hv⟩ | ⟨hc, hv⟩
      · simp only [traverseTrace, hv] at h
        have ht := (Prod.mk.inj h).1
        have hloop : traceLoop
            (traverseTrace (sv.visitOcTreeIntersect tree1 tree2 tf1 tf2 request) fuel)
            (sv.descendFirst a) res
            = ((traceLoop
              (traverseTrace (sv.visitOcTreeIntersect tree1 tree2 tf1 tf2 request) fuel)
              (sv.descendFirst a) res).1, Outcome.ret false r) := by
          rw [← (Prod.mk.inj h).2]
        obtain ⟨i, hi, he, hLi⟩ := sv.mem_cells_child a.root1 a.bv1 L1 hL1 hc l1
        obtain ⟨s1, t1, r1, hrec, hsub⟩ := traceLoop_covers _ _ res _ r hloop
          (fun c hc1 s2 => by
            obtain ⟨j, -, e⟩ := sv.mem_descendFirst a c hc1
            rw [e]
            rfl)
          _ (sv.descendFirst_mem a i hi he)
        obtain ⟨s, hs⟩ := ih _ s1 t1 r1 hrec L1 hLi L2 hL2 l1 l2
          (fun A1 hA1 A2 hA2 => hnp A1 (sv.cells_child a.root1 a.bv1 i A1 hA1) A2 hA2)
        refine ⟨s, ?_⟩
        rw [← ht]
        exact List.mem_cons_of_mem _ (hsub _ hs)
      · simp only [traverseTrace, hv] at h
        have ht := (Prod.mk.inj h).1
        have hloop : traceLoop
            (traverseTrace (sv.visitOcTreeIntersect tree1 tree2 tf1 tf2 request) fuel)
            (sv.descendSecond a) res
            = ((traceLoop
              (traverseTrace (sv.visitOcTreeIntersect tree1 tree2 tf1 tf2 request) fuel)
              (sv.descendSecond a) res).1, Outcome.ret false r) := by
          rw [← (Prod.mk.inj h).2]
        obtain ⟨i, hi, he, hLi⟩ := sv.mem_cells_child a.root2 a.bv2 L2 hL2 hc l2
        obtain ⟨s1, t1, r1, hrec, hsub⟩ := traceLoop_covers _ _ res _ r hloop
          (fun c hc1 s2 => by
            obtain ⟨j, -, e⟩ := sv.mem_descendSecond a c hc1
            rw [e]
            rfl)
          _ (sv.descendSecond_mem a i hi he)
        obtain ⟨s, hs⟩ := ih _ s1 t1 r1 hrec L1 hL1 L2 hLi l1 l2
          (fun A1 hA1 A2 hA2 => hnp A1 hA1 A2 (sv.cells_child a.root2 a.bv2 i A2 hA2))
        refine ⟨s, ?_⟩
        rw [← ht]
        exact List.mem_cons_of_mem _ (hsub _ hs)

/-- C33: early exit of `OcTreeIntersectRecurse`. Every call returns, and with
its trace (the activations in the order in which they are entered, each with
the result it is entered with): it returns `true` exactly when the trace has a
pair of occupied childless cells for which `request.isSatisfied(result)` held
right after the pair was processed; that activation is then the last of the
trace, the result returned is the result right after it, and
`isSatisfied` held after none of the pairs processed before; and when the call
returns `false`, every pair of a childless cell below `root1` and a childless
cell below `root2` that is not pruned has been examined, that is, is in the
trace: the pairs above which no pair of cells, not both childless, has a free or
an uncertain cell or disjoint OBBs; and the trace and the result are then those
of the traversal whose request is never satisfied. -/
theorem early_exit (sv : OcTreeSolver K Sh BV) (tree1 tree2 : OcTree K)
    (tf1 tf2 : Transform3f K) (request : CollisionRequest K) (a : OcTreePair K)
    (res : CollisionResult K) (extra : Nat) :
    ∃ v r trace,
      sv.OcTreeIntersectRecurse tree1 tree2 tf1 tf2 request
        (a.root1.height + a.root2.height + 1 + extra) a res = Outcome.ret v r ∧
      traverseTrace (sv.visitOcTreeIntersect tree1 tree2 tf1 tf2 request)
        (a.root1.height + a.root2.height + 1 + extra) a res = (trace, Outcome.ret v r) ∧
      (v = true ↔ ∃ p ∈ trace, p.1.isOccupiedLeafPair tree1 tree2 = true ∧
        sv.collisionSatisfied request
          (sv.intersectLeafPair tree1 tree2 tf1 tf2 request p.1 p.2) = true) ∧
      (v = true → ∃ t0 p, trace = t0 ++ [p] ∧ p.1.isOccupiedLeafPair tree1 tree2 = true ∧
        sv.collisionSatisfied request
          (sv.intersectLeafPair tree1 tree2 tf1 tf2 request p.1 p.2) = true ∧
        r = sv.intersectLeafPair tree1 tree2 tf1 tf2 request p.1 p.2 ∧
        ∀ q ∈ t0, q.1.isOccupiedLeafPair tree1 tree2 = true →
          sv.collisionSatisfied request
            (sv.intersectLeafPair tree1 tree2 tf1 tf2 request q.1 q.2) = false) ∧
      (v = false →
        ∀ L1 ∈ sv.cells a.root1 a.bv1, ∀ L2 ∈ sv.cells a.root2 a.bv2,
          L1.root1.nodeHasChildren = false → L2.root1.nodeHasChildren = false →
          (∀ A1 ∈ sv.cells a.root1 a.bv1, ∀ A2 ∈ sv.cells a.root2 a.bv2,
            L1 ∈ sv.cells A1.root1 A1.bv1 → L2 ∈ sv.cells A2.root1 A2.bv1 →
            ¬ (A1.root1.nodeHasChildren = false ∧ A2.root1.nodeHasChildren = false) →
            tree1.isNodeFree A1.root1 = false ∧ tree2.isNodeFree A2.root1 = false ∧
            tree1.isNodeUncertain A1.root1 = false ∧ tree2.isNodeUncertain A2.root1 = false ∧
            sv.overlap (details.Converter_AABB_OBB_convert A1.bv1 tf1)
              (details.Converter_AABB_OBB_convert A2.bv1 tf2) = true) →
          ∃ s, ((⟨L1.root1, L1.bv1, L2.root1, L2.bv1⟩ : OcTreePair K), s) ∈ trace) ∧
      (v = false →
        traverseTrace (sv.neverSatisfied.visitOcTreeIntersect tree1 tree2 tf1 tf2 request)
          (a.root1.height + a.root2.height + 1 + extra) a res = (trace, Outcome.ret false r)) := by
  obtain ⟨v, r, h, -⟩ := sv.intersect_activation tree1 tree2 tf1 tf2 request
    (a.root1.height + a.root2.height + 1 + extra) a res (by omega)
  have hsnd := traverseTrace_snd (sv.visitOcTreeIntersect tree1 tree2 tf1 tf2 request)
    (a.root1.height + a.root2.height + 1 + extra) a res
  rw [h] at hsnd
  have htr : traverseTrace (sv.visitOcTreeIntersect tree1 tree2 tf1 tf2 request)
      (a.root1.height + a.root2.height + 1 + extra) a res =
      ((traverseTrace (sv.visitOcTreeIntersect tree1 tree2 tf1 tf2 request)
        (a.root1.height + a.root2.height + 1 + extra) a res).1, Outcome.ret v r) := by
    rw [← hsnd]
  have hex := traverseTrace_exit (sv.visitOcTreeIntersect tree1 tree2 tf1 tf2 request)
    (a.root1.height + a.root2.height + 1 + extra) a res v r hsnd
  have hnot : ∀ q : OcTreePair K × CollisionResult K,
      (∀ s1, sv.visitOcTreeIntersect tree1 tree2 tf1 tf2 request q.1 q.2 ≠ Visit.ret true s1) →
      q.1.isOccupiedLeafPair tree1 tree2 = true →
      sv.collisionSatisfied request
        (sv.intersectLeafPair tree1 tree2 tf1 tf2 request q.1 q.2) = false := by
    intro q hq hl
    rw [← Bool.not_eq_true]
    intro hs
    exact hq _ ((sv.visitOcTreeIntersect_ret_true tree1 tree2 tf1 tf2 request q.1 q.2 _).2
      ⟨hl, hs, rfl⟩)
  refine ⟨v, r, _, h, htr, ?_, ?_, ?_, ?_⟩
  · constructor
    · intro hv
      rcases hex with ⟨hf, -⟩ | ⟨-, t0, p, e, hp, -⟩
      · rw [hv] at hf; cases hf
      · obtain ⟨hl, hs, -⟩ :=
          (sv.visitOcTreeIntersect_ret_true tree1 tree2 tf1 tf2 request p.1 p.2 r).1 hp
        exact ⟨p, by rw [e]; simp, hl, hs⟩
    · rintro ⟨p, hp, hl, hs⟩
      rcases hex with ⟨-, hno⟩ | ⟨hv, -⟩
      · have := hnot p (hno p hp) hl
        rw [this] at hs
        cases hs
      · exact hv
  · intro hv
    rcases hex with ⟨hf, -⟩ | ⟨-, t0, p, e, hp, hno⟩
    · rw [hv] at hf; cases hf
    · obtain ⟨hl, hs, hr⟩ :=
        (sv.visitOcTreeIntersect_ret_true tree1 tree2 tf1 tf2 request p.1 p.2 r).1 hp
      exact ⟨t0, p, e, hl, hs, hr, fun q hq hlq => hnot q (hno q hq) hlq⟩
  · intro hv
    rw [hv] at htr
    exact sv.intersect_covers tree1 tree2 tf1 tf2 request _ a res _ r htr
  · intro hv
    rw [hv] at htr
    exact traverseTrace_exhaustive _ _
      (sv.visitOcTreeIntersect_neverSatisfied tree1 tree2 tf1 tf2 request) _ a res _ r htr

end EarlyExit

/-! ## The assertion of the mesh traversal -/

section MeshAssertion

variable {K Sh BV : Type} [LinearOrderedField K]

theorem OcTreeSolver.meshIntersectLeaf_fail (sv : OcTreeSolver K Sh BV) (tree1 : OcTree K)
    (tree2 : BVHModel K BV) (tf1 tf2 : Transform3f K) (request : CollisionRequest K)
    (bv1 : AABB K) (root1 : OcTreeNode K) (primitive_id : Int) (p1 p2 p3 : Vec3f K)
    (res : CollisionResult K) :
    sv.meshIntersectLeaf tree1 tree2 tf1 tf2 request bv1 root1 primitive_id p1 p2 p3 res
        = Visit.fail ↔
      (request.enable_contact = true ∧ request.security_margin ≠ 0 ∧
        (sv.shapeTriangleInteraction (sv.constructBox bv1 tf1).1 (sv.constructBox bv1 tf1).2
          p1 p2 p3 tf2).isSome = true) := by
  simp only [OcTreeSolver.meshIntersectLeaf]
  cases he : request.enable_contact <;>
    cases hi : sv.shapeTriangleInteraction (sv.constructBox bv1 tf1).1
      (sv.constructBox bv1 tf1).2 p1 p2 p3 tf2 <;>
    by_cases hm : request.security_margin = 0 <;>
    simp [hm]

theorem OcTreeSolver.visitOcTreeMeshIntersect_fail (sv : OcTreeSolver K Sh BV)
    (tree1 : OcTree K) (tree2 : BVHModel K BV) (tf1 tf2 : Transform3f K)
    (request : CollisionRequest K) (a : OcTreeMeshPair K BV) (res : CollisionResult K)
    (h : sv.visitOcTreeMeshIntersect tree1 tree2 tf1 tf2 request a res = Visit.fail) :
    a.root1.isNull = false ∧ a.root1.nodeHasChildren = false ∧ a.root2.isLeaf = true ∧
      tree1.isNodeOccupied a.root1 = true ∧
      sv.overlap (details.Converter_AABB_OBB_convert a.bv1 tf1)
        (sv.convertBVtoOBB a.root2.bv tf2) = true ∧
      request.enable_contact = true ∧ request.security_margin ≠ 0 ∧
      ∃ bv primitive_id p1 p2 p3, a.root2 = BVNode.leaf bv primitive_id p1 p2 p3 ∧
        (sv.shapeTriangleInteraction (sv.constructBox a.bv1 tf1).1
          (sv.constructBox a.bv1 tf1).2 p1 p2 p3 tf2).isSome = true := by
  unfold OcTreeSolver.visitOcTreeMeshIntersect at h
  split_ifs at h with c1 c2 c3 c4 c5 c6 c7 c8 c9
  · split at h
    · rename_i b primitive_id p1 p2 p3 heq
      obtain ⟨he, hm, hi⟩ :=
        (sv.meshIntersectLeaf_fail tree1 tree2 tf1 tf2 request a.bv1 a.root1 primitive_id
          p1 p2 p3 res).1 h
      have h1 : a.root1.isNull = false := by simpa using c1
      have h2 : a.root1.nodeHasChildren = false := by
        revert c3; cases a.root1.nodeHasChildren <;> simp
      have h3 : a.root2.isLeaf = true := by
        revert c3; cases a.root2.isLeaf <;> simp
      exact ⟨h1, h2, h3, c4, c5, he, hm, b, primitive_id, p1, p2, p3, heq, hi⟩
    · cases h

/-- C38: the assertion `security_margin == 0` of `OcTreeMeshIntersectRecurse`.
For every solver, octree, mesh and pair of transforms: an activation with
`enable_contact = true` on an occupied childless cell and a leaf of the
hierarchy whose OBBs overlap and for which `shapeTriangleInteraction` reports
an interaction reaches the assertion, so it returns when `security_margin = 0`
and stops the program otherwise; an activation stops nowhere else, that is, an
activation that stops is of that kind, with `enable_contact = true` and a margin
that is not zero; hence, for every request with `security_margin = 0` and for
every request with `enable_contact = false`, every call of
`OcTreeMeshIntersectRecurse` and every run of `OcTreeMeshIntersect` and of
`MeshOcTreeIntersect` returns. -/
theorem mesh_assertion_margin (sv : OcTreeSolver K Sh BV) (tree1 : OcTree K)
    (mesh : BVHModel K BV) (tf1 tf2 : Transform3f K) (result : CollisionResult K) :
    (∀ (request : CollisionRequest K) (a : OcTreeMeshPair K BV) (res : CollisionResult K)
        (bv : BV) (primitive_id : Int) (p1 p2 p3 : Vec3f K),
      a.root1.isNull = false → a.root1.nodeHasChildren = false →
      a.root2 = BVNode.leaf bv primitive_id p1 p2 p3 →
      tree1.isNodeOccupied a.root1 = true →
      sv.overlap (details.Converter_AABB_OBB_convert a.bv1 tf1)
        (sv.convertBVtoOBB bv tf2) = true →
      request.enable_contact = true →
      (sv.shapeTriangleInteraction (sv.constructBox a.bv1 tf1).1
        (sv.constructBox a.bv1 tf1).2 p1 p2 p3 tf2).isSome = true →
      ((request.security_margin = 0 ∧
          ∃ v r, sv.visitOcTreeMeshIntersect tree1 mesh tf1 tf2 request a res = Visit.ret v r) ∨
        (request.security_margin ≠ 0 ∧
          sv.visitOcTreeMeshIntersect tree1 mesh tf1 tf2 request a res = Visit.fail))) ∧
    (∀ (request1 : CollisionRequest K) (m : OcTreeMeshPair K BV) (res1 : CollisionResult K),
      sv.visitOcTreeMeshIntersect tree1 mesh tf1 tf2 request1 m res1 = Visit.fail →
        request1.enable_contact = true ∧ request1.security_margin ≠ 0 ∧
        m.root1.isNull = false ∧ m.root1.nodeHasChildren = false ∧ m.root2.isLeaf = true ∧
        tree1.isNodeOccupied m.root1 = true ∧
        sv.overlap (details.Converter_AABB_OBB_convert m.bv1 tf1)
          (sv.convertBVtoOBB m.root2.bv tf2) = true ∧
        ∃ bv primitive_id p1 p2 p3, m.root2 = BVNode.leaf bv primitive_id p1 p2 p3 ∧
          (sv.shapeTriangleInteraction (sv.constructBox m.bv1 tf1).1
            (sv.constructBox m.bv1 tf1).2 p1 p2 p3 tf2).isSome = true) ∧
    (∀ (request1 : CollisionRequest K) (m : OcTreeMeshPair K BV) (res1 : CollisionResult K)
        (extra : Nat),
      (request1.security_margin = 0 ∨ request1.enable_contact = false) →
        ∃ v r, sv.OcTreeMeshIntersectRecurse tree1 mesh tf1 tf2 request1
          (m.root1.height + m.root2.height + 1 + extra) m res1 = Outcome.ret v r) ∧
    (∀ request1 : CollisionRequest K,
      (request1.security_margin = 0 ∨ request1.enable_contact = false) →
        (∃ v r, sv.OcTreeMeshIntersect tree1 mesh tf1 tf2 request1 result = Outcome.ret v r) ∧
        (∃ v r, sv.MeshOcTreeIntersect mesh tree1 tf2 tf1 request1 result = Outcome.ret v r)) := by
  have hrun : ∀ (request1 : CollisionRequest K) (m : OcTreeMeshPair K BV)
      (res1 : CollisionResult K) (fuel : Nat),
      (request1.security_margin = 0 ∨ request1.enable_contact = false) →
      m.root1.height + m.root2.height < fuel →
      ∃ v r, traverse (sv.visitOcTreeMeshIntersect tree1 mesh tf1 tf2 request1) fuel m res1
        = Outcome.ret v r := by
    intro request1 m res1 fuel hreq hfuel
    rcases sv.meshIntersect_activation tree1 mesh tf1 tf2 request1 fuel m res1 hfuel with
      ⟨v, r, h, -⟩ | ⟨-, he, hm⟩
    · exact ⟨v, r, h⟩
    · rcases hreq with h0 | h0
      · exact absurd h0 hm
      · rw [h0] at he; cases he
  refine ⟨?_, ?_, ?_, ?_⟩
  · intro request a res bv primitive_id p1 p2 p3 hnn hleaf1 hleaf2 hocc hov hcontact hint
    have hvisit : sv.visitOcTreeMeshIntersect tree1 mesh tf1 tf2 request a res =
        sv.meshIntersectLeaf tree1 mesh tf1 tf2 request a.bv1 a.root1 primitive_id p1 p2 p3
          res := by
      simp [OcTreeSolver.visitOcTreeMeshIntersect, hnn, hleaf1, hleaf2, BVNode.isLeaf, hocc,
        BVNode.bv, hov]
    by_cases hm : request.security_margin = 0
    · left
      refine ⟨hm, ?_⟩
      rcases sv.meshIntersectLeaf_cases tree1 mesh tf1 tf2 request a.bv1 a.root1 primitive_id
        p1 p2 p3 res with ⟨v, s1, e, -⟩ | ⟨-, -, hne⟩
      · exact ⟨v, s1, by rw [hvisit, e]⟩
      · exact absurd hm hne
    · right
      refine ⟨hm, ?_⟩
      rw [hvisit]
      exact (sv.meshIntersectLeaf_fail tree1 mesh tf1 tf2 request a.bv1 a.root1 primitive_id
        p1 p2 p3 res).2 ⟨hcontact, hm, hint⟩
  · intro request1 m res1 h
    obtain ⟨c1, c2, c3, c4, c5, c6, c7, c8⟩ :=
      sv.visitOcTreeMeshIntersect_fail tree1 mesh tf1 tf2 request1 m res1 h
    exact ⟨c6, c7, c1, c2, c3, c4, c5, c8⟩
  · intro request1 m res1 extra hreq
    exact hrun request1 m res1 _ hreq (by omega)
  · intro request1 hreq
    exact ⟨hrun request1 _ result _ hreq (Nat.lt_succ_self _),
      hrun request1 _ result _ hreq (Nat.lt_succ_self _)⟩

end MeshAssertion

/-! ## Distance between two octrees -/

section PairDistance

variable {K Sh BV : Type} [LinearOrderedField K]

/-- The loop of a traversal that keeps a minimum: when every call leaves the
minimum of the value at entry and the values `D` of the call, and a call is
skipped only when the value at that point is below the values of the call, the
loop leaves the minimum over all the calls. -/
theorem traverseLoop_minimum {A S : Type} (md : S → K) (recurse : A → S → Outcome S)
    (D : A → List K) :
    ∀ (calls : List (A × (S → Bool))),
      (∀ c ∈ calls, ∀ s, ∃ r, recurse c.1 s = Outcome.ret false r ∧
        md r = (D c.1).foldl min (md s)) →
      (∀ c ∈ calls, ∀ s, c.2 s = false → ∀ d ∈ D c.1, md s ≤ d) →
      ∀ s, ∃ r, traverseLoop recurse calls s = Outcome.ret false r ∧
        md r = (calls.flatMap (fun c => D c.1)).foldl min (md s) := by
  intro calls
  induction calls with
  | nil => intro _ _ s; exact ⟨s, rfl, rfl⟩
  | cons c cs ih =>
    intro hchild hskip s
    have ih1 := ih (fun c1 h1 => hchild c1 (List.mem_cons_of_mem _ h1))
      (fun c1 h1 => hskip c1 (List.mem_cons_of_mem _ h1))
    cases hg : c.2 s
    · obtain ⟨r, h, e⟩ := ih1 s
      refine ⟨r, ?_, ?_⟩
      · simp only [traverseLoop, hg, Bool.false_eq_true, if_false]
        exact h
      · rw [e, List.flatMap_cons, List.foldl_append,
          foldl_min_of_le (D c.1) (md s) (hskip c (List.mem_cons_self _ _) s hg)]
    · obtain ⟨r1, h1, e1⟩ := hchild c (List.mem_cons_self _ _) s
      obtain ⟨r, h, e⟩ := ih1 r1
      refine ⟨r, ?_, ?_⟩
      · simp only [traverseLoop, hg, if_true, h1]
        exact h
      · rw [e, e1, List.flatMap_cons, List.foldl_append]

theorem OcTreeSolver.descendPairs_mem (sv : OcTreeSolver K Sh BV) (a c : OcTreePair K)
    (h1 : a.root1.isNull = false) (h2 : a.root2.isNull = false) (hc : c ∈ sv.descendPairs a) :
    c.root1.isNull = false ∧ c.root2.isNull = false ∧
      c.root1.height + c.root2.height < a.root1.height + a.root2.height ∧
      ((∃ i, (a.root1.getNodeChild i).isNull = false ∧
          c = ⟨a.root1.getNodeChild i, sv.computeChildBV a.bv1 i, a.root2, a.bv2⟩) ∨
        (∃ i, (a.root2.getNodeChild i).isNull = false ∧
          c = ⟨a.root1, a.bv1, a.root2.getNodeChild i, sv.computeChildBV a.bv2 i⟩)) := by
  unfold OcTreeSolver.descendPairs at hc
  split_ifs at hc
  · simp only [List.mem_map, List.mem_filter] at hc
    obtain ⟨i, ⟨-, hi⟩, rfl⟩ := hc
    have hne : (a.root1.getNodeChild i).isNull = false := by
      simpa [OcTreeNode.nodeChildExists] using hi
    have hlt := OcTreeNode.height_getNodeChild_lt h1 i
    exact ⟨hne, h2, by simp only; omega, Or.inl ⟨i, hne, rfl⟩⟩
  · simp only [List.mem_map, List.mem_filter] at hc
    obtain ⟨i, ⟨-, hi⟩, rfl⟩ := hc
    have hne : (a.root2.getNodeChild i).isNull = false := by
      simpa [OcTreeNode.nodeChildExists] using hi
    have hlt := OcTreeNode.height_getNodeChild_lt h2 i
    exact ⟨h1, hne, by simp only; omega, Or.inr ⟨i, hne, rfl⟩⟩

theorem OcTreeSolver.pairDistances_descend (sv : OcTreeSolver K Sh BV) (tree1 tree2 : OcTree K)
    (tf1 tf2 : Transform3f K) (fuel : Nat) (a : OcTreePair K)
    (e1 : (!a.root1.nodeHasChildren && !a.root2.nodeHasChildren) = false)
    (e2 : (!tree1.isNodeOccupied a.root1 || !tree2.isNodeOccupied a.root2) = false) :
    sv.pairDistances tree1 tree2 tf1 tf2 (fuel + 1) a =
      (sv.descendPairs a).flatMap (fun c => sv.pairDistances tree1 tree2 tf1 tf2 fuel c) := by
  simp only [OcTreeSolver.pairDistances, e1, e2, Bool.false_eq_true, if_false]

/-- Every activation of a traversal that has the shape of `OcTreeDistanceRecurse`
on a pair of cells, with a guard `guard a c` on the call for the pair `c` made
from the pair `a`, returns `false` with the minimum of the distance at entry
and the distances of the pairs of occupied childless cells below the pair, when
the request is never satisfied and a call is skipped only when the minimum at
that point is below the distances of the call. -/
theorem OcTreeSolver.pairDistance_activation (sv : OcTreeSolver K Sh BV) (tree1 tree2 : OcTree K)
    (tf1 tf2 : Transform3f K) (request : DistanceRequest K)
    (visit : OcTreePair K → DistanceResult K → Visit (OcTreePair K) (DistanceResult K))
    (guard : OcTreePair K → OcTreePair K → DistanceResult K → Bool)
    (H : OcTreePair K → Prop)
    (hsat : ∀ r, sv.distanceSatisfied request r = false)
    (hvisit : ∀ a res, a.root1.isNull = false → a.root2.isNull = false →
      visit a res =
        if !a.root1.nodeHasChildren && !a.root2.nodeHasChildren then
          if tree1.isNodeOccupied a.root1 && tree2.isNodeOccupied a.root2 then
            Visit.ret
              (sv.distanceSatisfied request (sv.distanceLeafPair tree1 tree2 tf1 tf2 a res))
              (sv.distanceLeafPair tree1 tree2 tf1 tf2 a res)
          else Visit.ret false res
        else if !tree1.isNodeOccupied a.root1 || !tree2.isNodeOccupied a.root2 then
          Visit.ret false res
        else Visit.recurse ((sv.descendPairs a).map (fun c => (c, guard a c))))
    (hchild : ∀ a c, a.root1.isNull = false → a.root2.isNull = false → H a →
      c ∈ sv.descendPairs a → H c)
    (hskip : ∀ a c fuel res, a.root1.isNull = false → a.root2.isNull = false → H a →
      (!a.root1.nodeHasChildren && !a.root2.nodeHasChildren) = false →
      (!tree1.isNodeOccupied a.root1 || !tree2.isNodeOccupied a.root2) = false →
      c ∈ sv.descendPairs a → guard a c res = false →
      ∀ d ∈ sv.pairDistances tree1 tree2 tf1 tf2 fuel c, res.min_distance ≤ d) :
    ∀ (fuel : Nat) (a : OcTreePair K) (res : DistanceResult K),
      a.root1.isNull = false → a.root2.isNull = false → H a →
      a.root1.height + a.root2.height < fuel →
      ∃ r, traverse visit fuel a res = Outcome.ret false r ∧
        r.min_distance =
          (sv.pairDistances tree1 tree2 tf1 tf2 fuel a).foldl min res.min_distance := by
  intro fuel
  induction fuel with
  | zero => intro a res _ _ _ h; exact absurd h (Nat.not_lt_zero _)
  | succ fuel ih =>
    intro a res h1 h2 hH hfuel
    cases e1 : (!a.root1.nodeHasChildren && !a.root2.nodeHasChildren)
    · cases e2 : (!tree1.isNodeOccupied a.root1 || !tree2.isNodeOccupied a.root2)
      · obtain ⟨r, h, e⟩ := traverseLoop_minimum DistanceResult.min_distance
          (traverse visit fuel) (sv.pairDistances tree1 tree2 tf1 tf2 fuel)
          ((sv.descendPairs a).map (fun c => (c, guard a c)))
          (fun c hc s => by
            obtain ⟨c0, hc0, rfl⟩ := List.mem_map.1 hc
            obtain ⟨n1, n2, hlt, -⟩ := sv.descendPairs_mem a c0 h1 h2 hc0
            exact ih c0 s n1 n2 (hchild a c0 h1 h2 hH hc0) (by omega))
          (fun c hc s hg => by
            obtain ⟨c0, hc0, rfl⟩ := List.mem_map.1 hc
            exact hskip a c0 fuel s h1 h2 hH e1 e2 hc0 hg)
          res
        refine ⟨r, ?_, ?_⟩
        · simp only [traverse, hvisit a res h1 h2, e1, e2, Bool.false_eq_true, if_false]
          exact h
        · rw [e, sv.pairDistances_descend tree1 tree2 tf1 tf2 fuel a e1 e2, List.flatMap_map]
      · refine ⟨res, ?_, ?_⟩
        · simp only [traverse, hvisit a res h1 h2, e1, e2, Bool.false_eq_true, if_false,
            if_true]
        · simp only [OcTreeSolver.pairDistances, e1, e2, Bool.false_eq_true, if_false,
            if_true, List.foldl_nil]
    · cases e3 : (tree1.isNodeOccupied a.root1 && tree2.isNodeOccupied a.root2)
      · refine ⟨res, ?_, ?_⟩
        · simp only [traverse, hvisit a res h1 h2, e1, e3, Bool.false_eq_true, if_false,
            if_true]
        · simp only [OcTreeSolver.pairDistances, e1, e3, Bool.false_eq_true, if_false,
            if_true, List.foldl_nil]
      · refine ⟨sv.distanceLeafPair tree1 tree2 tf1 tf2 a res, ?_, ?_⟩
        · simp only [traverse, hvisit a res h1 h2, e1, e3, if_true, hsat]
        · simp only [OcTreeSolver.pairDistances, e1, e3, if_true, List.foldl_cons,
            List.foldl_nil, OcTreeSolver.distanceLeafPair]
          exact DistanceResult.update_min_distance _ _ _ _ _ _ _ _ _

end PairDistance

section PairDistanceVariants

variable {K Sh BV : Type} [LinearOrderedField K]

theorem OcTreeSolver.visitOcTreeDistance_eq (sv : OcTreeSolver K Sh BV) (tree1 tree2 : OcTree K)
    (tf1 tf2 : Transform3f K) (request : DistanceRequest K) (a : OcTreePair K)
    (res : DistanceResult K) (h1 : a.root1.isNull = false) (h2 : a.root2.isNull = false) :
    sv.visitOcTreeDistance tree1 tree2 tf1 tf2 request a res =
      if !a.root1.nodeHasChildren && !a.root2.nodeHasChildren then
        if tree1.isNodeOccupied a.root1 && tree2.isNodeOccupied a.root2 then
          Visit.ret
            (sv.distanceSatisfied request (sv.distanceLeafPair tree1 tree2 tf1 tf2 a res))
            (sv.distanceLeafPair tree1 tree2 tf1 tf2 a res)
        else Visit.ret false res
      else if !tree1.isNodeOccupied a.root1 || !tree2.isNodeOccupied a.root2 then
        Visit.ret false res
      else Visit.recurse ((sv.descendPairs a).map (fun c =>
        (c, fun r : DistanceResult K => decide (sv.aabbDistance
          (details.Converter_AABB_AABB_convert sv.sqrt a.bv1 tf1)
          (details.Converter_AABB_AABB_convert sv.sqrt a.bv2 tf2) < r.min_distance)))) := by
  unfold OcTreeSolver.visitOcTreeDistance OcTreeSolver.descendPairs
  rw [sv.descendFirstDistance_eq, sv.descendSecondDistance_eq]
  simp only [h1, h2, Bool.and_false, Bool.false_eq_true, if_false]
  cases e1 : a.root1.nodeHasChildren <;> cases e2 : a.root2.nodeHasChildren <;>
    cases e3 : tree1.isNodeOccupied a.root1 <;> cases e4 : tree2.isNodeOccupied a.root2 <;>
    simp [List.map_map, Function.comp]
  split_ifs <;> simp [List.map_map, Function.comp]

theorem OcTreeSolver.descendFirstDistanceChildBV_eq (sv : OcTreeSolver K Sh BV)
    (tf1 tf2 : Transform3f K) (a : OcTreePair K) :
    sv.descendFirstDistanceChildBV tf1 tf2 a =
      ((List.range 8).filter (fun i => a.root1.nodeChildExists i)).map
        (fun i => ((⟨a.root1.getNodeChild i, sv.computeChildBV a.bv1 i, a.root2, a.bv2⟩ :
          OcTreePair K), fun r : DistanceResult K => decide (sv.aabbDistance
            (details.Converter_AABB_AABB_convert sv.sqrt (sv.computeChildBV a.bv1 i) tf1)
            (details.Converter_AABB_AABB_convert sv.sqrt a.bv2 tf2) < r.min_distance))) := by
  unfold OcTreeSolver.descendFirstDistanceChildBV
  generalize List.range 8 = l
  induction l with
  | nil => rfl
  | cons i is ih =>
    by_cases h : a.root1.nodeChildExists i = true
    · simp [List.filterMap_cons, List.filter_cons, h, ih]
    · simp [List.filterMap_cons, List.filter_cons, h, ih]

theorem OcTreeSolver.descendSecondDistanceChildBV_eq (sv : OcTreeSolver K Sh BV)
    (tf1 tf2 : Transform3f K) (a : OcTreePair K) :
    sv.descendSecondDistanceChildBV tf1 tf2 a =
      ((List.range 8).filter (fun i => a.root2.nodeChildExists i)).map
        (fun i => ((⟨a.root1, a.bv1, a.root2.getNodeChild i, sv.computeChildBV a.bv2 i⟩ :
          OcTreePair K), fun r : DistanceResult K => decide (sv.aabbDistance
            (details.Converter_AABB_AABB_convert sv.sqrt a.bv1 tf1)
            (details.Converter_AABB_AABB_convert sv.sqrt (sv.computeChildBV a.bv2 i) tf2)
              < r.min_distance))) := by
  unfold OcTreeSolver.descendSecondDistanceChildBV
  generalize List.range 8 = l
  induction l with
  | nil => rfl
  | cons i is ih =>
    by_cases h : a.root2.nodeChildExists i = true
    · simp [List.filterMap_cons, List.filter_cons, h, ih]
    · simp [List.filterMap_cons, List.filter_cons, h, ih]

theorem OcTreeSolver.visitOcTreeDistanceChildBV_eq (sv : OcTreeSolver K Sh BV)
    (tree1 tree2 : OcTree K) (tf1 tf2 : Transform3f K) (request : DistanceRequest K)
    (a : OcTreePair K) (res : DistanceResult K) (h1 : a.root1.isNull = false)
    (h2 : a.root2.isNull = false) :
    sv.visitOcTreeDistanceChildBV tree1 tree2 tf1 tf2 request a res =
      if !a.root1.nodeHasChildren && !a.root2.nodeHasChildren then
        if tree1.isNodeOccupied a.root1 && tree2.isNodeOccupied a.root2 then
          Visit.ret
            (sv.distanceSatisfied request (sv.distanceLeafPair tree1 tree2 tf1 tf2 a res))
            (sv.distanceLeafPair tree1 tree2 tf1 tf2 a res)
        else Visit.ret false res
      else if !tree1.isNodeOccupied a.root1 || !tree2.isNodeOccupied a.root2 then
        Visit.ret false res
      else Visit.recurse ((sv.descendPairs a).map (fun c =>
        (c, fun r : DistanceResult K => decide (sv.aabbDistance
          (details.Converter_AABB_AABB_convert sv.sqrt c.bv1 tf1)
          (details.Converter_AABB_AABB_convert sv.sqrt c.bv2 tf2) < r.min_distance)))) := by
  unfold OcTreeSolver.visitOcTreeDistanceChildBV OcTreeSolver.descendPairs
  rw [sv.descendFirstDistanceChildBV_eq, sv.descendSecondDistanceChildBV_eq]
  simp only [h1, h2, Bool.and_false, Bool.false_eq_true, if_false]
  cases e1 : a.root1.nodeHasChildren <;> cases e2 : a.root2.nodeHasChildren <;>
    cases e3 : tree1.isNodeOccupied a.root1 <;> cases e4 : tree2.isNodeOccupied a.root2 <;>
    simp [List.map_map, Function.comp]
  split_ifs <;> simp [List.map_map, Function.comp]

/-- The lower bounds on the cells below a pair of cells hold below every pair
the traversal descends to. -/
theorem OcTreeSolver.lowerBounds_descend (sv : OcTreeSolver K Sh BV) (tree1 tree2 : OcTree K)
    (tf1 tf2 : Transform3f K) (a c : OcTreePair K) (h1 : a.root1.isNull = false)
    (h2 : a.root2.isNull = false)
    (hlb : ∀ c1 ∈ sv.cells a.root1 a.bv1, ∀ c2 ∈ sv.cells a.root2 a.bv2, ∀ fuel,
      ∀ d ∈ sv.pairDistances tree1 tree2 tf1 tf2 fuel ⟨c1.root1, c1.bv1, c2.root1, c2.bv1⟩,
        sv.aabbDistance (details.Converter_AABB_AABB_convert sv.sqrt c1.bv1 tf1)
          (details.Converter_AABB_AABB_convert sv.sqrt c2.bv1 tf2) ≤ d)
    (hc : c ∈ sv.descendPairs a) :
    ∀ c1 ∈ sv.cells c.root1 c.bv1, ∀ c2 ∈ sv.cells c.root2 c.bv2, ∀ fuel,
      ∀ d ∈ sv.pairDistances tree1 tree2 tf1 tf2 fuel ⟨c1.root1, c1.bv1, c2.root1, c2.bv1⟩,
        sv.aabbDistance (details.Converter_AABB_AABB_convert sv.sqrt c1.bv1 tf1)
          (details.Converter_AABB_AABB_convert sv.sqrt c2.bv1 tf2) ≤ d := by
  obtain ⟨-, -, -, ⟨i, -, rfl⟩ | ⟨i, -, rfl⟩⟩ := sv.descendPairs_mem a c h1 h2 hc
  · intro c1 hc1 c2 hc2
    exact hlb c1 (sv.cells_child a.root1 a.bv1 i c1 hc1) c2 hc2
  · intro c1 hc1 c2 hc2
    exact hlb c1 hc1 c2 (sv.cells_child a.root2 a.bv2 i c2 hc2)

/-- C39: parent-level and child-level pruning in `OcTreeDistanceRecurse`. The
bound `d` tested before a recursive call of `OcTreeDistanceRecurse` is the AABB
distance between the converted cells `bv1` and `bv2` of the activation, in both
loops, whereas the bound of `OcTreeShapeDistanceRecurse` and of
`OcTreeMeshDistanceRecurse` is computed from the cells of the call. For two
octrees with root cells, a request that is never satisfied early and, for every
pair of cells of the two trees, the AABB distance between the two converted
cells a lower bound of the solver distances of the pairs of occupied childless
cells that the descent reaches below the pair (within any recursion budget):
`OcTreeDistance` and the variant that computes `d` from `child_bv` both return
`false`, with the same final `min_distance`, the minimum of the initial
`min_distance` and the solver distances of the pairs of occupied childless
cells reached from the two roots (`DistanceResult::update` keeps the
minimum). -/
theorem distance_pruning_level (sv : OcTreeSolver K Sh BV)
    (convertBV : BV → Transform3f K → AABB K) (tree1 tree2 : OcTree K)
    (tf1 tf2 : Transform3f K) (request : DistanceRequest K) (result : DistanceResult K)
    (hroot1 : tree1.root.isNull = false) (hroot2 : tree2.root.isNull = false)
    (hsat : ∀ r, sv.distanceSatisfied request r = false)
    (hlb : ∀ c1 ∈ sv.cells tree1.root tree1.rootBV, ∀ c2 ∈ sv.cells tree2.root tree2.rootBV,
      ∀ fuel,
      ∀ d ∈ sv.pairDistances tree1 tree2 tf1 tf2 fuel ⟨c1.root1, c1.bv1, c2.root1, c2.bv1⟩,
        sv.aabbDistance (details.Converter_AABB_AABB_convert sv.sqrt c1.bv1 tf1)
          (details.Converter_AABB_AABB_convert sv.sqrt c2.bv1 tf2) ≤ d) :
    (∀ a : OcTreePair K,
      ∀ x ∈ sv.descendFirstDistance tf1 tf2 a ++ sv.descendSecondDistance tf1 tf2 a,
        x.2 = fun r => decide (sv.aabbDistance
          (details.Converter_AABB_AABB_convert sv.sqrt a.bv1 tf1)
          (details.Converter_AABB_AABB_convert sv.sqrt a.bv2 tf2) < r.min_distance)) ∧
    (∀ (aabb2 : AABB K) (c : OcTreeCell K), ∀ x ∈ sv.descendCellDistance aabb2 tf1 c,
      x.2 = fun r => decide (sv.aabbDistance
        (details.Converter_AABB_AABB_convert sv.sqrt x.1.bv1 tf1) aabb2 < r.min_distance)) ∧
    (∀ m : OcTreeMeshPair K BV,
      ∀ x ∈ sv.descendMeshFirstDistance convertBV tf1 tf2 m ++
          sv.descendMeshSecondDistance convertBV tf1 tf2 m,
        x.2 = fun r => decide (sv.aabbDistance
          (details.Converter_AABB_AABB_convert sv.sqrt x.1.bv1 tf1)
          (convertBV x.1.root2.bv tf2) < r.min_distance)) ∧
    ∃ r r1, sv.OcTreeDistance tree1 tree2 tf1 tf2 request result = Outcome.ret false r ∧
      sv.OcTreeDistanceChildBV tree1 tree2 tf1 tf2 request result = Outcome.ret false r1 ∧
      r.min_distance = r1.min_distance ∧
      r.min_distance =
        (sv.pairDistances tree1 tree2 tf1 tf2 (tree1.root.height + tree2.root.height + 1)
          ⟨tree1.root, tree1.rootBV, tree2.root, tree2.rootBV⟩).foldl min
            result.min_distance := by
  refine ⟨?_, ?_, ?_, ?_⟩
  · intro a x hx
    rw [sv.descendFirstDistance_eq, sv.descendSecondDistance_eq] at hx
    simp only [List.mem_append, List.mem_map] at hx
    rcases hx with ⟨i, -, rfl⟩ | ⟨i, -, rfl⟩ <;> rfl
  · intro aabb2 c x hx
    simp only [OcTreeSolver.descendCellDistance, List.mem_filterMap] at hx
    obtain ⟨i, -, h⟩ := hx
    split_ifs at h
    cases h
    rfl
  · intro m x hx
    simp only [List.mem_append] at hx
    rcases hx with hx | hx
    · simp only [OcTreeSolver.descendMeshFirstDistance, List.mem_filterMap] at hx
      obtain ⟨i, -, h⟩ := hx
      split_ifs at h
      cases h
      rfl
    · unfold OcTreeSolver.descendMeshSecondDistance at hx
      split at hx
      · cases hx
      · simp only [List.mem_cons, List.mem_singleton, List.not_mem_nil, or_false] at hx
        rcases hx with rfl | rfl <;> rfl
  · obtain ⟨r, h, e⟩ := sv.pairDistance_activation tree1 tree2 tf1 tf2 request
      (sv.visitOcTreeDistance tree1 tree2 tf1 tf2 request)
      (fun a _ r => decide (sv.aabbDistance
        (details.Converter_AABB_AABB_convert sv.sqrt a.bv1 tf1)
        (details.Converter_AABB_AABB_convert sv.sqrt a.bv2 tf2) < r.min_distance))
      (fun a => ∀ c1 ∈ sv.cells a.root1 a.bv1, ∀ c2 ∈ sv.cells a.root2 a.bv2, ∀ fuel,
        ∀ d ∈ sv.pairDistances tree1 tree2 tf1 tf2 fuel ⟨c1.root1, c1.bv1, c2.root1, c2.bv1⟩,
          sv.aabbDistance (details.Converter_AABB_AABB_convert sv.sqrt c1.bv1 tf1)
            (details.Converter_AABB_AABB_convert sv.sqrt c2.bv1 tf2) ≤ d)
      hsat
      (fun a res h1 h2 => sv.visitOcTreeDistance_eq tree1 tree2 tf1 tf2 request a res h1 h2)
      (fun a c h1 h2 hH hc => sv.lowerBounds_descend tree1 tree2 tf1 tf2 a c h1 h2 hH hc)
      (fun a c fuel res h1 h2 hH e1 e2 hc hg d hd => by
        have hle : sv.aabbDistance (details.Converter_AABB_AABB_convert sv.sqrt a.bv1 tf1)
            (details.Converter_AABB_AABB_convert sv.sqrt a.bv2 tf2) ≤ d := by
          refine hH ⟨a.root1, a.bv1⟩ (sv.cells_self _ _ h1) ⟨a.root2, a.bv2⟩
            (sv.cells_self _ _ h2) (fuel + 1) d ?_
          show d ∈ sv.pairDistances tree1 tree2 tf1 tf2 (fuel + 1) a
          rw [sv.pairDistances_descend tree1 tree2 tf1 tf2 fuel a e1 e2]
          exact List.mem_flatMap.2 ⟨c, hc, hd⟩
        have hge : res.min_distance ≤ sv.aabbDistance
            (details.Converter_AABB_AABB_convert sv.sqrt a.bv1 tf1)
            (details.Converter_AABB_AABB_convert sv.sqrt a.bv2 tf2) := by
          simpa using hg
        exact le_trans hge hle)
      (tree1.root.height + tree2.root.height + 1)
      ⟨tree1.root, tree1.rootBV, tree2.root, tree2.rootBV⟩ result hroot1 hroot2 hlb
      (Nat.lt_succ_self _)
    obtain ⟨r1, h1, e1⟩ := sv.pairDistance_activation tree1 tree2 tf1 tf2 request
      (sv.visitOcTreeDistanceChildBV tree1 tree2 tf1 tf2 request)
      (fun _ c r => decide (sv.aabbDistance
        (details.Converter_AABB_AABB_convert sv.sqrt c.bv1 tf1)
        (details.Converter_AABB_AABB_convert sv.sqrt c.bv2 tf2) < r.min_distance))
      (fun a => ∀ c1 ∈ sv.cells a.root1 a.bv1, ∀ c2 ∈ sv.cells a.root2 a.bv2, ∀ fuel,
        ∀ d ∈ sv.pairDistances tree1 tree2 tf1 tf2 fuel ⟨c1.root1, c1.bv1, c2.root1, c2.bv1⟩,
          sv.aabbDistance (details.Converter_AABB_AABB_convert sv.sqrt c1.bv1 tf1)
            (details.Converter_AABB_AABB_convert sv.sqrt c2.bv1 tf2) ≤ d)
      hsat
      (fun a res h1 h2 =>
        sv.visitOcTreeDistanceChildBV_eq tree1 tree2 tf1 tf2 request a res h1 h2)
      (fun a c h1 h2 hH hc => sv.lowerBounds_descend tree1 tree2 tf1 tf2 a c h1 h2 hH hc)
      (fun a c fuel res h1 h2 hH _ _ hc hg d hd => by
        obtain ⟨n1, n2, -, -⟩ := sv.descendPairs_mem a c h1 h2 hc
        have hHc := sv.lowerBounds_descend tree1 tree2 tf1 tf2 a c h1 h2 hH hc
        have hle : sv.aabbDistance (details.Converter_AABB_AABB_convert sv.sqrt c.bv1 tf1)
            (details.Converter_AABB_AABB_convert sv.sqrt c.bv2 tf2) ≤ d :=
          hHc ⟨c.root1, c.bv1⟩ (sv.cells_self _ _ n1) ⟨c.root2, c.bv2⟩
            (sv.cells_self _ _ n2) fuel d hd
        have hge : res.min_distance ≤ sv.aabbDistance
            (details.Converter_AABB_AABB_convert sv.sqrt c.bv1 tf1)
            (details.Converter_AABB_AABB_convert sv.sqrt c.bv2 tf2) := by
          simpa using hg
        exact le_trans hge hle)
      (tree1.root.height + tree2.root.height + 1)
      ⟨tree1.root, tree1.rootBV, tree2.root, tree2.rootBV⟩ result hroot1 hroot2 hlb
      (Nat.lt_succ_self _)
    exact ⟨r, r1, h, h1, by rw [e, e1], e⟩

end PairDistanceVariants

/-! ## Faces of a convex polytope -/

section FaceReads

theorem forLoop_eq_foldl {σ : Type} (body : Nat → σ → Option σ) (g : Nat → σ → σ) :
    ∀ (k start : Nat) (s : σ),
      (∀ j, start ≤ j → j < start + k → ∀ s, body j s = some (g j s)) →
      forLoop body k start s = some ((List.range' start k).foldl (fun s j => g j s) s) := by
  intro k
  induction k with
  | zero => intro start s _; rfl
  | succ k ih =>
    intro start s h
    simp only [forLoop, h start (le_refl _) (by omega) s, Option.some_bind, List.range'_succ,
      List.foldl_cons]
    exact ih (start + 1) _ (fun j h1 h2 => h j (by omega) (by omega))

theorem map_range_getD (f : List Int) : (List.range f.length).map (fun j => f.getD j 0) = f := by
  apply List.ext_getElem
  · simp
  · intro j h1 h2
    simp [List.getElem?_eq_getElem h2]

theorem getD_mem (f : List Int) (j : Nat) (hj : j < f.length) : f.getD j 0 ∈ f := by
  rw [List.getD_eq_getElem _ _ hj]
  exact List.getElem_mem hj

theorem readAt_face_size (pre f post : List Int) :
    readAt (pre ++ ((f.length : Int) :: f) ++ post) (pre.length : Int) = some (f.length : Int) := by
  rw [readAt_natCast, List.append_assoc, List.getElem?_append_right (le_refl _)]
  simp

theorem readAt_face_index (pre f post : List Int) (n : Int) (j : Nat) (hj : j < f.length) :
    readAt (pre ++ (n :: f) ++ post) ((pre.length : Int) + 1 + j) = some (f.getD j 0) := by
  have e : (pre.length : Int) + 1 + j = ((pre.length + (j + 1) : Nat) : Int) := by
    push_cast
    ring
  rw [e, readAt_natCast, List.getD_eq_getElem _ _ hj, List.append_assoc,
    List.getElem?_append_right (by omega)]
  simp [List.getElem?_append_left hj, List.getElem?_eq_getElem hj]

theorem encodeFaces_split (pre : List (List Int)) (f : List Int) (post : List (List Int)) :
    encodeFaces (pre ++ f :: post) =
      encodeFaces pre ++ ((f.length : Int) :: f) ++ encodeFaces post := by
  simp [encodeFaces, List.flatMap_append]

theorem encodeFaces_length_snoc (pre : List (List Int)) (f : List Int) :
    ((encodeFaces (pre ++ [f])).length : Int) =
      ((encodeFaces pre).length : Int) + ((f.length : Int) + 1) := by
  simp [encodeFaces, List.flatMap_append]

/-- The outer loop over the faces: when the body, entered at the offset of a
face of the buffer, leaves the offset of the next face and the state `step f`
of that face, the loop over all the faces leaves the fold of `step` over the
faces in their order. -/
theorem forLoop_faces {σ : Type} (face : Int × σ → Option (Int × σ)) (step : List Int → σ → σ)
    (all : List (List Int))
    (hface : ∀ pre f post, all = pre ++ f :: post → ∀ acc,
      face (((encodeFaces pre).length : Int), acc) =
        some (((encodeFaces pre).length : Int) + ((f.length : Int) + 1), step f acc)) :
    ∀ (faces pre : List (List Int)) (start : Nat) (acc : σ), all = pre ++ faces →
      ∃ p, forLoop (fun _ st => face st) faces.length start (((encodeFaces pre).length : Int), acc)
        = some (p, faces.foldl (fun acc f => step f acc) acc) := by
  intro faces
  induction faces with
  | nil => intro pre start acc _; exact ⟨_, rfl⟩
  | cons f fs ih =>
    intro pre start acc h
    have h1 : all = (pre ++ [f]) ++ fs := by rw [h]; simp
    obtain ⟨p, hp⟩ := ih (pre ++ [f]) (start + 1) (step f acc) h1
    refine ⟨p, ?_⟩
    simp only [List.length_cons, forLoop, hface pre f fs h acc, Option.some_bind,
      List.foldl_cons]
    rw [← encodeFaces_length_snoc]
    exact hp

end FaceReads

section ConvexFaces

variable {K : Type} [LinearOrderedField K]

theorem readAt_pointAt (points : List (Vec3f K)) (i : Int) (h0 : 0 ≤ i)
    (h1 : i < (points.length : Int)) : readAt points i = some (pointAt points i) := by
  have h : i.toNat < points.length := by omega
  simp [pointAt, readAt, h0, List.getElem?_eq_getElem h]

theorem Convex.planeCenter_face (c : Convex K) (pos : Int) (f : List Int)
    (hread : ∀ j, j < f.length → readAt c.polygons (pos + 1 + j) = some (f.getD j 0))
    (hpt : ∀ i ∈ f, readAt c.points i = some (pointAt c.points i)) :
    c.planeCenter pos (f.length : Int) = some (faceCenter c.points f) := by
  unfold Convex.planeCenter
  rw [forLoop_eq_foldl _ (fun j s => Vec3f.add s (pointAt c.points (f.getD j 0)))]
  · have e : (List.range' 0 (f.length : Int).toNat).foldl
        (fun s j => Vec3f.add s (pointAt c.points (f.getD j 0))) ⟨0, 0, 0⟩ =
        (f.map (pointAt c.points)).foldl Vec3f.add ⟨0, 0, 0⟩ := by
      conv_rhs => rw [← map_range_getD f]
      rw [List.map_map, List.foldl_map, Int.toNat_ofNat, List.range_eq_range']
      rfl
    simp only [Option.map_some', e, faceCenter, Int.cast_natCast]
  · intro j _ hj s
    have hj1 : j < f.length := by simpa using hj
    simp only [hread j hj1, Option.some_bind, hpt _ (getD_mem f j hj1), Option.map_some']

theorem Convex.edgePoints_face (c : Convex K) (pos : Int) (f : List Int)
    (hread : ∀ j, j < f.length → readAt c.polygons (pos + 1 + j) = some (f.getD j 0))
    (hpt : ∀ i ∈ f, readAt c.points i = some (pointAt c.points i)) (j : Nat)
    (hj : j < f.length) :
    c.edgePoints pos (f.length : Int) j =
      some (pointAt c.points (f.getD j 0), pointAt c.points (f.getD ((j + 1) % f.length) 0)) := by
  have hm : (j + 1) % f.length < f.length := Nat.mod_lt _ (by omega)
  have e : ((j : Int) + 1) % (f.length : Int) = (((j + 1) % f.length : Nat) : Int) := by
    rw [Int.natCast_mod]
    simp
  simp only [Convex.edgePoints, e, hread j hj, hread _ hm, Option.some_bind,
    hpt _ (getD_mem f j hj), hpt _ (getD_mem f _ hm), Option.map_some']

/-- One pass of the outer loop of the three functions over a face stored at the
offset `pos` of the buffer: the reads succeed, every edge of the face is used
once, in order, and the offset advances to the next face. -/
theorem Convex.face_pass {σ : Type} (c : Convex K) (pos : Int) (f : List Int)
    (g : Vec3f K → Vec3f K × Vec3f K → σ → σ) (acc : σ)
    (hn : readAt c.polygons pos = some (f.length : Int))
    (hread : ∀ j, j < f.length → readAt c.polygons (pos + 1 + j) = some (f.getD j 0))
    (hpt : ∀ i ∈ f, readAt c.points i = some (pointAt c.points i)) :
    (readAt c.polygons pos).bind (fun n =>
      (c.planeCenter pos n).bind (fun v3 =>
        (forLoop (fun j acc => (c.edgePoints pos n j).map (fun e => g v3 e acc))
          n.toNat 0 acc).map (fun acc => (pos + (n + 1), acc)))) =
      some (pos + ((f.length : Int) + 1),
        (faceEdges c.points f).foldl (fun acc e => g (faceCenter c.points f) e acc) acc) := by
  rw [hn, Option.some_bind, c.planeCenter_face pos f hread hpt, Option.some_bind,
    forLoop_eq_foldl _ (fun j acc => g (faceCenter c.points f)
      (pointAt c.points (f.getD j 0), pointAt c.points (f.getD ((j + 1) % f.length) 0)) acc)]
  · simp only [Option.map_some', faceEdges, List.foldl_map, Int.toNat_ofNat,
      List.range_eq_range']
  · intro j _ hj s
    have hj1 : j < f.length := by simpa using hj
    simp only [c.edgePoints_face pos f hread hpt j hj1, Option.map_some']

/-- C34: the iteration over the faces of the run-length encoded buffer
`polygons` is in bounds. For a `Convex` with `num_polygons = k` faces whose
buffer is the encoding `n, i_0, ..., i_{n-1}` of the faces one after the other
(so of length `sum (n_i + 1)`), whose point array has `num_points` entries and
whose indices all lie in `[0, num_points)`, none of the reads of `polygons` and
`points` in `computeVolume`, `computeCOM` and `computeMomentofInertia` is
outside the arrays (a read outside makes the function `none`), and the
functions return the sums that take each face once, in order, and each edge
`(i_j, i_{(j+1) mod n})` of each face once. -/
theorem convex_face_iteration_in_bounds (c : Convex K) (faces : List (List Int))
    (hpoly : c.polygons = encodeFaces faces) (hnum : c.num_polygons = (faces.length : Int))
    (hpts : (c.points.length : Int) = c.num_points)
    (hidx : ∀ f ∈ faces, ∀ i ∈ f, 0 ≤ i ∧ i < c.num_points) :
    c.computeVolume = some (faceVolumeSum c.points faces / 6) ∧
    c.computeCOM = some (Vec3f.divScalar (faceMomentSum c.points faces).1
      ((faceMomentSum c.points faces).2 * 4)) ∧
    c.computeMomentofInertia = some (Matrix3f.sub
      (Matrix3f.scale Matrix3f.Identity (Matrix3f.trace (faceCovarianceSum c.points faces)))
      (faceCovarianceSum c.points faces)) := by
  have hn : ∀ pre f post, faces = pre ++ f :: post →
      readAt c.polygons ((encodeFaces pre).length : Int) = some (f.length : Int) := by
    intro pre f post h
    rw [hpoly, h, encodeFaces_split]
    exact readAt_face_size _ _ _
  have hread : ∀ pre f post, faces = pre ++ f :: post → ∀ j : Nat, j < f.length →
      readAt c.polygons (((encodeFaces pre).length : Int) + 1 + j) = some (f.getD j 0) := by
    intro pre f post h j hj
    rw [hpoly, h, encodeFaces_split]
    exact readAt_face_index _ _ _ _ j hj
  have hpt : ∀ pre f post, faces = pre ++ f :: post →
      ∀ i ∈ f, readAt c.points i = some (pointAt c.points i) := by
    intro pre f post h i hi
    have hf : f ∈ faces := by rw [h]; simp
    exact readAt_pointAt c.points i (hidx f hf i hi).1 (by rw [hpts]; exact (hidx f hf i hi).2)
  have h0 : ((encodeFaces ([] : List (List Int))).length : Int) = 0 := rfl
  refine ⟨?_, ?_, ?_⟩
  · obtain ⟨p, hp⟩ := forLoop_faces c.volumeFace
      (fun f vol => (faceEdges c.points f).foldl (fun vol e =>
        vol + Vec3f.dot (Vec3f.cross e.1 e.2) (faceCenter c.points f)) vol) faces
      (fun pre f post h acc =>
        c.face_pass _ f (fun v3 e vol => vol + Vec3f.dot (Vec3f.cross e.1 e.2) v3) acc
          (hn pre f post h) (hread pre f post h) (hpt pre f post h))
      faces [] 0 0 rfl
    rw [h0] at hp
    simp only [Convex.computeVolume, hnum, Int.toNat_ofNat, hp, Option.map_some',
      faceVolumeSum]
  · obtain ⟨p, hp⟩ := forLoop_faces c.comFace
      (fun f acc => (faceEdges c.points f).foldl (fun (acc : Vec3f K × K) e =>
        (Vec3f.add acc.1 (Vec3f.scale (Vec3f.add (Vec3f.add e.1 e.2) (faceCenter c.points f))
            (Vec3f.dot (Vec3f.cross e.1 e.2) (faceCenter c.points f))),
          acc.2 + Vec3f.dot (Vec3f.cross e.1 e.2) (faceCenter c.points f))) acc) faces
      (fun pre f post h acc =>
        c.face_pass _ f (fun v3 e (acc : Vec3f K × K) =>
          (Vec3f.add acc.1 (Vec3f.scale (Vec3f.add (Vec3f.add e.1 e.2) v3)
              (Vec3f.dot (Vec3f.cross e.1 e.2) v3)),
            acc.2 + Vec3f.dot (Vec3f.cross e.1 e.2) v3)) acc
          (hn pre f post h) (hread pre f post h) (hpt pre f post h))
      faces [] 0 (⟨0, 0, 0⟩, 0) rfl
    rw [h0] at hp
    simp only [Convex.computeCOM, hnum, Int.toNat_ofNat, hp, Option.map_some',
      faceMomentSum]
  · obtain ⟨p, hp⟩ := forLoop_faces c.inertiaFace
      (fun f C => (faceEdges c.points f).foldl (fun C e =>
        Matrix3f.add C (Convex.edgeCovariance e.1 e.2 (faceCenter c.points f))) C) faces
      (fun pre f post h acc => by
        unfold Convex.inertiaFace
        exact c.face_pass _ f (fun v3 e C => Matrix3f.add C (Convex.edgeCovariance e.1 e.2 v3))
          acc (hn pre f post h) (hread pre f post h) (hpt pre f post h))
      faces [] 0 Matrix3f.Zero rfl
    rw [h0] at hp
    simp only [Convex.computeMomentofInertia, hnum, Int.toNat_ofNat, hp, Option.map_some',
      faceCovarianceSum]

theorem convex_face_iteration_in_bounds_witness :
    ((tetraConvex (⟨0, 0, 0⟩ : Vec3f ℚ) ⟨1, 0, 0⟩ ⟨0, 1, 0⟩ ⟨0, 0, 1⟩).polygons =
        encodeFaces [[0, 2, 1], [0, 1, 3], [0, 3, 2], [1, 2, 3]] ∧
      (tetraConvex (⟨0, 0, 0⟩ : Vec3f ℚ) ⟨1, 0, 0⟩ ⟨0, 1, 0⟩ ⟨0, 0, 1⟩).num_polygons =
        (([[0, 2, 1], [0, 1, 3], [0, 3, 2], [1, 2, 3]] : List (List Int)).length : Int) ∧
      ((tetraConvex (⟨0, 0, 0⟩ : Vec3f ℚ) ⟨1, 0, 0⟩ ⟨0, 1, 0⟩ ⟨0, 0, 1⟩).points.length : Int) =
        (tetraConvex (⟨0, 0, 0⟩ : Vec3f ℚ) ⟨1, 0, 0⟩ ⟨0, 1, 0⟩ ⟨0, 0, 1⟩).num_points ∧
      ∀ f ∈ ([[0, 2, 1], [0, 1, 3], [0, 3, 2], [1, 2, 3]] : List (List Int)), ∀ i ∈ f,
        0 ≤ i ∧ i < (tetraConvex (⟨0, 0, 0⟩ : Vec3f ℚ) ⟨1, 0, 0⟩ ⟨0, 1, 0⟩ ⟨0, 0, 1⟩).num_points) ∧
    (tetraConvex (⟨0, 0, 0⟩ : Vec3f ℚ) ⟨1, 0, 0⟩ ⟨0, 1, 0⟩ ⟨0, 0, 1⟩).computeVolume =
      some (faceVolumeSum (tetraConvex (⟨0, 0, 0⟩ : Vec3f ℚ) ⟨1, 0, 0⟩ ⟨0, 1, 0⟩ ⟨0, 0, 1⟩).points
        [[0, 2, 1], [0, 1, 3], [0, 3, 2], [1, 2, 3]] / 6) :=
  ⟨⟨rfl, rfl, rfl, by decide⟩,
    (convex_face_iteration_in_bounds
      (tetraConvex (⟨0, 0, 0⟩ : Vec3f ℚ) ⟨1, 0, 0⟩ ⟨0, 1, 0⟩ ⟨0, 0, 1⟩)
      [[0, 2, 1], [0, 1, 3], [0, 3, 2], [1, 2, 3]] rfl rfl rfl (by decide)).1⟩

end ConvexFaces

/-! ## Instances of the traversal theorems on sample inputs -/

section TraversalSamples

theorem descent_rule_witness :
    ((twoVoxelTree 1).root.isNull = false ∧ (voxel 0 1).isNull = false ∧
      ((twoVoxelTree 1).root.nodeHasChildren = true ∨ (voxel 0 1).nodeHasChildren = true)) ∧
    sampleSolver.visitOcTreeDistance (twoVoxelTree 1) (voxelTree 2 0) Transform3f.Identity
        Transform3f.Identity ⟨0, 0, false⟩
        ⟨(twoVoxelTree 1).root, (twoVoxelTree 1).rootBV, voxel 0 1, unitCube 0⟩
        ⟨10, (⟨0, 0, 0⟩, ⟨0, 0, 0⟩), ⟨0, 0, 0⟩, 0, 0, -1, -1⟩ =
      Visit.recurse
        [(⟨voxel 1 1, sampleChildBV (twoVoxelTree 1).rootBV 0, voxel 0 1, unitCube 0⟩,
            fun r => decide (0 < r.min_distance)),
          (⟨voxel 2 1, sampleChildBV (twoVoxelTree 1).rootBV 1, voxel 0 1, unitCube 0⟩,
            fun r => decide (0 < r.min_distance))] :=
  ⟨⟨rfl, rfl, Or.inl rfl⟩, by
    have h := (descent_rule sampleSolver (twoVoxelTree 1) (voxelTree 2 0) Transform3f.Identity
      Transform3f.Identity ⟨1, false, 0, 0⟩ ⟨0, 0, false⟩
      ⟨(twoVoxelTree 1).root, (twoVoxelTree 1).rootBV, voxel 0 1, unitCube 0⟩ ⟨[], 0⟩
      ⟨10, (⟨0, 0, 0⟩, ⟨0, 0, 0⟩), ⟨0, 0, 0⟩, 0, 0, -1, -1⟩ rfl rfl (Or.inl rfl)).2.1
      ⟨by norm_num [twoVoxelTree, sampleOcTree, OcTreeNode.getOccupancy],
        by norm_num [voxelTree, sampleOcTree, voxel, OcTreeNode.getOccupancy]⟩
    rw [h]
    have hr : List.range 8 = [0, 1, 2, 3, 4, 5, 6, 7] := by decide
    simp [hr, twoVoxelTree, sampleOcTree, voxel, OcTreeNode.nodeHasChildren,
      OcTreeNode.children, OcTreeNode.isNull, OcTreeNode.nodeChildExists,
      OcTreeNode.getNodeChild, sampleSolver, List.filter]⟩

set_option maxHeartbeats 1600000 in
theorem early_exit_witness :
    ∃ s, ((⟨voxel 2 1, sampleChildBV (twoVoxelTree 1).rootBV 1, voxel 0 1, unitCube 0⟩,
        s) : OcTreePair ℚ × CollisionResult ℚ) ∈
      (traverseTrace
        (sampleSolver.visitOcTreeIntersect (twoVoxelTree 1) (voxelTree 2 0) Transform3f.Identity
          Transform3f.Identity ⟨10, false, 0, 0⟩)
        ((twoVoxelTree 1).root.height + (voxelTree 2 0).root.height + 1 + 0)
        ⟨(twoVoxelTree 1).root, (twoVoxelTree 1).rootBV, (voxelTree 2 0).root,
          (voxelTree 2 0).rootBV⟩ ⟨[], 0⟩).1 := by
  have hr : List.range 8 = [0, 1, 2, 3, 4, 5, 6, 7] := by decide
  obtain ⟨v, r, trace, hrun, htr, -, -, hcov, -⟩ :=
    early_exit sampleSolver (twoVoxelTree 1) (voxelTree 2 0) Transform3f.Identity
      Transform3f.Identity ⟨10, false, 0, 0⟩
      ⟨(twoVoxelTree 1).root, (twoVoxelTree 1).rootBV, (voxelTree 2 0).root,
        (voxelTree 2 0).rootBV⟩ ⟨[], 0⟩ 0
  have hv : v = false := by
    have e : sampleSolver.OcTreeIntersectRecurse (twoVoxelTree 1) (voxelTree 2 0)
        Transform3f.Identity Transform3f.Identity ⟨10, false, 0, 0⟩
        ((twoVoxelTree 1).root.height + (voxelTree 2 0).root.height + 1 + 0)
        ⟨(twoVoxelTree 1).root, (twoVoxelTree 1).rootBV, (voxelTree 2 0).root,
          (voxelTree 2 0).rootBV⟩ ⟨[], 0⟩ =
        Outcome.ret false ⟨[⟨1, 2, 1, 0, none⟩, ⟨1, 2, 2, 0, none⟩], 0⟩ := by
      norm_num [OcTreeSolver.OcTreeIntersectRecurse, traverse, traverseLoop,
        OcTreeSolver.visitOcTreeIntersect, OcTreeSolver.descendFirst,
        OcTreeSolver.descendSecond, hr, OcTreeSolver.intersectLeafPair, twoVoxelTree, voxelTree,
        unitCube, sampleOcTree, voxel, OcTreeNode.isNull, OcTreeNode.nodeHasChildren,
        OcTreeNode.children, OcTreeNode.getOccupancy, OcTreeNode.height,
        OcTreeNode.nodeChildExists, OcTreeNode.getNodeChild, always, sampleSolver,
        sampleOverlap, sampleChildBV, details.Converter_AABB_OBB_convert, Transform3f.Identity,
        Transform3f.transform, Transform3f.getRotation, Matrix3f.Identity, Matrix3f.mulVec,
        AABB.center, AABB.width, Vec3f.add, Vec3f.sub, Vec3f.scale,
        CollisionResult.addContactCapped, CollisionResult.addContact,
        CollisionResult.numContacts, OcTree.index, OcTreeNode.address, abs_le]
    rw [e] at hrun
    cases hrun
    rfl
  have hcells1 : ∀ A1 ∈ sampleSolver.cells (twoVoxelTree 1).root (twoVoxelTree 1).rootBV,
      A1 = ⟨(twoVoxelTree 1).root, (twoVoxelTree 1).rootBV⟩ ∨
        A1.root1.nodeHasChildren = false := by
    intro A1 hA1
    simp only [OcTreeSolver.cells, twoVoxelTree, sampleOcTree, voxel, List.mem_cons,
      List.mem_append, List.not_mem_nil, List.append_nil, or_false, List.nil_append] at hA1
    rcases hA1 with rfl | rfl | rfl
    · exact Or.inl rfl
    · exact Or.inr rfl
    · exact Or.inr rfl
  have hcells2 : ∀ A2 ∈ sampleSolver.cells (voxelTree 2 0).root (voxelTree 2 0).rootBV,
      A2 = ⟨voxel 0 1, unitCube 0⟩ := by
    intro A2 hA2
    simpa [OcTreeSolver.cells, voxelTree, sampleOcTree, voxel] using hA2
  have hL1 : (⟨voxel 2 1, sampleChildBV (twoVoxelTree 1).rootBV 1⟩ : OcTreeCell ℚ) ∈
      sampleSolver.cells (twoVoxelTree 1).root (twoVoxelTree 1).rootBV := by
    simp [OcTreeSolver.cells, twoVoxelTree, sampleOcTree, voxel, sampleSolver]
  have hL2 : (⟨voxel 0 1, unitCube 0⟩ : OcTreeCell ℚ) ∈
      sampleSolver.cells (voxelTree 2 0).root (voxelTree 2 0).rootBV := by
    simp [OcTreeSolver.cells, voxelTree, sampleOcTree, voxel]
  obtain ⟨s, hs⟩ := hcov hv _ hL1 _ hL2 rfl rfl (by
    intro A1 hA1 A2 hA2 _ _ hinner
    have e2 := hcells2 A2 hA2
    subst e2
    rcases hcells1 A1 hA1 with e1 | e1
    · subst e1
      norm_num [twoVoxelTree, voxelTree, unitCube, sampleOcTree, voxel, OcTreeNode.getOccupancy,
        sampleSolver, sampleOverlap, details.Converter_AABB_OBB_convert, Transform3f.Identity,
        Transform3f.transform, Transform3f.getRotation, Matrix3f.Identity, Matrix3f.mulVec,
        AABB.center, Vec3f.add, Vec3f.sub, Vec3f.scale, abs_le]
    · exact absurd ⟨e1, rfl⟩ hinner)
  refine ⟨s, ?_⟩
  rw [htr]
  exact hs

theorem mesh_assertion_margin_witness :
    touchingSolver.visitOcTreeMeshIntersect (voxelTree 1 0) (triangleMesh 2)
        Transform3f.Identity Transform3f.Identity ⟨1, true, 1, 0⟩
        ⟨voxel 0 1, unitCube 0, (triangleMesh 2).root⟩ ⟨[], 0⟩ = Visit.fail ∧
    (∃ v r, touchingSolver.visitOcTreeMeshIntersect (voxelTree 1 0) (triangleMesh 2)
        Transform3f.Identity Transform3f.Identity ⟨1, true, 0, 0⟩
        ⟨voxel 0 1, unitCube 0, (triangleMesh 2).root⟩ ⟨[], 0⟩ = Visit.ret v r) ∧
    (∃ v r, touchingSolver.OcTreeMeshIntersect (voxelTree 1 0) (triangleMesh 2)
        Transform3f.Identity Transform3f.Identity ⟨1, true, 0, 0⟩ ⟨[], 0⟩ = Outcome.ret v r) ∧
    (∃ v r, touchingSolver.OcTreeMeshIntersect (voxelTree 1 0) (triangleMesh 2)
        Transform3f.Identity Transform3f.Identity ⟨1, false, 1, 0⟩ ⟨[], 0⟩ = Outcome.ret v r) :=
  have hocc : (voxelTree 1 0).isNodeOccupied (voxel 0 1) = true := by
    norm_num [voxelTree, sampleOcTree, voxel, OcTreeNode.getOccupancy]
  have hov : touchingSolver.overlap
      (details.Converter_AABB_OBB_convert (unitCube 0) Transform3f.Identity)
      (touchingSolver.convertBVtoOBB (unitCube 0) Transform3f.Identity) = true := by
    norm_num [touchingSolver, sampleSolver, sampleOverlap, details.Converter_AABB_OBB_convert,
      unitCube, Transform3f.Identity, Transform3f.transform, Transform3f.getRotation,
      Matrix3f.Identity, Matrix3f.mulVec, AABB.center, Vec3f.add, Vec3f.sub, Vec3f.scale,
      abs_le]
  have h := mesh_assertion_margin touchingSolver (voxelTree 1 0) (triangleMesh 2)
    Transform3f.Identity Transform3f.Identity ⟨[], 0⟩
  ⟨((h.1 ⟨1, true, 1, 0⟩ ⟨voxel 0 1, unitCube 0, (triangleMesh 2).root⟩ ⟨[], 0⟩ (unitCube 0) 0
      ⟨0, 0, 0⟩ ⟨1 / 2, 0, 0⟩ ⟨0, 1 / 2, 0⟩ rfl rfl rfl hocc hov rfl rfl).resolve_left
      (fun h0 => absurd h0.1 (by norm_num))).2,
    ((h.1 ⟨1, true, 0, 0⟩ ⟨voxel 0 1, unitCube 0, (triangleMesh 2).root⟩ ⟨[], 0⟩ (unitCube 0) 0
      ⟨0, 0, 0⟩ ⟨1 / 2, 0, 0⟩ ⟨0, 1 / 2, 0⟩ rfl rfl rfl hocc hov rfl rfl).resolve_right
      (fun h0 => h0.1 rfl)).2,
    (h.2.2.2 ⟨1, true, 0, 0⟩ (Or.inl rfl)).1,
    (h.2.2.2 ⟨1, false, 1, 0⟩ (Or.inr rfl)).1⟩

/-- C23 (as stated) fails for the mesh traversal, whose assertion does not
depend on the cap of the contacts: with `num_max_contacts = 0`, so with the cap
reached at entry, with `enable_contact = true` and with the security margin `1`,
the run of `OcTreeMeshIntersect` on one occupied cell and one triangle that
interact stops on the assertion; with the margin `0` it returns and adds no
contact. -/
theorem mesh_cap_assertion_example :
    touchingSolver.OcTreeMeshIntersect (voxelTree 1 0) (triangleMesh 2) Transform3f.Identity
        Transform3f.Identity ⟨0, true, 1, 0⟩ ⟨[], 0⟩ = Outcome.fail ∧
    touchingSolver.OcTreeMeshIntersect (voxelTree 1 0) (triangleMesh 2) Transform3f.Identity
        Transform3f.Identity ⟨0, true, 0, 0⟩ ⟨[], 0⟩ = Outcome.ret true ⟨[], 0⟩ := by
  constructor <;>
    norm_num [OcTreeSolver.OcTreeMeshIntersect, OcTreeSolver.OcTreeMeshIntersectRecurse,
      traverse, OcTreeSolver.visitOcTreeMeshIntersect, OcTreeSolver.meshIntersectLeaf,
      triangleMesh, BVNode.isLeaf, BVNode.bv, BVNode.height, voxelTree, sampleOcTree, voxel,
      unitCube, OcTreeNode.isNull, OcTreeNode.nodeHasChildren, OcTreeNode.children,
      OcTreeNode.getOccupancy, OcTreeNode.height, touchingSolver, sampleSolver, sampleOverlap,
      details.Converter_AABB_OBB_convert, Transform3f.Identity, Transform3f.transform,
      Transform3f.getRotation, Matrix3f.Identity, Matrix3f.mulVec, AABB.center, AABB.width,
      AABB.height, AABB.depth, Vec3f.add, Vec3f.sub, Vec3f.scale, Box.create,
      CollisionResult.addContactCapped, CollisionResult.addContact,
      CollisionResult.numContacts, abs_le]

theorem sample_pairDistances_nonneg (tree1 tree2 : OcTree ℚ) (tf1 tf2 : Transform3f ℚ) :
    ∀ (fuel : Nat) (a : OcTreePair ℚ),
      ∀ d ∈ sampleSolver.pairDistances tree1 tree2 tf1 tf2 fuel a, 0 ≤ d := by
  intro fuel
  induction fuel with
  | zero => intro a d hd; simp [OcTreeSolver.pairDistances] at hd
  | succ fuel ih =>
    intro a d hd
    simp only [OcTreeSolver.pairDistances] at hd
    split_ifs at hd
    · simp only [List.mem_singleton] at hd
      rw [hd]
      exact abs_nonneg _
    · simp at hd
    · simp at hd
    · obtain ⟨c, -, hc⟩ := List.mem_flatMap.1 hd
      exact ih c d hc

set_option maxHeartbeats 3200000 in
/-- The distance of the projections on the x axis of the converted cells of a
pair of cells of the sample trees is a lower bound of the solver distances of
the pairs of occupied childless cells below the pair. -/
theorem wideTree_pair_bounds :
    ∀ c1 ∈ gapSolver.cells (wideTree 1).root (wideTree 1).rootBV,
      ∀ c2 ∈ gapSolver.cells (farVoxelTree 2 (-20)).root (farVoxelTree 2 (-20)).rootBV,
      ∀ fuel,
      ∀ d ∈ gapSolver.pairDistances (wideTree 1) (farVoxelTree 2 (-20)) Transform3f.Identity
          Transform3f.Identity fuel ⟨c1.root1, c1.bv1, c2.root1, c2.bv1⟩,
        gapSolver.aabbDistance
          (details.Converter_AABB_AABB_convert gapSolver.sqrt c1.bv1 Transform3f.Identity)
          (details.Converter_AABB_AABB_convert gapSolver.sqrt c2.bv1 Transform3f.Identity)
            ≤ d := by
  have hr : List.range 8 = [0, 1, 2, 3, 4, 5, 6, 7] := by decide
  intro c1 hc1 c2 hc2 fuel d hd
  simp only [OcTreeSolver.cells, wideTree, farVoxelTree, sampleOcTree, voxel, List.mem_cons,
    List.mem_append, List.not_mem_nil, List.append_nil, or_false, List.nil_append] at hc1 hc2
  subst hc2
  rcases hc1 with rfl | rfl | rfl <;> rcases fuel with _ | _ | fuel <;>
    norm_num [hr, OcTreeSolver.pairDistances, OcTreeSolver.descendPairs, wideTree,
      farVoxelTree, sampleOcTree, voxel, OcTreeNode.nodeHasChildren, OcTreeNode.children,
      OcTreeNode.isNull, OcTreeNode.getOccupancy, OcTreeNode.nodeChildExists,
      OcTreeNode.getNodeChild, gapSolver, sampleSolver, sampleChildBV, xGap, tableSqrt,
      details.Converter_AABB_AABB_convert, Transform3f.Identity, Transform3f.transform,
      Matrix3f.Identity, Matrix3f.mulVec, AABB.center, AABB.width, AABB.height, AABB.depth,
      Vec3f.add, Vec3f.sub, Vec3f.scale, Vec3f.norm, Vec3f.squaredNorm, Vec3f.Constant,
      Box.create] at hd ⊢ <;>
    (try rcases hd with rfl | rfl) <;> norm_num [abs_of_pos]

theorem distance_pruning_level_witness :
    ((wideTree 1).root.isNull = false ∧ (farVoxelTree 2 (-20)).root.isNull = false ∧
      (∀ r, gapSolver.distanceSatisfied (⟨0, 0, false⟩ : DistanceRequest ℚ) r = false) ∧
      (∀ c1 ∈ gapSolver.cells (wideTree 1).root (wideTree 1).rootBV,
        ∀ c2 ∈ gapSolver.cells (farVoxelTree 2 (-20)).root (farVoxelTree 2 (-20)).rootBV,
        ∀ fuel,
        ∀ d ∈ gapSolver.pairDistances (wideTree 1) (farVoxelTree 2 (-20)) Transform3f.Identity
            Transform3f.Identity fuel ⟨c1.root1, c1.bv1, c2.root1, c2.bv1⟩,
          gapSolver.aabbDistance
            (details.Converter_AABB_AABB_convert gapSolver.sqrt c1.bv1 Transform3f.Identity)
            (details.Converter_AABB_AABB_convert gapSolver.sqrt c2.bv1 Transform3f.Identity)
              ≤ d)) ∧
    ∃ r r1, gapSolver.OcTreeDistance (wideTree 1) (farVoxelTree 2 (-20)) Transform3f.Identity
        Transform3f.Identity ⟨0, 0, false⟩
        ⟨100, (⟨0, 0, 0⟩, ⟨0, 0, 0⟩), ⟨0, 0, 0⟩, 0, 0, -1, -1⟩ = Outcome.ret false r ∧
      gapSolver.OcTreeDistanceChildBV (wideTree 1) (farVoxelTree 2 (-20)) Transform3f.Identity
        Transform3f.Identity ⟨0, 0, false⟩
        ⟨100, (⟨0, 0, 0⟩, ⟨0, 0, 0⟩), ⟨0, 0, 0⟩, 0, 0, -1, -1⟩ = Outcome.ret false r1 ∧
      r.min_distance = r1.min_distance :=
  ⟨⟨rfl, rfl, fun _ => rfl, wideTree_pair_bounds⟩,
    match (distance_pruning_level gapSolver (fun bv _ => bv) (wideTree 1)
      (farVoxelTree 2 (-20)) Transform3f.Identity Transform3f.Identity ⟨0, 0, false⟩
      ⟨100, (⟨0, 0, 0⟩, ⟨0, 0, 0⟩), ⟨0, 0, 0⟩, 0, 0, -1, -1⟩ rfl rfl (fun _ => rfl)
      wideTree_pair_bounds).2.2.2 with
    | ⟨r, r1, h, h1, e, _⟩ => ⟨r, r1, h, h1, e⟩⟩

set_option maxHeartbeats 1600000 in
/-- Parent-level and child-level pruning at work: for the sample tree of two
occupied cells and the tree of one occupied cell around `(-20, 0, 0)`, the pair
with the cell in the octant 0 gives the distance `16`. `OcTreeDistanceRecurse`
then tests the bound `19/2` of the two cells of the activation, which is below
`16`, and visits the pair with the cell in the octant 1, whose distance is `24`;
the variant tests the bound `18` of the cell in the octant 1, which is not below
`16`, and does not visit the pair. Both runs return the minimum `16`. -/
theorem distance_pruning_example :
    gapSolver.OcTreeDistance (wideTree 1) (farVoxelTree 2 (-20)) Transform3f.Identity
        Transform3f.Identity ⟨0, 0, false⟩
        ⟨100, (⟨0, 0, 0⟩, ⟨0, 0, 0⟩), ⟨0, 0, 0⟩, 0, 0, -1, -1⟩ =
      Outcome.ret false
        ⟨16, (⟨-4, -2, -(1 / 2)⟩, ⟨-20, 0, 0⟩), ⟨1, 0, 0⟩, 1, 2, 1, 0⟩ ∧
    gapSolver.OcTreeDistanceChildBV (wideTree 1) (farVoxelTree 2 (-20)) Transform3f.Identity
        Transform3f.Identity ⟨0, 0, false⟩
        ⟨100, (⟨0, 0, 0⟩, ⟨0, 0, 0⟩), ⟨0, 0, 0⟩, 0, 0, -1, -1⟩ =
      Outcome.ret false
        ⟨16, (⟨-4, -2, -(1 / 2)⟩, ⟨-20, 0, 0⟩), ⟨1, 0, 0⟩, 1, 2, 1, 0⟩ ∧
    (traverseTrace
        (gapSolver.visitOcTreeDistance (wideTree 1) (farVoxelTree 2 (-20)) Transform3f.Identity
          Transform3f.Identity ⟨0, 0, false⟩)
        ((wideTree 1).root.height + (farVoxelTree 2 (-20)).root.height + 1)
        ⟨(wideTree 1).root, (wideTree 1).rootBV, (farVoxelTree 2 (-20)).root,
          (farVoxelTree 2 (-20)).rootBV⟩
        ⟨100, (⟨0, 0, 0⟩, ⟨0, 0, 0⟩), ⟨0, 0, 0⟩, 0, 0, -1, -1⟩).1.map
      (fun p => p.1.root1.address) = [0, 1, 2] ∧
    (traverseTrace
        (gapSolver.visitOcTreeDistanceChildBV (wideTree 1) (farVoxelTree 2 (-20))
          Transform3f.Identity Transform3f.Identity ⟨0, 0, false⟩)
        ((wideTree 1).root.height + (farVoxelTree 2 (-20)).root.height + 1)
        ⟨(wideTree 1).root, (wideTree 1).rootBV, (farVoxelTree 2 (-20)).root,
          (farVoxelTree 2 (-20)).rootBV⟩
        ⟨100, (⟨0, 0, 0⟩, ⟨0, 0, 0⟩), ⟨0, 0, 0⟩, 0, 0, -1, -1⟩).1.map
      (fun p => p.1.root1.address) = [0, 1] := by
  have hr : List.range 8 = [0, 1, 2, 3, 4, 5, 6, 7] := by decide
  have h16 : |(16 : ℚ)| = 16 := abs_of_pos (by norm_num)
  have h24 : |(24 : ℚ)| = 24 := abs_of_pos (by norm_num)
  refine ⟨?_, ?_, ?_, ?_⟩ <;>
    norm_num [h16, h24, hr, OcTreeSolver.OcTreeDistance, OcTreeSolver.OcTreeDistanceChildBV,
      OcTreeSolver.OcTreeDistanceRecurse, traverse, traverseLoop, traverseTrace, traceLoop,
      OcTreeSolver.visitOcTreeDistance, OcTreeSolver.visitOcTreeDistanceChildBV,
      OcTreeSolver.descendFirstDistance, OcTreeSolver.descendSecondDistance,
      OcTreeSolver.descendFirstDistanceChildBV, OcTreeSolver.descendSecondDistanceChildBV,
      OcTreeSolver.distanceLeafPair, DistanceResult.update, wideTree, farVoxelTree,
      sampleOcTree, voxel, OcTreeNode.isNull, OcTreeNode.nodeHasChildren, OcTreeNode.children,
      OcTreeNode.getOccupancy, OcTreeNode.height, OcTreeNode.nodeChildExists,
      OcTreeNode.getNodeChild, OcTreeNode.address, gapSolver, sampleSolver, sampleChildBV, xGap,
      tableSqrt, details.Converter_AABB_AABB_convert, Transform3f.Identity,
      Transform3f.transform, Transform3f.getRotation, Matrix3f.Identity, Matrix3f.mulVec,
      AABB.center, AABB.width, AABB.height, AABB.depth, Vec3f.add, Vec3f.sub, Vec3f.scale,
      Vec3f.norm, Vec3f.squaredNorm, Vec3f.Constant, Box.create, OcTree.index]

/-- The run of `OcTreeDistance` on the sample tree with two occupied cells, with
the centres `(-1/2, -1/2, -1/2)` and `(1/2, -1/2, -1/2)`, and the tree of one
occupied cell with the centre `(3, 0, 0)`: the distance found is `5/2`. -/
theorem distance_example :
    sampleSolver.OcTreeDistance (twoVoxelTree 1) (voxelTree 2 3) Transform3f.Identity
        Transform3f.Identity ⟨0, 0, false⟩
        ⟨10, (⟨0, 0, 0⟩, ⟨0, 0, 0⟩), ⟨0, 0, 0⟩, 0, 0, -1, -1⟩ =
      Outcome.ret false
        ⟨5 / 2, (⟨1 / 2, -(1 / 2), -(1 / 2)⟩, ⟨3, 0, 0⟩), ⟨1, 0, 0⟩, 1, 2, 2, 0⟩ := by
  have hr : List.range 8 = [0, 1, 2, 3, 4, 5, 6, 7] := by decide
  have h7 : |(7 : ℚ) / 2| = 7 / 2 := abs_of_pos (by norm_num)
  have h5 : |(5 : ℚ) / 2| = 5 / 2 := abs_of_pos (by norm_num)
  norm_num [h7, h5, OcTreeSolver.OcTreeDistance, OcTreeSolver.OcTreeDistanceRecurse,
    traverse, traverseLoop, OcTreeSolver.visitOcTreeDistance, OcTreeSolver.descendFirstDistance,
    OcTreeSolver.descendSecondDistance, hr, OcTreeSolver.distanceLeafPair,
    DistanceResult.update, twoVoxelTree, voxelTree, unitCube, sampleOcTree, voxel,
    OcTreeNode.isNull, OcTreeNode.nodeHasChildren, OcTreeNode.children,
    OcTreeNode.getOccupancy, OcTreeNode.height, OcTreeNode.nodeChildExists,
    OcTreeNode.getNodeChild, sampleSolver, sampleOverlap, sampleChildBV,
    Transform3f.Identity, Transform3f.transform, Transform3f.getRotation, Matrix3f.Identity,
    Matrix3f.mulVec, AABB.center, AABB.width, AABB.height, AABB.depth, Vec3f.add, Vec3f.sub,
    Vec3f.scale, Vec3f.Constant, Box.create, OcTree.index, OcTreeNode.address]

end TraversalSamples

end fcl
end hpp
